import Mathlib

/-!
# HelenOS IPC v2: buffers, endpoints and capability lists

A shallow embedding of `kernel/generic/src/ipc2/ipc.c` and
`kernel/generic/src/cap/caplist.c`.

Conventions of the embedding.

* Kernel pointers are natural numbers.  A kernel object header (`kobject_t`)
  and the object it wraps (`ipc_buf_t`, `ipc_ep_t`, `caplist_t`) are created
  together and point at each other (`kobject_initialize (kobject, type, buf)`
  and `buf->kobject = kobj`), so they share one address: `s.kobj p` is the
  header and `s.buf p` / `s.ep p` / `s.caplist p` the payload.
* Every system call runs with all the locks it needs held, so it is one atomic
  step `State → result × State`: what the call does once it has its locks.
  `TASK` (the current task) is an explicit first argument; capability handles
  and user memory are per task.
* `sys_ipc2_buf_send` takes the mutex of the caplist its endpoint is a member
  of and then the mutex of the caplist named by `clhandle`.  When the two are
  one caplist, the second `mutex_lock` of that passive mutex does not return
  (`sys_ipc2_buf_send_relocks`): what `sys_ipc2_buf_send` gives for such
  arguments is the step behind the lock acquisition, which the call does not
  reach.
* The intrusive lists (`ep->buffers`, `cl->queue`, `cl->objects`) are lists of
  object addresses: `list_append` adds at the tail, `list_first` followed by
  `list_remove` takes the head.  A buffer has one queue link (`buf->link`).
  The lists describe the queues as long as `list_append` is applied to a link
  that is in no list (`link_unused`) and `list_remove` to a link that is in
  the list it is taken from and in no other (`link_only_in_queue`,
  `link_only_in_buffers`).
* `assert` is compiled out (a kernel without `CONFIG_DEBUG`).
* `kobject_put` only counts: an object whose count has reached zero is
  destroyed, and the model keeps its last contents at an address that is never
  handed out again.
* A blocking wait on a condition that does not hold consumes the outcomes of
  successive `_condvar_wait_timeout` calls from the list `cvw`; as no other
  thread runs inside one atomic step, a wake-up with `EOK` finds the condition
  unchanged, and a call that exhausts `cvw` is still blocked (`none`).
* User memory holds bytes (`umem`), capability handle variables (`uhandle`)
  and the two info structures (`urecv`, `uwait`); `none` is an address that
  cannot be accessed.
-/

namespace HelenOS

/-- Error codes returned by the system calls. -/
inductive errno_t where
  | EOK
  | ENOENT
  | ENOMEM
  | ELIMIT
  | EINVAL
  | EBUSY
  | EAGAIN
  | ETIMEOUT
  | EINTR
  | EFAULT_COPYIN
  | EFAULT_COPYOUT
  deriving DecidableEq, Repr

/-- Types of kernel objects that the IPC v2 code resolves. -/
inductive kobject_type_t where
  | KOBJECT_TYPE_IPC_BUF
  | KOBJECT_TYPE_IPC_EP
  | KOBJECT_TYPE_CAPLIST
  deriving DecidableEq, Repr

/-- Lifecycle state of an IPC buffer (`ipc_buf_state_t`). -/
inductive ipc_buf_state_t where
  | IPC_BUF_READY
  | IPC_BUF_PENDING
  | IPC_BUF_FINISHED
  deriving DecidableEq, Repr

open errno_t kobject_type_t ipc_buf_state_t

/-- Capability handles are per-task numbers. -/
abbrev cap_handle_t := Nat

/-- The reserved handle that stands for "no capability". -/
def CAP_NIL : cap_handle_t := 0

/-- One slot of a task's capability table. -/
inductive cap_t where
  | free
  | allocated
  | published (kobj : Nat)
  deriving DecidableEq, Repr

/-- Kernel object header: type tag, reference count and the back-pointer to the
caplist the object is a member of. -/
structure kobject_t where
  type : kobject_type_t
  refcnt : Nat
  in_caplist : Option Nat

/-- IPC buffer (`ipc_buf_t`); `link` is represented by the queue lists. -/
structure ipc_buf_t where
  state : ipc_buf_state_t
  wait_result : errno_t
  size : Nat
  used : Nat
  data : Nat → Nat
  in_ep : Option Nat
  in_ep_caplist : Option Nat
  buf_label : Nat
  ep_label : Nat

/-- IPC endpoint (`ipc_ep_t`). -/
structure ipc_ep_t where
  buffers : List Nat
  label : Nat

/-- Capability list (`caplist_t`). -/
structure caplist_t where
  type : kobject_type_t
  objects : List Nat
  queue : List Nat

/-- Info structure returned after receiving from an IPC endpoint. -/
structure ipc_buf_receive_info_t where
  ep_label : Nat
  used : Nat
  size : Nat
  deriving DecidableEq, Repr

/-- Info structure returned after waiting on an IPC buffer handle. -/
structure ipc_buf_wait_info_t where
  buf_label : Nat
  used : Nat
  size : Nat
  result : errno_t
  deriving DecidableEq, Repr

/-- The kernel state seen by the IPC v2 system calls. -/
structure State where
  caps : Nat → cap_handle_t → cap_t
  kobj : Nat → kobject_t
  buf : Nat → ipc_buf_t
  ep : Nat → ipc_ep_t
  caplist : Nat → caplist_t
  umem : Nat → Nat → Option Nat
  uhandle : Nat → Nat → Option cap_handle_t
  urecv : Nat → Nat → Option ipc_buf_receive_info_t
  uwait : Nat → Nat → Option ipc_buf_wait_info_t
  brk : Nat

/-- Pointwise update of a map indexed by addresses. -/
def upd {α : Type} (f : Nat → α) (k : Nat) (v : α) : Nat → α :=
  fun x => if x = k then v else f x

/-- Pointwise update of a per-task map. -/
def upd2 {α : Type} (f : Nat → Nat → α) (t k : Nat) (v : α) : Nat → Nat → α :=
  fun a b => if a = t ∧ b = k then v else f a b

/-! ## The queue link of a buffer -/

/-- Modelled from the spec: the capability registry's `kobject_add_ref`, which
takes one more strong reference to a kernel object. -/
def kobject_add_ref (k : Nat) (s : State) : State :=
  { s with kobj := upd s.kobj k { s.kobj k with refcnt := (s.kobj k).refcnt + 1 } }

/-- Modelled from the spec: the capability registry's `kobject_put`, which
drops one strong reference; the object lives until the count reaches zero. -/
def kobject_put (k : Nat) (s : State) : State :=
  { s with kobj := upd s.kobj k { s.kobj k with refcnt := (s.kobj k).refcnt - 1 } }

/-- Resolution of a handle to a published kernel object of the expected type
(the lookup shared by `kobject_get` and `cap_unpublish`). -/
def cap_resolve (TASK : Nat) (handle : cap_handle_t) (type : kobject_type_t)
    (s : State) : Option Nat :=
  match s.caps TASK handle with
  | cap_t.published k => if (s.kobj k).type = type then some k else none
  | _ => none

/-- Modelled from the spec: the capability registry's `kobject_get`, which
resolves a handle to an object of the expected type and takes a reference. -/
def kobject_get (TASK : Nat) (handle : cap_handle_t) (type : kobject_type_t)
    (s : State) : Option Nat × State :=
  match cap_resolve TASK handle type s with
  | some k => (some k, kobject_add_ref k s)
  | none => (none, s)

/-- Modelled from the spec: the capability registry's `cap_alloc`.  The
allocator's choice of handle is the argument `pick`; no choice, the nil handle
or a handle in use is an allocation failure. -/
def cap_alloc (TASK : Nat) (pick : Option cap_handle_t) (s : State) :
    errno_t × cap_handle_t × State :=
  match pick with
  | none => (ENOMEM, CAP_NIL, s)
  | some h =>
    if h ≠ CAP_NIL ∧ s.caps TASK h = cap_t.free then
      (EOK, h, { s with caps := upd2 s.caps TASK h cap_t.allocated })
    else (ENOMEM, CAP_NIL, s)

/-- Modelled from the spec: the capability registry's `cap_publish`, which
binds an allocated, unpublished handle to a kernel object and otherwise fails;
the handle takes over the caller's reference. -/
def cap_publish (TASK : Nat) (handle : cap_handle_t) (k : Nat) (s : State) :
    errno_t × State :=
  match s.caps TASK handle with
  | cap_t.allocated => (EOK, { s with caps := upd2 s.caps TASK handle (cap_t.published k) })
  | _ => (ENOENT, s)

/-- Modelled from the spec: the capability registry's `cap_unpublish`, which
detaches a published object of the expected type from its handle and hands the
handle's reference to the caller; the handle stays allocated. -/
def cap_unpublish (TASK : Nat) (handle : cap_handle_t) (type : kobject_type_t)
    (s : State) : Option Nat × State :=
  match cap_resolve TASK handle type s with
  | some k => (some k, { s with caps := upd2 s.caps TASK handle cap_t.allocated })
  | none => (none, s)

/-- Modelled from the spec: the capability registry's `cap_free`, which
releases an allocated, unpublished handle. -/
def cap_free (TASK : Nat) (handle : cap_handle_t) (s : State) : errno_t × State :=
  match s.caps TASK handle with
  | cap_t.allocated => (EOK, { s with caps := upd2 s.caps TASK handle cap_t.free })
  | _ => (ENOENT, s)

/-- Modelled from the spec: `kobject_alloc` / `slab_alloc` hand out a fresh
kernel address. -/
def kobject_alloc (s : State) : Nat × State :=
  (s.brk, { s with brk := s.brk + 1 })

/-- Modelled from the spec: `kobject_initialize` sets the type tag of a new
header, with one reference (the creator's) and no caplist. -/
def kobject_initialize (k : Nat) (type : kobject_type_t) (s : State) : State :=
  { s with kobj := upd s.kobj k { type := type, refcnt := 1, in_caplist := none } }

/-! ## Copy helpers (external to the IPC code) -/

/-- Every address of the range `[addr, addr + size)` is accessible. -/
def uspace_range_ok (m : Nat → Option Nat) (addr size : Nat) : Bool :=
  (List.range size).all fun i => (m (addr + i)).isSome

/-- Modelled from the spec: the copy-in helper validates the user range and
then copies `size` bytes into the kernel area `dst`; a fault copies nothing. -/
def copy_from_uspace (TASK : Nat) (dst : Nat → Nat) (src size : Nat) (s : State) :
    errno_t × (Nat → Nat) :=
  if uspace_range_ok (s.umem TASK) src size then
    (EOK, fun i => if i < size then (s.umem TASK (src + i)).getD 0 else dst i)
  else (EFAULT_COPYIN, dst)

/-- Modelled from the spec: the copy-out helper validates the user range and
then copies `size` bytes of the kernel area `src` to it; a fault copies
nothing. -/
def copy_to_uspace (TASK dst : Nat) (src : Nat → Nat) (size : Nat) (s : State) :
    errno_t × State :=
  if uspace_range_ok (s.umem TASK) dst size then
    (EOK, { s with umem := fun t a =>
      if t = TASK ∧ dst ≤ a ∧ a < dst + size then some (src (a - dst)) else s.umem t a })
  else (EFAULT_COPYOUT, s)

/-- Modelled from the spec: copy-out of a capability handle variable. -/
def copy_to_uspace_handle (TASK dst : Nat) (h : cap_handle_t) (s : State) :
    errno_t × State :=
  match s.uhandle TASK dst with
  | some _ => (EOK, { s with uhandle := upd2 s.uhandle TASK dst (some h) })
  | none => (EFAULT_COPYOUT, s)

/-- Modelled from the spec: copy-out of an `ipc_buf_receive_info_t`. -/
def copy_to_uspace_receive_info (TASK dst : Nat) (v : ipc_buf_receive_info_t)
    (s : State) : errno_t × State :=
  match s.urecv TASK dst with
  | some _ => (EOK, { s with urecv := upd2 s.urecv TASK dst (some v) })
  | none => (EFAULT_COPYOUT, s)

/-- Modelled from the spec: copy-out of an `ipc_buf_wait_info_t`. -/
def copy_to_uspace_wait_info (TASK dst : Nat) (v : ipc_buf_wait_info_t)
    (s : State) : errno_t × State :=
  match s.uwait TASK dst with
  | some _ => (EOK, { s with uwait := upd2 s.uwait TASK dst (some v) })
  | none => (EFAULT_COPYOUT, s)

/-! ## Capability lists (`cap/caplist.c`) -/

/-- Initial contents of a caplist: `caplist_initialize`. -/
def caplist_initialize (type : kobject_type_t) : caplist_t :=
  { type := type, objects := [], queue := [] }

/-- Add kernel object `k` to capability list `cl`: `caplist_add`. -/
def caplist_add (cl k : Nat) (s : State) : errno_t × State :=
  if (s.kobj k).in_caplist.isSome then (EBUSY, s)
  else
    let s1 := { s with kobj := upd s.kobj k { s.kobj k with in_caplist := some cl } }
    let c := s1.caplist cl
    let s2 := { s1 with caplist := upd s1.caplist cl { c with objects := c.objects ++ [k] } }
    (EOK, kobject_add_ref k s2)

/-- Remove kernel object `k` from capability list `cl`: `caplist_del`. -/
def caplist_del (cl k : Nat) (s : State) : errno_t × State :=
  if (s.kobj k).in_caplist ≠ some cl then (ENOENT, s)
  else
    let s1 := { s with kobj := upd s.kobj k { s.kobj k with in_caplist := none } }
    let c := s1.caplist cl
    let s2 := { s1 with caplist := upd s1.caplist cl { c with objects := c.objects.erase k } }
    (EOK, kobject_put k s2)

/-- Create a capability list: `sys_caplist_create`.  `pick` is the allocator's
choice of handle, `slab_ok` and `kobj_ok` tell whether the two kernel
allocations succeed. -/
def sys_caplist_create (TASK clhandle : Nat) (type : kobject_type_t)
    (pick : Option cap_handle_t) (slab_ok kobj_ok : Bool) (s : State) : errno_t × State :=
  let a := cap_alloc TASK pick s
  if a.1 ≠ EOK then (a.1, a.2.2)
  else
    let handle := a.2.1
    let c := copy_to_uspace_handle TASK clhandle handle a.2.2
    if c.1 ≠ EOK then (c.1, (cap_free TASK handle c.2).2)
    else if !slab_ok then (ENOMEM, (cap_free TASK handle c.2).2)
    else if !kobj_ok then (ENOMEM, (cap_free TASK handle c.2).2)
    else
      let k := kobject_alloc c.2
      let s4 := { k.2 with caplist := upd k.2.caplist k.1 ( caplist_initialize type) }
      let s5 := kobject_initialize k.1 KOBJECT_TYPE_CAPLIST s4
      (EOK, (cap_publish TASK handle k.1 s5).2)

/-- Destroy a capability list: `sys_caplist_destroy`. -/
def sys_caplist_destroy (TASK : Nat) (clhandle : cap_handle_t) (s : State) :
    errno_t × State :=
  match cap_unpublish TASK clhandle KOBJECT_TYPE_CAPLIST s with
  | (none, _) => (ENOENT, s)
  | (some k, s1) => cap_free TASK clhandle (kobject_put k s1)

/-- Add the object behind `handle` to the caplist behind `clhandle`:
`sys_caplist_add`. -/
def sys_caplist_add (TASK : Nat) (clhandle handle : cap_handle_t) (s : State) :
    errno_t × State :=
  match kobject_get TASK clhandle KOBJECT_TYPE_CAPLIST s with
  | (none, _) => (ENOENT, s)
  | (some cl, s1) =>
    match kobject_get TASK handle (s1.caplist cl).type s1 with
    | (none, _) => (ENOENT, kobject_put cl s1)
    | (some k, s2) =>
      let (rc, s3) := caplist_add cl k s2
      (rc, kobject_put cl (kobject_put k s3))

/-- Remove the object behind `handle` from the caplist behind `clhandle`:
`sys_caplist_del`. -/
def sys_caplist_del (TASK : Nat) (clhandle handle : cap_handle_t) (s : State) :
    errno_t × State :=
  match kobject_get TASK clhandle KOBJECT_TYPE_CAPLIST s with
  | (none, _) => (ENOENT, s)
  | (some cl, s1) =>
    match kobject_get TASK handle (s1.caplist cl).type s1 with
    | (none, _) => (ENOENT, kobject_put cl s1)
    | (some k, s2) =>
      let (rc, s3) := caplist_del cl k s2
      (rc, kobject_put cl (kobject_put k s3))

/-! ## IPC buffers and endpoints (`ipc2/ipc.c`) -/

/-- Initial contents of an IPC buffer: `ipc_buf_initialize`. -/
def ipc_buf_initialize (size : Nat) (data : Nat → Nat) (label : Nat) : ipc_buf_t :=
  { state := IPC_BUF_READY, wait_result := EOK, size := size, used := 0, data := data,
    in_ep := none, in_ep_caplist := none, buf_label := label, ep_label := 0 }

/-- Allocate IPC buffer of desired size: `sys_ipc2_buf_alloc`.  `pick` is the
allocator's choice of handle; `slab_ok`, `malloc_ok` and `kobj_ok` tell whether
the three kernel allocations succeed; `junk` is the content of the freshly
allocated storage. -/
def sys_ipc2_buf_alloc (TASK size label bhandle : Nat) (pick : Option cap_handle_t)
    (slab_ok malloc_ok kobj_ok : Bool) (junk : Nat → Nat) (s : State) : errno_t × State :=
  let a := cap_alloc TASK pick s
  if a.1 ≠ EOK then (a.1, a.2.2)
  else
    let handle := a.2.1
    let c := copy_to_uspace_handle TASK bhandle handle a.2.2
    if c.1 ≠ EOK then (c.1, (cap_free TASK handle c.2).2)
    else if !slab_ok then (ENOMEM, (cap_free TASK handle c.2).2)
    else if !malloc_ok then (ENOMEM, (cap_free TASK handle c.2).2)
    else if !kobj_ok then (ENOMEM, (cap_free TASK handle c.2).2)
    else
      let k := kobject_alloc c.2
      let s4 := { k.2 with buf := upd k.2.buf k.1 ( ipc_buf_initialize size junk label) }
      let s5 := kobject_initialize k.1 KOBJECT_TYPE_IPC_BUF s4
      let r := cap_publish TASK handle k.1 s5
      if r.1 ≠ EOK then (r.1, kobject_put k.1 r.2) else (r.1, r.2)

/-- Free IPC buffer: `sys_ipc2_buf_free`. -/
def sys_ipc2_buf_free (TASK : Nat) (bhandle : cap_handle_t) (s : State) : errno_t × State :=
  match cap_unpublish TASK bhandle KOBJECT_TYPE_IPC_BUF s with
  | (none, _) => (ENOENT, s)
  | (some k, s1) => cap_free TASK bhandle (kobject_put k s1)

/-- Checks made by send before anything is changed: `ipc2_buf_send_check`. -/
def ipc2_buf_send_check (buf : Nat) (cl : Option Nat) (s : State) : errno_t :=
  if (s.buf buf).state = IPC_BUF_FINISHED then EBUSY
  else if (s.buf buf).in_ep.isSome ∨ (s.buf buf).in_ep_caplist.isSome then EBUSY
  else if cl.isSome then
    if (s.buf buf).state = IPC_BUF_READY ∧ (s.kobj buf).in_caplist.isSome then EBUSY
    else if (s.buf buf).state = IPC_BUF_PENDING then EINVAL
    else EOK
  else EOK

/-- Copy `size` bytes from user address `src` into the buffer:
`ipc2_copy_to_buf`. -/
def ipc2_copy_to_buf (TASK buf src size : Nat) (s : State) : errno_t × State :=
  if size > (s.buf buf).size then (ELIMIT, s)
  else
    let r := copy_from_uspace TASK (s.buf buf).data src size s
    if r.1 ≠ EOK then (r.1, s)
    else
      let b := { s.buf buf with data := r.2 }
      (EOK, { s with buf := upd s.buf buf (if size ≠ 0 then { b with used := size } else b) })

/-- Copy at most `size` bytes of the used part of the buffer to user address
`dst`: `ipc2_copy_from_buf`. -/
def ipc2_copy_from_buf (TASK buf dst size : Nat) (s : State) : errno_t × State :=
  let size1 := if size > (s.buf buf).used then (s.buf buf).used else size
  let r := copy_to_uspace TASK dst (s.buf buf).data size1 s
  if r.1 ≠ EOK then (r.1, r.2) else (EOK, r.2)

/-- Unpublish an IPC buffer capability during a forwarding send or finish:
`ipc2_unpublish_temp_cap`. -/
def ipc2_unpublish_temp_cap (TASK : Nat) (bhandle : cap_handle_t) (s : State) : State :=
  match cap_unpublish TASK bhandle KOBJECT_TYPE_IPC_BUF s with
  | (some k, s1) => kobject_put k s1
  | (none, s1) => s1

/-- The part of `sys_ipc2_buf_send` between the check of `rc` and the
enqueueing: listing in the caplist `cl`, unpublishing of the temporary handle
of a forwarding send, the state change and the imprint of the label. -/
def sys_ipc2_buf_send_prepare (TASK : Nat) (bhandle : cap_handle_t) (buf ep : Nat)
    (cl : Option Nat) (s : State) : State :=
  let s1 := match cl with
    | some c => (caplist_add c buf s).2
    | none => s
  let s2 := if (s1.buf buf).state = IPC_BUF_PENDING then
      ipc2_unpublish_temp_cap TASK bhandle s1 else s1
  let b := { s2.buf buf with state := IPC_BUF_PENDING, ep_label := (s2.ep ep).label }
  { s2 with buf := upd s2.buf buf b }

/-- The end of the locked part of `sys_ipc2_buf_send`: the reference for the
queue linkage and the append to the queue of the endpoint's caplist, or else
to the endpoint's own queue.  `list_append (&buf->link, ...)` is the append of
`buf` to the list when the link is in no list (`link_unused`). -/
def sys_ipc2_buf_send_enqueue (buf ep : Nat) (s : State) : State :=
  let s4 := kobject_add_ref buf s
  match (s4.kobj ep).in_caplist with
  | some c =>
    let q := s4.caplist c
    { s4 with
      caplist := upd s4.caplist c { q with queue := q.queue ++ [buf] },
      buf := upd s4.buf buf { s4.buf buf with in_ep_caplist := some c } }
  | none =>
    let e := s4.ep ep
    { s4 with
      ep := upd s4.ep ep { e with buffers := e.buffers ++ [buf] },
      buf := upd s4.buf buf { s4.buf buf with in_ep := some ep } }

/-- The part of `sys_ipc2_buf_send` between the check of `rc` and the label
`out`. -/
def sys_ipc2_buf_send_commit (TASK : Nat) (bhandle : cap_handle_t) (buf ep : Nat)
    (cl : Option Nat) (s : State) : State :=
  sys_ipc2_buf_send_enqueue buf ep (sys_ipc2_buf_send_prepare TASK bhandle buf ep cl s)

/-- The part of `sys_ipc2_buf_send` that runs with the locks held (from the
checks to the label `out`). -/
def sys_ipc2_buf_send_locked (TASK src size : Nat) (bhandle : cap_handle_t)
    (buf ep : Nat) (cl : Option Nat) (s : State) : errno_t × State :=
  let rc := ipc2_buf_send_check buf cl s
  let r := if rc = EOK then ipc2_copy_to_buf TASK buf src size s else (rc, s)
  if r.1 ≠ EOK then r
  else (EOK, sys_ipc2_buf_send_commit TASK bhandle buf ep cl r.2)

/-- The lock acquisition of `sys_ipc2_buf_send` takes one mutex twice: the call
locks `ep->kobject->in_caplist->mutex` and later `cl->mutex`, and `cl` is the
caplist the endpoint is a member of.  The mutex of a caplist is passive
(`caplist_initialize`), so the second `mutex_lock` does not return. -/
def sys_ipc2_buf_send_relocks (ep : Nat) (cl : Option Nat) (s : State) : Bool :=
  cl.isSome && decide ((s.kobj ep).in_caplist = cl)

/-- Send IPC buffer to IPC endpoint: `sys_ipc2_buf_send`, as the step the call
makes with its locks held.  With a `clhandle` that names the caplist the
endpoint is a member of, the call stops in the lock acquisition
(`sys_ipc2_buf_send_relocks`) and does not reach this step. -/
def sys_ipc2_buf_send (TASK src size : Nat) (bhandle ehandle clhandle : cap_handle_t)
    (s : State) : errno_t × State :=
  match kobject_get TASK bhandle KOBJECT_TYPE_IPC_BUF s with
  | (none, _) => (ENOENT, s)
  | (some buf, s1) =>
    match kobject_get TASK ehandle KOBJECT_TYPE_IPC_EP s1 with
    | (none, _) => (ENOENT, kobject_put buf s1)
    | (some ep, s2) =>
      if clhandle ≠ CAP_NIL then
        match kobject_get TASK clhandle KOBJECT_TYPE_CAPLIST s2 with
        | (none, _) => (ENOENT, kobject_put ep (kobject_put buf s2))
        | (some cl, s3) =>
          let r := sys_ipc2_buf_send_locked TASK src size bhandle buf ep (some cl) s3
          (r.1, kobject_put cl (kobject_put ep (kobject_put buf r.2)))
      else
        let r := sys_ipc2_buf_send_locked TASK src size bhandle buf ep none s2
        (r.1, kobject_put ep (kobject_put buf r.2))

/-- The loop around `_condvar_wait_timeout` while the awaited condition does
not hold: the first outcome other than `EOK` ends the call, and a call that
has seen all of `cvw` is still blocked. -/
def condvar_wait_loop : List errno_t → Option errno_t
  | [] => none
  | rc :: rest => if rc ≠ EOK then some rc else condvar_wait_loop rest

/-- Outcome of `ipc2_block_on`. -/
inductive block_result where
  | blocked
  | failed (rc : errno_t)
  | got (buf : Nat) (rest : List Nat)

/-- Block until the list is not empty and take its first buffer:
`ipc2_block_on`.  `got buf rest` is success with `*buf` and the list that
remains after `list_remove (&buf->link)`, for a link that is in this list and
in no other (`link_only_in_queue`, `link_only_in_buffers`). -/
def ipc2_block_on (list : List Nat) (cvw : List errno_t) : block_result :=
  match list with
  | b :: rest => block_result.got b rest
  | [] =>
    match condvar_wait_loop cvw with
    | some rc => block_result.failed rc
    | none => block_result.blocked

/-- Mark the buffer finished with result `rc` and announce it:
`ipc2_buf_finish`.  `list_append (&buf->link, ...)` is the append of `buf` to
the ready-queue when the link is in no list (`link_unused`). -/
def ipc2_buf_finish (buf : Nat) (rc : errno_t) (s : State) : State :=
  let b := { s.buf buf with state := IPC_BUF_FINISHED, wait_result := rc }
  let s1 := { s with buf := upd s.buf buf b }
  match (s1.kobj buf).in_caplist with
  | some c =>
    let s2 := kobject_add_ref buf s1
    let q := s2.caplist c
    { s2 with caplist := upd s2.caplist c { q with queue := q.queue ++ [buf] } }
  | none => s1

/-- The part of `sys_ipc2_buf_receive` after a buffer has been taken from the
queue (from `ipc2_copy_from_buf` on, the label `error` included). -/
def sys_ipc2_buf_receive_tail (TASK dst size : Nat) (bhandle : cap_handle_t) (info buf : Nat)
    (s : State) : errno_t × State :=
  let r := ipc2_copy_from_buf TASK buf dst size s
  if r.1 ≠ EOK then (r.1, kobject_put buf (ipc2_buf_finish buf r.1 r.2))
  else
    let _info : ipc_buf_receive_info_t :=
      { ep_label := (r.2.buf buf).ep_label, used := (r.2.buf buf).used,
        size := (r.2.buf buf).size }
    let c := copy_to_uspace_receive_info TASK info _info r.2
    if c.1 ≠ EOK then (c.1, kobject_put buf (ipc2_buf_finish buf c.1 c.2))
    else
      let s1 := kobject_add_ref buf c.2
      let p := cap_publish TASK bhandle buf s1
      if p.1 ≠ EOK then
        (p.1, kobject_put buf (ipc2_buf_finish buf p.1 (kobject_put buf p.2)))
      else (EOK, kobject_put buf p.2)

/-- Receive IPC buffer from an IPC endpoint: `sys_ipc2_buf_receive`.  The
result `none` is a call that is still blocked. -/
def sys_ipc2_buf_receive (TASK dst size : Nat) (bhandle ehandle : cap_handle_t)
    (cvw : List errno_t) (info : Nat) (s : State) : Option (errno_t × State) :=
  match kobject_get TASK ehandle KOBJECT_TYPE_IPC_EP s with
  | (some e, s1) =>
    match ipc2_block_on (s1.ep e).buffers cvw with
    | block_result.blocked => none
    | block_result.failed rc => some (rc, kobject_put e s1)
    | block_result.got b rest =>
      let s2 := { s1 with ep := upd s1.ep e { s1.ep e with buffers := rest } }
      let s3 := kobject_put e s2
      let s4 := { s3 with buf := upd s3.buf b { s3.buf b with in_ep := none } }
      some (sys_ipc2_buf_receive_tail TASK dst size bhandle info b s4)
  | (none, _) =>
    match kobject_get TASK ehandle KOBJECT_TYPE_CAPLIST s with
    | (some c, s1) =>
      if (s1.caplist c).type ≠ KOBJECT_TYPE_IPC_EP then some (EINVAL, kobject_put c s1)
      else
        match ipc2_block_on (s1.caplist c).queue cvw with
        | block_result.blocked => none
        | block_result.failed rc => some (rc, kobject_put c s1)
        | block_result.got b rest =>
          let s2 := { s1 with caplist := upd s1.caplist c { s1.caplist c with queue := rest } }
          let s3 := kobject_put c s2
          let s4 := { s3 with buf := upd s3.buf b { s3.buf b with in_ep_caplist := none } }
          some (sys_ipc2_buf_receive_tail TASK dst size bhandle info b s4)
    | (none, _) => some (ENOENT, s)

/-- Checks made by finish before anything is changed:
`ipc2_buf_finish_check`. -/
def ipc2_buf_finish_check (buf : Nat) (s : State) : errno_t :=
  if (s.buf buf).state ≠ IPC_BUF_PENDING then EINVAL
  else if (s.buf buf).in_ep.isSome ∨ (s.buf buf).in_ep_caplist.isSome then EBUSY
  else EOK

/-- Mark IPC buffer finished: `sys_ipc2_buf_finish`. -/
def sys_ipc2_buf_finish (TASK src size : Nat) (bhandle : cap_handle_t) (s : State) :
    errno_t × State :=
  match kobject_get TASK bhandle KOBJECT_TYPE_IPC_BUF s with
  | (none, _) => (ENOENT, s)
  | (some buf, s1) =>
    let rc := ipc2_buf_finish_check buf s1
    let r := if rc = EOK then ipc2_copy_to_buf TASK buf src size s1 else (rc, s1)
    if r.1 ≠ EOK then (r.1, kobject_put buf r.2)
    else
      let s2 := if (r.2.buf buf).state = IPC_BUF_PENDING then
          ipc2_unpublish_temp_cap TASK bhandle r.2 else r.2
      (EOK, kobject_put buf (ipc2_buf_finish buf EOK s2))

/-- The part of `sys_ipc2_buf_wait` after the finished buffer has been found
(from `buf->state = IPC_BUF_READY` on, the label `error` included). -/
def sys_ipc2_buf_wait_tail (TASK dst size info buf : Nat) (s : State) : errno_t × State :=
  let s1 := { s with buf := upd s.buf buf { s.buf buf with state := IPC_BUF_READY } }
  let r := ipc2_copy_from_buf TASK buf dst size s1
  if r.1 ≠ EOK then (r.1, kobject_put buf r.2)
  else
    let _info : ipc_buf_wait_info_t :=
      { buf_label := (r.2.buf buf).buf_label, used := (r.2.buf buf).used,
        size := (r.2.buf buf).size, result := (r.2.buf buf).wait_result }
    let c := copy_to_uspace_wait_info TASK info _info r.2
    (c.1, kobject_put buf c.2)

/-- Wait for an IPC buffer to be finished: `sys_ipc2_buf_wait`.  The result
`none` is a call that is still blocked. -/
def sys_ipc2_buf_wait (TASK dst size : Nat) (bhandle : cap_handle_t) (cvw : List errno_t)
    (delist : Bool) (info : Nat) (s : State) : Option (errno_t × State) :=
  match kobject_get TASK bhandle KOBJECT_TYPE_IPC_BUF s with
  | (some b, s1) =>
    if (s1.buf b).state ≠ IPC_BUF_FINISHED then
      match condvar_wait_loop cvw with
      | none => none
      | some rc => some (rc, kobject_put b s1)
    else some (sys_ipc2_buf_wait_tail TASK dst size info b s1)
  | (none, _) =>
    match kobject_get TASK bhandle KOBJECT_TYPE_CAPLIST s with
    | (some c, s1) =>
      if (s1.caplist c).type ≠ KOBJECT_TYPE_IPC_BUF then some (EINVAL, kobject_put c s1)
      else
        match ipc2_block_on (s1.caplist c).queue cvw with
        | block_result.blocked => none
        | block_result.failed rc => some (rc, kobject_put c s1)
        | block_result.got b rest =>
          let s2 := { s1 with caplist := upd s1.caplist c { s1.caplist c with queue := rest } }
          let s3 := if delist then (caplist_del c b s2).2 else s2
          some (sys_ipc2_buf_wait_tail TASK dst size info b s3)
    | (none, _) => some (ENOENT, s)

/-- Initial contents of an IPC endpoint: `ipc_ep_initialize`. -/
def ipc_ep_initialize (label : Nat) : ipc_ep_t :=
  { buffers := [], label := label }

/-- Destroy an IPC endpoint: `sys_ipc2_ep_destroy`. -/
def sys_ipc2_ep_destroy (TASK : Nat) (ehandle : cap_handle_t) (s : State) : errno_t × State :=
  match cap_unpublish TASK ehandle KOBJECT_TYPE_IPC_EP s with
  | (none, _) => (ENOENT, s)
  | (some k, s1) => cap_free TASK ehandle (kobject_put k s1)

/-- Create an IPC endpoint: `sys_ipc2_ep_create`.  `pick` is the allocator's
choice of handle, `slab_ok` and `kobj_ok` tell whether the two kernel
allocations succeed. -/
def sys_ipc2_ep_create (TASK ehandle label : Nat) (clhandle : cap_handle_t)
    (pick : Option cap_handle_t) (slab_ok kobj_ok : Bool) (s : State) : errno_t × State :=
  let a := cap_alloc TASK pick s
  if a.1 ≠ EOK then (a.1, a.2.2)
  else
    let handle := a.2.1
    let c := copy_to_uspace_handle TASK ehandle handle a.2.2
    if c.1 ≠ EOK then (c.1, (cap_free TASK handle c.2).2)
    else if !slab_ok then (ENOMEM, (cap_free TASK handle c.2).2)
    else if !kobj_ok then (ENOMEM, (cap_free TASK handle c.2).2)
    else
      let k := kobject_alloc c.2
      let s4 := { k.2 with ep := upd k.2.ep k.1 ( ipc_ep_initialize label) }
      let s5 := kobject_initialize k.1 KOBJECT_TYPE_IPC_EP s4
      let s6 := (cap_publish TASK handle k.1 s5).2
      if clhandle ≠ CAP_NIL then
        let r := sys_caplist_add TASK clhandle handle s6
        if r.1 ≠ EOK then (r.1, (sys_ipc2_ep_destroy TASK handle r.2).2) else (r.1, r.2)
      else (EOK, s6)

/-- Allocate a capability handle: `sys_cap_alloc` (the registry's system call
used by receivers to obtain the handle that `receive` publishes). -/
def sys_cap_alloc (TASK uhandle : Nat) (pick : Option cap_handle_t) (s : State) :
    errno_t × State :=
  let a := cap_alloc TASK pick s
  if a.1 ≠ EOK then (a.1, a.2.2)
  else
    let c := copy_to_uspace_handle TASK uhandle a.2.1 a.2.2
    if c.1 ≠ EOK then (c.1, (cap_free TASK a.2.1 c.2).2) else (EOK, c.2)

/-! ## Sequences of calls -/

/-- Arguments of one `sys_ipc2_buf_send` call. -/
structure send_call where
  TASK : Nat
  src : Nat
  size : Nat
  bhandle : cap_handle_t
  ehandle : cap_handle_t
  clhandle : cap_handle_t

/-- Arguments of one `sys_ipc2_buf_receive` call. -/
structure receive_call where
  TASK : Nat
  dst : Nat
  size : Nat
  bhandle : cap_handle_t
  ehandle : cap_handle_t
  cvw : List errno_t
  info : Nat

/-- Successive sends that all return `EOK`: for each send the buffer and the
endpoint its handles resolve to and the caplist that endpoint is a member of
at the time of the call, and the final state. -/
def run_sends : List send_call → State → Option (List (Nat × Nat × Option Nat) × State)
  | [], s => some ([], s)
  | c :: cs, s =>
    match cap_resolve c.TASK c.bhandle KOBJECT_TYPE_IPC_BUF s,
        cap_resolve c.TASK c.ehandle KOBJECT_TYPE_IPC_EP s with
    | some b, some e =>
      let r := sys_ipc2_buf_send c.TASK c.src c.size c.bhandle c.ehandle c.clhandle s
      if r.1 = EOK then
        (run_sends cs r.2).map fun p => ((b, e, (s.kobj e).in_caplist) :: p.1, p.2)
      else none
    | _, _ => none

/-- What the source handle of a receive resolves to: `(true, e)` for the
endpoint `e`, `(false, c)` for the caplist `c`. -/
def receive_source (TASK : Nat) (ehandle : cap_handle_t) (s : State) : Option (Bool × Nat) :=
  match cap_resolve TASK ehandle KOBJECT_TYPE_IPC_EP s with
  | some e => some (true, e)
  | none =>
    match cap_resolve TASK ehandle KOBJECT_TYPE_CAPLIST s with
    | some c => some (false, c)
    | none => none

/-- Successive receives that all return `EOK`: for each receive its source
and the buffer it returned (the one published under its new handle), and the
final state. -/
def run_receives : List receive_call → State → Option (List ((Bool × Nat) × Nat) × State)
  | [], s => some ([], s)
  | c :: cs, s =>
    match receive_source c.TASK c.ehandle s,
        sys_ipc2_buf_receive c.TASK c.dst c.size c.bhandle c.ehandle c.cvw c.info s with
    | some q, some r =>
      if r.1 = EOK then
        match r.2.caps c.TASK c.bhandle with
        | cap_t.published b => (run_receives cs r.2).map fun p => ((q, b) :: p.1, p.2)
        | _ => none
      else none
    | _, _ => none

/-- Successive successful sends followed by successive successful receives:
what was sent and what was received. -/
def run_sends_receives (sends : List send_call) (recvs : List receive_call) (s : State) :
    Option (List (Nat × Nat × Option Nat) × List ((Bool × Nat) × Nat)) :=
  (run_sends sends s).bind fun p => (run_receives recvs p.2).map fun q => (p.1, q.1)

/-! ## Scenario of `uspace/lib/c/test/ipc2/roundtrip.c` -/

/-- The state at subsystem bring-up: no capability, no kernel object; every
task can access `umem`, a few handle variables and two info structures of each
kind. -/
def boot (umem : Nat → Nat → Option Nat) : State :=
  { caps := fun _ _ => cap_t.free,
    kobj := fun _ => { type := KOBJECT_TYPE_IPC_BUF, refcnt := 0, in_caplist := none },
    buf := fun _ => ipc_buf_initialize 0 (fun _ => 0) 0,
    ep := fun _ => ipc_ep_initialize 0,
    caplist := fun _ => caplist_initialize KOBJECT_TYPE_IPC_BUF,
    umem := umem,
    uhandle := fun _ a => if a < 8 then some CAP_NIL else none,
    urecv := fun _ a => if a < 2 then some { ep_label := 0, used := 0, size := 0 } else none,
    uwait := fun _ a =>
      if a < 2 then some { buf_label := 0, used := 0, size := 0, result := EOK } else none,
    brk := 1 }

/-- User memory of the round-trip test: `send_buf` at 0 holding "Hello world!",
`recv_buf` at 16, `fini_buf` at 32 holding "Bye", `wait_buf` at 48, each of
`TEST_BUF_SMALL_SIZE` = 16 bytes. -/
def test_umem : Nat → Nat → Option Nat := fun _ a =>
  if a < 16 then some ([72, 101, 108, 108, 111, 32, 119, 111, 114, 108, 100, 33].getD a 0)
  else if a < 32 then some 0
  else if a < 48 then some ([66, 121, 101].getD (a - 32) 0)
  else if a < 64 then some 0
  else none

/-- The state set up by `PCUT_TEST_BEFORE`: buffer of 16 bytes with label
`0x1abe1b` under handle 1, endpoint with label `0x1abe1e` under handle 2, and
the allocated, unpublished handle 3. -/
def test_before : State :=
  let s1 := (sys_ipc2_buf_alloc 0 16 0x1abe1b 0 (some 1) true true true (fun _ => 0xAA)
    (boot test_umem)).2
  let s2 := (sys_ipc2_ep_create 0 1 0x1abe1e CAP_NIL (some 2) true true s1).2
  (sys_cap_alloc 0 2 (some 3) s2).2

/-- The test's `send()`: the buffer, holding "Hello world!", queues in the
endpoint. -/
def test_sent : State :=
  (sys_ipc2_buf_send 0 0 16 1 2 CAP_NIL test_before).2

/-- The test's `receive()`: the buffer is published under handle 3. -/
def test_received : State :=
  match sys_ipc2_buf_receive 0 16 16 3 2 [] 0 test_sent with
  | some r => r.2
  | none => test_sent

/-- The test's `finish()`: the reply "Bye" is in the buffer. -/
def test_finished : State :=
  (sys_ipc2_buf_finish 0 32 16 3 test_received).2

/-- The test's `wait()`: the reply is copied to `wait_buf` and the buffer is
ready again. -/
def test_waited : State :=
  match sys_ipc2_buf_wait 0 48 16 1 [] false 0 test_finished with
  | some r => r.2
  | none => test_finished

/-- A second buffer of 16 bytes (at kernel address 3, under handle 4) next to
the one of `test_before`. -/
def test_two_buffers : State :=
  (sys_ipc2_buf_alloc 0 16 0x1abe1c 3 (some 4) true true true (fun _ => 0xAA) test_before).2

/-- Two buffers and a second allocated, unpublished handle (5) for a second
receive. -/
def test_two_handles : State :=
  (sys_cap_alloc 0 4 (some 5) test_two_buffers).2

/-- Two buffers, the first of them sent to the endpoint with "Hello world!". -/
def test_first_sent : State :=
  (sys_ipc2_buf_send 0 0 16 1 2 CAP_NIL test_two_buffers).2

/-! ## Scenarios with capability lists -/

/-- The test's `create_buf_caplist()`: a buffer-caplist at kernel address 3
under handle 4. -/
def test_buf_cl : State :=
  (sys_caplist_create 0 3 KOBJECT_TYPE_IPC_BUF (some 4) true true test_before).2

/-- The test's `send_with_cl()`: the buffer joins the caplist and queues in
the endpoint. -/
def test_cl_sent : State :=
  (sys_ipc2_buf_send 0 0 16 1 2 4 test_buf_cl).2

/-- The test's `receive()` after `send_with_cl()`. -/
def test_cl_received : State :=
  match sys_ipc2_buf_receive 0 16 16 3 2 [] 0 test_cl_sent with
  | some r => r.2
  | none => test_cl_sent

/-- The test's `inserting_3_4_roundtrip()`: the finished buffer is in the
caplist's ready-queue. -/
def test_cl_finished : State :=
  (sys_ipc2_buf_finish 0 32 16 3 test_cl_received).2

/-- After `inserting_3_4_roundtrip()`, a second buffer-caplist is created (at
kernel address 4, under handle 5) and the finished buffer is moved to it with
`caplist_del` and `caplist_add`, while it is still in the ready-queue of the
first caplist. -/
def test_cl_moved : State :=
  let s1 := (sys_caplist_create 0 4 KOBJECT_TYPE_IPC_BUF (some 5) true true test_cl_finished).2
  let s2 := (sys_caplist_del 0 4 1 s1).2
  (sys_caplist_add 0 5 1 s2).2

/-- After `inserting_3_4_roundtrip()`, the finished buffer is removed from the
caplist with `caplist_del` while it is still in its ready-queue. -/
def test_cl_removed : State :=
  (sys_caplist_del 0 4 1 test_cl_finished).2

/-- The test's `create_ep_caplist()`: an endpoint-caplist at kernel address 3
under handle 4. -/
def test_ep_cl : State :=
  (sys_caplist_create 0 3 KOBJECT_TYPE_IPC_EP (some 4) true true test_before).2

/-- The set-up of the test `receive_from_cl`: the endpoint is a member of the
endpoint-caplist. -/
def test_ep_member : State :=
  (sys_caplist_add 0 4 2 test_ep_cl).2

/-- The buffer is sent to the endpoint first, and the endpoint is added to
the endpoint-caplist afterwards. -/
def test_ep_member_late : State :=
  (sys_caplist_add 0 4 2 (sys_ipc2_buf_send 0 0 16 1 2 CAP_NIL test_ep_cl).2).2

/-- A receive in the round-trip test whose new handle (9) was never
allocated: the buffer is taken from the endpoint and the publication fails. -/
def test_receive_failed : State :=
  match sys_ipc2_buf_receive 0 16 16 9 2 [] 0 test_sent with
  | some r => r.2
  | none => test_sent

/-! ## Scenarios with a buffer in an endpoint-tagged caplist -/

/-- An inserting send in the round-trip test whose caplist handle (4) names
the endpoint-tagged caplist of `test_ep_cl`. -/
def test_mixed : State :=
  (sys_ipc2_buf_send 0 0 16 1 2 4 test_ep_cl).2

/-- The buffer of `test_mixed` after the test's `receive()` and `finish()`. -/
def test_mixed_finished : State :=
  match sys_ipc2_buf_receive 0 16 16 3 2 [] 0 test_mixed with
  | some r => (sys_ipc2_buf_finish 0 32 16 3 r.2).2
  | none => test_mixed

/-- A receive on the empty endpoint of the round-trip test whose timed wait
ends with `ETIMEOUT`. -/
def test_receive_timed_out : State :=
  match sys_ipc2_buf_receive 0 16 16 3 2 [EOK, ETIMEOUT] 0 test_before with
  | some r => r.2
  | none => test_before

/-- A wait on the sent, unfinished buffer of the round-trip test whose timed
wait is interrupted. -/
def test_wait_interrupted : State :=
  match sys_ipc2_buf_wait 0 48 16 1 [EINTR] false 0 test_sent with
  | some r => r.2
  | none => test_sent

/-! ## Lock acquisition of the IPC operations (`ipc2/ipc.c`) -/

/-- The six kinds of sleep-lock of the IPC subsystem, in the order in which
`sys_ipc2_buf_send` takes them ("Lock everything in the locking order"). -/
inductive lock_class where
  | ep_mutex
  | ep_kobject_lock
  | ep_caplist_mutex
  | buf_mutex
  | buf_caplist_mutex
  | buf_kobject_lock
  deriving DecidableEq, Repr

open lock_class

/-- A lock: its kind and the kernel object it belongs to. -/
structure lock_t where
  cls : lock_class
  obj : Nat
  deriving DecidableEq, Repr

/-- A call of `mutex_lock` or `mutex_unlock`. -/
inductive lock_event where
  | mutex_lock (l : lock_t)
  | mutex_unlock (l : lock_t)
  deriving DecidableEq, Repr

open lock_event

/-- Position of a kind of lock in the order endpoint mutex, endpoint header
lock, endpoint-caplist mutex, buffer mutex, buffer-caplist mutex, buffer
header lock. -/
def lock_rank : lock_class → Nat
  | ep_mutex => 1
  | ep_kobject_lock => 2
  | ep_caplist_mutex => 3
  | lock_class.buf_mutex => 4
  | buf_caplist_mutex => 5
  | buf_kobject_lock => 6

/-- No lock is taken that precedes, in the order of `lock_rank`, a lock that
is held at that moment; `held` are the locks held at the start. -/
def lock_order_ok (held : List lock_t) : List lock_event → Bool
  | [] => true
  | mutex_lock l :: rest =>
    held.all (fun h => decide (lock_rank h.cls ≤ lock_rank l.cls)) && lock_order_ok (l :: held) rest
  | mutex_unlock l :: rest => lock_order_ok (held.erase l) rest

/-- Locks of `sys_ipc2_buf_send`, in program order: none when a handle does
not resolve, else the six locks before the checks and their release after the
label `out`.  The mutex of the caplist `c` is `ep_caplist_mutex c` when it is
taken as `ep->kobject->in_caplist->mutex` and `buf_caplist_mutex c` when it is
taken as `cl->mutex`; when both are the mutex of one caplist
(`sys_ipc2_buf_send_relocks`) the second `mutex_lock` is the last event. -/
def sys_ipc2_buf_send_locks (TASK : Nat) (bhandle ehandle clhandle : cap_handle_t)
    (s : State) : List lock_event :=
  match cap_resolve TASK bhandle KOBJECT_TYPE_IPC_BUF s,
      cap_resolve TASK ehandle KOBJECT_TYPE_IPC_EP s with
  | some buf, some ep =>
    let cl := if clhandle ≠ CAP_NIL then cap_resolve TASK clhandle KOBJECT_TYPE_CAPLIST s
      else none
    if clhandle ≠ CAP_NIL ∧ cl = none then []
    else
      let epcl := match (s.kobj ep).in_caplist with
        | some c => [lock_t.mk ep_caplist_mutex c]
        | none => []
      let bcl := match cl with
        | some c => [lock_t.mk buf_caplist_mutex c]
        | none => []
      let ls := [lock_t.mk ep_mutex ep, lock_t.mk ep_kobject_lock ep] ++ epcl ++
        [lock_t.mk lock_class.buf_mutex buf] ++ bcl ++ [lock_t.mk buf_kobject_lock buf]
      if sys_ipc2_buf_send_relocks ep cl s then
        ([lock_t.mk ep_mutex ep, lock_t.mk ep_kobject_lock ep] ++ epcl ++
          [lock_t.mk lock_class.buf_mutex buf] ++ bcl).map mutex_lock
      else ls.map mutex_lock ++ ls.reverse.map mutex_unlock
  | _, _ => []

/-- Locks of `ipc2_buf_finish`, called with the buffer mutex held: the header
lock of the buffer and, inside it, the mutex of the caplist the buffer is a
member of. -/
def ipc2_buf_finish_locks (buf : Nat) (s : State) : List lock_event :=
  [mutex_lock (lock_t.mk buf_kobject_lock buf)] ++
  (match (s.kobj buf).in_caplist with
    | some c => [mutex_lock (lock_t.mk buf_caplist_mutex c),
        mutex_unlock (lock_t.mk buf_caplist_mutex c)]
    | none => []) ++
  [mutex_unlock (lock_t.mk buf_kobject_lock buf)]

/-- Locks of `sys_ipc2_buf_finish`, in program order. -/
def sys_ipc2_buf_finish_locks (TASK src size : Nat) (bhandle : cap_handle_t) (s : State) :
    List lock_event :=
  match cap_resolve TASK bhandle KOBJECT_TYPE_IPC_BUF s with
  | none => []
  | some buf =>
    let rc := ipc2_buf_finish_check buf s
    let rc2 := if rc = EOK then (ipc2_copy_to_buf TASK buf src size s).1 else rc
    [mutex_lock (lock_t.mk lock_class.buf_mutex buf)] ++
    (if rc2 ≠ EOK then [] else ipc2_buf_finish_locks buf s) ++
    [mutex_unlock (lock_t.mk lock_class.buf_mutex buf)]

/-- Locks of `ipc2_block_on` on a list guarded by `mutex`: the mutex, then on
success the mutex of the first buffer, and the release of `mutex` on failure
or when `unlock` is set.  A call that is still blocked holds nothing. -/
def ipc2_block_on_locks (mutex : lock_t) (list : List Nat) (cvw : List errno_t)
    (unlock : Bool) : List lock_event :=
  match ipc2_block_on list cvw with
  | block_result.blocked => []
  | block_result.failed _ => [mutex_lock mutex, mutex_unlock mutex]
  | block_result.got b _ =>
    [mutex_lock mutex, mutex_lock (lock_t.mk lock_class.buf_mutex b)] ++
    (if unlock then [mutex_unlock mutex] else [])

/-- Locks of `sys_ipc2_buf_wait`, in program order. -/
def sys_ipc2_buf_wait_locks (TASK : Nat) (bhandle : cap_handle_t) (cvw : List errno_t)
    (delist : Bool) (s : State) : List lock_event :=
  match cap_resolve TASK bhandle KOBJECT_TYPE_IPC_BUF s with
  | some b =>
    if (s.buf b).state ≠ IPC_BUF_FINISHED ∧ condvar_wait_loop cvw = none then []
    else [mutex_lock (lock_t.mk lock_class.buf_mutex b),
      mutex_unlock (lock_t.mk lock_class.buf_mutex b)]
  | none =>
    match cap_resolve TASK bhandle KOBJECT_TYPE_CAPLIST s with
    | none => []
    | some c =>
      if (s.caplist c).type ≠ KOBJECT_TYPE_IPC_BUF then []
      else
        ipc2_block_on_locks (lock_t.mk buf_caplist_mutex c) (s.caplist c).queue cvw false ++
        match ipc2_block_on (s.caplist c).queue cvw with
        | block_result.got b _ =>
          (if delist then [mutex_lock (lock_t.mk buf_kobject_lock b),
            mutex_unlock (lock_t.mk buf_kobject_lock b)] else []) ++
          [mutex_unlock (lock_t.mk buf_caplist_mutex c),
            mutex_unlock (lock_t.mk lock_class.buf_mutex b)]
        | _ => []

/-! ## Repeated round trips -/

/-- Arguments of one round trip of a buffer: the payload of the send, the
destination and info structure of the receive, the reply of the finish, the
destination and info structure of the wait, and the outcomes of the timed
waits of the two blocking calls. -/
structure cycle_call where
  src : Nat
  n : Nat
  dst : Nat
  m : Nat
  rinfo : Nat
  fsrc : Nat
  fn : Nat
  wdst : Nat
  wm : Nat
  winfo : Nat
  cvr : List errno_t
  cvw : List errno_t

/-- One round trip that succeeds in every step: the sender `TS` sends the
buffer behind `bh` to the endpoint behind `eh`, the receiver `TR` receives it
from `reh` under the new handle `nh` and finishes it, and the sender waits for
it through `bh`. -/
def run_cycle (TS TR : Nat) (bh eh reh nh : cap_handle_t) (c : cycle_call) (s : State) :
    Option State :=
  let r1 := sys_ipc2_buf_send TS c.src c.n bh eh CAP_NIL s
  if r1.1 ≠ EOK then none
  else
    match sys_ipc2_buf_receive TR c.dst c.m nh reh c.cvr c.rinfo r1.2 with
    | some (EOK, s2) =>
      let r3 := sys_ipc2_buf_finish TR c.fsrc c.fn nh s2
      if r3.1 ≠ EOK then none
      else
        match sys_ipc2_buf_wait TS c.wdst c.wm bh c.cvw false c.winfo r3.2 with
        | some (EOK, s4) => some s4
        | _ => none
    | _ => none

/-- Consecutive round trips that all succeed: the state after each of them. -/
def run_cycles (TS TR : Nat) (bh eh reh nh : cap_handle_t) :
    List cycle_call → State → Option (List State)
  | [], _ => some []
  | c :: cs, s =>
    match run_cycle TS TR bh eh reh nh c s with
    | none => none
    | some t => (run_cycles TS TR bh eh reh nh cs t).map fun ts => t :: ts

/-- The start of a round trip: the buffer `b` is READY, linked into no queue
and in no caplist, the endpoint `e` is in no caplist and its queue is empty,
and the new handle of the receiver is allocated and unpublished. -/
def cycle_ready (TS TR : Nat) (bh eh reh nh : cap_handle_t) (b e : Nat) (s : State) : Prop :=
  cap_resolve TS bh KOBJECT_TYPE_IPC_BUF s = some b ∧
  cap_resolve TS eh KOBJECT_TYPE_IPC_EP s = some e ∧
  cap_resolve TR reh KOBJECT_TYPE_IPC_EP s = some e ∧
  s.caps TR nh = cap_t.allocated ∧
  (s.kobj e).in_caplist = none ∧ (s.ep e).buffers = [] ∧
  (s.buf b).state = IPC_BUF_READY ∧ (s.buf b).in_ep = none ∧
  (s.buf b).in_ep_caplist = none ∧ (s.kobj b).in_caplist = none

/-- No step of the round trip `c` can fault or exceed the capacity of the
buffer `b`: the payloads fit and every user address of the round trip is
accessible. -/
def cycle_ok (TS TR b : Nat) (s : State) (c : cycle_call) : Bool :=
  decide (c.n ≤ (s.buf b).size) && uspace_range_ok (s.umem TS) c.src c.n &&
  uspace_range_ok (s.umem TR) c.dst c.m && (s.urecv TR c.rinfo).isSome &&
  decide (c.fn ≤ (s.buf b).size) && uspace_range_ok (s.umem TR) c.fsrc c.fn &&
  uspace_range_ok (s.umem TS) c.wdst c.wm && (s.uwait TS c.winfo).isSome

/-- The same user addresses are accessible in both states. -/
def same_access (s t : State) : Prop :=
  (∀ a x, (t.umem a x).isSome = (s.umem a x).isSome) ∧
  (∀ a x, (t.urecv a x).isSome = (s.urecv a x).isSome) ∧
  (∀ a x, (t.uwait a x).isSome = (s.uwait a x).isSome)

/-- The round trip of the test `multiple`: "Hello world!" is sent from
`send_buf`, received into `recv_buf`, answered from `fini_buf` and waited for
into `wait_buf`. -/
def test_cycle : cycle_call :=
  { src := 0, n := 16, dst := 16, m := 16, rinfo := 0, fsrc := 32, fn := 16, wdst := 48,
    wm := 16, winfo := 0, cvr := [], cvw := [] }

/-! ## System calls as steps -/

/-- A call of one of the system calls of the subsystem (and of the registry's
`sys_cap_alloc`), with its arguments and the outcomes of what the call does
not decide itself: the choice of the handle allocator, the success of the
kernel allocations, the content of fresh storage and the outcomes of the
timed waits. -/
inductive syscall where
  | caplist_create (TASK clhandle : Nat) (type : kobject_type_t) (pick : Option cap_handle_t)
      (slab_ok kobj_ok : Bool)
  | caplist_destroy (TASK : Nat) (clhandle : cap_handle_t)
  | caplist_add (TASK : Nat) (clhandle handle : cap_handle_t)
  | caplist_del (TASK : Nat) (clhandle handle : cap_handle_t)
  | buf_alloc (TASK size label bhandle : Nat) (pick : Option cap_handle_t)
      (slab_ok malloc_ok kobj_ok : Bool) (junk : Nat → Nat)
  | buf_free (TASK : Nat) (bhandle : cap_handle_t)
  | buf_send (TASK src size : Nat) (bhandle ehandle clhandle : cap_handle_t)
  | buf_receive (TASK dst size : Nat) (bhandle ehandle : cap_handle_t) (cvw : List errno_t)
      (info : Nat)
  | buf_finish (TASK src size : Nat) (bhandle : cap_handle_t)
  | buf_wait (TASK dst size : Nat) (bhandle : cap_handle_t) (cvw : List errno_t)
      (delist : Bool) (info : Nat)
  | ep_create (TASK ehandle label : Nat) (clhandle : cap_handle_t) (pick : Option cap_handle_t)
      (slab_ok kobj_ok : Bool)
  | ep_destroy (TASK : Nat) (ehandle : cap_handle_t)
  | cap_alloc (TASK uhandle : Nat) (pick : Option cap_handle_t)

/-- The return value and the state after a system call; `none` is a call that
is still blocked. -/
def sys_step : syscall → State → Option (errno_t × State)
  | syscall.caplist_create TASK clhandle type pick slab_ok kobj_ok, s =>
    some (sys_caplist_create TASK clhandle type pick slab_ok kobj_ok s)
  | syscall.caplist_destroy TASK clhandle, s => some (sys_caplist_destroy TASK clhandle s)
  | syscall.caplist_add TASK clhandle handle, s => some (sys_caplist_add TASK clhandle handle s)
  | syscall.caplist_del TASK clhandle handle, s => some (sys_caplist_del TASK clhandle handle s)
  | syscall.buf_alloc TASK size label bhandle pick slab_ok malloc_ok kobj_ok junk, s =>
    some (sys_ipc2_buf_alloc TASK size label bhandle pick slab_ok malloc_ok kobj_ok junk s)
  | syscall.buf_free TASK bhandle, s => some (sys_ipc2_buf_free TASK bhandle s)
  | syscall.buf_send TASK src size bhandle ehandle clhandle, s =>
    some (sys_ipc2_buf_send TASK src size bhandle ehandle clhandle s)
  | syscall.buf_receive TASK dst size bhandle ehandle cvw info, s =>
    sys_ipc2_buf_receive TASK dst size bhandle ehandle cvw info s
  | syscall.buf_finish TASK src size bhandle, s =>
    some (sys_ipc2_buf_finish TASK src size bhandle s)
  | syscall.buf_wait TASK dst size bhandle cvw delist info, s =>
    sys_ipc2_buf_wait TASK dst size bhandle cvw delist info s
  | syscall.ep_create TASK ehandle label clhandle pick slab_ok kobj_ok, s =>
    some (sys_ipc2_ep_create TASK ehandle label clhandle pick slab_ok kobj_ok s)
  | syscall.ep_destroy TASK ehandle, s => some (sys_ipc2_ep_destroy TASK ehandle s)
  | syscall.cap_alloc TASK uhandle pick, s => some (sys_cap_alloc TASK uhandle pick s)

/-- The states reached from `s0` by system calls that satisfy `P` and have
returned. -/
inductive reachable_by (P : syscall → Prop) (s0 : State) : State → Prop where
  | start : reachable_by P s0 s0
  | step {s t : State} {c : syscall} {rc : errno_t} :
    reachable_by P s0 s → P c → sys_step c s = some (rc, t) → reachable_by P s0 t

/-- A call of `sys_caplist_destroy`. -/
def syscall.is_caplist_destroy : syscall → Bool
  | syscall.caplist_destroy _ _ => true
  | _ => false

/-- A call that allocates a capability handle. -/
def syscall.allocates : syscall → Bool
  | syscall.caplist_create _ _ _ _ _ _ => true
  | syscall.buf_alloc _ _ _ _ _ _ _ _ _ => true
  | syscall.ep_create _ _ _ _ _ _ _ => true
  | syscall.cap_alloc _ _ _ => true
  | _ => false

/-! ## The membership relation of capability lists -/

/-- The back-pointer of an object names a caplist exactly when the object
occurs in the member list of that caplist, and no member list has an object
twice. -/
def members_consistent (s : State) : Prop :=
  (∀ c o, (s.kobj o).in_caplist = some c ↔ o ∈ (s.caplist c).objects) ∧
  ∀ c, (s.caplist c).objects.Nodup

/-- The kernel address `x` is held by a capability or linked in a queue. -/
def referenced (s : State) (x : Nat) : Prop :=
  (∃ T h, s.caps T h = cap_t.published x) ∨ (∃ e, x ∈ (s.ep e).buffers) ∨
  ∃ c, x ∈ (s.caplist c).queue

/-- The membership relation is consistent and every kernel address in use
has been handed out by the allocator: those from `brk` on are in no caplist,
and back-pointers, capabilities and queues hold addresses below `brk`. -/
def caplist_inv (s : State) : Prop :=
  members_consistent s ∧
  (∀ o, s.brk ≤ o → (s.kobj o).in_caplist = none) ∧
  (∀ o c, (s.kobj o).in_caplist = some c → c < s.brk) ∧
  ∀ x, referenced s x → x < s.brk

/-- What a call does to the membership relation: nothing, the insertion of a
referenced object `k` that is in no caplist into a referenced caplist `cl`, or
the removal of a member `k` of `cl`. -/
def memb_step (s t : State) : Prop :=
  ((∀ x, (t.kobj x).in_caplist = (s.kobj x).in_caplist) ∧
    ∀ c, (t.caplist c).objects = (s.caplist c).objects) ∨
  (∃ cl k, referenced s cl ∧ referenced s k ∧ (s.kobj k).in_caplist = none ∧
    (∀ x, (t.kobj x).in_caplist = if x = k then some cl else (s.kobj x).in_caplist) ∧
    ∀ c, (t.caplist c).objects =
      if c = cl then (s.caplist c).objects ++ [k] else (s.caplist c).objects) ∨
  (∃ cl k, (s.kobj k).in_caplist = some cl ∧
    (∀ x, (t.kobj x).in_caplist = if x = k then none else (s.kobj x).in_caplist) ∧
    ∀ c, (t.caplist c).objects =
      if c = cl then (s.caplist c).objects.erase k else (s.caplist c).objects)

/-- A step that allocates no kernel object: `brk` stays, no new address is
referenced, and the membership relation changes as in `memb_step`. -/
def quiet_step (s t : State) : Prop :=
  t.brk = s.brk ∧ (∀ x, referenced t x → referenced s x) ∧ memb_step s t

/-- A step that allocates the kernel object at `s.brk`: the new object is in
no caplist, its member list (if it is a caplist) is empty, and no other new
address is referenced. -/
def fresh_step (s t : State) : Prop :=
  t.brk = s.brk + 1 ∧
  (∀ x, (t.kobj x).in_caplist = if x = s.brk then none else (s.kobj x).in_caplist) ∧
  (∀ c, c ≠ s.brk → (t.caplist c).objects = (s.caplist c).objects) ∧
  ((t.caplist s.brk).objects = (s.caplist s.brk).objects ∨ (t.caplist s.brk).objects = []) ∧
  ∀ x, referenced t x → referenced s x ∨ x = s.brk

/-- The system calls considered for the membership relation: all but
`sys_caplist_destroy`. -/
def keeps_caplists (c : syscall) : Prop := c.is_caplist_destroy = false

/-- The calls that end the life of the handle `h` of `TASK`: buffer free,
endpoint destroy, caplist destroy. -/
def destroys (TASK : Nat) (h : cap_handle_t) (d : syscall) : Prop :=
  d = syscall.buf_free TASK h ∨ d = syscall.ep_destroy TASK h ∨
    d = syscall.caplist_destroy TASK h

/-- The system calls that allocate no capability handle. -/
def allocates_nothing (c : syscall) : Prop := c.allocates = false

/-- The state of `ipc_buf_alloc_free` after the first `ipc2_buf_free`. -/
def test_freed : State := (sys_ipc2_buf_free 0 1 test_before).2

/-! ## Scenarios with a wait through the buffer handle on a caplist member -/

/-- After `inserting_3_4_roundtrip()`, the test's `wait()`: a wait through the
buffer handle on the finished buffer, which is a member of the caplist. -/
def test_cl_waited_buf : State :=
  match sys_ipc2_buf_wait 0 48 16 1 [] false 0 test_cl_finished with
  | some r => r.2
  | none => test_cl_finished

/-- The test's `send()` after `test_cl_waited_buf`. -/
def test_cl_resent : State :=
  (sys_ipc2_buf_send 0 0 16 1 2 CAP_NIL test_cl_waited_buf).2

/-- After `inserting_3_4_roundtrip()`, the test's `wait_on_cl(false)`. -/
def test_cl_waited_cl : State :=
  match sys_ipc2_buf_wait 0 48 16 4 [] false 0 test_cl_finished with
  | some r => r.2
  | none => test_cl_finished

/-- The test's `create_buf_caplist()`, `send()` and `receive()`: the buffer is
PENDING, in no queue and in no caplist, and published under the handles 1
and 3. -/
def test_cl_pending : State :=
  match sys_ipc2_buf_receive 0 16 16 3 2 [] 0
      (sys_ipc2_buf_send 0 0 16 1 2 CAP_NIL test_buf_cl).2 with
  | some r => r.2
  | none => test_buf_cl

/-- The state `s` with the buffers `B` in place of its own. -/
def with_buf (s : State) (B : Nat → ipc_buf_t) : State :=
  { s with buf := B }

/-- The buffer `b` is the buffer `a` but for the part of the storage that is
not in use (the bytes from `used` on). -/
def buf_same_used (a b : ipc_buf_t) : Prop :=
  b.state = a.state ∧ b.wait_result = a.wait_result ∧ b.size = a.size ∧ b.used = a.used ∧
  b.in_ep = a.in_ep ∧ b.in_ep_caplist = a.in_ep_caplist ∧ b.buf_label = a.buf_label ∧
  b.ep_label = a.ep_label ∧ ∀ i, i < a.used → b.data i = a.data i

/-- The state `t` is the state `s` but for the storage of buffers outside
their used parts. -/
def same_up_to_unused (s t : State) : Prop :=
  t = with_buf s t.buf ∧ ∀ x, buf_same_used (s.buf x) (t.buf x)

/-- A system call without the contents of the storage that an allocation
hands out. -/
def forget_junk : syscall → syscall
  | syscall.buf_alloc TASK size label bhandle pick slab_ok malloc_ok kobj_ok _ =>
    syscall.buf_alloc TASK size label bhandle pick slab_ok malloc_ok kobj_ok (fun _ => 0)
  | c => c

/-- The calls `c` and `d` are the same call, but for the contents of the
storage that an allocation hands out. -/
def same_call (c d : syscall) : Prop := forget_junk c = forget_junk d

/-- The return values and the final state of a sequence of system calls;
`none` when a call of the sequence is still blocked. -/
def run_calls : List syscall → State → Option (List errno_t × State)
  | [], s => some ([], s)
  | c :: cs, s =>
    match sys_step c s with
    | none => none
    | some r =>
      match run_calls cs r.2 with
      | none => none
      | some rs => some (r.1 :: rs.1, rs.2)

/-- Two outcomes of a system call that agree: both calls are still blocked, or
both have returned the same value in states that differ at most in unused
storage. -/
def same_outcome (a b : Option (errno_t × State)) : Prop :=
  match a, b with
  | some r, some r2 => r2.1 = r.1 ∧ same_up_to_unused r.2 r2.2
  | none, none => True
  | _, _ => False

/-- The calls of the round-trip test with a send of 4 bytes and a finish of 3
bytes, so that most of the storage of the buffer stays unwritten; `junk` is
what that storage holds at the allocation. -/
def test_calls (junk : Nat → Nat) : List syscall :=
  [syscall.buf_alloc 0 16 0x1abe1b 0 (some 1) true true true junk,
   syscall.ep_create 0 1 0x1abe1e CAP_NIL (some 2) true true,
   syscall.cap_alloc 0 2 (some 3),
   syscall.buf_send 0 0 4 1 2 CAP_NIL,
   syscall.buf_receive 0 16 16 3 2 [] 0,
   syscall.buf_finish 0 32 3 3,
   syscall.buf_wait 0 48 16 1 [] false 0]

/-! ## The used part of a buffer -/

/-- Every buffer uses no more than its capacity. -/
def used_within_size (s : State) : Prop :=
  ∀ b, (s.buf b).used ≤ (s.buf b).size

/-- Every system call, without restriction. -/
def any_call (_ : syscall) : Prop := True

/-! ## Theorems -/

/-! ### Reference counting and state frames -/

theorem upd_same {α : Type} (f : Nat → α) (k : Nat) (v : α) : upd f k v k = v := by
  simp [upd]

theorem upd_other {α : Type} (f : Nat → α) (k x : Nat) (v : α) (h : x ≠ k) :
    upd f k v x = f x := by
  simp [upd, h]

theorem upd2_same {α : Type} (f : Nat → Nat → α) (t k : Nat) (v : α) : upd2 f t k v t k = v := by
  simp [upd2]

theorem upd2_other {α : Type} (f : Nat → Nat → α) (t k a b : Nat) (v : α)
    (h : ¬ (a = t ∧ b = k)) : upd2 f t k v a b = f a b := by
  simp only [upd2, if_neg h]

@[simp] theorem kobject_add_ref_caps (k : Nat) (s : State) :
    (kobject_add_ref k s).caps = s.caps := rfl

@[simp] theorem kobject_add_ref_buf (k : Nat) (s : State) :
    (kobject_add_ref k s).buf = s.buf := rfl

@[simp] theorem kobject_add_ref_ep (k : Nat) (s : State) :
    (kobject_add_ref k s).ep = s.ep := rfl

@[simp] theorem kobject_add_ref_caplist (k : Nat) (s : State) :
    (kobject_add_ref k s).caplist = s.caplist := rfl

@[simp] theorem kobject_add_ref_umem (k : Nat) (s : State) :
    (kobject_add_ref k s).umem = s.umem := rfl

@[simp] theorem kobject_add_ref_uhandle (k : Nat) (s : State) :
    (kobject_add_ref k s).uhandle = s.uhandle := rfl

@[simp] theorem kobject_add_ref_urecv (k : Nat) (s : State) :
    (kobject_add_ref k s).urecv = s.urecv := rfl

@[simp] theorem kobject_add_ref_uwait (k : Nat) (s : State) :
    (kobject_add_ref k s).uwait = s.uwait := rfl

@[simp] theorem kobject_add_ref_type (k x : Nat) (s : State) :
    ((kobject_add_ref k s).kobj x).type = (s.kobj x).type := by
  by_cases h : x = k <;> simp [kobject_add_ref, upd, h]

@[simp] theorem kobject_add_ref_in_caplist (k x : Nat) (s : State) :
    ((kobject_add_ref k s).kobj x).in_caplist = (s.kobj x).in_caplist := by
  by_cases h : x = k <;> simp [kobject_add_ref, upd, h]

@[simp] theorem kobject_put_caps (k : Nat) (s : State) :
    (kobject_put k s).caps = s.caps := rfl

@[simp] theorem kobject_put_buf (k : Nat) (s : State) :
    (kobject_put k s).buf = s.buf := rfl

@[simp] theorem kobject_put_ep (k : Nat) (s : State) :
    (kobject_put k s).ep = s.ep := rfl

@[simp] theorem kobject_put_caplist (k : Nat) (s : State) :
    (kobject_put k s).caplist = s.caplist := rfl

@[simp] theorem kobject_put_umem (k : Nat) (s : State) :
    (kobject_put k s).umem = s.umem := rfl

@[simp] theorem kobject_put_uhandle (k : Nat) (s : State) :
    (kobject_put k s).uhandle = s.uhandle := rfl

@[simp] theorem kobject_put_urecv (k : Nat) (s : State) :
    (kobject_put k s).urecv = s.urecv := rfl

@[simp] theorem kobject_put_uwait (k : Nat) (s : State) :
    (kobject_put k s).uwait = s.uwait := rfl

@[simp] theorem kobject_put_type (k x : Nat) (s : State) :
    ((kobject_put k s).kobj x).type = (s.kobj x).type := by
  by_cases h : x = k <;> simp [kobject_put, upd, h]

@[simp] theorem kobject_put_in_caplist (k x : Nat) (s : State) :
    ((kobject_put k s).kobj x).in_caplist = (s.kobj x).in_caplist := by
  by_cases h : x = k <;> simp [kobject_put, upd, h]

theorem kobject_put_add_ref (k : Nat) (s : State) :
    kobject_put k (kobject_add_ref k s) = s := by
  cases s
  simp only [kobject_put, kobject_add_ref, State.mk.injEq, true_and, and_true]
  funext x
  by_cases hx : x = k <;> simp [upd, hx]

/-- Resolution of a handle only reads the capability table and the type tags. -/
theorem cap_resolve_congr {s t : State} (hc : t.caps = s.caps)
    (ht : ∀ x, (t.kobj x).type = (s.kobj x).type) (TASK : Nat) (h : cap_handle_t)
    (ty : kobject_type_t) : cap_resolve TASK h ty t = cap_resolve TASK h ty s := by
  unfold cap_resolve
  rw [hc]
  split <;> simp [ht]

@[simp] theorem cap_resolve_add_ref (k TASK : Nat) (h : cap_handle_t) (ty : kobject_type_t)
    (s : State) : cap_resolve TASK h ty (kobject_add_ref k s) = cap_resolve TASK h ty s :=
  cap_resolve_congr (s := s) (t := kobject_add_ref k s) rfl
    (fun x => kobject_add_ref_type k x s) TASK h ty

@[simp] theorem cap_resolve_put (k TASK : Nat) (h : cap_handle_t) (ty : kobject_type_t)
    (s : State) : cap_resolve TASK h ty (kobject_put k s) = cap_resolve TASK h ty s :=
  cap_resolve_congr (s := s) (t := kobject_put k s) rfl
    (fun x => kobject_put_type k x s) TASK h ty

theorem cap_resolve_type {TASK : Nat} {h : cap_handle_t} {ty : kobject_type_t} {s : State}
    {k : Nat} (hr : cap_resolve TASK h ty s = some k) :
    s.caps TASK h = cap_t.published k ∧ (s.kobj k).type = ty := by
  unfold cap_resolve at hr
  split at hr
  · next k1 hk =>
    by_cases ht : (s.kobj k1).type = ty
    · simp only [ht, if_true, Option.some.injEq] at hr
      subst hr
      exact ⟨hk, ht⟩
    · simp [ht] at hr
  · simp at hr

theorem cap_resolve_of_published {TASK : Nat} {h : cap_handle_t} {ty : kobject_type_t}
    {s : State} {k : Nat} (hc : s.caps TASK h = cap_t.published k) (ht : (s.kobj k).type = ty) :
    cap_resolve TASK h ty s = some k := by
  simp [cap_resolve, hc, ht]

theorem cap_resolve_unpublished {TASK : Nat} {h : cap_handle_t} {s : State}
    (hc : ∀ k, s.caps TASK h ≠ cap_t.published k) (ty : kobject_type_t) :
    cap_resolve TASK h ty s = none := by
  unfold cap_resolve
  split
  · next k hk => exact absurd hk (hc k)
  · rfl

theorem kobject_get_of_resolve {TASK : Nat} {h : cap_handle_t} {ty : kobject_type_t}
    {s : State} {k : Nat} (hr : cap_resolve TASK h ty s = some k) :
    kobject_get TASK h ty s = (some k, kobject_add_ref k s) := by
  simp [kobject_get, hr]

theorem kobject_get_of_not_resolve {TASK : Nat} {h : cap_handle_t} {ty : kobject_type_t}
    {s : State} (hr : cap_resolve TASK h ty s = none) :
    kobject_get TASK h ty s = (none, s) := by
  simp [kobject_get, hr]

theorem cap_unpublish_of_resolve {TASK : Nat} {h : cap_handle_t} {ty : kobject_type_t}
    {s : State} {k : Nat} (hr : cap_resolve TASK h ty s = some k) :
    cap_unpublish TASK h ty s =
      (some k, { s with caps := upd2 s.caps TASK h cap_t.allocated }) := by
  simp [cap_unpublish, hr]

/-! ### Copying into and out of a buffer -/

theorem uspace_range_ok_iff (m : Nat → Option Nat) (addr size : Nat) :
    uspace_range_ok m addr size = true ↔ ∀ i, i < size → (m (addr + i)).isSome = true := by
  simp [uspace_range_ok, List.all_eq_true]

theorem ipc2_copy_to_buf_fail {TASK buf src size : Nat} {s : State}
    (h : (ipc2_copy_to_buf TASK buf src size s).1 ≠ EOK) :
    (ipc2_copy_to_buf TASK buf src size s).2 = s := by
  unfold ipc2_copy_to_buf at *
  by_cases h1 : size > (s.buf buf).size
  · simp [h1]
  · by_cases h2 : (copy_from_uspace TASK (s.buf buf).data src size s).1 = EOK
    · simp [h1, h2] at h
    · simp [h1, h2]

theorem ipc2_copy_to_buf_ok {TASK buf src size : Nat} {s : State}
    (h : (ipc2_copy_to_buf TASK buf src size s).1 = EOK) :
    size ≤ (s.buf buf).size ∧ uspace_range_ok (s.umem TASK) src size = true ∧
    (ipc2_copy_to_buf TASK buf src size s).2 =
      { s with buf := upd s.buf buf { s.buf buf with
          data := fun i => if i < size then (s.umem TASK (src + i)).getD 0 else (s.buf buf).data i,
          used := if size ≠ 0 then size else (s.buf buf).used } } := by
  unfold ipc2_copy_to_buf copy_from_uspace at *
  by_cases h1 : size > (s.buf buf).size
  · simp [h1] at h
  · by_cases h2 : uspace_range_ok (s.umem TASK) src size = true
    · refine ⟨Nat.le_of_not_gt h1, h2, ?_⟩
      by_cases h3 : size = 0
      · subst h3
        simp [h2]
      · simp [h1, h2, h3]
    · simp [h1, h2] at h

theorem ipc2_copy_to_buf_ok_of {TASK buf src size : Nat} {s : State}
    (h1 : size ≤ (s.buf buf).size) (h2 : uspace_range_ok (s.umem TASK) src size = true) :
    (ipc2_copy_to_buf TASK buf src size s).1 = EOK := by
  unfold ipc2_copy_to_buf copy_from_uspace
  simp [Nat.not_lt.mpr h1, h2]

theorem ipc2_copy_to_buf_frame (TASK buf src size : Nat) (s : State) :
    (ipc2_copy_to_buf TASK buf src size s).2.caps = s.caps ∧
    (ipc2_copy_to_buf TASK buf src size s).2.kobj = s.kobj ∧
    (ipc2_copy_to_buf TASK buf src size s).2.ep = s.ep ∧
    (ipc2_copy_to_buf TASK buf src size s).2.caplist = s.caplist ∧
    (ipc2_copy_to_buf TASK buf src size s).2.umem = s.umem ∧
    (ipc2_copy_to_buf TASK buf src size s).2.uhandle = s.uhandle ∧
    (ipc2_copy_to_buf TASK buf src size s).2.urecv = s.urecv ∧
    (ipc2_copy_to_buf TASK buf src size s).2.uwait = s.uwait := by
  by_cases h : (ipc2_copy_to_buf TASK buf src size s).1 = EOK
  · rw [(ipc2_copy_to_buf_ok h).2.2]
    simp
  · rw [ipc2_copy_to_buf_fail h]
    simp

theorem ipc2_copy_to_buf_buf (TASK buf src size x : Nat) (s : State) :
    ((ipc2_copy_to_buf TASK buf src size s).2.buf x).state = (s.buf x).state ∧
    ((ipc2_copy_to_buf TASK buf src size s).2.buf x).wait_result = (s.buf x).wait_result ∧
    ((ipc2_copy_to_buf TASK buf src size s).2.buf x).size = (s.buf x).size ∧
    ((ipc2_copy_to_buf TASK buf src size s).2.buf x).in_ep = (s.buf x).in_ep ∧
    ((ipc2_copy_to_buf TASK buf src size s).2.buf x).in_ep_caplist = (s.buf x).in_ep_caplist ∧
    ((ipc2_copy_to_buf TASK buf src size s).2.buf x).buf_label = (s.buf x).buf_label ∧
    ((ipc2_copy_to_buf TASK buf src size s).2.buf x).ep_label = (s.buf x).ep_label := by
  by_cases h : (ipc2_copy_to_buf TASK buf src size s).1 = EOK
  · rw [(ipc2_copy_to_buf_ok h).2.2]
    by_cases hx : x = buf <;> simp [upd, hx]
  · rw [ipc2_copy_to_buf_fail h]
    simp

/-- What a successful copy-in leaves in the buffer: the payload and its
length. -/
theorem ipc2_copy_to_buf_data {TASK buf src size : Nat} {s : State}
    (h : (ipc2_copy_to_buf TASK buf src size s).1 = EOK) :
    ((ipc2_copy_to_buf TASK buf src size s).2.buf buf).used =
      (if size ≠ 0 then size else (s.buf buf).used) ∧
    ∀ i, i < size → some (((ipc2_copy_to_buf TASK buf src size s).2.buf buf).data i) =
      s.umem TASK (src + i) := by
  obtain ⟨_, hr, he⟩ := ipc2_copy_to_buf_ok h
  rw [he]
  refine ⟨by simp [upd], ?_⟩
  intro i hi
  have := (uspace_range_ok_iff _ _ _).mp hr i hi
  obtain ⟨v, hv⟩ := Option.isSome_iff_exists.mp this
  simp [upd, hi, hv]

theorem ipc2_unpublish_temp_cap_frame (TASK : Nat) (h : cap_handle_t) (s : State) :
    (ipc2_unpublish_temp_cap TASK h s).buf = s.buf ∧
    (ipc2_unpublish_temp_cap TASK h s).ep = s.ep ∧
    (ipc2_unpublish_temp_cap TASK h s).caplist = s.caplist ∧
    (ipc2_unpublish_temp_cap TASK h s).umem = s.umem ∧
    (ipc2_unpublish_temp_cap TASK h s).uhandle = s.uhandle ∧
    (ipc2_unpublish_temp_cap TASK h s).urecv = s.urecv ∧
    (ipc2_unpublish_temp_cap TASK h s).uwait = s.uwait ∧
    (∀ x, ((ipc2_unpublish_temp_cap TASK h s).kobj x).type = (s.kobj x).type) ∧
    (∀ x, ((ipc2_unpublish_temp_cap TASK h s).kobj x).in_caplist = (s.kobj x).in_caplist) := by
  unfold ipc2_unpublish_temp_cap cap_unpublish
  cases hr : cap_resolve TASK h KOBJECT_TYPE_IPC_BUF s <;> simp

theorem ipc2_unpublish_temp_cap_caps {TASK : Nat} {h : cap_handle_t} {s : State} {k : Nat}
    (hr : cap_resolve TASK h KOBJECT_TYPE_IPC_BUF s = some k) :
    (ipc2_unpublish_temp_cap TASK h s).caps = upd2 s.caps TASK h cap_t.allocated := by
  simp [ipc2_unpublish_temp_cap, cap_unpublish, hr]

theorem ipc2_buf_finish_frame (buf : Nat) (rc : errno_t) (s : State) :
    (ipc2_buf_finish buf rc s).caps = s.caps ∧
    (ipc2_buf_finish buf rc s).ep = s.ep ∧
    (ipc2_buf_finish buf rc s).umem = s.umem ∧
    (ipc2_buf_finish buf rc s).uhandle = s.uhandle ∧
    (ipc2_buf_finish buf rc s).urecv = s.urecv ∧
    (ipc2_buf_finish buf rc s).uwait = s.uwait ∧
    (ipc2_buf_finish buf rc s).buf =
      upd s.buf buf { s.buf buf with state := IPC_BUF_FINISHED, wait_result := rc } ∧
    (∀ x, ((ipc2_buf_finish buf rc s).kobj x).type = (s.kobj x).type) ∧
    (∀ x, ((ipc2_buf_finish buf rc s).kobj x).in_caplist = (s.kobj x).in_caplist) := by
  unfold ipc2_buf_finish
  cases hr : (s.kobj buf).in_caplist <;> simp [hr]

theorem ipc2_buf_finish_caplist (buf : Nat) (rc : errno_t) (s : State) :
    (ipc2_buf_finish buf rc s).caplist =
      match (s.kobj buf).in_caplist with
      | some c => upd s.caplist c { s.caplist c with queue := (s.caplist c).queue ++ [buf] }
      | none => s.caplist := by
  unfold ipc2_buf_finish
  cases hr : (s.kobj buf).in_caplist <;> simp [hr]

/-- A finish that returns `EOK`: what it required and the state it leaves. -/
theorem sys_ipc2_buf_finish_ok {TASK src size : Nat} {bhandle : cap_handle_t} {s t : State}
    (h : sys_ipc2_buf_finish TASK src size bhandle s = (EOK, t)) :
    ∃ buf, cap_resolve TASK bhandle KOBJECT_TYPE_IPC_BUF s = some buf ∧
      (s.buf buf).state = IPC_BUF_PENDING ∧ (s.buf buf).in_ep = none ∧
      (s.buf buf).in_ep_caplist = none ∧
      (ipc2_copy_to_buf TASK buf src size (kobject_add_ref buf s)).1 = EOK ∧
      t = kobject_put buf (ipc2_buf_finish buf EOK (ipc2_unpublish_temp_cap TASK bhandle
        (ipc2_copy_to_buf TASK buf src size (kobject_add_ref buf s)).2)) := by
  unfold sys_ipc2_buf_finish at h
  cases hr : cap_resolve TASK bhandle KOBJECT_TYPE_IPC_BUF s with
  | none => simp [kobject_get_of_not_resolve hr] at h
  | some buf =>
    refine ⟨buf, rfl, ?_⟩
    simp only [kobject_get_of_resolve hr, ipc2_buf_finish_check, kobject_add_ref_buf] at h
    by_cases hst : (s.buf buf).state = IPC_BUF_PENDING
    · by_cases hq : (s.buf buf).in_ep.isSome = true ∨ (s.buf buf).in_ep_caplist.isSome = true
      · simp [hst, hq] at h
      · have hq1 := hq
        simp only [not_or, Bool.not_eq_true, Option.not_isSome, Option.isNone_iff_eq_none] at hq1
        by_cases hc : (ipc2_copy_to_buf TASK buf src size (kobject_add_ref buf s)).1 = EOK
        · have hst2 := (ipc2_copy_to_buf_buf TASK buf src size buf (kobject_add_ref buf s)).1
          simp only [kobject_add_ref_buf] at hst2
          simp [hst, hq, hc, hst2] at h
          exact ⟨hst, hq1.1, hq1.2, hc, h.symm⟩
        · simp [hst, hq, hc] at h
    · simp [hst] at h

/-- A finish on a resolvable buffer that fails its check changes nothing. -/
theorem sys_ipc2_buf_finish_refused {TASK src size : Nat} {bhandle : cap_handle_t} {s : State}
    {buf : Nat} (hr : cap_resolve TASK bhandle KOBJECT_TYPE_IPC_BUF s = some buf)
    (hc : ipc2_buf_finish_check buf s ≠ EOK) :
    sys_ipc2_buf_finish TASK src size bhandle s = (ipc2_buf_finish_check buf s, s) := by
  have hc2 : ipc2_buf_finish_check buf (kobject_add_ref buf s) = ipc2_buf_finish_check buf s := rfl
  simp [sys_ipc2_buf_finish, kobject_get_of_resolve hr, hc2, hc, kobject_put_add_ref]

/-! ### Send -/

theorem caplist_add_ok {cl k : Nat} {s : State} (h : (s.kobj k).in_caplist = none) :
    caplist_add cl k s = (EOK, kobject_add_ref k
      { s with kobj := upd s.kobj k { s.kobj k with in_caplist := some cl },
               caplist := upd s.caplist cl
                 { s.caplist cl with objects := (s.caplist cl).objects ++ [k] } }) := by
  simp [caplist_add, h]

theorem caplist_add_frame (cl k : Nat) (s : State) :
    (caplist_add cl k s).2.caps = s.caps ∧
    (caplist_add cl k s).2.buf = s.buf ∧
    (caplist_add cl k s).2.ep = s.ep ∧
    (caplist_add cl k s).2.umem = s.umem ∧
    (caplist_add cl k s).2.uhandle = s.uhandle ∧
    (caplist_add cl k s).2.urecv = s.urecv ∧
    (caplist_add cl k s).2.uwait = s.uwait ∧
    (∀ x, ((caplist_add cl k s).2.kobj x).type = (s.kobj x).type) ∧
    (∀ x, ((caplist_add cl k s).2.caplist x).type = (s.caplist x).type) ∧
    (∀ x, ((caplist_add cl k s).2.caplist x).queue = (s.caplist x).queue) := by
  cases h : (s.kobj k).in_caplist with
  | some c => simp [caplist_add, h]
  | none =>
    rw [caplist_add_ok h]
    simp only [kobject_add_ref_caps, kobject_add_ref_buf, kobject_add_ref_ep,
      kobject_add_ref_umem, kobject_add_ref_uhandle, kobject_add_ref_urecv,
      kobject_add_ref_uwait, kobject_add_ref_type, kobject_add_ref_caplist, true_and]
    refine ⟨?_, ?_, ?_⟩ <;> intro x
    · by_cases hx : x = k <;> simp [upd, hx]
    · by_cases hx : x = cl <;> simp [upd, hx]
    · by_cases hx : x = cl <;> simp [upd, hx]

theorem caplist_add_member {cl k : Nat} {s : State} (h : (s.kobj k).in_caplist = none) :
    (caplist_add cl k s).1 = EOK ∧
    (∀ x, ((caplist_add cl k s).2.kobj x).in_caplist =
      if x = k then some cl else (s.kobj x).in_caplist) ∧
    (∀ x, ((caplist_add cl k s).2.caplist x).objects =
      if x = cl then (s.caplist x).objects ++ [k] else (s.caplist x).objects) := by
  rw [caplist_add_ok h]
  simp only [kobject_add_ref_in_caplist, kobject_add_ref_caplist, true_and]
  constructor <;> intro x
  · by_cases hx : x = k <;> simp [upd, hx, h]
  · by_cases hx : x = cl <;> simp [upd, hx]

theorem caplist_add_in_caplist (cl k x : Nat) (s : State) :
    ((caplist_add cl k s).2.kobj x).in_caplist =
      if x = k ∧ (s.kobj k).in_caplist = none then some cl else (s.kobj x).in_caplist := by
  cases h : (s.kobj k).in_caplist with
  | some c => simp [caplist_add, h]
  | none =>
    rw [(caplist_add_member h).2.1]
    by_cases hx : x = k <;> simp [hx]

theorem caplist_add_objects (cl k x : Nat) (s : State) :
    ((caplist_add cl k s).2.caplist x).objects =
      if x = cl ∧ (s.kobj k).in_caplist = none then (s.caplist x).objects ++ [k]
      else (s.caplist x).objects := by
  cases h : (s.kobj k).in_caplist with
  | some c => simp [caplist_add, h]
  | none =>
    rw [(caplist_add_member h).2.2]
    by_cases hx : x = cl <;> simp [hx]

theorem ipc2_unpublish_temp_cap_caps_eq (TASK : Nat) (h : cap_handle_t) (s : State) :
    (ipc2_unpublish_temp_cap TASK h s).caps =
      if (cap_resolve TASK h KOBJECT_TYPE_IPC_BUF s).isSome then
        upd2 s.caps TASK h cap_t.allocated
      else s.caps := by
  cases hr : cap_resolve TASK h KOBJECT_TYPE_IPC_BUF s <;>
    simp [ipc2_unpublish_temp_cap, cap_unpublish, hr]

theorem sys_ipc2_buf_send_prepare_frame (TASK : Nat) (bhandle : cap_handle_t) (buf ep : Nat)
    (cl : Option Nat) (s : State) :
    (sys_ipc2_buf_send_prepare TASK bhandle buf ep cl s).ep = s.ep ∧
    (sys_ipc2_buf_send_prepare TASK bhandle buf ep cl s).umem = s.umem ∧
    (sys_ipc2_buf_send_prepare TASK bhandle buf ep cl s).uhandle = s.uhandle ∧
    (sys_ipc2_buf_send_prepare TASK bhandle buf ep cl s).urecv = s.urecv ∧
    (sys_ipc2_buf_send_prepare TASK bhandle buf ep cl s).uwait = s.uwait ∧
    (sys_ipc2_buf_send_prepare TASK bhandle buf ep cl s).buf =
      upd s.buf buf { s.buf buf with state := IPC_BUF_PENDING, ep_label := (s.ep ep).label } ∧
    (∀ x, ((sys_ipc2_buf_send_prepare TASK bhandle buf ep cl s).kobj x).type =
      (s.kobj x).type) ∧
    (∀ x, ((sys_ipc2_buf_send_prepare TASK bhandle buf ep cl s).caplist x).type =
      (s.caplist x).type) ∧
    (∀ x, ((sys_ipc2_buf_send_prepare TASK bhandle buf ep cl s).caplist x).queue =
      (s.caplist x).queue) := by
  unfold sys_ipc2_buf_send_prepare
  cases cl <;> dsimp only <;> split <;>
    simp [ipc2_unpublish_temp_cap_frame, caplist_add_frame]

theorem sys_ipc2_buf_send_prepare_caps (TASK : Nat) (bhandle : cap_handle_t) (buf ep : Nat)
    (cl : Option Nat) (s : State) :
    (sys_ipc2_buf_send_prepare TASK bhandle buf ep cl s).caps =
      if (s.buf buf).state = IPC_BUF_PENDING ∧
          (cap_resolve TASK bhandle KOBJECT_TYPE_IPC_BUF s).isSome then
        upd2 s.caps TASK bhandle cap_t.allocated
      else s.caps := by
  have hres : ∀ c, cap_resolve TASK bhandle KOBJECT_TYPE_IPC_BUF (caplist_add c buf s).2 =
      cap_resolve TASK bhandle KOBJECT_TYPE_IPC_BUF s := fun c =>
    cap_resolve_congr (s := s) (t := (caplist_add c buf s).2) (caplist_add_frame c buf s).1
      (caplist_add_frame c buf s).2.2.2.2.2.2.2.1 _ _ _
  unfold sys_ipc2_buf_send_prepare
  cases cl <;> dsimp only <;> split <;>
    simp_all [ipc2_unpublish_temp_cap_caps_eq, caplist_add_frame]

theorem sys_ipc2_buf_send_prepare_member (TASK : Nat) (bhandle : cap_handle_t) (buf ep : Nat)
    (cl : Option Nat) (s : State) :
    (∀ x, ((sys_ipc2_buf_send_prepare TASK bhandle buf ep cl s).kobj x).in_caplist =
      match cl with
      | some c => if x = buf ∧ (s.kobj buf).in_caplist = none then some c
        else (s.kobj x).in_caplist
      | none => (s.kobj x).in_caplist) ∧
    (∀ x, ((sys_ipc2_buf_send_prepare TASK bhandle buf ep cl s).caplist x).objects =
      match cl with
      | some c => if x = c ∧ (s.kobj buf).in_caplist = none then (s.caplist x).objects ++ [buf]
        else (s.caplist x).objects
      | none => (s.caplist x).objects) := by
  unfold sys_ipc2_buf_send_prepare
  constructor <;> intro x <;> cases cl <;> dsimp only <;> split <;>
    simp [ipc2_unpublish_temp_cap_frame, caplist_add_in_caplist, caplist_add_objects]

theorem sys_ipc2_buf_send_enqueue_cl {buf ep c : Nat} {s : State}
    (h : (s.kobj ep).in_caplist = some c) :
    sys_ipc2_buf_send_enqueue buf ep s =
      { kobject_add_ref buf s with
        caplist := upd s.caplist c { s.caplist c with queue := (s.caplist c).queue ++ [buf] },
        buf := upd s.buf buf { s.buf buf with in_ep_caplist := some c } } := by
  simp [sys_ipc2_buf_send_enqueue, h]

theorem sys_ipc2_buf_send_enqueue_ep {buf ep : Nat} {s : State}
    (h : (s.kobj ep).in_caplist = none) :
    sys_ipc2_buf_send_enqueue buf ep s =
      { kobject_add_ref buf s with
        ep := upd s.ep ep { s.ep ep with buffers := (s.ep ep).buffers ++ [buf] },
        buf := upd s.buf buf { s.buf buf with in_ep := some ep } } := by
  simp [sys_ipc2_buf_send_enqueue, h]

theorem sys_ipc2_buf_send_enqueue_frame (buf ep : Nat) (s : State) :
    (sys_ipc2_buf_send_enqueue buf ep s).caps = s.caps ∧
    (sys_ipc2_buf_send_enqueue buf ep s).umem = s.umem ∧
    (sys_ipc2_buf_send_enqueue buf ep s).uhandle = s.uhandle ∧
    (sys_ipc2_buf_send_enqueue buf ep s).urecv = s.urecv ∧
    (sys_ipc2_buf_send_enqueue buf ep s).uwait = s.uwait ∧
    (∀ x, ((sys_ipc2_buf_send_enqueue buf ep s).kobj x).type = (s.kobj x).type) ∧
    (∀ x, ((sys_ipc2_buf_send_enqueue buf ep s).kobj x).in_caplist = (s.kobj x).in_caplist) ∧
    (∀ x, ((sys_ipc2_buf_send_enqueue buf ep s).caplist x).type = (s.caplist x).type) ∧
    (∀ x, ((sys_ipc2_buf_send_enqueue buf ep s).caplist x).objects = (s.caplist x).objects) ∧
    (∀ x, ((sys_ipc2_buf_send_enqueue buf ep s).ep x).label = (s.ep x).label) ∧
    (∀ x, x ≠ buf → (sys_ipc2_buf_send_enqueue buf ep s).buf x = s.buf x) := by
  cases h : (s.kobj ep).in_caplist with
  | some c =>
    rw [sys_ipc2_buf_send_enqueue_cl h]
    simp only [kobject_add_ref_caps, kobject_add_ref_umem, kobject_add_ref_uhandle,
      kobject_add_ref_urecv, kobject_add_ref_uwait, kobject_add_ref_type,
      kobject_add_ref_in_caplist, kobject_add_ref_ep, implies_true, true_and]
    refine ⟨?_, ?_, ?_⟩
    · intro x; by_cases hx : x = c <;> simp [upd, hx]
    · intro x; by_cases hx : x = c <;> simp [upd, hx]
    · intro x hx; simp [upd, hx]
  | none =>
    rw [sys_ipc2_buf_send_enqueue_ep h]
    simp only [kobject_add_ref_caps, kobject_add_ref_umem, kobject_add_ref_uhandle,
      kobject_add_ref_urecv, kobject_add_ref_uwait, kobject_add_ref_type,
      kobject_add_ref_in_caplist, kobject_add_ref_caplist, implies_true, true_and]
    refine ⟨?_, ?_⟩
    · intro x; by_cases hx : x = ep <;> simp [upd, hx]
    · intro x hx; simp [upd, hx]

theorem ipc2_buf_send_check_ok {buf : Nat} {cl : Option Nat} {s : State}
    (h : ipc2_buf_send_check buf cl s = EOK) :
    (s.buf buf).state ≠ IPC_BUF_FINISHED ∧ (s.buf buf).in_ep = none ∧
    (s.buf buf).in_ep_caplist = none ∧
    (cl.isSome = true → (s.buf buf).state = IPC_BUF_READY ∧ (s.kobj buf).in_caplist = none) := by
  unfold ipc2_buf_send_check at h
  by_cases h1 : (s.buf buf).state = IPC_BUF_FINISHED
  · simp [h1] at h
  · by_cases h2 : (s.buf buf).in_ep.isSome = true ∨ (s.buf buf).in_ep_caplist.isSome = true
    · simp [h1, h2] at h
    · have h2a := h2
      simp only [not_or, Bool.not_eq_true, Option.not_isSome, Option.isNone_iff_eq_none] at h2a
      refine ⟨h1, h2a.1, h2a.2, ?_⟩
      intro hcl
      simp only [h1, h2, hcl, if_false, if_true] at h
      by_cases h3 : (s.buf buf).state = IPC_BUF_READY ∧ (s.kobj buf).in_caplist.isSome = true
      · simp [h3] at h
      · by_cases h4 : (s.buf buf).state = IPC_BUF_PENDING
        · simp [h3, h4] at h
        · have hr : (s.buf buf).state = IPC_BUF_READY := by
            cases hs : (s.buf buf).state <;> simp_all
          refine ⟨hr, ?_⟩
          simp only [hr, true_and, Bool.not_eq_true, Option.not_isSome,
            Option.isNone_iff_eq_none] at h3
          exact h3

theorem ipc2_buf_send_check_congr {s t : State} (hb : t.buf = s.buf)
    (hk : ∀ x, (t.kobj x).in_caplist = (s.kobj x).in_caplist) (buf : Nat) (cl : Option Nat) :
    ipc2_buf_send_check buf cl t = ipc2_buf_send_check buf cl s := by
  unfold ipc2_buf_send_check
  rw [hb, hk]

theorem ipc2_copy_to_buf_congr_fst {s t : State} (hb : t.buf = s.buf) (hu : t.umem = s.umem)
    (TASK buf src size : Nat) :
    (ipc2_copy_to_buf TASK buf src size t).1 = (ipc2_copy_to_buf TASK buf src size s).1 := by
  unfold ipc2_copy_to_buf copy_from_uspace
  rw [hb, hu]
  by_cases h1 : size > (s.buf buf).size
  · simp [h1]
  · by_cases h2 : uspace_range_ok (s.umem TASK) src size = true <;> simp [h1, h2]

theorem sys_ipc2_buf_send_locked_fail {TASK src size : Nat} {bhandle : cap_handle_t}
    {buf ep : Nat} {cl : Option Nat} {s : State}
    (h : (sys_ipc2_buf_send_locked TASK src size bhandle buf ep cl s).1 ≠ EOK) :
    (sys_ipc2_buf_send_locked TASK src size bhandle buf ep cl s).2 = s := by
  unfold sys_ipc2_buf_send_locked at *
  by_cases hc : ipc2_buf_send_check buf cl s = EOK
  · by_cases hp : (ipc2_copy_to_buf TASK buf src size s).1 = EOK
    · simp [hc, hp] at h
    · simp [hc, hp, ipc2_copy_to_buf_fail hp]
  · simp [hc]

theorem sys_ipc2_buf_send_locked_rc (TASK src size : Nat) (bhandle : cap_handle_t)
    (buf ep : Nat) (cl : Option Nat) (s : State) :
    (sys_ipc2_buf_send_locked TASK src size bhandle buf ep cl s).1 =
      if ipc2_buf_send_check buf cl s = EOK then (ipc2_copy_to_buf TASK buf src size s).1
      else ipc2_buf_send_check buf cl s := by
  unfold sys_ipc2_buf_send_locked
  by_cases hc : ipc2_buf_send_check buf cl s = EOK
  · by_cases hp : (ipc2_copy_to_buf TASK buf src size s).1 = EOK <;> simp [hc, hp]
  · simp [hc]

theorem sys_ipc2_buf_send_locked_eq {TASK src size : Nat} {bhandle : cap_handle_t}
    {buf ep : Nat} {cl : Option Nat} {s : State}
    (h : (sys_ipc2_buf_send_locked TASK src size bhandle buf ep cl s).1 = EOK) :
    ipc2_buf_send_check buf cl s = EOK ∧ (ipc2_copy_to_buf TASK buf src size s).1 = EOK ∧
    (sys_ipc2_buf_send_locked TASK src size bhandle buf ep cl s).2 =
      sys_ipc2_buf_send_commit TASK bhandle buf ep cl
        (ipc2_copy_to_buf TASK buf src size s).2 := by
  have hrc := sys_ipc2_buf_send_locked_rc TASK src size bhandle buf ep cl s
  by_cases hc : ipc2_buf_send_check buf cl s = EOK
  · rw [h, if_pos hc] at hrc
    refine ⟨hc, hrc.symm, ?_⟩
    unfold sys_ipc2_buf_send_locked
    simp [hc, hrc.symm]
  · rw [h, if_neg hc] at hrc
    exact absurd hrc.symm hc

/-- Effect of the locked part of a send that returns `EOK`, on every
component of the state but the reference counts. -/
theorem sys_ipc2_buf_send_locked_ok {TASK src size : Nat} {bhandle : cap_handle_t}
    {buf ep : Nat} {cl : Option Nat} {s t : State}
    (h : sys_ipc2_buf_send_locked TASK src size bhandle buf ep cl s = (EOK, t))
    (hne : ep ≠ buf) :
    (t.umem = s.umem ∧ t.uhandle = s.uhandle ∧ t.urecv = s.urecv ∧ t.uwait = s.uwait) ∧
    (t.caps = if (s.buf buf).state = IPC_BUF_PENDING ∧
        (cap_resolve TASK bhandle KOBJECT_TYPE_IPC_BUF s).isSome then
          upd2 s.caps TASK bhandle cap_t.allocated else s.caps) ∧
    (∀ x, x ≠ buf → t.buf x = s.buf x) ∧
    (t.buf buf = { s.buf buf with
        state := IPC_BUF_PENDING, ep_label := (s.ep ep).label,
        data := fun i => if i < size then (s.umem TASK (src + i)).getD 0 else (s.buf buf).data i,
        used := if size ≠ 0 then size else (s.buf buf).used,
        in_ep := if (s.kobj ep).in_caplist = none then some ep else none,
        in_ep_caplist := (s.kobj ep).in_caplist }) ∧
    (∀ x, (t.ep x).label = (s.ep x).label) ∧
    (∀ x, (t.ep x).buffers = if x = ep ∧ (s.kobj ep).in_caplist = none then
        (s.ep x).buffers ++ [buf] else (s.ep x).buffers) ∧
    (∀ x, (t.caplist x).type = (s.caplist x).type) ∧
    (∀ x, (t.caplist x).queue = if (s.kobj ep).in_caplist = some x then
        (s.caplist x).queue ++ [buf] else (s.caplist x).queue) ∧
    (∀ x, (t.caplist x).objects = if cl = some x then (s.caplist x).objects ++ [buf]
        else (s.caplist x).objects) ∧
    (∀ x, (t.kobj x).type = (s.kobj x).type) ∧
    (∀ x, (t.kobj x).in_caplist = if x = buf ∧ cl.isSome then cl else (s.kobj x).in_caplist) := by
  have h1 : (sys_ipc2_buf_send_locked TASK src size bhandle buf ep cl s).1 = EOK := by rw [h]
  have h2 : (sys_ipc2_buf_send_locked TASK src size bhandle buf ep cl s).2 = t := by rw [h]
  obtain ⟨hchk, hcp, heq⟩ := sys_ipc2_buf_send_locked_eq h1
  rw [h2] at heq
  obtain ⟨hnf, hin, hincl, hclq⟩ := ipc2_buf_send_check_ok hchk
  obtain ⟨_, _, hc0⟩ := ipc2_copy_to_buf_ok hcp
  obtain ⟨c0caps, c0kobj, c0ep, c0cl, c0umem, c0uh, c0ur, c0uw⟩ :=
    ipc2_copy_to_buf_frame TASK buf src size s
  generalize hc0d : (ipc2_copy_to_buf TASK buf src size s).2 = c0 at *
  have c0buf : c0.buf = upd s.buf buf { s.buf buf with
      data := fun i => if i < size then (s.umem TASK (src + i)).getD 0 else (s.buf buf).data i,
      used := if size ≠ 0 then size else (s.buf buf).used } := by rw [hc0]
  have c0res : cap_resolve TASK bhandle KOBJECT_TYPE_IPC_BUF c0 =
      cap_resolve TASK bhandle KOBJECT_TYPE_IPC_BUF s :=
    cap_resolve_congr (s := s) (t := c0) c0caps (fun x => by rw [c0kobj]) _ _ _
  obtain ⟨pep, pumem, puh, pur, puw, pbuf, ptype, pcltype, pqueue⟩ :=
    sys_ipc2_buf_send_prepare_frame TASK bhandle buf ep cl c0
  have pcaps := sys_ipc2_buf_send_prepare_caps TASK bhandle buf ep cl c0
  obtain ⟨pin, pobj⟩ := sys_ipc2_buf_send_prepare_member TASK bhandle buf ep cl c0
  generalize hpd : sys_ipc2_buf_send_prepare TASK bhandle buf ep cl c0 = p at *
  have pinep : (p.kobj ep).in_caplist = (s.kobj ep).in_caplist := by
    rw [pin ep]
    cases cl <;> simp [hne, c0kobj]
  obtain ⟨ecaps, eumem, euh, eur, euw, etype, ein, ecltype, eobj, elabel, ebuf⟩ :=
    sys_ipc2_buf_send_enqueue_frame buf ep p
  have heq2 : t = sys_ipc2_buf_send_enqueue buf ep p := by
    rw [heq, sys_ipc2_buf_send_commit, hpd]
  rw [← heq2] at ecaps eumem euh eur euw etype ein ecltype eobj elabel ebuf
  have c0state : (c0.buf buf).state = (s.buf buf).state := by rw [c0buf]; simp [upd]
  refine ⟨⟨by rw [eumem, pumem, c0umem], by rw [euh, puh, c0uh], by rw [eur, pur, c0ur],
    by rw [euw, puw, c0uw]⟩, ?_, ?_, ?_, ?_, ?_, ?_, ?_, ?_, ?_, ?_⟩
  · rw [ecaps, pcaps, c0state, c0res, c0caps]
  · intro x hx
    rw [ebuf x hx, pbuf, c0buf]
    simp [upd, hx]
  · cases hcl : (s.kobj ep).in_caplist with
    | some c =>
      rw [heq2, sys_ipc2_buf_send_enqueue_cl (pinep.trans hcl)]
      simp [upd, pbuf, c0buf, c0ep, hin, hincl]
    | none =>
      rw [heq2, sys_ipc2_buf_send_enqueue_ep (pinep.trans hcl)]
      simp [upd, pbuf, c0buf, c0ep, hin, hincl]
  · intro x
    rw [elabel, pep, c0ep]
  · intro x
    cases hcl : (s.kobj ep).in_caplist with
    | some c =>
      rw [heq2, sys_ipc2_buf_send_enqueue_cl (pinep.trans hcl)]
      simp [pep, c0ep]
    | none =>
      rw [heq2, sys_ipc2_buf_send_enqueue_ep (pinep.trans hcl)]
      by_cases hx : x = ep <;> simp [upd, hx, pep, c0ep]
  · intro x
    rw [ecltype, pcltype, c0cl]
  · intro x
    cases hcl : (s.kobj ep).in_caplist with
    | some c =>
      rw [heq2, sys_ipc2_buf_send_enqueue_cl (pinep.trans hcl)]
      by_cases hx : x = c
      · subst hx; simp [upd, pqueue, c0cl]
      · have hx2 : ¬ c = x := fun h => hx h.symm
        simp [upd, hx, hx2, pqueue, c0cl]
    | none =>
      rw [heq2, sys_ipc2_buf_send_enqueue_ep (pinep.trans hcl)]
      simp [pqueue, c0cl]
  · intro x
    rw [eobj, pobj, c0cl, c0kobj]
    cases cl with
    | none => simp
    | some c =>
      have := (hclq rfl).2
      by_cases hx : x = c
      · subst hx; simp [this]
      · have hx2 : ¬ c = x := fun h => hx h.symm
        simp [hx, hx2]
  · intro x
    rw [etype, ptype, c0kobj]
  · intro x
    rw [ein, pin, c0kobj]
    cases cl with
    | none => simp
    | some c =>
      have := (hclq rfl).2
      simp [this]

/-- A send that returns `EOK`: the objects it resolved, what it required, and
its effect on every component of the state but the reference counts. -/
theorem sys_ipc2_buf_send_ok {TASK src size : Nat} {bhandle ehandle clhandle : cap_handle_t}
    {s t : State} (h : sys_ipc2_buf_send TASK src size bhandle ehandle clhandle s = (EOK, t)) :
    ∃ buf ep cl, cap_resolve TASK bhandle KOBJECT_TYPE_IPC_BUF s = some buf ∧
    cap_resolve TASK ehandle KOBJECT_TYPE_IPC_EP s = some ep ∧
    (cl = if clhandle ≠ CAP_NIL then cap_resolve TASK clhandle KOBJECT_TYPE_CAPLIST s
      else none) ∧
    ipc2_buf_send_check buf cl s = EOK ∧ size ≤ (s.buf buf).size ∧
    uspace_range_ok (s.umem TASK) src size = true ∧
    (t.umem = s.umem ∧ t.uhandle = s.uhandle ∧ t.urecv = s.urecv ∧ t.uwait = s.uwait) ∧
    (t.caps = if (s.buf buf).state = IPC_BUF_PENDING then
          upd2 s.caps TASK bhandle cap_t.allocated else s.caps) ∧
    (∀ x, x ≠ buf → t.buf x = s.buf x) ∧
    (t.buf buf = { s.buf buf with
        state := IPC_BUF_PENDING, ep_label := (s.ep ep).label,
        data := fun i => if i < size then (s.umem TASK (src + i)).getD 0 else (s.buf buf).data i,
        used := if size ≠ 0 then size else (s.buf buf).used,
        in_ep := if (s.kobj ep).in_caplist = none then some ep else none,
        in_ep_caplist := (s.kobj ep).in_caplist }) ∧
    (∀ x, (t.ep x).label = (s.ep x).label) ∧
    (∀ x, (t.ep x).buffers = if x = ep ∧ (s.kobj ep).in_caplist = none then
        (s.ep x).buffers ++ [buf] else (s.ep x).buffers) ∧
    (∀ x, (t.caplist x).type = (s.caplist x).type) ∧
    (∀ x, (t.caplist x).queue = if (s.kobj ep).in_caplist = some x then
        (s.caplist x).queue ++ [buf] else (s.caplist x).queue) ∧
    (∀ x, (t.caplist x).objects = if cl = some x then (s.caplist x).objects ++ [buf]
        else (s.caplist x).objects) ∧
    (∀ x, (t.kobj x).type = (s.kobj x).type) ∧
    (∀ x, (t.kobj x).in_caplist = if x = buf ∧ cl.isSome then cl else (s.kobj x).in_caplist) := by
  unfold sys_ipc2_buf_send at h
  cases hb : cap_resolve TASK bhandle KOBJECT_TYPE_IPC_BUF s with
  | none => simp [kobject_get_of_not_resolve hb] at h
  | some buf =>
    have hbt := (cap_resolve_type hb).2
    rw [kobject_get_of_resolve hb] at h
    dsimp only at h
    cases he : cap_resolve TASK ehandle KOBJECT_TYPE_IPC_EP s with
    | none =>
      have he1 : cap_resolve TASK ehandle KOBJECT_TYPE_IPC_EP (kobject_add_ref buf s) = none := by
        simpa using he
      simp [kobject_get_of_not_resolve he1] at h
    | some ep =>
      have he1 : cap_resolve TASK ehandle KOBJECT_TYPE_IPC_EP (kobject_add_ref buf s) = some ep := by
        simpa using he
      have het := (cap_resolve_type he).2
      have hne : ep ≠ buf := by
        intro hx
        rw [hx, hbt] at het
        exact absurd het (by decide)
      rw [kobject_get_of_resolve he1] at h
      dsimp only at h
      by_cases hnil : clhandle ≠ CAP_NIL
      · rw [if_pos hnil] at h
        cases hc : cap_resolve TASK clhandle KOBJECT_TYPE_CAPLIST s with
        | none =>
          have hc1 : cap_resolve TASK clhandle KOBJECT_TYPE_CAPLIST
              (kobject_add_ref ep (kobject_add_ref buf s)) = none := by simpa using hc
          simp [kobject_get_of_not_resolve hc1] at h
        | some cl =>
          have hc1 : cap_resolve TASK clhandle KOBJECT_TYPE_CAPLIST
              (kobject_add_ref ep (kobject_add_ref buf s)) = some cl := by simpa using hc
          rw [kobject_get_of_resolve hc1] at h
          dsimp only at h
          generalize hr : sys_ipc2_buf_send_locked TASK src size bhandle buf ep (some cl)
            (kobject_add_ref cl (kobject_add_ref ep (kobject_add_ref buf s))) = r at h
          obtain ⟨r1, r2⟩ := r
          simp only [Prod.mk.injEq] at h
          obtain ⟨hrc1, hst⟩ := h
          subst hrc1
          have hrc := congrArg Prod.fst hr
          have hl := sys_ipc2_buf_send_locked_ok hr hne
          obtain ⟨hchk, hcp, _⟩ := sys_ipc2_buf_send_locked_eq hrc
          obtain ⟨hsz, hrg, _⟩ := ipc2_copy_to_buf_ok hcp
          refine ⟨buf, ep, some cl, rfl, rfl, by simp [hnil], ?_, by simpa using hsz,
            by simpa using hrg, ?_⟩
          · rw [← hchk]
            exact (ipc2_buf_send_check_congr (s := s)
              (t := kobject_add_ref cl (kobject_add_ref ep (kobject_add_ref buf s)))
              rfl (by simp) buf (some cl)).symm
          · subst hst
            simpa [hb] using hl
      · rw [if_neg hnil] at h
        generalize hr : sys_ipc2_buf_send_locked TASK src size bhandle buf ep none
          (kobject_add_ref ep (kobject_add_ref buf s)) = r at h
        obtain ⟨r1, r2⟩ := r
        simp only [Prod.mk.injEq] at h
        obtain ⟨hrc1, hst⟩ := h
        subst hrc1
        have hrc := congrArg Prod.fst hr
        have hl := sys_ipc2_buf_send_locked_ok hr hne
        obtain ⟨hchk, hcp, _⟩ := sys_ipc2_buf_send_locked_eq hrc
        obtain ⟨hsz, hrg, _⟩ := ipc2_copy_to_buf_ok hcp
        refine ⟨buf, ep, none, rfl, rfl, by simp [hnil], ?_, by simpa using hsz,
          by simpa using hrg, ?_⟩
        · rw [← hchk]
          exact (ipc2_buf_send_check_congr (s := s)
            (t := kobject_add_ref ep (kobject_add_ref buf s))
            rfl (by simp) buf none).symm
        · subst hst
          simpa [hb] using hl

/-! ### Receive and wait -/

theorem copy_to_uspace_ok {TASK dst : Nat} {src : Nat → Nat} {size : Nat} {s : State}
    (h : (copy_to_uspace TASK dst src size s).1 = EOK) :
    uspace_range_ok (s.umem TASK) dst size = true ∧
    (copy_to_uspace TASK dst src size s).2 = { s with umem := fun t a =>
      if t = TASK ∧ dst ≤ a ∧ a < dst + size then some (src (a - dst)) else s.umem t a } := by
  unfold copy_to_uspace at *
  by_cases hr : uspace_range_ok (s.umem TASK) dst size = true
  · simp [hr]
  · simp [hr] at h

theorem copy_to_uspace_fail {TASK dst : Nat} {src : Nat → Nat} {size : Nat} {s : State}
    (h : (copy_to_uspace TASK dst src size s).1 ≠ EOK) :
    (copy_to_uspace TASK dst src size s).2 = s := by
  unfold copy_to_uspace at *
  by_cases hr : uspace_range_ok (s.umem TASK) dst size = true
  · simp [hr] at h
  · simp [hr]

theorem ipc2_copy_from_buf_eq (TASK buf dst size : Nat) (s : State) :
    ipc2_copy_from_buf TASK buf dst size s =
      copy_to_uspace TASK dst (s.buf buf).data
        (if size > (s.buf buf).used then (s.buf buf).used else size) s := by
  unfold ipc2_copy_from_buf
  dsimp only
  generalize copy_to_uspace TASK dst (s.buf buf).data
    (if size > (s.buf buf).used then (s.buf buf).used else size) s = r
  obtain ⟨r1, r2⟩ := r
  by_cases h : r1 = EOK <;> simp [h]

theorem ipc2_copy_from_buf_fail {TASK buf dst size : Nat} {s : State}
    (h : (ipc2_copy_from_buf TASK buf dst size s).1 ≠ EOK) :
    (ipc2_copy_from_buf TASK buf dst size s).2 = s := by
  rw [ipc2_copy_from_buf_eq] at *
  exact copy_to_uspace_fail h

/-- A successful copy-out writes the first `min size used` bytes of the buffer
at `dst` and nothing else. -/
theorem ipc2_copy_from_buf_ok {TASK buf dst size : Nat} {s : State}
    (h : (ipc2_copy_from_buf TASK buf dst size s).1 = EOK) :
    (ipc2_copy_from_buf TASK buf dst size s).2.caps = s.caps ∧
    (ipc2_copy_from_buf TASK buf dst size s).2.kobj = s.kobj ∧
    (ipc2_copy_from_buf TASK buf dst size s).2.buf = s.buf ∧
    (ipc2_copy_from_buf TASK buf dst size s).2.ep = s.ep ∧
    (ipc2_copy_from_buf TASK buf dst size s).2.caplist = s.caplist ∧
    (ipc2_copy_from_buf TASK buf dst size s).2.uhandle = s.uhandle ∧
    (ipc2_copy_from_buf TASK buf dst size s).2.urecv = s.urecv ∧
    (ipc2_copy_from_buf TASK buf dst size s).2.uwait = s.uwait ∧
    (∀ i, i < size → i < (s.buf buf).used →
      (ipc2_copy_from_buf TASK buf dst size s).2.umem TASK (dst + i) =
        some ((s.buf buf).data i)) ∧
    (∀ t a, ¬ (t = TASK ∧ dst ≤ a ∧ a < dst + size ∧ a < dst + (s.buf buf).used) →
      (ipc2_copy_from_buf TASK buf dst size s).2.umem t a = s.umem t a) := by
  rw [ipc2_copy_from_buf_eq] at *
  obtain ⟨_, he⟩ := copy_to_uspace_ok h
  rw [he]
  refine ⟨rfl, rfl, rfl, rfl, rfl, rfl, rfl, rfl, ?_, ?_⟩
  · intro i h1 h2
    have : dst + i < dst + (if size > (s.buf buf).used then (s.buf buf).used else size) := by
      split <;> omega
    simp [this]
  · intro t a hn
    have : ¬ (t = TASK ∧ dst ≤ a ∧
        a < dst + (if size > (s.buf buf).used then (s.buf buf).used else size)) := by
      intro ⟨h1, h2, h3⟩
      apply hn
      refine ⟨h1, h2, ?_, ?_⟩ <;> split at h3 <;> omega
    simp only [this, if_false]

theorem copy_to_uspace_receive_info_ok {TASK dst : Nat} {v : ipc_buf_receive_info_t}
    {s : State} (h : (copy_to_uspace_receive_info TASK dst v s).1 = EOK) :
    (copy_to_uspace_receive_info TASK dst v s).2 =
      { s with urecv := upd2 s.urecv TASK dst (some v) } := by
  unfold copy_to_uspace_receive_info at *
  cases hm : s.urecv TASK dst <;> simp_all

theorem copy_to_uspace_receive_info_fail {TASK dst : Nat} {v : ipc_buf_receive_info_t}
    {s : State} (h : (copy_to_uspace_receive_info TASK dst v s).1 ≠ EOK) :
    (copy_to_uspace_receive_info TASK dst v s).2 = s := by
  unfold copy_to_uspace_receive_info at *
  cases hm : s.urecv TASK dst <;> simp_all

theorem copy_to_uspace_wait_info_ok {TASK dst : Nat} {v : ipc_buf_wait_info_t}
    {s : State} (h : (copy_to_uspace_wait_info TASK dst v s).1 = EOK) :
    (copy_to_uspace_wait_info TASK dst v s).2 =
      { s with uwait := upd2 s.uwait TASK dst (some v) } := by
  unfold copy_to_uspace_wait_info at *
  cases hm : s.uwait TASK dst <;> simp_all

theorem copy_to_uspace_wait_info_fail {TASK dst : Nat} {v : ipc_buf_wait_info_t}
    {s : State} (h : (copy_to_uspace_wait_info TASK dst v s).1 ≠ EOK) :
    (copy_to_uspace_wait_info TASK dst v s).2 = s := by
  unfold copy_to_uspace_wait_info at *
  cases hm : s.uwait TASK dst <;> simp_all

theorem cap_publish_ok {TASK : Nat} {h : cap_handle_t} {k : Nat} {s : State}
    (hp : (cap_publish TASK h k s).1 = EOK) :
    s.caps TASK h = cap_t.allocated ∧
    (cap_publish TASK h k s).2 = { s with caps := upd2 s.caps TASK h (cap_t.published k) } := by
  unfold cap_publish at *
  cases hc : s.caps TASK h <;> simp_all

/-- The tail of a receive that returns `EOK`: payload and info are copied out
and the buffer is published under the new handle; nothing else changes. -/
theorem sys_ipc2_buf_receive_tail_ok {TASK dst size : Nat} {bhandle : cap_handle_t}
    {info buf : Nat} {s t : State}
    (h : sys_ipc2_buf_receive_tail TASK dst size bhandle info buf s = (EOK, t)) :
    s.caps TASK bhandle = cap_t.allocated ∧
    t.caps = upd2 s.caps TASK bhandle (cap_t.published buf) ∧
    t.kobj = s.kobj ∧ t.buf = s.buf ∧ t.ep = s.ep ∧ t.caplist = s.caplist ∧
    t.uhandle = s.uhandle ∧ t.uwait = s.uwait ∧
    t.urecv = upd2 s.urecv TASK info (some
      (ipc_buf_receive_info_t.mk (s.buf buf).ep_label (s.buf buf).used (s.buf buf).size)) ∧
    (∀ i, i < size → i < (s.buf buf).used →
      t.umem TASK (dst + i) = some ((s.buf buf).data i)) ∧
    (∀ a b, ¬ (a = TASK ∧ dst ≤ b ∧ b < dst + size ∧ b < dst + (s.buf buf).used) →
      t.umem a b = s.umem a b) := by
  unfold sys_ipc2_buf_receive_tail at h
  dsimp only at h
  by_cases h1 : (ipc2_copy_from_buf TASK buf dst size s).1 = EOK
  · obtain ⟨r1, r2, r3, r4, r5, r6, r7, r8, r9, r10⟩ := ipc2_copy_from_buf_ok h1
    generalize ipc2_copy_from_buf TASK buf dst size s = r at *
    simp only [h1, ne_eq, not_true_eq_false, if_false] at h
    rw [r3] at h
    generalize hv : ipc_buf_receive_info_t.mk (s.buf buf).ep_label (s.buf buf).used
      (s.buf buf).size = v at *
    by_cases h2 : (copy_to_uspace_receive_info TASK info v r.2).1 = EOK
    · have c1 := copy_to_uspace_receive_info_ok h2
      generalize copy_to_uspace_receive_info TASK info v r.2 = c at *
      simp only [h2, ne_eq, not_true_eq_false, if_false] at h
      by_cases h3 : (cap_publish TASK bhandle buf (kobject_add_ref buf c.2)).1 = EOK
      · obtain ⟨p1, p2⟩ := cap_publish_ok h3
        generalize cap_publish TASK bhandle buf (kobject_add_ref buf c.2) = p at *
        simp only [h3, ne_eq, not_true_eq_false, if_false, Prod.mk.injEq, true_and] at h
        subst h
        rw [p2, c1]
        rw [c1] at p1
        simp only [kobject_add_ref_caps] at p1
        refine ⟨by rw [← r1]; exact p1, ?_, ?_, by simp [r3], by simp [r4], by simp [r5],
          by simp [r6], by simp [r8], by simp [r7], ?_, ?_⟩
        · simp [r1]
        · have := kobject_put_add_ref buf r.2
          rw [← r2]
          conv_rhs => rw [← this]
          rfl
        · intro i hi1 hi2
          simpa using r9 i hi1 hi2
        · intro a b hab
          simpa using r10 a b hab
      · simp [h3] at h
    · simp [h2] at h
  · simp [h1] at h

theorem kobject_put_kobj_of {k : Nat} {s s2 : State}
    (h : s2.kobj = (kobject_add_ref k s).kobj) : (kobject_put k s2).kobj = s.kobj := by
  have := congrArg State.kobj (kobject_put_add_ref k s)
  rw [← this]
  simp only [kobject_put, h]

theorem ipc2_block_on_got {list : List Nat} {cvw : List errno_t} {b : Nat} {rest : List Nat}
    (h : ipc2_block_on list cvw = block_result.got b rest) : list = b :: rest := by
  unfold ipc2_block_on at h
  cases list with
  | nil =>
    dsimp only at h
    cases hc : condvar_wait_loop cvw <;> simp [hc] at h
  | cons a l =>
    simp only [block_result.got.injEq] at h
    rw [h.1, h.2]

theorem ipc2_block_on_cons (b : Nat) (rest : List Nat) (cvw : List errno_t) :
    ipc2_block_on (b :: rest) cvw = block_result.got b rest := rfl

theorem condvar_wait_loop_ne_ok {cvw : List errno_t} {rc : errno_t}
    (h : condvar_wait_loop cvw = some rc) : rc ≠ EOK := by
  induction cvw with
  | nil => simp [condvar_wait_loop] at h
  | cons a l ih =>
    unfold condvar_wait_loop at h
    by_cases ha : a = EOK
    · simp only [ha, ne_eq, not_true_eq_false, if_false] at h
      exact ih h
    · simp only [ne_eq, ha, not_false_eq_true, if_true, Option.some.injEq] at h
      rw [← h]
      exact ha

theorem ipc2_block_on_failed {list : List Nat} {cvw : List errno_t} {rc : errno_t}
    (h : ipc2_block_on list cvw = block_result.failed rc) : list = [] ∧ rc ≠ EOK := by
  unfold ipc2_block_on at h
  cases list with
  | nil =>
    dsimp only at h
    cases hc : condvar_wait_loop cvw with
    | none => simp [hc] at h
    | some r =>
      simp only [hc, block_result.failed.injEq] at h
      subst h
      exact ⟨rfl, condvar_wait_loop_ne_ok hc⟩
  | cons a l => simp at h

/-- A receive that returns `EOK`: the buffer it took from the head of the
endpoint's queue (or of the endpoint-caplist's queue) and its effect on the
state. -/
theorem sys_ipc2_buf_receive_ok {TASK dst size : Nat} {bhandle ehandle : cap_handle_t}
    {cvw : List errno_t} {info : Nat} {s t : State}
    (h : sys_ipc2_buf_receive TASK dst size bhandle ehandle cvw info s = some (EOK, t)) :
    ∃ b rest,
    ((∃ e, cap_resolve TASK ehandle KOBJECT_TYPE_IPC_EP s = some e ∧
        (s.ep e).buffers = b :: rest ∧
        t.ep = upd s.ep e { s.ep e with buffers := rest } ∧ t.caplist = s.caplist ∧
        t.buf = upd s.buf b { s.buf b with in_ep := none }) ∨
     (cap_resolve TASK ehandle KOBJECT_TYPE_IPC_EP s = none ∧
      ∃ c, cap_resolve TASK ehandle KOBJECT_TYPE_CAPLIST s = some c ∧
        (s.caplist c).type = KOBJECT_TYPE_IPC_EP ∧ (s.caplist c).queue = b :: rest ∧
        t.caplist = upd s.caplist c { s.caplist c with queue := rest } ∧ t.ep = s.ep ∧
        t.buf = upd s.buf b { s.buf b with in_ep_caplist := none })) ∧
    s.caps TASK bhandle = cap_t.allocated ∧
    t.caps = upd2 s.caps TASK bhandle (cap_t.published b) ∧
    t.kobj = s.kobj ∧ t.uhandle = s.uhandle ∧ t.uwait = s.uwait ∧
    t.urecv = upd2 s.urecv TASK info (some
      (ipc_buf_receive_info_t.mk (s.buf b).ep_label (s.buf b).used (s.buf b).size)) ∧
    (∀ i, i < size → i < (s.buf b).used →
      t.umem TASK (dst + i) = some ((s.buf b).data i)) ∧
    (∀ a x, ¬ (a = TASK ∧ dst ≤ x ∧ x < dst + size ∧ x < dst + (s.buf b).used) →
      t.umem a x = s.umem a x) := by
  unfold sys_ipc2_buf_receive at h
  cases he : cap_resolve TASK ehandle KOBJECT_TYPE_IPC_EP s with
  | some e =>
    rw [kobject_get_of_resolve he] at h
    dsimp only at h
    simp only [kobject_add_ref_ep] at h
    cases hb : ipc2_block_on (s.ep e).buffers cvw with
    | blocked => simp [hb] at h
    | failed rc =>
      have := (ipc2_block_on_failed hb).2
      simp only [hb, Option.some.injEq, Prod.mk.injEq] at h
      exact absurd h.1 this
    | got b rest =>
      have hq := ipc2_block_on_got hb
      simp only [hb, Option.some.injEq] at h
      obtain ⟨t1, t2, t3, t4, t5, t6, t7, t8, t9, t10, t11⟩ := sys_ipc2_buf_receive_tail_ok h
      refine ⟨b, rest, Or.inl ⟨e, rfl, hq, ?_, ?_, ?_⟩, ?_, ?_, ?_, ?_, ?_, ?_, ?_, ?_⟩
      · rw [t5]; simp
      · rw [t6]; simp
      · rw [t4]; simp
      · simpa using t1
      · rw [t2]; simp
      · rw [t3]; exact kobject_put_kobj_of rfl
      · rw [t7]; simp
      · rw [t8]; simp
      · rw [t9]; simp [upd]
      · intro i h1 h2
        have := t10 i h1 (by simpa [upd] using h2)
        simpa [upd] using this
      · intro a x hax
        have := t11 a x (by simpa [upd] using hax)
        simpa using this
  | none =>
    rw [kobject_get_of_not_resolve he] at h
    dsimp only at h
    cases hc : cap_resolve TASK ehandle KOBJECT_TYPE_CAPLIST s with
    | none => simp [kobject_get_of_not_resolve hc] at h
    | some c =>
      rw [kobject_get_of_resolve hc] at h
      dsimp only at h
      by_cases hty : (s.caplist c).type = KOBJECT_TYPE_IPC_EP
      · rw [if_neg (fun hn => hn hty)] at h
        simp only [kobject_add_ref_caplist] at h
        cases hb : ipc2_block_on (s.caplist c).queue cvw with
        | blocked => simp [hb] at h
        | failed rc =>
          have := (ipc2_block_on_failed hb).2
          simp only [hb, Option.some.injEq, Prod.mk.injEq] at h
          exact absurd h.1 this
        | got b rest =>
          have hq := ipc2_block_on_got hb
          simp only [hb, Option.some.injEq] at h
          obtain ⟨t1, t2, t3, t4, t5, t6, t7, t8, t9, t10, t11⟩ :=
            sys_ipc2_buf_receive_tail_ok h
          refine ⟨b, rest, Or.inr ⟨rfl, c, rfl, hty, hq, ?_, ?_, ?_⟩, ?_, ?_, ?_, ?_, ?_, ?_,
            ?_, ?_⟩
          · rw [t6]; simp
          · rw [t5]; simp
          · rw [t4]; simp
          · simpa using t1
          · rw [t2]; simp
          · rw [t3]; exact kobject_put_kobj_of rfl
          · rw [t7]; simp
          · rw [t8]; simp
          · rw [t9]; simp [upd]
          · intro i h1 h2
            have := t10 i h1 (by simpa [upd] using h2)
            simpa [upd] using this
          · intro a x hax
            have := t11 a x (by simpa [upd] using hax)
            simpa using this
      · simp [hty] at h

theorem caplist_del_frame (cl k : Nat) (s : State) :
    (caplist_del cl k s).2.caps = s.caps ∧
    (caplist_del cl k s).2.buf = s.buf ∧
    (caplist_del cl k s).2.ep = s.ep ∧
    (caplist_del cl k s).2.umem = s.umem ∧
    (caplist_del cl k s).2.uhandle = s.uhandle ∧
    (caplist_del cl k s).2.urecv = s.urecv ∧
    (caplist_del cl k s).2.uwait = s.uwait ∧
    (∀ x, ((caplist_del cl k s).2.kobj x).type = (s.kobj x).type) ∧
    (∀ x, ((caplist_del cl k s).2.caplist x).type = (s.caplist x).type) ∧
    (∀ x, ((caplist_del cl k s).2.caplist x).queue = (s.caplist x).queue) ∧
    (∀ x, ((caplist_del cl k s).2.kobj x).in_caplist =
      if x = k ∧ (s.kobj k).in_caplist = some cl then none else (s.kobj x).in_caplist) ∧
    (∀ x, ((caplist_del cl k s).2.caplist x).objects =
      if x = cl ∧ (s.kobj k).in_caplist = some cl then (s.caplist x).objects.erase k
      else (s.caplist x).objects) := by
  unfold caplist_del
  by_cases h : (s.kobj k).in_caplist = some cl
  · simp only [h, ne_eq, not_true_eq_false, if_false, kobject_put_caps, kobject_put_buf,
      kobject_put_ep, kobject_put_umem, kobject_put_uhandle, kobject_put_urecv,
      kobject_put_uwait, kobject_put_type, kobject_put_caplist, kobject_put_in_caplist,
      true_and, and_true]
    refine ⟨?_, ?_, ?_, ?_, ?_⟩ <;> intro x
    · by_cases hx : x = k <;> simp [upd, hx]
    · by_cases hx : x = cl <;> simp [upd, hx]
    · by_cases hx : x = cl <;> simp [upd, hx]
    · by_cases hx : x = k <;> simp [upd, hx, h]
    · by_cases hx : x = cl <;> simp [upd, hx]
  · simp [h]

/-- The tail of a wait that returns `EOK`: the buffer is READY again, payload
and info are copied out; nothing else changes but the reference dropped. -/
theorem sys_ipc2_buf_wait_tail_ok {TASK dst size info buf : Nat} {s t : State}
    (h : sys_ipc2_buf_wait_tail TASK dst size info buf s = (EOK, t)) :
    t.caps = s.caps ∧ t.ep = s.ep ∧ t.caplist = s.caplist ∧
    t.uhandle = s.uhandle ∧ t.urecv = s.urecv ∧
    t.buf = upd s.buf buf { s.buf buf with state := IPC_BUF_READY } ∧
    t.uwait = upd2 s.uwait TASK info (some (ipc_buf_wait_info_t.mk (s.buf buf).buf_label
      (s.buf buf).used (s.buf buf).size (s.buf buf).wait_result)) ∧
    (∀ x, (t.kobj x).type = (s.kobj x).type) ∧
    (∀ x, (t.kobj x).in_caplist = (s.kobj x).in_caplist) ∧
    (∀ i, i < size → i < (s.buf buf).used →
      t.umem TASK (dst + i) = some ((s.buf buf).data i)) ∧
    (∀ a x, ¬ (a = TASK ∧ dst ≤ x ∧ x < dst + size ∧ x < dst + (s.buf buf).used) →
      t.umem a x = s.umem a x) := by
  unfold sys_ipc2_buf_wait_tail at h
  dsimp only at h
  generalize hs1 : ({ s with buf := upd s.buf buf { s.buf buf with state := IPC_BUF_READY } } :
    State) = s1 at h
  have b1 : s1.buf = upd s.buf buf { s.buf buf with state := IPC_BUF_READY } := by rw [← hs1]
  have b2 : s1.buf buf = { s.buf buf with state := IPC_BUF_READY } := by rw [b1]; simp [upd]
  by_cases h1 : (ipc2_copy_from_buf TASK buf dst size s1).1 = EOK
  · obtain ⟨r1, r2, r3, r4, r5, r6, r7, r8, r9, r10⟩ := ipc2_copy_from_buf_ok h1
    generalize ipc2_copy_from_buf TASK buf dst size s1 = r at *
    simp only [h1, ne_eq, not_true_eq_false, if_false] at h
    rw [r3, b2] at h
    dsimp only at h
    generalize hv : ipc_buf_wait_info_t.mk (s.buf buf).buf_label (s.buf buf).used
      (s.buf buf).size (s.buf buf).wait_result = v at *
    by_cases h2 : (copy_to_uspace_wait_info TASK info v r.2).1 = EOK
    · have c1 := copy_to_uspace_wait_info_ok h2
      generalize copy_to_uspace_wait_info TASK info v r.2 = c at *
      simp only [Prod.mk.injEq] at h
      obtain ⟨_, h⟩ := h
      subst h
      rw [c1]
      rw [b2] at r9 r10
      subst hs1
      refine ⟨by simp [r1], by simp [r4], by simp [r5], by simp [r6], by simp [r7],
        by simp [r3], by simp [r8], ?_, ?_, ?_, ?_⟩
      · intro x; simp [r2]
      · intro x; simp [r2]
      · intro i hi1 hi2
        simpa using r9 i hi1 hi2
      · intro a x hax
        simpa using r10 a x hax
    · simp only [Prod.mk.injEq] at h
      exact absurd h.1 h2
  · simp [h1] at h

/-- A wait that returns `EOK`: the buffer it found FINISHED (through a buffer
handle) or took from the head of a buffer-caplist's ready-queue, and its
effect on every component of the state but the reference counts. -/
theorem sys_ipc2_buf_wait_ok {TASK dst size : Nat} {bhandle : cap_handle_t}
    {cvw : List errno_t} {delist : Bool} {info : Nat} {s t : State}
    (h : sys_ipc2_buf_wait TASK dst size bhandle cvw delist info s = some (EOK, t)) :
    ∃ b,
    ((cap_resolve TASK bhandle KOBJECT_TYPE_IPC_BUF s = some b ∧
        (s.buf b).state = IPC_BUF_FINISHED ∧ t.caplist = s.caplist ∧
        (∀ x, (t.kobj x).in_caplist = (s.kobj x).in_caplist)) ∨
     (cap_resolve TASK bhandle KOBJECT_TYPE_IPC_BUF s = none ∧
      ∃ c rest, cap_resolve TASK bhandle KOBJECT_TYPE_CAPLIST s = some c ∧
        (s.caplist c).type = KOBJECT_TYPE_IPC_BUF ∧ (s.caplist c).queue = b :: rest ∧
        (∀ x, (t.caplist x).type = (s.caplist x).type) ∧
        (∀ x, (t.caplist x).queue = if x = c then rest else (s.caplist x).queue) ∧
        (∀ x, (t.caplist x).objects =
          if delist = true ∧ x = c ∧ (s.kobj b).in_caplist = some c then
            (s.caplist x).objects.erase b else (s.caplist x).objects) ∧
        (∀ x, (t.kobj x).in_caplist =
          if delist = true ∧ x = b ∧ (s.kobj b).in_caplist = some c then none
          else (s.kobj x).in_caplist))) ∧
    t.caps = s.caps ∧ t.ep = s.ep ∧ t.uhandle = s.uhandle ∧ t.urecv = s.urecv ∧
    t.buf = upd s.buf b { s.buf b with state := IPC_BUF_READY } ∧
    t.uwait = upd2 s.uwait TASK info (some (ipc_buf_wait_info_t.mk (s.buf b).buf_label
      (s.buf b).used (s.buf b).size (s.buf b).wait_result)) ∧
    (∀ x, (t.kobj x).type = (s.kobj x).type) ∧
    (∀ i, i < size → i < (s.buf b).used → t.umem TASK (dst + i) = some ((s.buf b).data i)) ∧
    (∀ a x, ¬ (a = TASK ∧ dst ≤ x ∧ x < dst + size ∧ x < dst + (s.buf b).used) →
      t.umem a x = s.umem a x) := by
  unfold sys_ipc2_buf_wait at h
  cases hb : cap_resolve TASK bhandle KOBJECT_TYPE_IPC_BUF s with
  | some b =>
    rw [kobject_get_of_resolve hb] at h
    dsimp only at h
    simp only [kobject_add_ref_buf] at h
    by_cases hst : (s.buf b).state = IPC_BUF_FINISHED
    · rw [if_neg (fun hn => hn hst)] at h
      simp only [Option.some.injEq] at h
      obtain ⟨t1, t2, t3, t4, t5, t6, t7, t8, t9, t10, t11⟩ := sys_ipc2_buf_wait_tail_ok h
      refine ⟨b, Or.inl ⟨rfl, hst, by simp [t3], fun x => by simp [t9]⟩, by simp [t1],
        by simp [t2], by simp [t4], by simp [t5], by simp [t6], by simp [t7],
        fun x => by simp [t8], ?_, ?_⟩
      · intro i h1 h2
        simpa using t10 i h1 (by simpa using h2)
      · intro a x hax
        simpa using t11 a x (by simpa using hax)
    · rw [if_pos hst] at h
      cases hc : condvar_wait_loop cvw with
      | none => simp [hc] at h
      | some rc =>
        have := condvar_wait_loop_ne_ok hc
        simp only [hc, Option.some.injEq, Prod.mk.injEq] at h
        exact absurd h.1 this
  | none =>
    rw [kobject_get_of_not_resolve hb] at h
    dsimp only at h
    cases hc : cap_resolve TASK bhandle KOBJECT_TYPE_CAPLIST s with
    | none => simp [kobject_get_of_not_resolve hc] at h
    | some c =>
      rw [kobject_get_of_resolve hc] at h
      dsimp only at h
      by_cases hty : (s.caplist c).type = KOBJECT_TYPE_IPC_BUF
      · rw [if_neg (fun hn => hn hty)] at h
        simp only [kobject_add_ref_caplist] at h
        cases hq : ipc2_block_on (s.caplist c).queue cvw with
        | blocked => simp [hq] at h
        | failed rc =>
          have := (ipc2_block_on_failed hq).2
          simp only [hq, Option.some.injEq, Prod.mk.injEq] at h
          exact absurd h.1 this
        | got b rest =>
          have hqe := ipc2_block_on_got hq
          simp only [hq, Option.some.injEq] at h
          generalize hs2 : ({ kobject_add_ref c s with
            caplist := upd s.caplist c { s.caplist c with queue := rest } } : State) = s2 at h
          have s2caps : s2.caps = s.caps := by rw [← hs2]; rfl
          have s2buf : s2.buf = s.buf := by rw [← hs2]; rfl
          have s2ep : s2.ep = s.ep := by rw [← hs2]; rfl
          have s2umem : s2.umem = s.umem := by rw [← hs2]; rfl
          have s2uh : s2.uhandle = s.uhandle := by rw [← hs2]; rfl
          have s2ur : s2.urecv = s.urecv := by rw [← hs2]; rfl
          have s2uw : s2.uwait = s.uwait := by rw [← hs2]; rfl
          have s2ty : ∀ x, (s2.kobj x).type = (s.kobj x).type := by
            intro x; rw [← hs2]; simp
          have s2in : ∀ x, (s2.kobj x).in_caplist = (s.kobj x).in_caplist := by
            intro x; rw [← hs2]; simp
          have s2clty : ∀ x, (s2.caplist x).type = (s.caplist x).type := by
            intro x; rw [← hs2]; by_cases hx : x = c <;> simp [upd, hx]
          have s2clob : ∀ x, (s2.caplist x).objects = (s.caplist x).objects := by
            intro x; rw [← hs2]; by_cases hx : x = c <;> simp [upd, hx]
          have s2clq : ∀ x, (s2.caplist x).queue = if x = c then rest else (s.caplist x).queue := by
            intro x; rw [← hs2]; by_cases hx : x = c <;> simp [upd, hx]
          obtain ⟨d1, d2, d3, d4, d5, d6, d7, d8, d9, d10, d11, d12⟩ := caplist_del_frame c b s2
          generalize hs3 : (if delist = true then (caplist_del c b s2).2 else s2) = s3 at h
          obtain ⟨t1, t2, t3, t4, t5, t6, t7, t8, t9, t10, t11⟩ := sys_ipc2_buf_wait_tail_ok h
          have s3buf : s3.buf = s.buf := by
            rw [← hs3]; split
            · rw [d2, s2buf]
            · exact s2buf
          have s3umem : s3.umem = s.umem := by
            rw [← hs3]; split
            · rw [d4, s2umem]
            · exact s2umem
          refine ⟨b, Or.inr ⟨rfl, c, rest, rfl, hty, hqe, ?_, ?_, ?_, ?_⟩, ?_, ?_, ?_, ?_, ?_, ?_,
            ?_, ?_, ?_⟩
          · intro x; rw [t3, ← hs3]; split
            · rw [d9, s2clty]
            · exact s2clty x
          · intro x; rw [t3, ← hs3]; split
            · rw [d10, s2clq]
            · exact s2clq x
          · intro x; rw [t3, ← hs3]
            by_cases hd : delist = true
            · rw [if_pos hd, d12, s2clob, s2in]
              by_cases hx : x = c <;> simp [hx, hd]
            · rw [if_neg hd]; simp [hd, s2clob]
          · intro x; rw [t9, ← hs3]
            by_cases hd : delist = true
            · rw [if_pos hd, d11, s2in, s2in]
              by_cases hx : x = b <;> simp [hx, hd]
            · rw [if_neg hd]; simp [hd, s2in]
          · rw [t1, ← hs3]; split
            · rw [d1, s2caps]
            · exact s2caps
          · rw [t2, ← hs3]; split
            · rw [d3, s2ep]
            · exact s2ep
          · rw [t4, ← hs3]; split
            · rw [d5, s2uh]
            · exact s2uh
          · rw [t5, ← hs3]; split
            · rw [d6, s2ur]
            · exact s2ur
          · rw [t6, s3buf]
          · rw [t7, s3buf, ← hs3]; split
            · rw [d7, s2uw]
            · rw [s2uw]
          · intro x; rw [t8, ← hs3]; split
            · rw [d8, s2ty]
            · exact s2ty x
          · intro i h1 h2
            rw [s3buf] at t10
            exact t10 i h1 h2
          · intro a x hax
            rw [s3buf] at t11
            rw [t11 a x hax, s3umem]
      · simp [hty] at h

/-! ### Finish -/

/-- A finish that returns `EOK`: the buffer it resolved, what it required, and
its effect on every component of the state but the reference counts. -/
theorem sys_ipc2_buf_finish_effect {TASK src size : Nat} {bhandle : cap_handle_t} {s t : State}
    (h : sys_ipc2_buf_finish TASK src size bhandle s = (EOK, t)) :
    ∃ buf, cap_resolve TASK bhandle KOBJECT_TYPE_IPC_BUF s = some buf ∧
    (s.buf buf).state = IPC_BUF_PENDING ∧ (s.buf buf).in_ep = none ∧
    (s.buf buf).in_ep_caplist = none ∧ size ≤ (s.buf buf).size ∧
    uspace_range_ok (s.umem TASK) src size = true ∧
    (t.umem = s.umem ∧ t.uhandle = s.uhandle ∧ t.urecv = s.urecv ∧ t.uwait = s.uwait) ∧
    t.caps = upd2 s.caps TASK bhandle cap_t.allocated ∧
    t.ep = s.ep ∧
    t.buf = upd s.buf buf { s.buf buf with
        state := IPC_BUF_FINISHED, wait_result := EOK,
        data := fun i => if i < size then (s.umem TASK (src + i)).getD 0 else (s.buf buf).data i,
        used := if size ≠ 0 then size else (s.buf buf).used } ∧
    (∀ x, (t.caplist x).type = (s.caplist x).type) ∧
    (∀ x, (t.caplist x).objects = (s.caplist x).objects) ∧
    (∀ x, (t.caplist x).queue = if (s.kobj buf).in_caplist = some x then
        (s.caplist x).queue ++ [buf] else (s.caplist x).queue) ∧
    (∀ x, (t.kobj x).type = (s.kobj x).type) ∧
    (∀ x, (t.kobj x).in_caplist = (s.kobj x).in_caplist) := by
  obtain ⟨buf, hres, hst, hin, hincl, hcp, heq⟩ := sys_ipc2_buf_finish_ok h
  obtain ⟨hsz, hrg, hc0⟩ := ipc2_copy_to_buf_ok hcp
  obtain ⟨c0caps, c0kobj, c0ep, c0cl, c0umem, c0uh, c0ur, c0uw⟩ :=
    ipc2_copy_to_buf_frame TASK buf src size (kobject_add_ref buf s)
  generalize (ipc2_copy_to_buf TASK buf src size (kobject_add_ref buf s)).2 = c0 at *
  have c0buf : c0.buf = upd s.buf buf { s.buf buf with
      data := fun i => if i < size then (s.umem TASK (src + i)).getD 0 else (s.buf buf).data i,
      used := if size ≠ 0 then size else (s.buf buf).used } := by rw [hc0]; rfl
  have c0res : cap_resolve TASK bhandle KOBJECT_TYPE_IPC_BUF c0 = some buf := by
    rw [← hres]
    exact cap_resolve_congr (s := s) (t := c0) c0caps (fun x => by rw [c0kobj]; simp) _ _ _
  obtain ⟨ubuf, uep, ucl, uumem, uuh, uur, uuw, utype, uin⟩ :=
    ipc2_unpublish_temp_cap_frame TASK bhandle c0
  have ucaps := ipc2_unpublish_temp_cap_caps c0res
  generalize ipc2_unpublish_temp_cap TASK bhandle c0 = u at *
  obtain ⟨fcaps, fep, fumem, fuh, fur, fuw, fbuf, ftype, fin⟩ := ipc2_buf_finish_frame buf EOK u
  have fcl := ipc2_buf_finish_caplist buf EOK u
  generalize ipc2_buf_finish buf EOK u = f at *
  have huin : (u.kobj buf).in_caplist = (s.kobj buf).in_caplist := by
    rw [uin, c0kobj]; simp
  subst heq
  refine ⟨buf, hres, hst, hin, hincl, by simpa using hsz, by simpa using hrg,
    ⟨by simp [fumem, uumem, c0umem], by simp [fuh, uuh, c0uh], by simp [fur, uur, c0ur],
      by simp [fuw, uuw, c0uw]⟩, ?_, by simp [fep, uep, c0ep], ?_, ?_, ?_, ?_, ?_, ?_⟩
  · simp [fcaps, ucaps, c0caps]
  · simp only [kobject_put_buf, fbuf, ubuf, c0buf]
    funext x
    by_cases hx : x = buf <;> simp [upd, hx]
  · intro x
    simp only [kobject_put_caplist, fcl, huin]
    cases hc : (s.kobj buf).in_caplist with
    | none => simp [ucl, c0cl]
    | some c => by_cases hx : x = c <;> simp [upd, hx, ucl, c0cl]
  · intro x
    simp only [kobject_put_caplist, fcl, huin]
    cases hc : (s.kobj buf).in_caplist with
    | none => simp [ucl, c0cl]
    | some c => by_cases hx : x = c <;> simp [upd, hx, ucl, c0cl]
  · intro x
    simp only [kobject_put_caplist, fcl, huin]
    cases hc : (s.kobj buf).in_caplist with
    | none => simp [ucl, c0cl]
    | some c =>
      by_cases hx : x = c
      · subst hx; simp [upd, ucl, c0cl]
      · have hx2 : ¬ c = x := fun h => hx h.symm
        simp [upd, hx, hx2, ucl, c0cl]
  · intro x; simp [ftype, utype, c0kobj]
  · intro x; simp [fin, uin, c0kobj]

/-! ### The round-trip scenario, step by step -/

theorem option_eq_of_map {α : Type} {o : Option (errno_t × α)} {a : α}
    (h1 : o.map (fun x => x.1) = some EOK)
    (h2 : (match o with | some r => r.2 | none => a) = a) : o = some (EOK, a) := by
  cases o with
  | none => simp at h1
  | some r =>
    simp only [Option.map_some', Option.some.injEq] at h1
    dsimp only at h2
    rw [← h1, ← h2]

theorem test_sent_eq : sys_ipc2_buf_send 0 0 16 1 2 CAP_NIL test_before = (EOK, test_sent) :=
  Prod.ext (by decide) rfl

theorem test_received_eq :
    sys_ipc2_buf_receive 0 16 16 3 2 [] 0 test_sent = some (EOK, test_received) :=
  option_eq_of_map (by decide) rfl

theorem test_finished_eq :
    sys_ipc2_buf_finish 0 32 16 3 test_received = (EOK, test_finished) :=
  Prod.ext (by decide) rfl

theorem test_waited_eq :
    sys_ipc2_buf_wait 0 48 16 1 [] false 0 test_finished = some (EOK, test_waited) :=
  option_eq_of_map (by decide) rfl

/-! ### Refused calls -/

theorem sys_ipc2_buf_send_unresolved {TASK src size : Nat} {bhandle ehandle clhandle : cap_handle_t}
    {s : State} (h : cap_resolve TASK bhandle KOBJECT_TYPE_IPC_BUF s = none) :
    sys_ipc2_buf_send TASK src size bhandle ehandle clhandle s = (ENOENT, s) := by
  simp [sys_ipc2_buf_send, kobject_get_of_not_resolve h]

theorem sys_ipc2_buf_finish_unresolved {TASK src size : Nat} {bhandle : cap_handle_t}
    {s : State} (h : cap_resolve TASK bhandle KOBJECT_TYPE_IPC_BUF s = none) :
    sys_ipc2_buf_finish TASK src size bhandle s = (ENOENT, s) := by
  simp [sys_ipc2_buf_finish, kobject_get_of_not_resolve h]

/-- The return value of a send without caplist whose two handles resolve. -/
theorem sys_ipc2_buf_send_rc_nil {TASK src size : Nat} {bhandle ehandle : cap_handle_t}
    {s : State} {b e : Nat} (hb : cap_resolve TASK bhandle KOBJECT_TYPE_IPC_BUF s = some b)
    (he : cap_resolve TASK ehandle KOBJECT_TYPE_IPC_EP s = some e) :
    (sys_ipc2_buf_send TASK src size bhandle ehandle CAP_NIL s).1 =
      if ipc2_buf_send_check b none s = EOK then (ipc2_copy_to_buf TASK b src size s).1
      else ipc2_buf_send_check b none s := by
  have he1 : cap_resolve TASK ehandle KOBJECT_TYPE_IPC_EP (kobject_add_ref b s) = some e := by
    simpa using he
  unfold sys_ipc2_buf_send
  rw [kobject_get_of_resolve hb]
  dsimp only
  rw [kobject_get_of_resolve he1]
  dsimp only
  rw [if_neg (by simp)]
  dsimp only
  rw [sys_ipc2_buf_send_locked_rc]
  rw [ipc2_buf_send_check_congr (s := s) (t := kobject_add_ref e (kobject_add_ref b s)) rfl
    (by simp) b none]
  rw [ipc2_copy_to_buf_congr_fst (s := s) (t := kobject_add_ref e (kobject_add_ref b s)) rfl rfl]

theorem cap_resolve_upd2_other {TASK T0 : Nat} {h h0 : cap_handle_t} {ty : kobject_type_t}
    {s t : State} {c : cap_t} (hc : t.caps = upd2 s.caps TASK h c)
    (ht : ∀ x, (t.kobj x).type = (s.kobj x).type) (hne : ¬ (T0 = TASK ∧ h0 = h)) :
    cap_resolve T0 h0 ty t = cap_resolve T0 h0 ty s := by
  unfold cap_resolve
  rw [hc, upd2_other _ _ _ _ _ _ hne]
  split <;> simp [ht]

theorem cap_resolve_upd2_allocated {TASK : Nat} {h : cap_handle_t} {ty : kobject_type_t}
    {s t : State} (hc : t.caps = upd2 s.caps TASK h cap_t.allocated) :
    cap_resolve TASK h ty t = none := by
  unfold cap_resolve
  rw [hc, upd2_same]

/-! ### Sequences of sends and receives -/

theorem run_sends_cons {c : send_call} {cs : List send_call} {s s1 : State}
    {tr : List (Nat × Nat × Option Nat)} (h : run_sends (c :: cs) s = some (tr, s1)) :
    ∃ b e t tr1, cap_resolve c.TASK c.bhandle KOBJECT_TYPE_IPC_BUF s = some b ∧
      cap_resolve c.TASK c.ehandle KOBJECT_TYPE_IPC_EP s = some e ∧
      sys_ipc2_buf_send c.TASK c.src c.size c.bhandle c.ehandle c.clhandle s = (EOK, t) ∧
      run_sends cs t = some (tr1, s1) ∧ tr = (b, e, (s.kobj e).in_caplist) :: tr1 := by
  unfold run_sends at h
  cases hb : cap_resolve c.TASK c.bhandle KOBJECT_TYPE_IPC_BUF s with
  | none => simp [hb] at h
  | some b =>
    cases he : cap_resolve c.TASK c.ehandle KOBJECT_TYPE_IPC_EP s with
    | none => simp [hb, he] at h
    | some e =>
      simp only [hb, he] at h
      by_cases hrc : (sys_ipc2_buf_send c.TASK c.src c.size c.bhandle c.ehandle c.clhandle s).1 = EOK
      · simp only [hrc, if_true] at h
        cases hrest : run_sends cs
            (sys_ipc2_buf_send c.TASK c.src c.size c.bhandle c.ehandle c.clhandle s).2 with
        | none => simp [hrest] at h
        | some p =>
          simp only [hrest, Option.map_some', Option.some.injEq, Prod.mk.injEq] at h
          refine ⟨b, e, _, p.1, rfl, rfl, Prod.ext hrc rfl, ?_, h.1.symm⟩
          rw [hrest, ← h.2]
      · simp [hrc] at h

theorem run_receives_cons {c : receive_call} {cs : List receive_call} {s s2 : State}
    {rs : List ((Bool × Nat) × Nat)} (h : run_receives (c :: cs) s = some (rs, s2)) :
    ∃ q b t rs1, receive_source c.TASK c.ehandle s = some q ∧
      sys_ipc2_buf_receive c.TASK c.dst c.size c.bhandle c.ehandle c.cvw c.info s =
        some (EOK, t) ∧
      t.caps c.TASK c.bhandle = cap_t.published b ∧
      run_receives cs t = some (rs1, s2) ∧ rs = (q, b) :: rs1 := by
  unfold run_receives at h
  cases hq : receive_source c.TASK c.ehandle s with
  | none => simp [hq] at h
  | some q =>
    cases hr : sys_ipc2_buf_receive c.TASK c.dst c.size c.bhandle c.ehandle c.cvw c.info s with
    | none => simp [hq, hr] at h
    | some r =>
      simp only [hq, hr] at h
      by_cases hrc : r.1 = EOK
      · simp only [hrc, if_true] at h
        cases hc : r.2.caps c.TASK c.bhandle with
        | free => simp [hc] at h
        | allocated => simp [hc] at h
        | published b =>
          simp only [hc] at h
          cases hrest : run_receives cs r.2 with
          | none => simp [hrest] at h
          | some p =>
            simp only [hrest, Option.map_some', Option.some.injEq, Prod.mk.injEq] at h
            refine ⟨q, b, r.2, p.1, rfl, ?_, hc, ?_, h.1.symm⟩
            · rw [← hrc]
            · rw [hrest, ← h.2]
      · simp [hrc] at h

/-- Sends to one endpoint that is in no caplist append, in order, to its
queue. -/
theorem run_sends_ep_queue (E : Nat) :
    ∀ (sends : List send_call) (s s1 : State) (tr : List (Nat × Nat × Option Nat)),
      run_sends sends s = some (tr, s1) →
      (∀ x ∈ tr, x.2.1 = E ∧ x.2.2 = none) →
      (s1.ep E).buffers = (s.ep E).buffers ++ tr.map (fun x => x.1) := by
  intro sends
  induction sends with
  | nil =>
    intro s s1 tr h _
    simp only [run_sends, Option.some.injEq, Prod.mk.injEq] at h
    rw [← h.1, ← h.2]
    simp
  | cons c cs ih =>
    intro s s1 tr h hall
    obtain ⟨b, e, t, tr1, hb, he, hsend, hrest, htr⟩ := run_sends_cons h
    subst htr
    have h0 := hall _ (List.mem_cons_self _ _)
    simp only at h0
    obtain ⟨hE, hnone⟩ := h0
    subst hE
    have ih1 := ih t s1 tr1 hrest (fun x hx => hall x (List.mem_cons_of_mem _ hx))
    obtain ⟨buf, ep, cl, hb2, he2, _, _, _, _, _, _, _, _, _, hq, _⟩ := sys_ipc2_buf_send_ok hsend
    rw [hb] at hb2
    rw [he] at he2
    simp only [Option.some.injEq] at hb2 he2
    subst hb2 he2
    rw [ih1, hq e]
    simp [hnone]

/-- Sends to endpoints that are members of one caplist append, in order, to
that caplist's queue. -/
theorem run_sends_cl_queue (C : Nat) :
    ∀ (sends : List send_call) (s s1 : State) (tr : List (Nat × Nat × Option Nat)),
      run_sends sends s = some (tr, s1) →
      (∀ x ∈ tr, x.2.2 = some C) →
      (s1.caplist C).queue = (s.caplist C).queue ++ tr.map (fun x => x.1) := by
  intro sends
  induction sends with
  | nil =>
    intro s s1 tr h _
    simp only [run_sends, Option.some.injEq, Prod.mk.injEq] at h
    rw [← h.1, ← h.2]
    simp
  | cons c cs ih =>
    intro s s1 tr h hall
    obtain ⟨b, e, t, tr1, hb, he, hsend, hrest, htr⟩ := run_sends_cons h
    subst htr
    have h0 := hall _ (List.mem_cons_self _ _)
    simp only at h0
    have ih1 := ih t s1 tr1 hrest (fun x hx => hall x (List.mem_cons_of_mem _ hx))
    obtain ⟨buf, ep, cl, hb2, he2, _, _, _, _, _, _, _, _, _, _, _, hq, _⟩ :=
      sys_ipc2_buf_send_ok hsend
    rw [hb] at hb2
    rw [he] at he2
    simp only [Option.some.injEq] at hb2 he2
    subst hb2 he2
    rw [ih1, hq C]
    simp [h0]

theorem run_sends_length :
    ∀ (sends : List send_call) (s s1 : State) (tr : List (Nat × Nat × Option Nat)),
      run_sends sends s = some (tr, s1) → tr.length = sends.length := by
  intro sends
  induction sends with
  | nil =>
    intro s s1 tr h
    simp only [run_sends, Option.some.injEq, Prod.mk.injEq] at h
    rw [← h.1]
    rfl
  | cons c cs ih =>
    intro s s1 tr h
    obtain ⟨b, e, t, tr1, _, _, _, hrest, htr⟩ := run_sends_cons h
    subst htr
    simp [ih t s1 tr1 hrest]

theorem run_receives_length :
    ∀ (recvs : List receive_call) (s s2 : State) (rs : List ((Bool × Nat) × Nat)),
      run_receives recvs s = some (rs, s2) → rs.length = recvs.length := by
  intro recvs
  induction recvs with
  | nil =>
    intro s s2 rs h
    simp only [run_receives, Option.some.injEq, Prod.mk.injEq] at h
    rw [← h.1]
    rfl
  | cons c cs ih =>
    intro s s2 rs h
    obtain ⟨q, b, t, rs1, _, _, _, hrest, hrs⟩ := run_receives_cons h
    subst hrs
    simp [ih t s2 rs1 hrest]

theorem receive_source_ep {TASK : Nat} {ehandle : cap_handle_t} {s : State} {E : Nat}
    (h : receive_source TASK ehandle s = some (true, E)) :
    cap_resolve TASK ehandle KOBJECT_TYPE_IPC_EP s = some E := by
  unfold receive_source at h
  cases he : cap_resolve TASK ehandle KOBJECT_TYPE_IPC_EP s with
  | some e => simp [he] at h; rw [h]
  | none =>
    cases hc : cap_resolve TASK ehandle KOBJECT_TYPE_CAPLIST s <;> simp [he, hc] at h

theorem receive_source_cl {TASK : Nat} {ehandle : cap_handle_t} {s : State} {C : Nat}
    (h : receive_source TASK ehandle s = some (false, C)) :
    cap_resolve TASK ehandle KOBJECT_TYPE_IPC_EP s = none ∧
    cap_resolve TASK ehandle KOBJECT_TYPE_CAPLIST s = some C := by
  unfold receive_source at h
  cases he : cap_resolve TASK ehandle KOBJECT_TYPE_IPC_EP s with
  | some e => simp [he] at h
  | none =>
    cases hc : cap_resolve TASK ehandle KOBJECT_TYPE_CAPLIST s with
    | none => simp [he, hc] at h
    | some c => simp [he, hc] at h; exact ⟨rfl, by rw [h]⟩

/-- Receives on one endpoint take, in order, the buffers at the head of its
queue. -/
theorem run_receives_ep_queue (E : Nat) :
    ∀ (recvs : List receive_call) (s s2 : State) (rs : List ((Bool × Nat) × Nat)),
      run_receives recvs s = some (rs, s2) →
      (∀ r ∈ rs, r.1 = (true, E)) →
      (s.ep E).buffers = rs.map (fun r => r.2) ++ (s2.ep E).buffers := by
  intro recvs
  induction recvs with
  | nil =>
    intro s s2 rs h _
    simp only [run_receives, Option.some.injEq, Prod.mk.injEq] at h
    rw [← h.1, ← h.2]
    simp
  | cons c cs ih =>
    intro s s2 rs h hall
    obtain ⟨q, b, t, rs1, hq, hrecv, hcap, hrest, hrs⟩ := run_receives_cons h
    subst hrs
    have h0 := hall _ (List.mem_cons_self _ _)
    simp only at h0
    subst h0
    have hE := receive_source_ep hq
    have ih1 := ih t s2 rs1 hrest (fun x hx => hall x (List.mem_cons_of_mem _ hx))
    obtain ⟨b2, rest, hsel, _, hcaps, _⟩ := sys_ipc2_buf_receive_ok hrecv
    rw [hcaps, upd2_same] at hcap
    simp only [cap_t.published.injEq] at hcap
    subst hcap
    rcases hsel with ⟨e, he, hbuf, hep, _⟩ | ⟨he, _⟩
    · rw [hE] at he
      simp only [Option.some.injEq] at he
      subst he
      rw [hbuf]
      rw [hep] at ih1
      simp only [upd_same] at ih1
      simp [ih1]
    · rw [hE] at he
      exact absurd he (by simp)

/-- Receives on one endpoint-caplist take, in order, the buffers at the head
of its queue. -/
theorem run_receives_cl_queue (C : Nat) :
    ∀ (recvs : List receive_call) (s s2 : State) (rs : List ((Bool × Nat) × Nat)),
      run_receives recvs s = some (rs, s2) →
      (∀ r ∈ rs, r.1 = (false, C)) →
      (s.caplist C).queue = rs.map (fun r => r.2) ++ (s2.caplist C).queue := by
  intro recvs
  induction recvs with
  | nil =>
    intro s s2 rs h _
    simp only [run_receives, Option.some.injEq, Prod.mk.injEq] at h
    rw [← h.1, ← h.2]
    simp
  | cons c cs ih =>
    intro s s2 rs h hall
    obtain ⟨q, b, t, rs1, hq, hrecv, hcap, hrest, hrs⟩ := run_receives_cons h
    subst hrs
    have h0 := hall _ (List.mem_cons_self _ _)
    simp only at h0
    subst h0
    obtain ⟨hE, hC⟩ := receive_source_cl hq
    have ih1 := ih t s2 rs1 hrest (fun x hx => hall x (List.mem_cons_of_mem _ hx))
    obtain ⟨b2, rest, hsel, _, hcaps, _⟩ := sys_ipc2_buf_receive_ok hrecv
    rw [hcaps, upd2_same] at hcap
    simp only [cap_t.published.injEq] at hcap
    subst hcap
    rcases hsel with ⟨e, he, _⟩ | ⟨_, c2, hc2, _, hqueue, hcl, _⟩
    · rw [hE] at he
      exact absurd he (by simp)
    · rw [hC] at hc2
      simp only [Option.some.injEq] at hc2
      subst hc2
      rw [hqueue]
      rw [hcl] at ih1
      simp only [upd_same] at ih1
      simp [ih1]

theorem run_sends_receives_some {sends : List send_call} {recvs : List receive_call}
    {s : State} {tr : List (Nat × Nat × Option Nat)} {rs : List ((Bool × Nat) × Nat)}
    (h : run_sends_receives sends recvs s = some (tr, rs)) :
    ∃ s1 s2, run_sends sends s = some (tr, s1) ∧ run_receives recvs s1 = some (rs, s2) := by
  unfold run_sends_receives at h
  cases hs : run_sends sends s with
  | none => simp [hs] at h
  | some p =>
    cases hr : run_receives recvs p.2 with
    | none => simp [hs, hr] at h
    | some q =>
      simp only [hs, hr, Option.some_bind, Option.map_some', Option.some.injEq,
        Prod.mk.injEq] at h
      refine ⟨p.2, q.2, ?_, ?_⟩
      · rw [← h.1]
      · rw [hr, ← h.2]

/-! ### Reference counts -/

theorem kobject_add_ref_refcnt (k x : Nat) (s : State) :
    ((kobject_add_ref k s).kobj x).refcnt = (s.kobj x).refcnt + if x = k then 1 else 0 := by
  by_cases h : x = k <;> simp [kobject_add_ref, upd, h]

theorem kobject_put_refcnt (k x : Nat) (s : State) :
    ((kobject_put k s).kobj x).refcnt = (s.kobj x).refcnt - if x = k then 1 else 0 := by
  by_cases h : x = k <;> simp [kobject_put, upd, h]

@[simp] theorem kobject_add_ref_brk (k : Nat) (s : State) :
    (kobject_add_ref k s).brk = s.brk := rfl

@[simp] theorem kobject_put_brk (k : Nat) (s : State) :
    (kobject_put k s).brk = s.brk := rfl

theorem kobject_t_ext {a b : kobject_t} (h1 : a.type = b.type) (h2 : a.refcnt = b.refcnt)
    (h3 : a.in_caplist = b.in_caplist) : a = b := by
  cases a; cases b; simp_all

theorem caplist_t_ext {a b : caplist_t} (h1 : a.type = b.type) (h2 : a.objects = b.objects)
    (h3 : a.queue = b.queue) : a = b := by
  cases a; cases b; simp_all

theorem ipc_ep_t_ext {a b : ipc_ep_t} (h1 : a.buffers = b.buffers) (h2 : a.label = b.label) :
    a = b := by
  cases a; cases b; simp_all

theorem State_ext {a b : State} (h1 : a.caps = b.caps) (h2 : a.kobj = b.kobj)
    (h3 : a.buf = b.buf) (h4 : a.ep = b.ep) (h5 : a.caplist = b.caplist)
    (h6 : a.umem = b.umem) (h7 : a.uhandle = b.uhandle) (h8 : a.urecv = b.urecv)
    (h9 : a.uwait = b.uwait) (h10 : a.brk = b.brk) : a = b := by
  cases a; cases b; simp_all

/-- References taken and dropped again around a call leave the state as it
was. -/
theorem kobject_put_add_ref2 (a b : Nat) (s : State) :
    kobject_put b (kobject_put a (kobject_add_ref b (kobject_add_ref a s))) = s := by
  apply State_ext <;> try rfl
  funext x
  apply kobject_t_ext
  · simp
  · simp only [kobject_put_refcnt, kobject_add_ref_refcnt]
    split_ifs <;> omega
  · simp

theorem kobject_put_add_ref3 (a b c : Nat) (s : State) :
    kobject_put c (kobject_put b (kobject_put a
      (kobject_add_ref c (kobject_add_ref b (kobject_add_ref a s))))) = s := by
  apply State_ext <;> try rfl
  funext x
  apply kobject_t_ext
  · simp
  · simp only [kobject_put_refcnt, kobject_add_ref_refcnt]
    split_ifs <;> omega
  · simp

/-- A send that returns an error leaves the whole kernel state as it was. -/
theorem sys_ipc2_buf_send_fail {TASK src size : Nat} {bhandle ehandle clhandle : cap_handle_t}
    {s : State} (h : (sys_ipc2_buf_send TASK src size bhandle ehandle clhandle s).1 ≠ EOK) :
    (sys_ipc2_buf_send TASK src size bhandle ehandle clhandle s).2 = s := by
  unfold sys_ipc2_buf_send at *
  cases hb : cap_resolve TASK bhandle KOBJECT_TYPE_IPC_BUF s with
  | none => simp [kobject_get_of_not_resolve hb]
  | some buf =>
    rw [kobject_get_of_resolve hb] at h ⊢
    dsimp only at h ⊢
    cases he : cap_resolve TASK ehandle KOBJECT_TYPE_IPC_EP s with
    | none =>
      have he1 : cap_resolve TASK ehandle KOBJECT_TYPE_IPC_EP (kobject_add_ref buf s) = none := by
        simpa using he
      rw [kobject_get_of_not_resolve he1]
      exact kobject_put_add_ref buf s
    | some ep =>
      have he1 : cap_resolve TASK ehandle KOBJECT_TYPE_IPC_EP (kobject_add_ref buf s) = some ep := by
        simpa using he
      rw [kobject_get_of_resolve he1] at h ⊢
      dsimp only at h ⊢
      by_cases hnil : clhandle ≠ CAP_NIL
      · rw [if_pos hnil] at h ⊢
        cases hc : cap_resolve TASK clhandle KOBJECT_TYPE_CAPLIST s with
        | none =>
          have hc1 : cap_resolve TASK clhandle KOBJECT_TYPE_CAPLIST
              (kobject_add_ref ep (kobject_add_ref buf s)) = none := by simpa using hc
          rw [kobject_get_of_not_resolve hc1]
          exact kobject_put_add_ref2 buf ep s
        | some cl =>
          have hc1 : cap_resolve TASK clhandle KOBJECT_TYPE_CAPLIST
              (kobject_add_ref ep (kobject_add_ref buf s)) = some cl := by simpa using hc
          rw [kobject_get_of_resolve hc1] at h ⊢
          dsimp only at h ⊢
          rw [sys_ipc2_buf_send_locked_fail h]
          exact kobject_put_add_ref3 buf ep cl s
      · rw [if_neg hnil] at h ⊢
        dsimp only at h ⊢
        rw [sys_ipc2_buf_send_locked_fail h]
        exact kobject_put_add_ref2 buf ep s

/-- The return value of a send with a caplist argument whose three handles
resolve. -/
theorem sys_ipc2_buf_send_rc_cl {TASK src size : Nat} {bhandle ehandle clhandle : cap_handle_t}
    {s : State} {b e cl : Nat} (hb : cap_resolve TASK bhandle KOBJECT_TYPE_IPC_BUF s = some b)
    (he : cap_resolve TASK ehandle KOBJECT_TYPE_IPC_EP s = some e)
    (hnil : clhandle ≠ CAP_NIL)
    (hc : cap_resolve TASK clhandle KOBJECT_TYPE_CAPLIST s = some cl) :
    (sys_ipc2_buf_send TASK src size bhandle ehandle clhandle s).1 =
      if ipc2_buf_send_check b (some cl) s = EOK then (ipc2_copy_to_buf TASK b src size s).1
      else ipc2_buf_send_check b (some cl) s := by
  have he1 : cap_resolve TASK ehandle KOBJECT_TYPE_IPC_EP (kobject_add_ref b s) = some e := by
    simpa using he
  have hc1 : cap_resolve TASK clhandle KOBJECT_TYPE_CAPLIST
      (kobject_add_ref e (kobject_add_ref b s)) = some cl := by simpa using hc
  unfold sys_ipc2_buf_send
  rw [kobject_get_of_resolve hb]
  dsimp only
  rw [kobject_get_of_resolve he1]
  dsimp only
  rw [if_pos hnil, kobject_get_of_resolve hc1]
  dsimp only
  rw [sys_ipc2_buf_send_locked_rc]
  rw [ipc2_buf_send_check_congr (s := s)
    (t := kobject_add_ref cl (kobject_add_ref e (kobject_add_ref b s))) rfl (by simp) b (some cl)]
  rw [ipc2_copy_to_buf_congr_fst (s := s)
    (t := kobject_add_ref cl (kobject_add_ref e (kobject_add_ref b s))) rfl rfl]

/-- The return value of a finish whose handle resolves. -/
theorem sys_ipc2_buf_finish_rc {TASK src size : Nat} {bhandle : cap_handle_t} {s : State}
    {b : Nat} (hb : cap_resolve TASK bhandle KOBJECT_TYPE_IPC_BUF s = some b) :
    (sys_ipc2_buf_finish TASK src size bhandle s).1 =
      if ipc2_buf_finish_check b s = EOK then (ipc2_copy_to_buf TASK b src size s).1
      else ipc2_buf_finish_check b s := by
  have hc2 : ipc2_buf_finish_check b (kobject_add_ref b s) = ipc2_buf_finish_check b s := rfl
  have hcp := ipc2_copy_to_buf_congr_fst (s := s) (t := kobject_add_ref b s) rfl rfl TASK b src size
  unfold sys_ipc2_buf_finish
  rw [kobject_get_of_resolve hb]
  dsimp only
  rw [hc2]
  by_cases hc : ipc2_buf_finish_check b s = EOK
  · rw [if_pos hc, if_pos hc]
    by_cases hp : (ipc2_copy_to_buf TASK b src size s).1 = EOK
    · rw [hcp] at *
      simp [hp, hcp]
    · simp [hp, hcp]
  · simp [hc]

/-- A copy-in of no byte succeeds whatever the capacity and the address. -/
theorem ipc2_copy_to_buf_zero (TASK buf src : Nat) (s : State) :
    (ipc2_copy_to_buf TASK buf src 0 s).1 = EOK :=
  ipc2_copy_to_buf_ok_of (Nat.zero_le _) (by simp [uspace_range_ok])

/-! ### Refused and failing receives -/

theorem cap_resolve_ne_type {TASK : Nat} {h : cap_handle_t} {ty u : kobject_type_t}
    {s : State} {k : Nat} (hr : cap_resolve TASK h ty s = some k) (hne : u ≠ ty) :
    cap_resolve TASK h u s = none := by
  obtain ⟨hc, ht⟩ := cap_resolve_type hr
  unfold cap_resolve
  rw [hc]
  simp only [ht]
  rw [if_neg (fun h => hne h.symm)]

/-- A receive from a caplist that is not an endpoint-caplist returns `EINVAL`
and changes nothing. -/
theorem sys_ipc2_buf_receive_bad_tag {TASK dst size : Nat} {bhandle ehandle : cap_handle_t}
    {cvw : List errno_t} {info : Nat} {s : State} {c : Nat}
    (hc : cap_resolve TASK ehandle KOBJECT_TYPE_CAPLIST s = some c)
    (hty : (s.caplist c).type ≠ KOBJECT_TYPE_IPC_EP) :
    sys_ipc2_buf_receive TASK dst size bhandle ehandle cvw info s = some (EINVAL, s) := by
  have he := cap_resolve_ne_type (u := KOBJECT_TYPE_IPC_EP) hc (by decide)
  unfold sys_ipc2_buf_receive
  rw [kobject_get_of_not_resolve he]
  dsimp only
  rw [kobject_get_of_resolve hc]
  dsimp only
  simp only [kobject_add_ref_caplist]
  rw [if_pos hty, kobject_put_add_ref]

/-- A receive from a handle that is neither an endpoint nor a caplist returns
`ENOENT` and changes nothing. -/
theorem sys_ipc2_buf_receive_unresolved {TASK dst size : Nat} {bhandle ehandle : cap_handle_t}
    {cvw : List errno_t} {info : Nat} {s : State}
    (he : cap_resolve TASK ehandle KOBJECT_TYPE_IPC_EP s = none)
    (hc : cap_resolve TASK ehandle KOBJECT_TYPE_CAPLIST s = none) :
    sys_ipc2_buf_receive TASK dst size bhandle ehandle cvw info s = some (ENOENT, s) := by
  unfold sys_ipc2_buf_receive
  rw [kobject_get_of_not_resolve he]
  dsimp only
  rw [kobject_get_of_not_resolve hc]

/-- A receive from an endpoint whose own queue is empty takes no buffer: it
ends with the first outcome of the timed wait that is not `EOK`, the state
unchanged, or is still blocked. -/
theorem sys_ipc2_buf_receive_ep_empty {TASK dst size : Nat} {bhandle ehandle : cap_handle_t}
    {cvw : List errno_t} {info : Nat} {s : State} {e : Nat}
    (he : cap_resolve TASK ehandle KOBJECT_TYPE_IPC_EP s = some e)
    (hq : (s.ep e).buffers = []) :
    sys_ipc2_buf_receive TASK dst size bhandle ehandle cvw info s =
      (condvar_wait_loop cvw).map fun rc => (rc, s) := by
  unfold sys_ipc2_buf_receive
  rw [kobject_get_of_resolve he]
  dsimp only
  simp only [kobject_add_ref_ep, hq, ipc2_block_on]
  cases hw : condvar_wait_loop cvw with
  | none => simp
  | some rc => simp [kobject_put_add_ref]

/-- The tail of a receive that returns an error: the buffer is finished with
that error; handles, endpoints and membership are as before. -/
theorem sys_ipc2_buf_receive_tail_fail {TASK dst size : Nat} {bhandle : cap_handle_t}
    {info buf : Nat} {s t : State} {e : errno_t}
    (h : sys_ipc2_buf_receive_tail TASK dst size bhandle info buf s = (e, t)) (hne : e ≠ EOK) :
    t.caps = s.caps ∧ t.ep = s.ep ∧ t.uhandle = s.uhandle ∧ t.uwait = s.uwait ∧
    t.buf = upd s.buf buf { s.buf buf with state := IPC_BUF_FINISHED, wait_result := e } ∧
    (∀ x, (t.kobj x).type = (s.kobj x).type) ∧
    (∀ x, (t.kobj x).in_caplist = (s.kobj x).in_caplist) ∧
    (∀ x, (t.caplist x).type = (s.caplist x).type) ∧
    (∀ x, (t.caplist x).objects = (s.caplist x).objects) ∧
    (∀ x, (t.caplist x).queue = if (s.kobj buf).in_caplist = some x then
        (s.caplist x).queue ++ [buf] else (s.caplist x).queue) := by
  have key : ∀ u : State, u.caps = s.caps → u.ep = s.ep → u.uhandle = s.uhandle →
      u.uwait = s.uwait → u.buf = s.buf → u.caplist = s.caplist →
      (∀ x, (u.kobj x).type = (s.kobj x).type) →
      (∀ x, (u.kobj x).in_caplist = (s.kobj x).in_caplist) →
      t = kobject_put buf (ipc2_buf_finish buf e u) →
      t.caps = s.caps ∧ t.ep = s.ep ∧ t.uhandle = s.uhandle ∧ t.uwait = s.uwait ∧
      t.buf = upd s.buf buf { s.buf buf with state := IPC_BUF_FINISHED, wait_result := e } ∧
      (∀ x, (t.kobj x).type = (s.kobj x).type) ∧
      (∀ x, (t.kobj x).in_caplist = (s.kobj x).in_caplist) ∧
      (∀ x, (t.caplist x).type = (s.caplist x).type) ∧
      (∀ x, (t.caplist x).objects = (s.caplist x).objects) ∧
      (∀ x, (t.caplist x).queue = if (s.kobj buf).in_caplist = some x then
          (s.caplist x).queue ++ [buf] else (s.caplist x).queue) := by
    intro u u1 u2 u3 u4 u5 u6 u7 u8 ht
    obtain ⟨f1, f2, f3, f4, f5, f6, f7, f8, f9⟩ := ipc2_buf_finish_frame buf e u
    have fcl := ipc2_buf_finish_caplist buf e u
    subst ht
    refine ⟨by simp [f1, u1], by simp [f2, u2], by simp [f4, u3], by simp [f6, u4],
      by simp [f7, u5], fun x => by simp [f8, u7], fun x => by simp [f9, u8], ?_, ?_, ?_⟩
    · intro x
      simp only [kobject_put_caplist, fcl, u8, u6]
      cases hc : (s.kobj buf).in_caplist with
      | none => rfl
      | some c => by_cases hx : x = c <;> simp [upd, hx]
    · intro x
      simp only [kobject_put_caplist, fcl, u8, u6]
      cases hc : (s.kobj buf).in_caplist with
      | none => rfl
      | some c => by_cases hx : x = c <;> simp [upd, hx]
    · intro x
      simp only [kobject_put_caplist, fcl, u8, u6]
      cases hc : (s.kobj buf).in_caplist with
      | none => simp
      | some c =>
        by_cases hx : x = c
        · subst hx; simp [upd]
        · have hx2 : ¬ c = x := fun h => hx h.symm
          simp [upd, hx, hx2]
  unfold sys_ipc2_buf_receive_tail at h
  dsimp only at h
  by_cases h1 : (ipc2_copy_from_buf TASK buf dst size s).1 = EOK
  · obtain ⟨r1, r2, r3, r4, r5, r6, r7, r8, _, _⟩ := ipc2_copy_from_buf_ok h1
    generalize ipc2_copy_from_buf TASK buf dst size s = r at *
    simp only [h1, ne_eq, not_true_eq_false, if_false] at h
    generalize ipc_buf_receive_info_t.mk (r.2.buf buf).ep_label (r.2.buf buf).used
      (r.2.buf buf).size = v at h
    by_cases h2 : (copy_to_uspace_receive_info TASK info v r.2).1 = EOK
    · have c1 := copy_to_uspace_receive_info_ok h2
      generalize copy_to_uspace_receive_info TASK info v r.2 = c at *
      simp only [h2, ne_eq, not_true_eq_false, if_false] at h
      by_cases h3 : (cap_publish TASK bhandle buf (kobject_add_ref buf c.2)).1 = EOK
      · simp only [h3, ne_eq, not_true_eq_false, if_false, Prod.mk.injEq] at h
        exact absurd h.1.symm hne
      · have hp : (cap_publish TASK bhandle buf (kobject_add_ref buf c.2)).2 =
            kobject_add_ref buf c.2 := by
          unfold cap_publish at h3 ⊢
          cases hcap : (kobject_add_ref buf c.2).caps TASK bhandle <;> simp_all
        simp only [h3, ne_eq, not_false_eq_true, if_true, Prod.mk.injEq] at h
        obtain ⟨he, ht⟩ := h
        rw [hp, kobject_put_add_ref, he] at ht
        exact key c.2 (by rw [c1]; exact r1) (by rw [c1]; exact r4) (by rw [c1]; exact r6)
          (by rw [c1]; exact r8) (by rw [c1]; exact r3) (by rw [c1]; exact r5)
          (fun x => by rw [c1]; simp [r2]) (fun x => by rw [c1]; simp [r2]) ht.symm
    · have c2 := copy_to_uspace_receive_info_fail h2
      simp only [h2, ne_eq, not_false_eq_true, if_true, Prod.mk.injEq] at h
      obtain ⟨he, ht⟩ := h
      rw [c2, he] at ht
      exact key r.2 r1 r4 r6 r8 r3 r5 (fun x => by rw [r2]) (fun x => by rw [r2]) ht.symm
  · have r0 := ipc2_copy_from_buf_fail h1
    simp only [h1, ne_eq, not_false_eq_true, if_true, Prod.mk.injEq] at h
    obtain ⟨he, ht⟩ := h
    rw [r0, he] at ht
    exact key s rfl rfl rfl rfl rfl rfl (fun x => rfl) (fun x => rfl) ht.symm

theorem list_head_cons {l : List Nat} {b : Nat} (h : l.head? = some b) :
    ∃ rest, l = b :: rest := by
  cases l with
  | nil => simp at h
  | cons a rest =>
    simp only [List.head?_cons, Option.some.injEq] at h
    exact ⟨rest, by rw [h]⟩

/-- A receive that has taken the buffer `b` from its queue and then returns
an error `e` leaves `b` finished with result `e`; the handle table is as
before and the other buffers are untouched. -/
theorem sys_ipc2_buf_receive_fail {TASK dst size : Nat} {bhandle ehandle : cap_handle_t}
    {cvw : List errno_t} {info : Nat} {s t : State} {e : errno_t} {b : Nat}
    (h : sys_ipc2_buf_receive TASK dst size bhandle ehandle cvw info s = some (e, t))
    (hne : e ≠ EOK)
    (hdeq : (∃ ep, cap_resolve TASK ehandle KOBJECT_TYPE_IPC_EP s = some ep ∧
        (s.ep ep).buffers.head? = some b) ∨
      (cap_resolve TASK ehandle KOBJECT_TYPE_IPC_EP s = none ∧
        ∃ c, cap_resolve TASK ehandle KOBJECT_TYPE_CAPLIST s = some c ∧
          (s.caplist c).type = KOBJECT_TYPE_IPC_EP ∧ (s.caplist c).queue.head? = some b)) :
    (t.buf b).state = IPC_BUF_FINISHED ∧ (t.buf b).wait_result = e ∧
    ((t.buf b).in_ep = none ∨ (t.buf b).in_ep_caplist = none) ∧
    (t.buf b).used = (s.buf b).used ∧ (t.buf b).size = (s.buf b).size ∧
    (t.buf b).buf_label = (s.buf b).buf_label ∧ (t.buf b).data = (s.buf b).data ∧
    t.caps = s.caps ∧ (∀ x, x ≠ b → t.buf x = s.buf x) ∧
    (∀ x, (t.kobj x).type = (s.kobj x).type) ∧
    (∀ x, (t.kobj x).in_caplist = (s.kobj x).in_caplist) := by
  unfold sys_ipc2_buf_receive at h
  rcases hdeq with ⟨ep, he, hq⟩ | ⟨he, c, hc, hty, hq⟩
  · obtain ⟨rest, hq⟩ := list_head_cons hq
    rw [kobject_get_of_resolve he] at h
    dsimp only at h
    simp only [kobject_add_ref_ep, hq, ipc2_block_on, Option.some.injEq] at h
    obtain ⟨t1, _, _, _, t5, t6, t7, _⟩ := sys_ipc2_buf_receive_tail_fail h hne
    refine ⟨by rw [t5]; simp [upd], by rw [t5]; simp [upd], ?_, by rw [t5]; simp [upd],
      by rw [t5]; simp [upd], by rw [t5]; simp [upd], by rw [t5]; simp [upd], by rw [t1]; simp,
      ?_, ?_, ?_⟩
    · left; rw [t5]; simp [upd]
    · intro x hx; rw [t5]; simp [upd, hx]
    · intro x; rw [t6]; simp
    · intro x; rw [t7]; simp
  · obtain ⟨rest, hq⟩ := list_head_cons hq
    rw [kobject_get_of_not_resolve he] at h
    dsimp only at h
    rw [kobject_get_of_resolve hc] at h
    dsimp only at h
    rw [if_neg (fun hn => hn hty)] at h
    simp only [kobject_add_ref_caplist, hq, ipc2_block_on, Option.some.injEq] at h
    obtain ⟨t1, _, _, _, t5, t6, t7, _⟩ := sys_ipc2_buf_receive_tail_fail h hne
    refine ⟨by rw [t5]; simp [upd], by rw [t5]; simp [upd], ?_, by rw [t5]; simp [upd],
      by rw [t5]; simp [upd], by rw [t5]; simp [upd], by rw [t5]; simp [upd], by rw [t1]; simp,
      ?_, ?_, ?_⟩
    · right; rw [t5]; simp [upd]
    · intro x hx; rw [t5]; simp [upd, hx]
    · intro x; rw [t6]; simp
    · intro x; rw [t7]; simp

/-! ### The caplist scenarios, step by step -/

theorem option_eq_of_map_rc {α : Type} {o : Option (errno_t × α)} {a : α} {rc : errno_t}
    (h1 : o.map (fun x => x.1) = some rc)
    (h2 : (match o with | some r => r.2 | none => a) = a) : o = some (rc, a) := by
  cases o with
  | none => simp at h1
  | some r =>
    simp only [Option.map_some', Option.some.injEq] at h1
    dsimp only at h2
    rw [← h1, ← h2]

theorem test_receive_failed_eq :
    sys_ipc2_buf_receive 0 16 16 9 2 [] 0 test_sent = some (ENOENT, test_receive_failed) :=
  option_eq_of_map_rc (by decide) rfl

theorem caplist_add_refcnt (cl k x : Nat) (s : State) :
    ((caplist_add cl k s).2.kobj x).refcnt =
      (s.kobj x).refcnt + if x = k ∧ (s.kobj k).in_caplist = none then 1 else 0 := by
  cases h : (s.kobj k).in_caplist with
  | some c => simp [caplist_add, h]
  | none =>
    rw [caplist_add_ok h]
    by_cases hx : x = k <;> simp [kobject_add_ref, upd, hx]

theorem caplist_add_brk (cl k : Nat) (s : State) : (caplist_add cl k s).2.brk = s.brk := by
  cases h : (s.kobj k).in_caplist with
  | some c => simp [caplist_add, h]
  | none => rw [caplist_add_ok h]; rfl

theorem ipc2_unpublish_temp_cap_refcnt (TASK : Nat) (h : cap_handle_t) (x : Nat) (s : State) :
    ((ipc2_unpublish_temp_cap TASK h s).kobj x).refcnt =
      (s.kobj x).refcnt - if cap_resolve TASK h KOBJECT_TYPE_IPC_BUF s = some x then 1 else 0 := by
  cases hr : cap_resolve TASK h KOBJECT_TYPE_IPC_BUF s with
  | none => simp [ipc2_unpublish_temp_cap, cap_unpublish, hr]
  | some k =>
    by_cases hx : x = k
    · subst hx
      simp [ipc2_unpublish_temp_cap, cap_unpublish, hr, kobject_put, upd]
    · have hx2 : ¬ k = x := fun h => hx h.symm
      simp [ipc2_unpublish_temp_cap, cap_unpublish, hr, kobject_put, upd, hx, hx2]

theorem ipc2_unpublish_temp_cap_brk (TASK : Nat) (h : cap_handle_t) (s : State) :
    (ipc2_unpublish_temp_cap TASK h s).brk = s.brk := by
  cases hr : cap_resolve TASK h KOBJECT_TYPE_IPC_BUF s <;>
    simp [ipc2_unpublish_temp_cap, cap_unpublish, hr]

theorem ipc2_copy_to_buf_brk (TASK buf src size : Nat) (s : State) :
    (ipc2_copy_to_buf TASK buf src size s).2.brk = s.brk := by
  unfold ipc2_copy_to_buf
  dsimp only
  split_ifs <;> rfl

theorem sys_ipc2_buf_send_prepare_refcnt (TASK : Nat) (bhandle : cap_handle_t) (buf ep : Nat)
    (cl : Option Nat) (x : Nat) (s : State) :
    ((sys_ipc2_buf_send_prepare TASK bhandle buf ep cl s).kobj x).refcnt =
      (s.kobj x).refcnt +
        (if x = buf ∧ cl.isSome = true ∧ (s.kobj buf).in_caplist = none then 1 else 0) -
        (if (s.buf buf).state = IPC_BUF_PENDING ∧
            cap_resolve TASK bhandle KOBJECT_TYPE_IPC_BUF s = some x then 1 else 0) := by
  have hres : ∀ c, cap_resolve TASK bhandle KOBJECT_TYPE_IPC_BUF (caplist_add c buf s).2 =
      cap_resolve TASK bhandle KOBJECT_TYPE_IPC_BUF s := fun c =>
    cap_resolve_congr (s := s) (t := (caplist_add c buf s).2) (caplist_add_frame c buf s).1
      (caplist_add_frame c buf s).2.2.2.2.2.2.2.1 _ _ _
  have hbuf : ∀ c, (caplist_add c buf s).2.buf = s.buf := fun c => (caplist_add_frame c buf s).2.1
  unfold sys_ipc2_buf_send_prepare
  cases cl with
  | none =>
    dsimp only
    by_cases hp : (s.buf buf).state = IPC_BUF_PENDING
    · simp [hp, ipc2_unpublish_temp_cap_refcnt]
    · simp [hp]
  | some c =>
    dsimp only
    rw [hbuf c]
    by_cases hp : (s.buf buf).state = IPC_BUF_PENDING
    · simp [hp, ipc2_unpublish_temp_cap_refcnt, hres, caplist_add_refcnt]
    · simp [hp, caplist_add_refcnt]

theorem sys_ipc2_buf_send_prepare_brk (TASK : Nat) (bhandle : cap_handle_t) (buf ep : Nat)
    (cl : Option Nat) (s : State) :
    (sys_ipc2_buf_send_prepare TASK bhandle buf ep cl s).brk = s.brk := by
  unfold sys_ipc2_buf_send_prepare
  cases cl <;> dsimp only <;> split <;>
    simp [ipc2_unpublish_temp_cap_brk, caplist_add_brk]

theorem sys_ipc2_buf_send_enqueue_refcnt (buf ep x : Nat) (s : State) :
    ((sys_ipc2_buf_send_enqueue buf ep s).kobj x).refcnt =
      (s.kobj x).refcnt + if x = buf then 1 else 0 := by
  unfold sys_ipc2_buf_send_enqueue
  dsimp only
  split <;> exact kobject_add_ref_refcnt buf x s

theorem sys_ipc2_buf_send_enqueue_brk (buf ep : Nat) (s : State) :
    (sys_ipc2_buf_send_enqueue buf ep s).brk = s.brk := by
  unfold sys_ipc2_buf_send_enqueue
  dsimp only
  split <;> rfl

theorem sys_ipc2_buf_send_locked_refcnt {TASK src size : Nat} {bhandle : cap_handle_t}
    {buf ep : Nat} {cl : Option Nat} {s t : State}
    (h : sys_ipc2_buf_send_locked TASK src size bhandle buf ep cl s = (EOK, t))
    (hb : cap_resolve TASK bhandle KOBJECT_TYPE_IPC_BUF s = some buf) :
    (∀ x, (t.kobj x).refcnt = (s.kobj x).refcnt +
        (if x = buf ∧ cl.isSome = true then 1 else 0) -
        (if x = buf ∧ (s.buf buf).state = IPC_BUF_PENDING then 1 else 0) +
        (if x = buf then 1 else 0)) ∧
    t.brk = s.brk := by
  have h1 : (sys_ipc2_buf_send_locked TASK src size bhandle buf ep cl s).1 = EOK := by rw [h]
  have h2 : (sys_ipc2_buf_send_locked TASK src size bhandle buf ep cl s).2 = t := by rw [h]
  obtain ⟨hchk, hcp, heq⟩ := sys_ipc2_buf_send_locked_eq h1
  rw [h2] at heq
  obtain ⟨_, _, _, hclq⟩ := ipc2_buf_send_check_ok hchk
  obtain ⟨_, _, hc0⟩ := ipc2_copy_to_buf_ok hcp
  obtain ⟨c0caps, c0kobj, _⟩ := ipc2_copy_to_buf_frame TASK buf src size s
  have c0brk := ipc2_copy_to_buf_brk TASK buf src size s
  generalize hc0d : (ipc2_copy_to_buf TASK buf src size s).2 = c0 at *
  have c0state : (c0.buf buf).state = (s.buf buf).state := by rw [hc0]; simp [upd]
  have c0res : cap_resolve TASK bhandle KOBJECT_TYPE_IPC_BUF c0 = some buf := by
    rw [← hb]
    exact cap_resolve_congr (s := s) (t := c0) c0caps (fun x => by rw [c0kobj]) _ _ _
  constructor
  · intro x
    rw [heq, sys_ipc2_buf_send_commit, sys_ipc2_buf_send_enqueue_refcnt,
      sys_ipc2_buf_send_prepare_refcnt, c0state, c0res, c0kobj]
    cases cl with
    | none =>
      by_cases hx : x = buf
      · subst hx
        simp
      · have hx2 : ¬ buf = x := fun h => hx h.symm
        simp [hx, hx2]
    | some c =>
      have := (hclq rfl).2
      by_cases hx : x = buf
      · subst hx
        simp [this]
      · have hx2 : ¬ buf = x := fun h => hx h.symm
        simp [hx, hx2]
  · rw [heq, sys_ipc2_buf_send_commit, sys_ipc2_buf_send_enqueue_brk,
      sys_ipc2_buf_send_prepare_brk, c0brk]

/-- Reference counts after a send that returns `EOK`: the buffer gains the
reference of the queue linkage and, for an inserting send, that of the
caplist, and a forwarding send drops the reference of the unpublished
handle; no other count changes and nothing is allocated. -/
theorem sys_ipc2_buf_send_refcnt {TASK src size : Nat} {bhandle ehandle clhandle : cap_handle_t}
    {s t : State} {buf : Nat}
    (h : sys_ipc2_buf_send TASK src size bhandle ehandle clhandle s = (EOK, t))
    (hb : cap_resolve TASK bhandle KOBJECT_TYPE_IPC_BUF s = some buf) :
    (∀ x, (t.kobj x).refcnt =
      if x = buf then (s.kobj buf).refcnt + 1 + (if clhandle ≠ CAP_NIL then 1 else 0) -
          (if (s.buf buf).state = IPC_BUF_PENDING then 1 else 0)
      else (s.kobj x).refcnt) ∧
    t.brk = s.brk := by
  unfold sys_ipc2_buf_send at h
  rw [kobject_get_of_resolve hb] at h
  dsimp only at h
  cases he : cap_resolve TASK ehandle KOBJECT_TYPE_IPC_EP s with
  | none =>
    have he1 : cap_resolve TASK ehandle KOBJECT_TYPE_IPC_EP (kobject_add_ref buf s) = none := by
      simpa using he
    simp [kobject_get_of_not_resolve he1] at h
  | some ep =>
    have he1 : cap_resolve TASK ehandle KOBJECT_TYPE_IPC_EP (kobject_add_ref buf s) = some ep := by
      simpa using he
    rw [kobject_get_of_resolve he1] at h
    dsimp only at h
    by_cases hnil : clhandle ≠ CAP_NIL
    · rw [if_pos hnil] at h
      cases hc : cap_resolve TASK clhandle KOBJECT_TYPE_CAPLIST s with
      | none =>
        have hc1 : cap_resolve TASK clhandle KOBJECT_TYPE_CAPLIST
            (kobject_add_ref ep (kobject_add_ref buf s)) = none := by simpa using hc
        simp [kobject_get_of_not_resolve hc1] at h
      | some cl =>
        have hc1 : cap_resolve TASK clhandle KOBJECT_TYPE_CAPLIST
            (kobject_add_ref ep (kobject_add_ref buf s)) = some cl := by simpa using hc
        rw [kobject_get_of_resolve hc1] at h
        dsimp only at h
        generalize hr : sys_ipc2_buf_send_locked TASK src size bhandle buf ep (some cl)
          (kobject_add_ref cl (kobject_add_ref ep (kobject_add_ref buf s))) = r at h
        obtain ⟨r1, r2⟩ := r
        simp only [Prod.mk.injEq] at h
        obtain ⟨hrc1, hst⟩ := h
        subst hrc1
        have hb3 : cap_resolve TASK bhandle KOBJECT_TYPE_IPC_BUF
            (kobject_add_ref cl (kobject_add_ref ep (kobject_add_ref buf s))) = some buf := by
          simpa using hb
        obtain ⟨hl, hbrk⟩ := sys_ipc2_buf_send_locked_refcnt hr hb3
        subst hst
        constructor
        · intro x
          simp only [kobject_put_refcnt, hl, kobject_add_ref_refcnt, kobject_add_ref_buf,
            if_pos hnil]
          by_cases hx : x = buf
          · subst hx
            split_ifs <;> simp_all
          · split_ifs <;> simp_all
        · simp [hbrk]
    · rw [if_neg hnil] at h
      generalize hr : sys_ipc2_buf_send_locked TASK src size bhandle buf ep none
        (kobject_add_ref ep (kobject_add_ref buf s)) = r at h
      obtain ⟨r1, r2⟩ := r
      simp only [Prod.mk.injEq] at h
      obtain ⟨hrc1, hst⟩ := h
      subst hrc1
      have hb3 : cap_resolve TASK bhandle KOBJECT_TYPE_IPC_BUF
          (kobject_add_ref ep (kobject_add_ref buf s)) = some buf := by
        simpa using hb
      obtain ⟨hl, hbrk⟩ := sys_ipc2_buf_send_locked_refcnt hr hb3
      subst hst
      constructor
      · intro x
        simp only [kobject_put_refcnt, hl, kobject_add_ref_refcnt, kobject_add_ref_buf,
          if_neg hnil]
        by_cases hx : x = buf
        · subst hx
          split_ifs <;> simp_all
        · split_ifs <;> simp_all
      · simp [hbrk]

/-- The state after a successful `sys_caplist_add` of an object that is in no
caplist: the object is a member and holds one more reference. -/
theorem sys_caplist_add_ok {TASK : Nat} {clhandle handle : cap_handle_t} {s : State}
    {cl k : Nat} (hc : cap_resolve TASK clhandle KOBJECT_TYPE_CAPLIST s = some cl)
    (hk : cap_resolve TASK handle (s.caplist cl).type s = some k)
    (hfree : (s.kobj k).in_caplist = none) :
    sys_caplist_add TASK clhandle handle s = (EOK,
      { s with
        kobj := upd s.kobj k
          { s.kobj k with in_caplist := some cl, refcnt := (s.kobj k).refcnt + 1 },
        caplist := upd s.caplist cl
          { s.caplist cl with objects := (s.caplist cl).objects ++ [k] } }) := by
  have hk1 : cap_resolve TASK handle (s.caplist cl).type (kobject_add_ref cl s) = some k := by
    simpa using hk
  have hfree1 : ((kobject_add_ref k (kobject_add_ref cl s)).kobj k).in_caplist = none := by
    simpa using hfree
  unfold sys_caplist_add
  rw [kobject_get_of_resolve hc]
  dsimp only
  simp only [kobject_add_ref_caplist]
  rw [kobject_get_of_resolve hk1]
  dsimp only
  rw [caplist_add_ok hfree1]
  dsimp only
  refine Prod.ext rfl ?_
  apply State_ext <;> try rfl
  funext x
  apply kobject_t_ext
  · by_cases hx : x = k <;> simp [upd, hx]
  · by_cases hx : x = k
    · subst hx
      simp only [kobject_put_refcnt, kobject_add_ref_refcnt, upd]
      simp
      split_ifs <;> omega
    · simp only [kobject_put_refcnt, kobject_add_ref_refcnt, upd, if_neg hx]
      split_ifs <;> omega
  · by_cases hx : x = k <;> simp [upd, hx]

/-! ### Listing a buffer by `sys_caplist_add` and by an inserting send -/

/-- For a READY buffer in no caplist, the send without a caplist that follows
`sys_caplist_add` returns what the inserting send returns. -/
theorem sys_caplist_add_send_rc {TASK : Nat} (src n : Nat) {bh eh clh : cap_handle_t} {s : State}
    {b e cl : Nat} (hb : cap_resolve TASK bh KOBJECT_TYPE_IPC_BUF s = some b)
    (he : cap_resolve TASK eh KOBJECT_TYPE_IPC_EP s = some e) (hnil : clh ≠ CAP_NIL)
    (hc : cap_resolve TASK clh KOBJECT_TYPE_CAPLIST s = some cl)
    (hty : (s.caplist cl).type = KOBJECT_TYPE_IPC_BUF)
    (hready : (s.buf b).state = IPC_BUF_READY) (hfree : (s.kobj b).in_caplist = none) :
    (sys_ipc2_buf_send TASK src n bh eh CAP_NIL (sys_caplist_add TASK clh bh s).2).1 =
      (sys_ipc2_buf_send TASK src n bh eh clh s).1 := by
  have hk : cap_resolve TASK bh (s.caplist cl).type s = some b := by rw [hty]; exact hb
  rw [sys_caplist_add_ok hc hk hfree]
  dsimp only
  obtain ⟨s1, hs1⟩ : ∃ s1, s1 = { s with
      kobj := upd s.kobj b
        { s.kobj b with in_caplist := some cl, refcnt := (s.kobj b).refcnt + 1 },
      caplist := upd s.caplist cl
        { s.caplist cl with objects := (s.caplist cl).objects ++ [b] } } := ⟨_, rfl⟩
  rw [← hs1]
  have fcaps : s1.caps = s.caps := by rw [hs1]
  have fbuf : s1.buf = s.buf := by rw [hs1]
  have fumem : s1.umem = s.umem := by rw [hs1]
  have ftype : ∀ x, (s1.kobj x).type = (s.kobj x).type := by
    intro x
    rw [hs1]
    by_cases hx : x = b <;> simp [upd, hx]
  have hb1 : cap_resolve TASK bh KOBJECT_TYPE_IPC_BUF s1 = some b := by
    rw [cap_resolve_congr (s := s) (t := s1) fcaps ftype]; exact hb
  have he1 : cap_resolve TASK eh KOBJECT_TYPE_IPC_EP s1 = some e := by
    rw [cap_resolve_congr (s := s) (t := s1) fcaps ftype]; exact he
  rw [sys_ipc2_buf_send_rc_nil hb1 he1, sys_ipc2_buf_send_rc_cl hb he hnil hc,
    ipc2_copy_to_buf_congr_fst (s := s) (t := s1) fbuf fumem]
  have hchk : ipc2_buf_send_check b none s1 = ipc2_buf_send_check b (some cl) s := by
    unfold ipc2_buf_send_check
    rw [fbuf]
    simp [hready, hfree]
  rw [hchk]

/-- For a READY buffer in no caplist, when the inserting send returns `EOK`,
`sys_caplist_add` followed by the send without a caplist ends in the same
state, reference counts included. -/
theorem sys_caplist_add_send_state {TASK src n : Nat} {bh eh clh : cap_handle_t} {s : State}
    {b e cl : Nat} (hb : cap_resolve TASK bh KOBJECT_TYPE_IPC_BUF s = some b)
    (he : cap_resolve TASK eh KOBJECT_TYPE_IPC_EP s = some e) (hnil : clh ≠ CAP_NIL)
    (hc : cap_resolve TASK clh KOBJECT_TYPE_CAPLIST s = some cl)
    (hty : (s.caplist cl).type = KOBJECT_TYPE_IPC_BUF)
    (hready : (s.buf b).state = IPC_BUF_READY) (hfree : (s.kobj b).in_caplist = none)
    (hok : (sys_ipc2_buf_send TASK src n bh eh clh s).1 = EOK) :
    (sys_ipc2_buf_send TASK src n bh eh CAP_NIL (sys_caplist_add TASK clh bh s).2).2 =
      (sys_ipc2_buf_send TASK src n bh eh clh s).2 := by
  have hokA := (sys_caplist_add_send_rc src n hb he hnil hc hty hready hfree).trans
    hok
  have hk : cap_resolve TASK bh (s.caplist cl).type s = some b := by rw [hty]; exact hb
  rw [sys_caplist_add_ok hc hk hfree] at hokA ⊢
  dsimp only at hokA ⊢
  obtain ⟨s1, hs1⟩ : ∃ s1, s1 = { s with
      kobj := upd s.kobj b
        { s.kobj b with in_caplist := some cl, refcnt := (s.kobj b).refcnt + 1 },
      caplist := upd s.caplist cl
        { s.caplist cl with objects := (s.caplist cl).objects ++ [b] } } := ⟨_, rfl⟩
  rw [← hs1] at hokA ⊢
  have fcaps : s1.caps = s.caps := by rw [hs1]
  have fbuf : s1.buf = s.buf := by rw [hs1]
  have fep : s1.ep = s.ep := by rw [hs1]
  have fumem : s1.umem = s.umem := by rw [hs1]
  have fuh : s1.uhandle = s.uhandle := by rw [hs1]
  have fur : s1.urecv = s.urecv := by rw [hs1]
  have fuw : s1.uwait = s.uwait := by rw [hs1]
  have fbrk : s1.brk = s.brk := by rw [hs1]
  have fkobj : s1.kobj = upd s.kobj b
      { s.kobj b with in_caplist := some cl, refcnt := (s.kobj b).refcnt + 1 } := by rw [hs1]
  have fcl : s1.caplist = upd s.caplist cl
      { s.caplist cl with objects := (s.caplist cl).objects ++ [b] } := by rw [hs1]
  have ftype : ∀ x, (s1.kobj x).type = (s.kobj x).type := by
    intro x
    rw [fkobj]
    by_cases hx : x = b <;> simp [upd, hx]
  have hb1 : cap_resolve TASK bh KOBJECT_TYPE_IPC_BUF s1 = some b := by
    rw [cap_resolve_congr (s := s) (t := s1) fcaps ftype]; exact hb
  have he1 : cap_resolve TASK eh KOBJECT_TYPE_IPC_EP s1 = some e := by
    rw [cap_resolve_congr (s := s) (t := s1) fcaps ftype]; exact he
  have hne : e ≠ b := by
    intro hx
    have h1 := (cap_resolve_type hb).2
    have h2 := (cap_resolve_type he).2
    rw [hx, h1] at h2
    exact absurd h2 (by decide)
  have fein : (s1.kobj e).in_caplist = (s.kobj e).in_caplist := by
    rw [fkobj]; simp [upd, hne]
  generalize hA : sys_ipc2_buf_send TASK src n bh eh CAP_NIL s1 = rA at hokA ⊢
  generalize hB : sys_ipc2_buf_send TASK src n bh eh clh s = rB at hok ⊢
  obtain ⟨rcA, tA⟩ := rA
  obtain ⟨rcB, tB⟩ := rB
  dsimp only at hokA hok ⊢
  subst hokA
  subst hok
  obtain ⟨rA, brkA⟩ := sys_ipc2_buf_send_refcnt hA hb1
  obtain ⟨rB, brkB⟩ := sys_ipc2_buf_send_refcnt hB hb
  obtain ⟨b1, e1, cl1, hb2, he2, hcl1, _, _, _, ⟨a1, a2, a3, a4⟩, acaps, abo, ab, ael, aeq,
    aclt, aclq, aclo, akt, aki⟩ := sys_ipc2_buf_send_ok hA
  obtain ⟨b3, e3, cl3, hb4, he4, hcl3, _, _, _, ⟨c1, c2, c3, c4⟩, ccaps, cbo, cb, cel, ceq,
    cclt, cclq, cclo, ckt, cki⟩ := sys_ipc2_buf_send_ok hB
  rw [hb1] at hb2
  rw [he1] at he2
  rw [hb] at hb4
  rw [he] at he4
  simp only [Option.some.injEq] at hb2 he2 hb4 he4
  subst hb2
  subst he2
  subst hb4
  subst he4
  have hcl1n : cl1 = none := by rw [hcl1]; simp [CAP_NIL]
  have hcl3s : cl3 = some cl := by rw [hcl3, if_pos hnil, hc]
  subst hcl1n
  subst hcl3s
  apply State_ext
  · rw [acaps, ccaps, fbuf, fcaps]
  · funext x
    apply kobject_t_ext
    · rw [akt, ckt, ftype]
    · rw [rA, rB, fbuf, fkobj]
      by_cases hx : x = b
      · simp [hx, upd, hnil, hready]
      · simp [hx, upd]
    · rw [aki, cki, fkobj]
      by_cases hx : x = b <;> simp [hx, upd]
  · funext x
    by_cases hx : x = b
    · rw [hx, ab, cb, fbuf, fep, fumem, fein]
    · rw [abo x hx, cbo x hx, fbuf]
  · funext x
    apply ipc_ep_t_ext
    · rw [aeq, ceq, fep, fein]
    · rw [ael, cel, fep]
  · funext x
    apply caplist_t_ext
    · rw [aclt, cclt, fcl]
      by_cases hx : x = cl <;> simp [hx, upd]
    · rw [aclo, cclo, fcl]
      by_cases hx : x = cl
      · simp [hx, upd]
      · have hx2 : ¬ cl = x := fun h => hx h.symm
        simp [hx, hx2, upd]
    · rw [aclq, cclq, fein, fcl]
      by_cases hx : x = cl <;> simp [hx, upd]
  · rw [a1, c1, fumem]
  · rw [a2, c2, fuh]
  · rw [a3, c3, fur]
  · rw [a4, c4, fuw]
  · rw [brkA, brkB, fbrk]

/-! ### `sys_caplist_add` and `sys_caplist_del` -/

theorem kobject_put_add_ref_nest (a b : Nat) (s : State) :
    kobject_put a (kobject_put b (kobject_add_ref b (kobject_add_ref a s))) = s := by
  rw [kobject_put_add_ref, kobject_put_add_ref]

/-- `sys_caplist_add` of an object that is a member of a caplist returns
`EBUSY` and changes nothing. -/
theorem sys_caplist_add_busy {TASK : Nat} {clhandle handle : cap_handle_t} {s : State}
    {cl k : Nat} (hc : cap_resolve TASK clhandle KOBJECT_TYPE_CAPLIST s = some cl)
    (hk : cap_resolve TASK handle (s.caplist cl).type s = some k)
    (hmem : (s.kobj k).in_caplist ≠ none) :
    sys_caplist_add TASK clhandle handle s = (EBUSY, s) := by
  have hk1 : cap_resolve TASK handle (s.caplist cl).type (kobject_add_ref cl s) = some k := by
    simpa using hk
  have hmem1 : ((kobject_add_ref k (kobject_add_ref cl s)).kobj k).in_caplist.isSome = true := by
    cases h : (s.kobj k).in_caplist with
    | none => exact absurd h hmem
    | some c => simp [h]
  unfold sys_caplist_add
  rw [kobject_get_of_resolve hc]
  dsimp only
  simp only [kobject_add_ref_caplist]
  rw [kobject_get_of_resolve hk1]
  dsimp only
  unfold caplist_add
  rw [if_pos hmem1]
  dsimp only
  rw [kobject_put_add_ref_nest]

/-- `sys_caplist_del` of a member of the caplist: the object leaves the member
list and loses the reference of the caplist. -/
theorem sys_caplist_del_ok {TASK : Nat} {clhandle handle : cap_handle_t} {s : State}
    {cl k : Nat} (hc : cap_resolve TASK clhandle KOBJECT_TYPE_CAPLIST s = some cl)
    (hk : cap_resolve TASK handle (s.caplist cl).type s = some k)
    (hmem : (s.kobj k).in_caplist = some cl) :
    sys_caplist_del TASK clhandle handle s = (EOK,
      { s with
        kobj := upd s.kobj k
          { s.kobj k with in_caplist := none, refcnt := (s.kobj k).refcnt - 1 },
        caplist := upd s.caplist cl
          { s.caplist cl with objects := (s.caplist cl).objects.erase k } }) := by
  have hk1 : cap_resolve TASK handle (s.caplist cl).type (kobject_add_ref cl s) = some k := by
    simpa using hk
  have hmem1 : ¬ ((kobject_add_ref k (kobject_add_ref cl s)).kobj k).in_caplist ≠ some cl := by
    simpa using hmem
  unfold sys_caplist_del
  rw [kobject_get_of_resolve hc]
  dsimp only
  simp only [kobject_add_ref_caplist]
  rw [kobject_get_of_resolve hk1]
  dsimp only
  unfold caplist_del
  rw [if_neg hmem1]
  dsimp only
  refine Prod.ext rfl ?_
  apply State_ext <;> try rfl
  funext x
  apply kobject_t_ext
  · by_cases hx : x = k <;> simp [upd, hx]
  · by_cases hx : x = k
    · subst hx
      simp only [kobject_put_refcnt, kobject_add_ref_refcnt, upd]
      simp
      split_ifs <;> omega
    · simp only [kobject_put_refcnt, kobject_add_ref_refcnt, upd, if_neg hx]
      split_ifs <;> omega
  · by_cases hx : x = k <;> simp [upd, hx]

/-- `sys_caplist_del` returns `ENOENT` and changes nothing unless both handles
resolve and the object is a member of this caplist. -/
theorem sys_caplist_del_not_member {TASK : Nat} {clhandle handle : cap_handle_t} {s : State}
    (h : ∀ cl k, cap_resolve TASK clhandle KOBJECT_TYPE_CAPLIST s = some cl →
      cap_resolve TASK handle (s.caplist cl).type s = some k →
      (s.kobj k).in_caplist ≠ some cl) :
    sys_caplist_del TASK clhandle handle s = (ENOENT, s) := by
  unfold sys_caplist_del
  cases hc : cap_resolve TASK clhandle KOBJECT_TYPE_CAPLIST s with
  | none => rw [kobject_get_of_not_resolve hc]
  | some cl =>
    rw [kobject_get_of_resolve hc]
    dsimp only
    simp only [kobject_add_ref_caplist]
    cases hk : cap_resolve TASK handle (s.caplist cl).type s with
    | none =>
      have hk1 : cap_resolve TASK handle (s.caplist cl).type (kobject_add_ref cl s) = none := by
        simpa using hk
      rw [kobject_get_of_not_resolve hk1]
      dsimp only
      rw [kobject_put_add_ref]
    | some k =>
      have hk1 : cap_resolve TASK handle (s.caplist cl).type (kobject_add_ref cl s) = some k := by
        simpa using hk
      have hmem1 : ((kobject_add_ref k (kobject_add_ref cl s)).kobj k).in_caplist ≠ some cl := by
        simpa using h cl k hc hk
      rw [kobject_get_of_resolve hk1]
      dsimp only
      unfold caplist_del
      rw [if_pos hmem1]
      dsimp only
      rw [kobject_put_add_ref_nest]

/-! ### Return codes of the blocking calls -/

theorem copy_to_uspace_rc (TASK dst : Nat) (src : Nat → Nat) (size : Nat) (s : State) :
    (copy_to_uspace TASK dst src size s).1 = EOK ∨
    (copy_to_uspace TASK dst src size s).1 = EFAULT_COPYOUT := by
  unfold copy_to_uspace
  split_ifs <;> simp

theorem ipc2_copy_from_buf_rc (TASK buf dst size : Nat) (s : State) :
    (ipc2_copy_from_buf TASK buf dst size s).1 = EOK ∨
    (ipc2_copy_from_buf TASK buf dst size s).1 = EFAULT_COPYOUT := by
  rw [ipc2_copy_from_buf_eq]
  exact copy_to_uspace_rc _ _ _ _ _

theorem copy_to_uspace_receive_info_rc (TASK dst : Nat) (v : ipc_buf_receive_info_t)
    (s : State) :
    (copy_to_uspace_receive_info TASK dst v s).1 = EOK ∨
    (copy_to_uspace_receive_info TASK dst v s).1 = EFAULT_COPYOUT := by
  unfold copy_to_uspace_receive_info
  split <;> simp

theorem copy_to_uspace_wait_info_rc (TASK dst : Nat) (v : ipc_buf_wait_info_t) (s : State) :
    (copy_to_uspace_wait_info TASK dst v s).1 = EOK ∨
    (copy_to_uspace_wait_info TASK dst v s).1 = EFAULT_COPYOUT := by
  unfold copy_to_uspace_wait_info
  split <;> simp

theorem cap_publish_rc (TASK : Nat) (h : cap_handle_t) (k : Nat) (s : State) :
    (cap_publish TASK h k s).1 = EOK ∨ (cap_publish TASK h k s).1 = ENOENT := by
  unfold cap_publish
  split <;> simp

/-- Once a buffer has been taken from the queue, a receive returns `EOK`, a
copy-out fault or the failure of `cap_publish`. -/
theorem sys_ipc2_buf_receive_tail_rc (TASK dst size : Nat) (bhandle : cap_handle_t)
    (info buf : Nat) (s : State) :
    (sys_ipc2_buf_receive_tail TASK dst size bhandle info buf s).1 = EOK ∨
    (sys_ipc2_buf_receive_tail TASK dst size bhandle info buf s).1 = EFAULT_COPYOUT ∨
    (sys_ipc2_buf_receive_tail TASK dst size bhandle info buf s).1 = ENOENT := by
  unfold sys_ipc2_buf_receive_tail
  dsimp only
  split_ifs with h1 h2 h3
  · rcases ipc2_copy_from_buf_rc TASK buf dst size s with h | h
    · exact absurd h h1
    · exact Or.inr (Or.inl h)
  · rcases copy_to_uspace_receive_info_rc TASK info _ (ipc2_copy_from_buf TASK buf dst size s).2
      with h | h
    · exact absurd h h2
    · exact Or.inr (Or.inl h)
  · rcases cap_publish_rc TASK bhandle buf (kobject_add_ref buf
      (copy_to_uspace_receive_info TASK info _ (ipc2_copy_from_buf TASK buf dst size s).2).2)
      with h | h
    · exact absurd h h3
    · exact Or.inr (Or.inr h)
  · exact Or.inl rfl

/-- Once the finished buffer has been found, a wait returns `EOK` or a
copy-out fault. -/
theorem sys_ipc2_buf_wait_tail_rc (TASK dst size info buf : Nat) (s : State) :
    (sys_ipc2_buf_wait_tail TASK dst size info buf s).1 = EOK ∨
    (sys_ipc2_buf_wait_tail TASK dst size info buf s).1 = EFAULT_COPYOUT := by
  unfold sys_ipc2_buf_wait_tail
  dsimp only
  split_ifs with h1
  · rcases ipc2_copy_from_buf_rc TASK buf dst size _ with h | h
    · exact absurd h h1
    · exact Or.inr h
  · exact copy_to_uspace_wait_info_rc _ _ _ _

/-- A receive that returns a code other than `EOK`, a copy-out fault, `EINVAL`
and `ENOENT` has taken no buffer and changed nothing. -/
theorem sys_ipc2_buf_receive_blocked {TASK dst size : Nat} {bhandle ehandle : cap_handle_t}
    {cvw : List errno_t} {info : Nat} {s t : State} {e : errno_t}
    (h : sys_ipc2_buf_receive TASK dst size bhandle ehandle cvw info s = some (e, t))
    (h1 : e ≠ EOK) (h2 : e ≠ EFAULT_COPYOUT) (h3 : e ≠ ENOENT) (h4 : e ≠ EINVAL) : t = s := by
  have tail : ∀ (b : Nat) (u : State),
      sys_ipc2_buf_receive_tail TASK dst size bhandle info b u ≠ (e, t) := by
    intro b u hu
    have hrc := sys_ipc2_buf_receive_tail_rc TASK dst size bhandle info b u
    rw [hu] at hrc
    rcases hrc with hrc | hrc | hrc
    · exact h1 hrc
    · exact h2 hrc
    · exact h3 hrc
  unfold sys_ipc2_buf_receive at h
  cases he : cap_resolve TASK ehandle KOBJECT_TYPE_IPC_EP s with
  | some ep =>
    rw [kobject_get_of_resolve he] at h
    dsimp only at h
    simp only [kobject_add_ref_ep] at h
    cases hb : ipc2_block_on (s.ep ep).buffers cvw with
    | blocked => simp [hb] at h
    | failed rc =>
      simp only [hb, Option.some.injEq, Prod.mk.injEq] at h
      rw [← h.2, kobject_put_add_ref]
    | got b rest =>
      simp only [hb, Option.some.injEq] at h
      exact absurd h (tail _ _)
  | none =>
    rw [kobject_get_of_not_resolve he] at h
    dsimp only at h
    cases hc : cap_resolve TASK ehandle KOBJECT_TYPE_CAPLIST s with
    | none =>
      rw [kobject_get_of_not_resolve hc] at h
      simp only [Option.some.injEq, Prod.mk.injEq] at h
      exact absurd h.1.symm h3
    | some c =>
      rw [kobject_get_of_resolve hc] at h
      dsimp only at h
      simp only [kobject_add_ref_caplist] at h
      by_cases hty : (s.caplist c).type ≠ KOBJECT_TYPE_IPC_EP
      · rw [if_pos hty] at h
        simp only [Option.some.injEq, Prod.mk.injEq] at h
        exact absurd h.1.symm h4
      · rw [if_neg hty] at h
        cases hb : ipc2_block_on (s.caplist c).queue cvw with
        | blocked => simp [hb] at h
        | failed rc =>
          simp only [hb, Option.some.injEq, Prod.mk.injEq] at h
          rw [← h.2, kobject_put_add_ref]
        | got b rest =>
          simp only [hb, Option.some.injEq] at h
          exact absurd h (tail _ _)

/-- A wait that returns a code other than `EOK`, a copy-out fault, `EINVAL`
and `ENOENT` has found no finished buffer and changed nothing. -/
theorem sys_ipc2_buf_wait_blocked {TASK dst size : Nat} {bhandle : cap_handle_t}
    {cvw : List errno_t} {delist : Bool} {info : Nat} {s t : State} {e : errno_t}
    (h : sys_ipc2_buf_wait TASK dst size bhandle cvw delist info s = some (e, t))
    (h1 : e ≠ EOK) (h2 : e ≠ EFAULT_COPYOUT) (h3 : e ≠ ENOENT) (h4 : e ≠ EINVAL) : t = s := by
  have tail : ∀ (b : Nat) (u : State),
      sys_ipc2_buf_wait_tail TASK dst size info b u ≠ (e, t) := by
    intro b u hu
    have hrc := sys_ipc2_buf_wait_tail_rc TASK dst size info b u
    rw [hu] at hrc
    rcases hrc with hrc | hrc
    · exact h1 hrc
    · exact h2 hrc
  unfold sys_ipc2_buf_wait at h
  cases hb : cap_resolve TASK bhandle KOBJECT_TYPE_IPC_BUF s with
  | some b =>
    rw [kobject_get_of_resolve hb] at h
    dsimp only at h
    simp only [kobject_add_ref_buf] at h
    by_cases hst : (s.buf b).state ≠ IPC_BUF_FINISHED
    · rw [if_pos hst] at h
      cases hw : condvar_wait_loop cvw with
      | none => simp [hw] at h
      | some rc =>
        simp only [hw, Option.some.injEq, Prod.mk.injEq] at h
        rw [← h.2, kobject_put_add_ref]
    · rw [if_neg hst] at h
      simp only [Option.some.injEq] at h
      exact absurd h (tail _ _)
  | none =>
    rw [kobject_get_of_not_resolve hb] at h
    dsimp only at h
    cases hc : cap_resolve TASK bhandle KOBJECT_TYPE_CAPLIST s with
    | none =>
      rw [kobject_get_of_not_resolve hc] at h
      simp only [Option.some.injEq, Prod.mk.injEq] at h
      exact absurd h.1.symm h3
    | some c =>
      rw [kobject_get_of_resolve hc] at h
      dsimp only at h
      simp only [kobject_add_ref_caplist] at h
      by_cases hty : (s.caplist c).type ≠ KOBJECT_TYPE_IPC_BUF
      · rw [if_pos hty] at h
        simp only [Option.some.injEq, Prod.mk.injEq] at h
        exact absurd h.1.symm h4
      · rw [if_neg hty] at h
        cases hq : ipc2_block_on (s.caplist c).queue cvw with
        | blocked => simp [hq] at h
        | failed rc =>
          simp only [hq, Option.some.injEq, Prod.mk.injEq] at h
          rw [← h.2, kobject_put_add_ref]
        | got b rest =>
          simp only [hq, Option.some.injEq] at h
          exact absurd h (tail _ _)

/-! ### Output locations of failed calls -/

theorem cap_alloc_uhandle (TASK : Nat) (pick : Option cap_handle_t) (s : State) :
    (cap_alloc TASK pick s).2.2.uhandle = s.uhandle := by
  unfold cap_alloc
  split
  · rfl
  · split_ifs <;> rfl

theorem cap_alloc_caps {TASK : Nat} {pick : Option cap_handle_t} {s : State}
    (h : (cap_alloc TASK pick s).1 = EOK) :
    (cap_alloc TASK pick s).2.2.caps TASK (cap_alloc TASK pick s).2.1 = cap_t.allocated := by
  unfold cap_alloc at h ⊢
  cases pick with
  | none => simp at h
  | some p =>
    dsimp only at h ⊢
    split_ifs at h ⊢ with hp
    simp [upd2]

theorem cap_free_uhandle (TASK : Nat) (h : cap_handle_t) (s : State) :
    (cap_free TASK h s).2.uhandle = s.uhandle := by
  unfold cap_free
  split <;> rfl

theorem cap_publish_ok_of (TASK : Nat) (h : cap_handle_t) (k : Nat) (s : State)
    (hc : s.caps TASK h = cap_t.allocated) : (cap_publish TASK h k s).1 = EOK := by
  unfold cap_publish
  rw [hc]

theorem copy_to_uspace_handle_fail {TASK dst : Nat} {h : cap_handle_t} {s : State}
    (hne : (copy_to_uspace_handle TASK dst h s).1 ≠ EOK) :
    (copy_to_uspace_handle TASK dst h s).2 = s := by
  unfold copy_to_uspace_handle at hne ⊢
  split
  · next v hv => simp [hv] at hne
  · rfl

theorem copy_to_uspace_handle_caps (TASK dst : Nat) (h : cap_handle_t) (s : State) :
    (copy_to_uspace_handle TASK dst h s).2.caps = s.caps := by
  unfold copy_to_uspace_handle
  split <;> rfl

/-- A failed `sys_ipc2_buf_alloc` whose three kernel allocations succeed has
not written the handle variable. -/
theorem sys_ipc2_buf_alloc_fail_uhandle {TASK size label bhandle : Nat}
    {pick : Option cap_handle_t} {junk : Nat → Nat} {s : State}
    (h : (sys_ipc2_buf_alloc TASK size label bhandle pick true true true junk s).1 ≠ EOK) :
    (sys_ipc2_buf_alloc TASK size label bhandle pick true true true junk s).2.uhandle =
      s.uhandle := by
  unfold sys_ipc2_buf_alloc at h ⊢
  dsimp only at h ⊢
  by_cases ha : (cap_alloc TASK pick s).1 ≠ EOK
  · rw [if_pos ha]
    exact cap_alloc_uhandle TASK pick s
  · rw [if_neg ha] at h ⊢
    by_cases hc : (copy_to_uspace_handle TASK bhandle (cap_alloc TASK pick s).2.1
        (cap_alloc TASK pick s).2.2).1 ≠ EOK
    · rw [if_pos hc]
      rw [cap_free_uhandle, copy_to_uspace_handle_fail hc, cap_alloc_uhandle]
    · exfalso
      rw [if_neg hc] at h
      simp only [Bool.not_true, Bool.false_eq_true, if_false] at h
      have hcaps := cap_alloc_caps (not_not.mp ha)
      rw [← copy_to_uspace_handle_caps TASK bhandle (cap_alloc TASK pick s).2.1] at hcaps
      generalize (copy_to_uspace_handle TASK bhandle (cap_alloc TASK pick s).2.1
        (cap_alloc TASK pick s).2.2).2 = c at h hcaps
      generalize (cap_alloc TASK pick s).2.1 = hd at h hcaps
      have hp := cap_publish_ok_of TASK hd (kobject_alloc c).1
        ( kobject_initialize (kobject_alloc c).1 KOBJECT_TYPE_IPC_BUF
          (State.mk (kobject_alloc c).2.caps (kobject_alloc c).2.kobj
            (upd (kobject_alloc c).2.buf (kobject_alloc c).1 ( ipc_buf_initialize size junk label))
            (kobject_alloc c).2.ep (kobject_alloc c).2.caplist (kobject_alloc c).2.umem
            (kobject_alloc c).2.uhandle (kobject_alloc c).2.urecv (kobject_alloc c).2.uwait
            (kobject_alloc c).2.brk)) hcaps
      simp [hp] at h

theorem sys_ipc2_ep_create_fail_uhandle {TASK ehandle label : Nat}
    {pick : Option cap_handle_t} {s : State}
    (h : (sys_ipc2_ep_create TASK ehandle label CAP_NIL pick true true s).1 ≠ EOK) :
    (sys_ipc2_ep_create TASK ehandle label CAP_NIL pick true true s).2.uhandle = s.uhandle := by
  unfold sys_ipc2_ep_create at h ⊢
  dsimp only at h ⊢
  by_cases ha : (cap_alloc TASK pick s).1 ≠ EOK
  · rw [if_pos ha]
    exact cap_alloc_uhandle TASK pick s
  · rw [if_neg ha] at h ⊢
    by_cases hc : (copy_to_uspace_handle TASK ehandle (cap_alloc TASK pick s).2.1
        (cap_alloc TASK pick s).2.2).1 ≠ EOK
    · rw [if_pos hc]
      rw [cap_free_uhandle, copy_to_uspace_handle_fail hc, cap_alloc_uhandle]
    · exfalso
      rw [if_neg hc] at h
      simp [CAP_NIL] at h

theorem sys_caplist_create_fail_uhandle {TASK clhandle : Nat} {type : kobject_type_t}
    {pick : Option cap_handle_t} {s : State}
    (h : (sys_caplist_create TASK clhandle type pick true true s).1 ≠ EOK) :
    (sys_caplist_create TASK clhandle type pick true true s).2.uhandle = s.uhandle := by
  unfold sys_caplist_create at h ⊢
  dsimp only at h ⊢
  by_cases ha : (cap_alloc TASK pick s).1 ≠ EOK
  · rw [if_pos ha]
    exact cap_alloc_uhandle TASK pick s
  · rw [if_neg ha] at h ⊢
    by_cases hc : (copy_to_uspace_handle TASK clhandle (cap_alloc TASK pick s).2.1
        (cap_alloc TASK pick s).2.2).1 ≠ EOK
    · rw [if_pos hc]
      rw [cap_free_uhandle, copy_to_uspace_handle_fail hc, cap_alloc_uhandle]
    · exfalso
      rw [if_neg hc] at h
      simp at h

theorem ipc2_buf_finish_urecv (buf : Nat) (rc : errno_t) (s : State) :
    (ipc2_buf_finish buf rc s).urecv = s.urecv := by
  unfold ipc2_buf_finish
  dsimp only
  split <;> rfl

/-- The tail of a receive that fails although the new handle is allocated and
unpublished has not written the info structure. -/
theorem sys_ipc2_buf_receive_tail_fail_urecv {TASK dst size : Nat} {bhandle : cap_handle_t}
    {info buf : Nat} {s : State}
    (h : (sys_ipc2_buf_receive_tail TASK dst size bhandle info buf s).1 ≠ EOK)
    (hc : s.caps TASK bhandle = cap_t.allocated) :
    (sys_ipc2_buf_receive_tail TASK dst size bhandle info buf s).2.urecv = s.urecv := by
  unfold sys_ipc2_buf_receive_tail at h ⊢
  dsimp only at h ⊢
  by_cases h1 : (ipc2_copy_from_buf TASK buf dst size s).1 ≠ EOK
  · rw [if_pos h1]
    simp only [kobject_put_urecv, ipc2_buf_finish_urecv]
    rw [ipc2_copy_from_buf_fail h1]
  · rw [if_neg h1] at h ⊢
    obtain ⟨r1, r2, r3, r4, r5, r6, r7, r8, _⟩ := ipc2_copy_from_buf_ok (not_not.mp h1)
    generalize (ipc2_copy_from_buf TASK buf dst size s).2 = r at *
    by_cases h2 : (copy_to_uspace_receive_info TASK info
        { ep_label := (r.buf buf).ep_label, used := (r.buf buf).used, size := (r.buf buf).size }
        r).1 ≠ EOK
    · rw [if_pos h2]
      simp only [kobject_put_urecv, ipc2_buf_finish_urecv]
      rw [copy_to_uspace_receive_info_fail h2, r7]
    · exfalso
      rw [if_neg h2] at h
      have hc2 := copy_to_uspace_receive_info_ok (not_not.mp h2)
      have hcaps : (kobject_add_ref buf (copy_to_uspace_receive_info TASK info
          { ep_label := (r.buf buf).ep_label, used := (r.buf buf).used,
            size := (r.buf buf).size } r).2).caps TASK bhandle = cap_t.allocated := by
        rw [hc2]
        simp only [kobject_add_ref_caps]
        rw [r1]
        exact hc
      have hp := cap_publish_ok_of TASK bhandle buf _ hcaps
      simp [hp] at h

/-- A receive that fails although the new handle is allocated and unpublished
has not written the info structure. -/
theorem sys_ipc2_buf_receive_fail_urecv {TASK dst size : Nat} {bhandle ehandle : cap_handle_t}
    {cvw : List errno_t} {info : Nat} {s t : State} {e : errno_t}
    (h : sys_ipc2_buf_receive TASK dst size bhandle ehandle cvw info s = some (e, t))
    (hne : e ≠ EOK) (hc : s.caps TASK bhandle = cap_t.allocated) : t.urecv = s.urecv := by
  have tail : ∀ (b : Nat) (u : State), u.caps = s.caps → u.urecv = s.urecv →
      sys_ipc2_buf_receive_tail TASK dst size bhandle info b u = (e, t) → t.urecv = s.urecv := by
    intro b u hu1 hu2 hu
    have h1 : (sys_ipc2_buf_receive_tail TASK dst size bhandle info b u).1 ≠ EOK := by
      rw [hu]; exact hne
    have := sys_ipc2_buf_receive_tail_fail_urecv h1 (by rw [hu1]; exact hc)
    rw [hu] at this
    exact this.trans hu2
  unfold sys_ipc2_buf_receive at h
  cases he : cap_resolve TASK ehandle KOBJECT_TYPE_IPC_EP s with
  | some ep =>
    rw [kobject_get_of_resolve he] at h
    dsimp only at h
    simp only [kobject_add_ref_ep] at h
    cases hb : ipc2_block_on (s.ep ep).buffers cvw with
    | blocked => simp [hb] at h
    | failed rc =>
      simp only [hb, Option.some.injEq, Prod.mk.injEq] at h
      rw [← h.2, kobject_put_add_ref]
    | got b rest =>
      simp only [hb, Option.some.injEq] at h
      refine tail _ _ ?_ ?_ h <;> rfl
  | none =>
    rw [kobject_get_of_not_resolve he] at h
    dsimp only at h
    cases hcl : cap_resolve TASK ehandle KOBJECT_TYPE_CAPLIST s with
    | none =>
      rw [kobject_get_of_not_resolve hcl] at h
      simp only [Option.some.injEq, Prod.mk.injEq] at h
      rw [← h.2]
    | some c =>
      rw [kobject_get_of_resolve hcl] at h
      dsimp only at h
      simp only [kobject_add_ref_caplist] at h
      by_cases hty : (s.caplist c).type ≠ KOBJECT_TYPE_IPC_EP
      · rw [if_pos hty] at h
        simp only [Option.some.injEq, Prod.mk.injEq] at h
        rw [← h.2, kobject_put_add_ref]
      · rw [if_neg hty] at h
        cases hb : ipc2_block_on (s.caplist c).queue cvw with
        | blocked => simp [hb] at h
        | failed rc =>
          simp only [hb, Option.some.injEq, Prod.mk.injEq] at h
          rw [← h.2, kobject_put_add_ref]
        | got b rest =>
          simp only [hb, Option.some.injEq] at h
          refine tail _ _ ?_ ?_ h <;> rfl

theorem sys_ipc2_buf_wait_tail_fail_uwait {TASK dst size info buf : Nat} {s : State}
    (h : (sys_ipc2_buf_wait_tail TASK dst size info buf s).1 ≠ EOK) :
    (sys_ipc2_buf_wait_tail TASK dst size info buf s).2.uwait = s.uwait := by
  unfold sys_ipc2_buf_wait_tail at h ⊢
  dsimp only at h ⊢
  split_ifs at h ⊢ with h1
  · simp only [kobject_put_uwait]
    rw [ipc2_copy_from_buf_fail h1]
  · obtain ⟨r1, r2, r3, r4, r5, r6, r7, r8, _⟩ := ipc2_copy_from_buf_ok (not_not.mp h1)
    simp only [kobject_put_uwait]
    rw [copy_to_uspace_wait_info_fail h, r8]

theorem caplist_del_uwait (cl k : Nat) (s : State) : (caplist_del cl k s).2.uwait = s.uwait := by
  unfold caplist_del
  split_ifs <;> rfl

/-- A wait that fails has not written the info structure. -/
theorem sys_ipc2_buf_wait_fail_uwait {TASK dst size : Nat} {bhandle : cap_handle_t}
    {cvw : List errno_t} {delist : Bool} {info : Nat} {s t : State} {e : errno_t}
    (h : sys_ipc2_buf_wait TASK dst size bhandle cvw delist info s = some (e, t))
    (hne : e ≠ EOK) : t.uwait = s.uwait := by
  have tail : ∀ (b : Nat) (u : State), u.uwait = s.uwait →
      sys_ipc2_buf_wait_tail TASK dst size info b u = (e, t) → t.uwait = s.uwait := by
    intro b u hu1 hu
    have h1 : (sys_ipc2_buf_wait_tail TASK dst size info b u).1 ≠ EOK := by
      rw [hu]; exact hne
    have := sys_ipc2_buf_wait_tail_fail_uwait h1
    rw [hu] at this
    exact this.trans hu1
  unfold sys_ipc2_buf_wait at h
  cases hb : cap_resolve TASK bhandle KOBJECT_TYPE_IPC_BUF s with
  | some b =>
    rw [kobject_get_of_resolve hb] at h
    dsimp only at h
    simp only [kobject_add_ref_buf] at h
    by_cases hst : (s.buf b).state ≠ IPC_BUF_FINISHED
    · rw [if_pos hst] at h
      cases hw : condvar_wait_loop cvw with
      | none => simp [hw] at h
      | some rc =>
        simp only [hw, Option.some.injEq, Prod.mk.injEq] at h
        rw [← h.2, kobject_put_add_ref]
    · rw [if_neg hst] at h
      simp only [Option.some.injEq] at h
      exact tail _ _ (by rfl) h
  | none =>
    rw [kobject_get_of_not_resolve hb] at h
    dsimp only at h
    cases hc : cap_resolve TASK bhandle KOBJECT_TYPE_CAPLIST s with
    | none =>
      rw [kobject_get_of_not_resolve hc] at h
      simp only [Option.some.injEq, Prod.mk.injEq] at h
      rw [← h.2]
    | some c =>
      rw [kobject_get_of_resolve hc] at h
      dsimp only at h
      simp only [kobject_add_ref_caplist] at h
      by_cases hty : (s.caplist c).type ≠ KOBJECT_TYPE_IPC_BUF
      · rw [if_pos hty] at h
        simp only [Option.some.injEq, Prod.mk.injEq] at h
        rw [← h.2, kobject_put_add_ref]
      · rw [if_neg hty] at h
        cases hq : ipc2_block_on (s.caplist c).queue cvw with
        | blocked => simp [hq] at h
        | failed rc =>
          simp only [hq, Option.some.injEq, Prod.mk.injEq] at h
          rw [← h.2, kobject_put_add_ref]
        | got b rest =>
          simp only [hq, Option.some.injEq] at h
          refine tail _ _ ?_ h
          cases delist
          · rfl
          · simp [caplist_del_uwait]

/-! ### Calls that are bound to succeed -/

theorem option_map_fst_some {α : Type} {o : Option (errno_t × α)} {rc : errno_t}
    (h : o.map (fun x => x.1) = some rc) : ∃ t, o = some (rc, t) := by
  cases o with
  | none => simp at h
  | some r =>
    simp only [Option.map_some', Option.some.injEq] at h
    exact ⟨r.2, by rw [← h]⟩

theorem uspace_range_ok_mono {m : Nat → Option Nat} {addr size n : Nat} (hn : n ≤ size)
    (h : uspace_range_ok m addr size = true) : uspace_range_ok m addr n = true := by
  rw [uspace_range_ok_iff] at h ⊢
  intro i hi
  exact h i (Nat.lt_of_lt_of_le hi hn)

theorem uspace_range_ok_congr {m1 m2 : Nat → Option Nat}
    (h : ∀ a, (m1 a).isSome = (m2 a).isSome) (addr size : Nat) :
    uspace_range_ok m1 addr size = uspace_range_ok m2 addr size := by
  unfold uspace_range_ok
  simp only [h]

theorem ipc2_copy_from_buf_ok_of {TASK buf dst size : Nat} {s : State}
    (h : uspace_range_ok (s.umem TASK) dst size = true) :
    (ipc2_copy_from_buf TASK buf dst size s).1 = EOK := by
  rw [ipc2_copy_from_buf_eq]
  unfold copy_to_uspace
  have h2 : uspace_range_ok (s.umem TASK) dst
      (if size > (s.buf buf).used then (s.buf buf).used else size) = true := by
    apply uspace_range_ok_mono _ h
    split_ifs <;> omega
  rw [if_pos h2]

theorem copy_to_uspace_receive_info_ok_of {TASK dst : Nat} {v : ipc_buf_receive_info_t}
    {s : State} (h : (s.urecv TASK dst).isSome = true) :
    (copy_to_uspace_receive_info TASK dst v s).1 = EOK := by
  unfold copy_to_uspace_receive_info
  cases hm : s.urecv TASK dst with
  | none => rw [hm] at h; simp at h
  | some x => rfl

theorem copy_to_uspace_wait_info_ok_of {TASK dst : Nat} {v : ipc_buf_wait_info_t}
    {s : State} (h : (s.uwait TASK dst).isSome = true) :
    (copy_to_uspace_wait_info TASK dst v s).1 = EOK := by
  unfold copy_to_uspace_wait_info
  cases hm : s.uwait TASK dst with
  | none => rw [hm] at h; simp at h
  | some x => rfl

/-- The tail of a receive succeeds when the destination and the info
structure are accessible and the new handle is allocated and unpublished. -/
theorem sys_ipc2_buf_receive_tail_success {TASK dst size : Nat} {bhandle : cap_handle_t}
    {info buf : Nat} {s : State}
    (hr : uspace_range_ok (s.umem TASK) dst size = true)
    (hi : (s.urecv TASK info).isSome = true)
    (hc : s.caps TASK bhandle = cap_t.allocated) :
    (sys_ipc2_buf_receive_tail TASK dst size bhandle info buf s).1 = EOK := by
  have h1 : (ipc2_copy_from_buf TASK buf dst size s).1 = EOK := ipc2_copy_from_buf_ok_of hr
  obtain ⟨r1, r2, r3, r4, r5, r6, r7, r8, _⟩ := ipc2_copy_from_buf_ok h1
  unfold sys_ipc2_buf_receive_tail
  dsimp only
  rw [if_neg (fun hn => hn h1)]
  generalize (ipc2_copy_from_buf TASK buf dst size s).2 = r at *
  have h2 : (copy_to_uspace_receive_info TASK info
      { ep_label := (r.buf buf).ep_label, used := (r.buf buf).used, size := (r.buf buf).size }
      r).1 = EOK := copy_to_uspace_receive_info_ok_of (by rw [r7]; exact hi)
  rw [if_neg (fun hn => hn h2)]
  have hc2 := copy_to_uspace_receive_info_ok h2
  have hcaps : (kobject_add_ref buf (copy_to_uspace_receive_info TASK info
      { ep_label := (r.buf buf).ep_label, used := (r.buf buf).used,
        size := (r.buf buf).size } r).2).caps TASK bhandle = cap_t.allocated := by
    rw [hc2]
    simp only [kobject_add_ref_caps]
    rw [r1]
    exact hc
  have hp := cap_publish_ok_of TASK bhandle buf _ hcaps
  rw [if_neg (fun hn => hn hp)]

/-- A receive from an endpoint whose queue is not empty succeeds when the
destination and the info structure are accessible and the new handle is
allocated and unpublished. -/
theorem sys_ipc2_buf_receive_ep_success {TASK dst size : Nat} {bhandle ehandle : cap_handle_t}
    {cvw : List errno_t} {info : Nat} {s : State} {e b : Nat} {rest : List Nat}
    (he : cap_resolve TASK ehandle KOBJECT_TYPE_IPC_EP s = some e)
    (hq : (s.ep e).buffers = b :: rest)
    (hr : uspace_range_ok (s.umem TASK) dst size = true)
    (hi : (s.urecv TASK info).isSome = true)
    (hc : s.caps TASK bhandle = cap_t.allocated) :
    ∃ t, sys_ipc2_buf_receive TASK dst size bhandle ehandle cvw info s = some (EOK, t) := by
  apply option_map_fst_some
  unfold sys_ipc2_buf_receive
  rw [kobject_get_of_resolve he]
  dsimp only
  simp only [kobject_add_ref_ep, hq, ipc2_block_on, Option.map_some', Option.some.injEq]
  exact sys_ipc2_buf_receive_tail_success hr hi hc

theorem sys_ipc2_buf_wait_tail_success {TASK dst size info buf : Nat} {s : State}
    (hr : uspace_range_ok (s.umem TASK) dst size = true)
    (hi : (s.uwait TASK info).isSome = true) :
    (sys_ipc2_buf_wait_tail TASK dst size info buf s).1 = EOK := by
  have h1 : (ipc2_copy_from_buf TASK buf dst size
      { s with buf := upd s.buf buf { s.buf buf with state := IPC_BUF_READY } }).1 = EOK :=
    ipc2_copy_from_buf_ok_of hr
  obtain ⟨r1, r2, r3, r4, r5, r6, r7, r8, _⟩ := ipc2_copy_from_buf_ok h1
  unfold sys_ipc2_buf_wait_tail
  dsimp only
  rw [if_neg (fun hn => hn h1)]
  exact copy_to_uspace_wait_info_ok_of (by rw [r8]; exact hi)

/-- A wait through a handle of a FINISHED buffer succeeds when the
destination and the info structure are accessible. -/
theorem sys_ipc2_buf_wait_buf_success {TASK dst size : Nat} {bhandle : cap_handle_t}
    {cvw : List errno_t} {delist : Bool} {info : Nat} {s : State} {b : Nat}
    (hb : cap_resolve TASK bhandle KOBJECT_TYPE_IPC_BUF s = some b)
    (hst : (s.buf b).state = IPC_BUF_FINISHED)
    (hr : uspace_range_ok (s.umem TASK) dst size = true)
    (hi : (s.uwait TASK info).isSome = true) :
    ∃ t, sys_ipc2_buf_wait TASK dst size bhandle cvw delist info s = some (EOK, t) := by
  apply option_map_fst_some
  unfold sys_ipc2_buf_wait
  rw [kobject_get_of_resolve hb]
  dsimp only
  simp only [kobject_add_ref_buf, hst, ne_eq, not_true_eq_false, if_false, Option.map_some',
    Option.some.injEq]
  exact sys_ipc2_buf_wait_tail_success hr hi

/-! ### Reference counts of finish and wait -/

theorem ipc2_buf_finish_refcnt (buf x : Nat) (rc : errno_t) (s : State) :
    ((ipc2_buf_finish buf rc s).kobj x).refcnt =
      (s.kobj x).refcnt + if x = buf ∧ (s.kobj buf).in_caplist.isSome = true then 1 else 0 := by
  unfold ipc2_buf_finish
  dsimp only
  cases h : (s.kobj buf).in_caplist with
  | none => simp
  | some c =>
    simp only [Option.isSome_some, and_true]
    exact kobject_add_ref_refcnt buf x _

theorem ipc2_buf_finish_brk (buf : Nat) (rc : errno_t) (s : State) :
    (ipc2_buf_finish buf rc s).brk = s.brk := by
  unfold ipc2_buf_finish
  dsimp only
  split <;> rfl

/-- Reference counts after a finish that returns `EOK`: the buffer loses the
reference of the unpublished handle and, when it is a member of a caplist,
gains that of the ready-queue of the caplist. -/
theorem sys_ipc2_buf_finish_refcnt {TASK src size : Nat} {bhandle : cap_handle_t} {s t : State}
    {buf : Nat} (h : sys_ipc2_buf_finish TASK src size bhandle s = (EOK, t))
    (hb : cap_resolve TASK bhandle KOBJECT_TYPE_IPC_BUF s = some buf) :
    (∀ x, (t.kobj x).refcnt =
      if x = buf then (s.kobj buf).refcnt +
          (if (s.kobj buf).in_caplist.isSome = true then 1 else 0) - 1
      else (s.kobj x).refcnt) ∧
    t.brk = s.brk := by
  obtain ⟨buf2, hres, _, _, _, hcp, heq⟩ := sys_ipc2_buf_finish_ok h
  rw [hb] at hres
  simp only [Option.some.injEq] at hres
  subst hres
  obtain ⟨c0caps, c0kobj, _⟩ := ipc2_copy_to_buf_frame TASK buf src size (kobject_add_ref buf s)
  have c0brk := ipc2_copy_to_buf_brk TASK buf src size (kobject_add_ref buf s)
  generalize (ipc2_copy_to_buf TASK buf src size (kobject_add_ref buf s)).2 = c0 at *
  have c0res : cap_resolve TASK bhandle KOBJECT_TYPE_IPC_BUF c0 = some buf := by
    rw [← hb]
    exact cap_resolve_congr (s := s) (t := c0) c0caps (fun x => by rw [c0kobj]; simp) _ _ _
  have uin := (ipc2_unpublish_temp_cap_frame TASK bhandle c0).2.2.2.2.2.2.2.2
  subst heq
  constructor
  · intro x
    simp only [kobject_put_refcnt, ipc2_buf_finish_refcnt, ipc2_unpublish_temp_cap_refcnt, uin,
      c0res, c0kobj, kobject_add_ref_refcnt, kobject_add_ref_in_caplist, Option.some.injEq]
    by_cases hx : x = buf
    · subst hx
      simp
    · have hx2 : ¬ buf = x := fun h => hx h.symm
      simp [hx, hx2]
  · simp [ipc2_buf_finish_brk, ipc2_unpublish_temp_cap_brk, c0brk]

theorem copy_to_uspace_wait_info_kobj (TASK dst : Nat) (v : ipc_buf_wait_info_t) (s : State) :
    (copy_to_uspace_wait_info TASK dst v s).2.kobj = s.kobj ∧
    (copy_to_uspace_wait_info TASK dst v s).2.brk = s.brk := by
  unfold copy_to_uspace_wait_info
  split <;> exact ⟨rfl, rfl⟩

theorem ipc2_copy_from_buf_kobj (TASK buf dst size : Nat) (s : State) :
    (ipc2_copy_from_buf TASK buf dst size s).2.kobj = s.kobj ∧
    (ipc2_copy_from_buf TASK buf dst size s).2.brk = s.brk := by
  rw [ipc2_copy_from_buf_eq]
  unfold copy_to_uspace
  split_ifs <;> exact ⟨rfl, rfl⟩

theorem sys_ipc2_buf_wait_tail_kobj (TASK dst size info buf : Nat) (s : State) :
    (sys_ipc2_buf_wait_tail TASK dst size info buf s).2.kobj = (kobject_put buf s).kobj ∧
    (sys_ipc2_buf_wait_tail TASK dst size info buf s).2.brk = s.brk := by
  unfold sys_ipc2_buf_wait_tail
  dsimp only
  split_ifs
  · constructor
    · simp only [kobject_put, (ipc2_copy_from_buf_kobj TASK buf dst size _).1]
    · simp [(ipc2_copy_from_buf_kobj TASK buf dst size _).2]
  · constructor
    · simp only [kobject_put, (copy_to_uspace_wait_info_kobj TASK info _ _).1,
        (ipc2_copy_from_buf_kobj TASK buf dst size _).1]
    · simp [(copy_to_uspace_wait_info_kobj TASK info _ _).2,
        (ipc2_copy_from_buf_kobj TASK buf dst size _).2]

/-- A wait through a handle of the buffer leaves every kernel object header
as it was. -/
theorem sys_ipc2_buf_wait_buf_kobj {TASK dst size : Nat} {bhandle : cap_handle_t}
    {cvw : List errno_t} {delist : Bool} {info : Nat} {s t : State} {b : Nat} {rc : errno_t}
    (hb : cap_resolve TASK bhandle KOBJECT_TYPE_IPC_BUF s = some b)
    (h : sys_ipc2_buf_wait TASK dst size bhandle cvw delist info s = some (rc, t)) :
    t.kobj = s.kobj ∧ t.brk = s.brk := by
  unfold sys_ipc2_buf_wait at h
  rw [kobject_get_of_resolve hb] at h
  dsimp only at h
  simp only [kobject_add_ref_buf] at h
  by_cases hst : (s.buf b).state ≠ IPC_BUF_FINISHED
  · rw [if_pos hst] at h
    cases hw : condvar_wait_loop cvw with
    | none => simp [hw] at h
    | some e =>
      simp only [hw, Option.some.injEq, Prod.mk.injEq] at h
      rw [← h.2, kobject_put_add_ref]
      exact ⟨rfl, rfl⟩
  · rw [if_neg hst] at h
    simp only [Option.some.injEq] at h
    have hk := sys_ipc2_buf_wait_tail_kobj TASK dst size info b (kobject_add_ref b s)
    rw [h] at hk
    dsimp only at hk
    rw [kobject_put_add_ref] at hk
    exact hk

/-! ### Round trips -/

theorem isSome_of_write {m1 m2 : Nat → Nat → Option Nat} {TASK dst size used : Nat}
    {data : Nat → Nat} (hr : uspace_range_ok (m1 TASK) dst size = true)
    (h1 : ∀ i, i < size → i < used → m2 TASK (dst + i) = some (data i))
    (h2 : ∀ a x, ¬ (a = TASK ∧ dst ≤ x ∧ x < dst + size ∧ x < dst + used) → m2 a x = m1 a x)
    (a x : Nat) : (m2 a x).isSome = (m1 a x).isSome := by
  by_cases hx : a = TASK ∧ dst ≤ x ∧ x < dst + size ∧ x < dst + used
  · obtain ⟨ha, hx1, hx2, hx3⟩ := hx
    subst ha
    have e1 : x = dst + (x - dst) := by omega
    have := h1 (x - dst) (by omega) (by omega)
    rw [← e1] at this
    rw [this]
    have h3 := (uspace_range_ok_iff _ _ _).mp hr (x - dst) (by omega)
    rw [← e1] at h3
    rw [h3]
    rfl
  · rw [h2 a x hx]

theorem same_access_refl (s : State) : same_access s s :=
  ⟨fun _ _ => rfl, fun _ _ => rfl, fun _ _ => rfl⟩

theorem same_access_trans {s t u : State} (h1 : same_access s t) (h2 : same_access t u) :
    same_access s u :=
  ⟨fun a x => (h2.1 a x).trans (h1.1 a x), fun a x => (h2.2.1 a x).trans (h1.2.1 a x),
    fun a x => (h2.2.2 a x).trans (h1.2.2 a x)⟩

theorem cycle_ok_congr {s t : State} (TS TR b : Nat) (c : cycle_call) (h : same_access s t)
    (hsz : (t.buf b).size = (s.buf b).size) : cycle_ok TS TR b t c = cycle_ok TS TR b s c := by
  unfold cycle_ok
  simp only [hsz, uspace_range_ok_congr (h.1 TS), uspace_range_ok_congr (h.1 TR), h.2.1, h.2.2]

/-- One round trip from a ready state succeeds and ends in a ready state: the
buffer is READY, linked into no queue, with the reference count it had, and
the same user addresses are accessible. -/
theorem run_cycle_ready {TS TR : Nat} {bh eh reh nh : cap_handle_t} {b e : Nat} {s : State}
    {c : cycle_call} (hready : cycle_ready TS TR bh eh reh nh b e s)
    (hok : cycle_ok TS TR b s c = true) :
    ∃ t, run_cycle TS TR bh eh reh nh c s = some t ∧ cycle_ready TS TR bh eh reh nh b e t ∧
      (t.kobj b).refcnt = (s.kobj b).refcnt ∧ same_access s t ∧
      (t.buf b).size = (s.buf b).size := by
  obtain ⟨hb, he, hre, hnh, hein, hq, hst, hin, hincl, hbin⟩ := hready
  simp only [cycle_ok, Bool.and_eq_true, decide_eq_true_eq] at hok
  obtain ⟨⟨⟨⟨⟨⟨⟨k1, k2⟩, k3⟩, k4⟩, k5⟩, k6⟩, k7⟩, k8⟩ := hok
  have hbt := (cap_resolve_type hb).2
  have hbc := (cap_resolve_type hb).1
  -- send
  have hchk : ipc2_buf_send_check b none s = EOK := by
    unfold ipc2_buf_send_check
    simp [hst, hin, hincl]
  have hrc1 : (sys_ipc2_buf_send TS c.src c.n bh eh CAP_NIL s).1 = EOK := by
    rw [sys_ipc2_buf_send_rc_nil hb he, if_pos hchk]
    exact ipc2_copy_to_buf_ok_of k1 k2
  obtain ⟨s1, hs1⟩ : ∃ s1, sys_ipc2_buf_send TS c.src c.n bh eh CAP_NIL s = (EOK, s1) :=
    ⟨_, Prod.ext hrc1 rfl⟩
  obtain ⟨ref1, _⟩ := sys_ipc2_buf_send_refcnt hs1 hb
  obtain ⟨b1, e1, cl1, hb1, he1, hcl1, _, _, _, ⟨a1, a2, a3, a4⟩, acaps, _, ab, _, aeq,
    _, aclq, _, akt, aki⟩ := sys_ipc2_buf_send_ok hs1
  rw [hb] at hb1
  rw [he] at he1
  simp only [Option.some.injEq] at hb1 he1
  subst hb1
  subst he1
  have hcl1n : cl1 = none := by rw [hcl1]; simp [CAP_NIL]
  subst hcl1n
  have c1 : s1.caps = s.caps := by rw [acaps]; simp [hst]
  have q1 : (s1.ep e).buffers = [b] := by rw [aeq, hq]; simp [hein]
  have st1 : (s1.buf b).state = IPC_BUF_PENDING := by rw [ab]
  have sz1 : (s1.buf b).size = (s.buf b).size := by rw [ab]
  have ic1 : (s1.buf b).in_ep_caplist = none := by rw [ab]; exact hein
  have r1 : (s1.kobj b).refcnt = (s.kobj b).refcnt + 1 := by
    rw [ref1]; simp [hst, CAP_NIL]
  have in1 : ∀ x, (s1.kobj x).in_caplist = (s.kobj x).in_caplist := by
    intro x; rw [aki]; simp
  -- receive
  have hre1 : cap_resolve TR reh KOBJECT_TYPE_IPC_EP s1 = some e := by
    rw [cap_resolve_congr (s := s) (t := s1) c1 akt]; exact hre
  obtain ⟨s2, hs2⟩ : ∃ s2, sys_ipc2_buf_receive TR c.dst c.m nh reh c.cvr c.rinfo s1 =
      some (EOK, s2) :=
    sys_ipc2_buf_receive_ep_success hre1 q1
      (by rw [a1]; exact k3) (by rw [a3]; exact k4) (by rw [c1]; exact hnh)
  obtain ⟨b2, rest, hsel, _, bcaps, bkobj, buh, buw, bur, bum1, bum2⟩ :=
    sys_ipc2_buf_receive_ok hs2
  obtain ⟨hb, hrest, bep, bcl, bbuf⟩ : b = b2 ∧ rest = [] ∧
      s2.ep = upd s1.ep e { s1.ep e with buffers := rest } ∧ s2.caplist = s1.caplist ∧
      s2.buf = upd s1.buf b2 { s1.buf b2 with in_ep := none } := by
    rcases hsel with ⟨e2, he2, hq2, x1, x2, x3⟩ | ⟨hn, _⟩
    · rw [hre1] at he2
      simp only [Option.some.injEq] at he2
      subst he2
      rw [q1] at hq2
      simp only [List.cons.injEq] at hq2
      exact ⟨hq2.1, hq2.2.symm, x1, x2, x3⟩
    · rw [hre1] at hn
      exact absurd hn (by simp)
  subst hb
  subst hrest
  have acc2 : ∀ a x, (s2.umem a x).isSome = (s.umem a x).isSome := by
    intro a x
    rw [isSome_of_write (by rw [a1]; exact k3) bum1 bum2 a x, a1]
  -- finish
  have hnh2 : cap_resolve TR nh KOBJECT_TYPE_IPC_BUF s2 = some b :=
    cap_resolve_of_published (by rw [bcaps]; simp [upd2]) (by rw [bkobj, akt]; exact hbt)
  have fchk : ipc2_buf_finish_check b s2 = EOK := by
    unfold ipc2_buf_finish_check
    rw [bbuf]
    simp [upd, st1, ic1]
  have hrc3 : (sys_ipc2_buf_finish TR c.fsrc c.fn nh s2).1 = EOK := by
    rw [sys_ipc2_buf_finish_rc hnh2, if_pos fchk]
    apply ipc2_copy_to_buf_ok_of
    · rw [bbuf]; simp [upd, sz1]; exact k5
    · rw [← uspace_range_ok_congr (acc2 TR)] at k6; exact k6
  obtain ⟨s3, hs3⟩ : ∃ s3, sys_ipc2_buf_finish TR c.fsrc c.fn nh s2 = (EOK, s3) :=
    ⟨_, Prod.ext hrc3 rfl⟩
  obtain ⟨ref3, _⟩ := sys_ipc2_buf_finish_refcnt hs3 hnh2
  obtain ⟨b3, hb3, _, _, _, _, _, ⟨f1, f2, f3, f4⟩, fcaps, fep, fbuf, _, _, fclq, fkt, fki⟩ :=
    sys_ipc2_buf_finish_effect hs3
  rw [hnh2] at hb3
  simp only [Option.some.injEq] at hb3
  subst hb3
  have c3 : s3.caps = s.caps := by
    rw [fcaps, bcaps, c1]
    funext a h
    by_cases hx : a = TR ∧ h = nh
    · obtain ⟨ha, hh⟩ := hx
      subst ha; subst hh
      simp [upd2, hnh]
    · simp [upd2, hx]
  have t3 : ∀ x, (s3.kobj x).type = (s.kobj x).type := by
    intro x; rw [fkt, bkobj, akt]
  have i3 : ∀ x, (s3.kobj x).in_caplist = (s.kobj x).in_caplist := by
    intro x; rw [fki, bkobj, in1]
  have r3 : (s3.kobj b).refcnt = (s.kobj b).refcnt := by
    rw [ref3, bkobj, in1, hbin, r1]; simp
  have st3 : (s3.buf b).state = IPC_BUF_FINISHED := by rw [fbuf]; simp [upd]
  have sz3 : (s3.buf b).size = (s.buf b).size := by rw [fbuf, bbuf]; simp [upd, sz1]
  have ie3 : (s3.buf b).in_ep = none := by rw [fbuf, bbuf]; simp [upd]
  have ic3 : (s3.buf b).in_ep_caplist = none := by rw [fbuf, bbuf]; simp [upd, ic1]
  have q3 : (s3.ep e).buffers = [] := by rw [fep, bep]; simp [upd]
  -- wait
  have hb3 : cap_resolve TS bh KOBJECT_TYPE_IPC_BUF s3 = some b := by
    rw [cap_resolve_congr (s := s) (t := s3) c3 t3]; exact hb
  obtain ⟨s4, hs4⟩ : ∃ s4, sys_ipc2_buf_wait TS c.wdst c.wm bh c.cvw false c.winfo s3 =
      some (EOK, s4) :=
    sys_ipc2_buf_wait_buf_success hb3 st3
      (by rw [f1, uspace_range_ok_congr (acc2 TS)]; exact k7)
      (by rw [f4, buw, a4]; exact k8)
  obtain ⟨wkobj, _⟩ := sys_ipc2_buf_wait_buf_kobj hb3 hs4
  obtain ⟨b4, hsel4, wcaps, wep, wuh, wur, wbuf, wuw, wkt, wum1, wum2⟩ :=
    sys_ipc2_buf_wait_ok hs4
  have hb4 : b = b4 := by
    rcases hsel4 with ⟨hr, _⟩ | ⟨hr, _⟩
    · rw [hb3] at hr
      simp only [Option.some.injEq] at hr
      exact hr
    · rw [hb3] at hr
      exact absurd hr (by simp)
  subst hb4
  refine ⟨s4, ?_, ⟨?_, ?_, ?_, ?_, ?_, ?_, ?_, ?_, ?_, ?_⟩, ?_, ⟨?_, ?_, ?_⟩, ?_⟩
  · unfold run_cycle
    simp only [hs1, hs2, hs3, hs4, ne_eq, not_true_eq_false, if_false]
  · rw [cap_resolve_congr (s := s) (t := s4) (by rw [wcaps, c3])
      (fun x => by rw [wkt, t3])]; exact hb
  · rw [cap_resolve_congr (s := s) (t := s4) (by rw [wcaps, c3])
      (fun x => by rw [wkt, t3])]; exact he
  · rw [cap_resolve_congr (s := s) (t := s4) (by rw [wcaps, c3])
      (fun x => by rw [wkt, t3])]; exact hre
  · rw [wcaps, c3]; exact hnh
  · rw [wkobj, i3]; exact hein
  · rw [wep]; exact q3
  · rw [wbuf]; simp [upd]
  · rw [wbuf]; simp [upd, ie3]
  · rw [wbuf]; simp [upd, ic3]
  · rw [wkobj, i3]; exact hbin
  · rw [wkobj]; exact r3
  · intro a x
    rw [isSome_of_write (by rw [f1, uspace_range_ok_congr (acc2 TS)]; exact k7) wum1 wum2 a x,
      f1, acc2]
  · intro a x
    rw [wur, f3, bur, a3]
    by_cases hx : a = TR ∧ x = c.rinfo
    · obtain ⟨ha, hh⟩ := hx
      subst ha; subst hh
      simp [upd2, k4]
    · simp [upd2, hx]
  · intro a x
    rw [wuw, f4, buw, a4]
    by_cases hx : a = TS ∧ x = c.winfo
    · obtain ⟨ha, hh⟩ := hx
      subst ha; subst hh
      simp [upd2, k8]
    · simp [upd2, hx]
  · rw [wbuf]; simp [upd, sz3]

/-- Any number of round trips from a ready state succeed, and each of them
ends in a ready state in which the buffer has the reference count it
started with. -/
theorem run_cycles_ready (TS TR : Nat) (bh eh reh nh : cap_handle_t) (b e : Nat)
    (cs : List cycle_call) : ∀ (s : State), cycle_ready TS TR bh eh reh nh b e s →
    (∀ c ∈ cs, cycle_ok TS TR b s c = true) →
    ∃ ts, run_cycles TS TR bh eh reh nh cs s = some ts ∧ ts.length = cs.length ∧
      ∀ t ∈ ts, cycle_ready TS TR bh eh reh nh b e t ∧
        (t.kobj b).refcnt = (s.kobj b).refcnt := by
  induction cs with
  | nil =>
    intro s _ _
    exact ⟨[], rfl, rfl, fun t ht => absurd ht (List.not_mem_nil t)⟩
  | cons c cs ih =>
    intro s hready hok
    obtain ⟨t, hrun, hr, href, hacc, hsz⟩ :=
      run_cycle_ready hready (hok c (List.mem_cons_self c cs))
    obtain ⟨ts, hruns, hlen, hall⟩ := ih t hr (fun c2 hc2 => by
      rw [cycle_ok_congr TS TR b c2 hacc hsz]
      exact hok c2 (List.mem_cons_of_mem c hc2))
    refine ⟨t :: ts, ?_, by simp [hlen], ?_⟩
    · simp only [run_cycles, hrun, hruns, Option.map_some']
    · intro u hu
      rcases List.mem_cons.mp hu with hu | hu
      · subst hu
        exact ⟨hr, href⟩
      · exact ⟨(hall u hu).1, (hall u hu).2.trans href⟩

/-! ### The membership invariant -/

theorem caplist_inv_quiet {s t : State} (h : caplist_inv s) (hq : quiet_step s t) :
    caplist_inv t := by
  obtain ⟨⟨hcons, hnd⟩, hfresh, hptr, href⟩ := h
  obtain ⟨hbrk, hr, hm⟩ := hq
  have href2 : ∀ x, referenced t x → x < t.brk := by
    intro x hx
    rw [hbrk]
    exact href x (hr x hx)
  rcases hm with ⟨hin, hobj⟩ | ⟨cl, k, rcl, rk, hfree, hin, hobj⟩ | ⟨cl, k, hmem, hin, hobj⟩
  · refine ⟨⟨?_, ?_⟩, ?_, ?_, href2⟩
    · intro c o
      rw [hin, hobj]
      exact hcons c o
    · intro c
      rw [hobj]
      exact hnd c
    · intro o ho
      rw [hin]
      exact hfresh o (by rw [← hbrk]; exact ho)
    · intro o c hc
      rw [hbrk]
      rw [hin] at hc
      exact hptr o c hc
  · have hcl := href cl rcl
    have hk := href k rk
    have hknot : ∀ c, k ∉ (s.caplist c).objects := by
      intro c hc
      have := (hcons c k).mpr hc
      rw [hfree] at this
      exact absurd this (by simp)
    refine ⟨⟨?_, ?_⟩, ?_, ?_, href2⟩
    · intro c o
      rw [hin, hobj]
      by_cases ho : o = k
      · subst ho
        by_cases hc : c = cl
        · subst hc
          simp
        · have hc2 : ¬ cl = c := fun h => hc h.symm
          simp [hc, hc2, hknot c]
      · by_cases hc : c = cl
        · subst hc
          simp [ho, hcons]
        · simp [ho, hc, hcons]
    · intro c
      rw [hobj]
      by_cases hc : c = cl
      · subst hc
        simp only [if_true]
        rw [List.nodup_append]
        refine ⟨hnd c, List.nodup_singleton k, ?_⟩
        intro a ha hb
        simp only [List.mem_singleton] at hb
        subst hb
        exact hknot c ha
      · simp only [if_neg hc]
        exact hnd c
    · intro o ho
      rw [hin]
      have : o ≠ k := by
        intro h
        rw [hbrk, h] at ho
        omega
      simp only [if_neg this]
      exact hfresh o (by rw [← hbrk]; exact ho)
    · intro o c hc
      rw [hbrk]
      rw [hin] at hc
      by_cases ho : o = k
      · simp only [if_pos ho, Option.some.injEq] at hc
        rw [← hc]
        exact hcl
      · simp only [if_neg ho] at hc
        exact hptr o c hc
  · refine ⟨⟨?_, ?_⟩, ?_, ?_, href2⟩
    · intro c o
      rw [hin, hobj]
      by_cases ho : o = k
      · subst ho
        by_cases hc : c = cl
        · subst hc
          simp [(hnd c).mem_erase_iff]
        · simp only [if_true, if_neg hc]
          constructor
          · intro h
            exact absurd h (by simp)
          · intro h
            have := (hcons c o).mpr h
            rw [hmem] at this
            simp only [Option.some.injEq] at this
            exact absurd this.symm hc
      · by_cases hc : c = cl
        · subst hc
          simp only [if_neg ho, if_true]
          rw [hcons, List.mem_erase_of_ne ho]
        · simp only [if_neg ho, if_neg hc]
          exact hcons c o
    · intro c
      rw [hobj]
      by_cases hc : c = cl
      · simp only [if_pos hc]
        exact (hnd c).erase k
      · simp only [if_neg hc]
        exact hnd c
    · intro o ho
      rw [hin]
      by_cases hok : o = k
      · simp [hok]
      · simp only [if_neg hok]
        exact hfresh o (by rw [← hbrk]; exact ho)
    · intro o c hc
      rw [hbrk]
      rw [hin] at hc
      by_cases ho : o = k
      · simp [ho] at hc
      · simp only [if_neg ho] at hc
        exact hptr o c hc

theorem caplist_inv_fresh {s t : State} (h : caplist_inv s) (hf : fresh_step s t) :
    caplist_inv t := by
  obtain ⟨⟨hcons, hnd⟩, hfresh, hptr, href⟩ := h
  obtain ⟨hbrk, hin, hobj, hobjk, hr⟩ := hf
  have hempty : (s.caplist s.brk).objects = [] := by
    rw [List.eq_nil_iff_forall_not_mem]
    intro o ho
    have := hptr o s.brk ((hcons s.brk o).mpr ho)
    omega
  have hobjk2 : (t.caplist s.brk).objects = [] := by
    rcases hobjk with h | h
    · rw [h, hempty]
    · exact h
  have hknot : ∀ c, s.brk ∉ (s.caplist c).objects := by
    intro c hc
    have := (hcons c s.brk).mpr hc
    rw [hfresh s.brk (Nat.le_refl _)] at this
    exact absurd this (by simp)
  refine ⟨⟨?_, ?_⟩, ?_, ?_, ?_⟩
  · intro c o
    rw [hin]
    by_cases ho : o = s.brk
    · subst ho
      simp only [if_true]
      constructor
      · intro h
        exact absurd h (by simp)
      · intro h
        by_cases hc : c = s.brk
        · rw [hc, hobjk2] at h
          exact absurd h (List.not_mem_nil _)
        · rw [hobj c hc] at h
          exact absurd h (hknot c)
    · simp only [if_neg ho]
      by_cases hc : c = s.brk
      · subst hc
        rw [hobjk2]
        constructor
        · intro h
          have := hptr o s.brk h
          omega
        · intro h
          exact absurd h (List.not_mem_nil _)
      · rw [hobj c hc]
        exact hcons c o
  · intro c
    by_cases hc : c = s.brk
    · rw [hc, hobjk2]
      exact List.nodup_nil
    · rw [hobj c hc]
      exact hnd c
  · intro o ho
    rw [hin]
    by_cases hok : o = s.brk
    · simp [hok]
    · simp only [if_neg hok]
      exact hfresh o (by omega)
  · intro o c hc
    rw [hin] at hc
    by_cases ho : o = s.brk
    · simp [ho] at hc
    · simp only [if_neg ho] at hc
      have := hptr o c hc
      omega
  · intro x hx
    rcases hr x hx with h | h
    · have := href x h
      omega
    · omega

/-! ### System calls as steps of the membership relation -/

theorem referenced_of_resolve {TASK : Nat} {h : cap_handle_t} {ty : kobject_type_t} {s : State}
    {k : Nat} (hr : cap_resolve TASK h ty s = some k) : referenced s k :=
  Or.inl ⟨TASK, h, (cap_resolve_type hr).1⟩

theorem quiet_step_refl (s : State) : quiet_step s s :=
  ⟨rfl, fun _ h => h, Or.inl ⟨fun _ => rfl, fun _ => rfl⟩⟩

/-- A step that changes at most the handle table, without publishing
anything, and the reference counts. -/
theorem quiet_step_of_caps {s t : State} (hbrk : t.brk = s.brk)
    (hcaps : ∀ T h k, t.caps T h = cap_t.published k → s.caps T h = cap_t.published k)
    (hep : t.ep = s.ep) (hcl : t.caplist = s.caplist)
    (hin : ∀ x, (t.kobj x).in_caplist = (s.kobj x).in_caplist) : quiet_step s t := by
  refine ⟨hbrk, ?_, Or.inl ⟨hin, fun c => by rw [hcl]⟩⟩
  intro x hx
  rcases hx with ⟨T, h, hc⟩ | ⟨e, he⟩ | ⟨c, hc⟩
  · exact Or.inl ⟨T, h, hcaps T h x hc⟩
  · exact Or.inr (Or.inl ⟨e, by rw [← hep]; exact he⟩)
  · exact Or.inr (Or.inr ⟨c, by rw [← hcl]; exact hc⟩)

/-- A finish that returns an error leaves the whole kernel state as it
was. -/
theorem sys_ipc2_buf_finish_fail {TASK src size : Nat} {bhandle : cap_handle_t} {s : State}
    (h : (sys_ipc2_buf_finish TASK src size bhandle s).1 ≠ EOK) :
    (sys_ipc2_buf_finish TASK src size bhandle s).2 = s := by
  cases hb : cap_resolve TASK bhandle KOBJECT_TYPE_IPC_BUF s with
  | none => rw [sys_ipc2_buf_finish_unresolved hb]
  | some b =>
    by_cases hc : ipc2_buf_finish_check b s = EOK
    · have hrc : (sys_ipc2_buf_finish TASK src size bhandle s).1 = _ :=
        sys_ipc2_buf_finish_rc hb
      rw [if_pos hc] at hrc
      rw [hrc] at h
      have hcp : (ipc2_copy_to_buf TASK b src size (kobject_add_ref b s)).1 ≠ EOK := by
        rw [ipc2_copy_to_buf_congr_fst (s := s) (t := kobject_add_ref b s) rfl rfl]
        exact h
      have hc2 : ipc2_buf_finish_check b (kobject_add_ref b s) = EOK := hc
      unfold sys_ipc2_buf_finish
      rw [kobject_get_of_resolve hb]
      dsimp only
      rw [hc2]
      simp only [if_true]
      rw [if_pos hcp, ipc2_copy_to_buf_fail hcp, kobject_put_add_ref]
    · rw [sys_ipc2_buf_finish_refused hb hc]

theorem sys_ipc2_buf_send_step {TASK src size : Nat} {bhandle ehandle clhandle : cap_handle_t}
    {s t : State} {rc : errno_t}
    (h : sys_ipc2_buf_send TASK src size bhandle ehandle clhandle s = (rc, t)) :
    quiet_step s t ∧ ∀ T h, s.caps T h = cap_t.free → t.caps T h = cap_t.free := by
  by_cases hrc : rc = EOK
  · subst hrc
    obtain ⟨buf, ep, cl, hb, he, hcl, hchk, _, _, _, hcaps, _, _, _, hepq, _, hclq, hclobj,
      _, hkin⟩ := sys_ipc2_buf_send_ok h
    obtain ⟨_, hbrk⟩ := sys_ipc2_buf_send_refcnt h hb
    have rb := referenced_of_resolve hb
    have hpub : ∀ T h k, t.caps T h = cap_t.published k → s.caps T h = cap_t.published k := by
      intro T h k hk
      rw [hcaps] at hk
      split_ifs at hk
      · by_cases hx : T = TASK ∧ h = bhandle
        · simp [upd2, hx] at hk
        · simpa [upd2, hx] using hk
      · exact hk
    refine ⟨⟨hbrk, ?_, ?_⟩, ?_⟩
    · intro x hx
      rcases hx with ⟨T, h, hc⟩ | ⟨e, he⟩ | ⟨c, hc⟩
      · exact Or.inl ⟨T, h, hpub T h x hc⟩
      · rw [hepq] at he
        split_ifs at he
        · rcases List.mem_append.mp he with h1 | h1
          · exact Or.inr (Or.inl ⟨e, h1⟩)
          · simp only [List.mem_singleton] at h1
            rw [h1]
            exact rb
        · exact Or.inr (Or.inl ⟨e, he⟩)
      · rw [hclq] at hc
        split_ifs at hc
        · rcases List.mem_append.mp hc with h1 | h1
          · exact Or.inr (Or.inr ⟨c, h1⟩)
          · simp only [List.mem_singleton] at h1
            rw [h1]
            exact rb
        · exact Or.inr (Or.inr ⟨c, hc⟩)
    · cases cl with
      | none =>
        refine Or.inl ⟨fun x => ?_, fun c => ?_⟩
        · rw [hkin]
          simp
        · rw [hclobj]
          simp
      | some c =>
        have hres : cap_resolve TASK clhandle KOBJECT_TYPE_CAPLIST s = some c := by
          by_cases hnil : clhandle ≠ CAP_NIL
          · rw [if_pos hnil] at hcl
            exact hcl.symm
          · rw [if_neg hnil] at hcl
            exact absurd hcl (by simp)
        refine Or.inr (Or.inl ⟨c, buf, referenced_of_resolve hres, rb,
          ((ipc2_buf_send_check_ok hchk).2.2.2 rfl).2, fun x => ?_, fun x => ?_⟩)
        · rw [hkin]
          simp
        · rw [hclobj]
          by_cases hx : x = c
          · subst hx
            simp
          · have hx2 : ¬ c = x := fun h => hx h.symm
            simp [hx, hx2]
    · intro T h hf
      rw [hcaps]
      split_ifs
      · by_cases hx : T = TASK ∧ h = bhandle
        · obtain ⟨h1, h2⟩ := hx
          subst h1
          subst h2
          rw [(cap_resolve_type hb).1] at hf
          exact absurd hf (by simp)
        · simpa [upd2, hx] using hf
      · exact hf
  · have hfail : (sys_ipc2_buf_send TASK src size bhandle ehandle clhandle s).1 ≠ EOK := by
      rw [h]
      exact hrc
    have := sys_ipc2_buf_send_fail hfail
    rw [h] at this
    dsimp only at this
    subst this
    exact ⟨quiet_step_refl _, fun _ _ hf => hf⟩

theorem sys_ipc2_buf_finish_step {TASK src size : Nat} {bhandle : cap_handle_t}
    {s t : State} {rc : errno_t}
    (h : sys_ipc2_buf_finish TASK src size bhandle s = (rc, t)) :
    quiet_step s t ∧ ∀ T h, s.caps T h = cap_t.free → t.caps T h = cap_t.free := by
  by_cases hrc : rc = EOK
  · subst hrc
    obtain ⟨buf, hb, _, _, _, _, _, _, hcaps, hep, _, _, hobj, hclq, _, hkin⟩ :=
      sys_ipc2_buf_finish_effect h
    obtain ⟨_, hbrk⟩ := sys_ipc2_buf_finish_refcnt h hb
    have rb := referenced_of_resolve hb
    refine ⟨⟨hbrk, ?_, Or.inl ⟨hkin, hobj⟩⟩, ?_⟩
    · intro x hx
      rcases hx with ⟨T, h, hc⟩ | ⟨e, he⟩ | ⟨c, hc⟩
      · rw [hcaps] at hc
        by_cases hx : T = TASK ∧ h = bhandle
        · simp [upd2, hx] at hc
        · exact Or.inl ⟨T, h, by simpa [upd2, hx] using hc⟩
      · exact Or.inr (Or.inl ⟨e, by rw [← hep]; exact he⟩)
      · rw [hclq] at hc
        split_ifs at hc
        · rcases List.mem_append.mp hc with h1 | h1
          · exact Or.inr (Or.inr ⟨c, h1⟩)
          · simp only [List.mem_singleton] at h1
            rw [h1]
            exact rb
        · exact Or.inr (Or.inr ⟨c, hc⟩)
    · intro T h hf
      rw [hcaps]
      by_cases hx : T = TASK ∧ h = bhandle
      · obtain ⟨h1, h2⟩ := hx
        subst h1
        subst h2
        rw [(cap_resolve_type hb).1] at hf
        exact absurd hf (by simp)
      · simpa [upd2, hx] using hf
  · have hfail : (sys_ipc2_buf_finish TASK src size bhandle s).1 ≠ EOK := by
      rw [h]
      exact hrc
    have := sys_ipc2_buf_finish_fail hfail
    rw [h] at this
    dsimp only at this
    subst this
    exact ⟨quiet_step_refl _, fun _ _ hf => hf⟩

theorem sys_caplist_add_step {TASK : Nat} {clhandle handle : cap_handle_t} {s t : State}
    {rc : errno_t} (h : sys_caplist_add TASK clhandle handle s = (rc, t)) :
    quiet_step s t ∧ t.caps = s.caps := by
  have same : (sys_caplist_add TASK clhandle handle s).2 = s →
      quiet_step s t ∧ t.caps = s.caps := by
    intro h2
    have : t = s := by rw [← h2, h]
    subst this
    exact ⟨quiet_step_refl _, rfl⟩
  cases hc : cap_resolve TASK clhandle KOBJECT_TYPE_CAPLIST s with
  | none =>
    apply same
    unfold sys_caplist_add
    rw [kobject_get_of_not_resolve hc]
  | some cl =>
    cases hk : cap_resolve TASK handle (s.caplist cl).type s with
    | none =>
      have hk1 : cap_resolve TASK handle (s.caplist cl).type (kobject_add_ref cl s) = none := by
        simpa using hk
      apply same
      unfold sys_caplist_add
      rw [kobject_get_of_resolve hc]
      dsimp only
      simp only [kobject_add_ref_caplist]
      rw [kobject_get_of_not_resolve hk1]
      dsimp only
      rw [kobject_put_add_ref]
    | some k =>
      by_cases hfree : (s.kobj k).in_caplist = none
      · rw [sys_caplist_add_ok hc hk hfree] at h
        have := (congrArg Prod.snd h).symm
        dsimp only at this
        subst this
        refine ⟨⟨rfl, ?_, Or.inr (Or.inl ⟨cl, k, referenced_of_resolve hc,
          referenced_of_resolve hk, hfree, fun x => ?_, fun c => ?_⟩)⟩, rfl⟩
        · intro x hx
          rcases hx with ⟨T, h, hc⟩ | ⟨e, he⟩ | ⟨c, hc⟩
          · exact Or.inl ⟨T, h, hc⟩
          · exact Or.inr (Or.inl ⟨e, he⟩)
          · refine Or.inr (Or.inr ⟨c, ?_⟩)
            by_cases hx : c = cl
            · subst hx
              simpa [upd] using hc
            · simpa [upd, hx] using hc
        · by_cases hx : x = k <;> simp [upd, hx]
        · by_cases hx : c = cl
          · subst hx
            simp [upd]
          · simp [upd, hx]
      · apply same
        rw [sys_caplist_add_busy hc hk hfree]

theorem sys_caplist_del_step {TASK : Nat} {clhandle handle : cap_handle_t} {s t : State}
    {rc : errno_t} (h : sys_caplist_del TASK clhandle handle s = (rc, t)) :
    quiet_step s t ∧ t.caps = s.caps := by
  by_cases hm : ∃ cl k, cap_resolve TASK clhandle KOBJECT_TYPE_CAPLIST s = some cl ∧
      cap_resolve TASK handle (s.caplist cl).type s = some k ∧ (s.kobj k).in_caplist = some cl
  · obtain ⟨cl, k, hc, hk, hmem⟩ := hm
    rw [sys_caplist_del_ok hc hk hmem] at h
    have := (congrArg Prod.snd h).symm
    dsimp only at this
    subst this
    refine ⟨⟨rfl, ?_, Or.inr (Or.inr ⟨cl, k, hmem, fun x => ?_, fun c => ?_⟩)⟩, rfl⟩
    · intro x hx
      rcases hx with ⟨T, h, hc⟩ | ⟨e, he⟩ | ⟨c, hc⟩
      · exact Or.inl ⟨T, h, hc⟩
      · exact Or.inr (Or.inl ⟨e, he⟩)
      · refine Or.inr (Or.inr ⟨c, ?_⟩)
        by_cases hx : c = cl
        · subst hx
          simpa [upd] using hc
        · simpa [upd, hx] using hc
    · by_cases hx : x = k <;> simp [upd, hx]
    · by_cases hx : c = cl
      · subst hx
        simp [upd]
      · simp [upd, hx]
  · have hn : sys_caplist_del TASK clhandle handle s = (ENOENT, s) := by
      apply sys_caplist_del_not_member
      intro cl k hc hk hmem
      exact hm ⟨cl, k, hc, hk, hmem⟩
    rw [hn] at h
    have := (congrArg Prod.snd h).symm
    dsimp only at this
    subst this
    exact ⟨quiet_step_refl _, rfl⟩

/-- The common body of `sys_ipc2_buf_free`, `sys_ipc2_ep_destroy` and
`sys_caplist_destroy`: the handle is unpublished and freed. -/
theorem destroy_step {TASK : Nat} {h : cap_handle_t} {ty : kobject_type_t} {s t : State}
    {rc : errno_t}
    (hd : (match cap_unpublish TASK h ty s with
      | (none, _) => (ENOENT, s)
      | (some k, s1) => cap_free TASK h (kobject_put k s1)) = (rc, t)) :
    quiet_step s t ∧ (∀ T x, s.caps T x = cap_t.free → t.caps T x = cap_t.free) ∧
    (rc = EOK → t.caps TASK h = cap_t.free) ∧
    (cap_resolve TASK h ty s = none → rc = ENOENT ∧ t = s) := by
  cases hr : cap_resolve TASK h ty s with
  | none =>
    have hu : cap_unpublish TASK h ty s = (none, s) := by simp [cap_unpublish, hr]
    rw [hu] at hd
    simp only [Prod.mk.injEq] at hd
    obtain ⟨h1, h2⟩ := hd
    subst h1
    subst h2
    exact ⟨quiet_step_refl _, fun _ _ hf => hf, fun h => absurd h (by decide),
      fun _ => ⟨rfl, rfl⟩⟩
  | some k =>
    rw [cap_unpublish_of_resolve hr] at hd
    dsimp only at hd
    unfold cap_free at hd
    simp only [kobject_put_caps, upd2, and_self, if_true] at hd
    simp only [Prod.mk.injEq] at hd
    obtain ⟨h1, h2⟩ := hd
    subst h1
    subst h2
    refine ⟨quiet_step_of_caps rfl ?_ rfl rfl (fun x => by simp), ?_, ?_, ?_⟩
    · intro T x k2 hk
      by_cases hx : T = TASK ∧ x = h
      · simp [upd2, hx] at hk
      · simpa [upd2, hx] using hk
    · intro T x hf
      by_cases hx : T = TASK ∧ x = h
      · simp [upd2, hx]
      · simpa [upd2, hx] using hf
    · intro _
      simp [upd2]
    · intro hn
      exact absurd hn (by simp)

theorem cap_alloc_frame (TASK : Nat) (pick : Option cap_handle_t) (s : State) :
    (cap_alloc TASK pick s).2.2.kobj = s.kobj ∧ (cap_alloc TASK pick s).2.2.ep = s.ep ∧
    (cap_alloc TASK pick s).2.2.caplist = s.caplist ∧ (cap_alloc TASK pick s).2.2.brk = s.brk ∧
    (cap_alloc TASK pick s).2.2.buf = s.buf ∧
    ∀ T x k, (cap_alloc TASK pick s).2.2.caps T x = cap_t.published k →
      s.caps T x = cap_t.published k := by
  unfold cap_alloc
  cases pick with
  | none => exact ⟨rfl, rfl, rfl, rfl, rfl, fun _ _ _ h => h⟩
  | some p =>
    dsimp only
    split_ifs
    · refine ⟨rfl, rfl, rfl, rfl, rfl, ?_⟩
      intro T x k hk
      by_cases hx : T = TASK ∧ x = p
      · simp [upd2, hx] at hk
      · simpa [upd2, hx] using hk
    · exact ⟨rfl, rfl, rfl, rfl, rfl, fun _ _ _ h => h⟩

theorem cap_free_frame (TASK : Nat) (h : cap_handle_t) (s : State) :
    (cap_free TASK h s).2.kobj = s.kobj ∧ (cap_free TASK h s).2.ep = s.ep ∧
    (cap_free TASK h s).2.caplist = s.caplist ∧ (cap_free TASK h s).2.brk = s.brk ∧
    (cap_free TASK h s).2.buf = s.buf ∧
    ∀ T x k, (cap_free TASK h s).2.caps T x = cap_t.published k →
      s.caps T x = cap_t.published k := by
  unfold cap_free
  split
  · refine ⟨rfl, rfl, rfl, rfl, rfl, ?_⟩
    intro T x k hk
    by_cases hx : T = TASK ∧ x = h
    · simp [upd2, hx] at hk
    · simpa [upd2, hx] using hk
  · exact ⟨rfl, rfl, rfl, rfl, rfl, fun _ _ _ h => h⟩

theorem copy_to_uspace_handle_frame (TASK dst : Nat) (h : cap_handle_t) (s : State) :
    (copy_to_uspace_handle TASK dst h s).2.kobj = s.kobj ∧
    (copy_to_uspace_handle TASK dst h s).2.ep = s.ep ∧
    (copy_to_uspace_handle TASK dst h s).2.caplist = s.caplist ∧
    (copy_to_uspace_handle TASK dst h s).2.brk = s.brk ∧
    (copy_to_uspace_handle TASK dst h s).2.buf = s.buf ∧
    (copy_to_uspace_handle TASK dst h s).2.caps = s.caps := by
  unfold copy_to_uspace_handle
  split <;> exact ⟨rfl, rfl, rfl, rfl, rfl, rfl⟩

theorem sys_cap_alloc_step {TASK uhandle : Nat} {pick : Option cap_handle_t} {s t : State}
    {rc : errno_t} (h : sys_cap_alloc TASK uhandle pick s = (rc, t)) : quiet_step s t := by
  have ht := congrArg Prod.snd h
  dsimp only at ht
  obtain ⟨a1, a2, a3, a4, _, a6⟩ := cap_alloc_frame TASK pick s
  obtain ⟨c1, c2, c3, c4, _, c6⟩ := copy_to_uspace_handle_frame TASK uhandle
    (cap_alloc TASK pick s).2.1 (cap_alloc TASK pick s).2.2
  obtain ⟨f1, f2, f3, f4, _, f6⟩ := cap_free_frame TASK (cap_alloc TASK pick s).2.1
    (copy_to_uspace_handle TASK uhandle (cap_alloc TASK pick s).2.1 (cap_alloc TASK pick s).2.2).2
  unfold sys_cap_alloc at ht
  dsimp only at ht
  split_ifs at ht
  · subst ht
    exact quiet_step_of_caps a4 a6 a2 a3 (fun x => by rw [a1])
  · subst ht
    exact quiet_step_of_caps (by rw [f4, c4, a4])
      (fun T x k hk => a6 T x k (by rw [← c6]; exact f6 T x k hk))
      (by rw [f2, c2, a2]) (by rw [f3, c3, a3]) (fun x => by rw [f1, c1, a1])
  · subst ht
    exact quiet_step_of_caps (by rw [c4, a4])
      (fun T x k hk => a6 T x k (by rw [← c6]; exact hk))
      (by rw [c2, a2]) (by rw [c3, a3]) (fun x => by rw [c1, a1])

theorem copy_to_uspace_receive_info_brk (TASK dst : Nat) (v : ipc_buf_receive_info_t)
    (s : State) : (copy_to_uspace_receive_info TASK dst v s).2.brk = s.brk := by
  unfold copy_to_uspace_receive_info
  split <;> rfl

theorem cap_publish_brk (TASK : Nat) (h : cap_handle_t) (k : Nat) (s : State) :
    (cap_publish TASK h k s).2.brk = s.brk := by
  unfold cap_publish
  split <;> rfl

theorem sys_ipc2_buf_receive_tail_brk (TASK dst size : Nat) (bhandle : cap_handle_t)
    (info buf : Nat) (s : State) :
    (sys_ipc2_buf_receive_tail TASK dst size bhandle info buf s).2.brk = s.brk := by
  unfold sys_ipc2_buf_receive_tail
  dsimp only
  split_ifs <;>
    simp [ipc2_buf_finish_brk, cap_publish_brk, copy_to_uspace_receive_info_brk,
      (ipc2_copy_from_buf_kobj TASK buf dst size s).2]

/-- What the tail of a receive, with any outcome, does to the handle table,
the queues and the membership relation. -/
theorem sys_ipc2_buf_receive_tail_step {TASK dst size : Nat} {bhandle : cap_handle_t}
    {info buf : Nat} {s t : State} {rc : errno_t}
    (h : sys_ipc2_buf_receive_tail TASK dst size bhandle info buf s = (rc, t)) :
    t.brk = s.brk ∧ t.ep = s.ep ∧ (∀ x, (t.kobj x).in_caplist = (s.kobj x).in_caplist) ∧
    (∀ c, (t.caplist c).objects = (s.caplist c).objects) ∧
    (∀ T x k, t.caps T x = cap_t.published k → s.caps T x = cap_t.published k ∨ k = buf) ∧
    (∀ c x, x ∈ (t.caplist c).queue → x ∈ (s.caplist c).queue ∨ x = buf) ∧
    (∀ T x, s.caps T x = cap_t.free → t.caps T x = cap_t.free) := by
  have hbrk : t.brk = s.brk := by
    have := sys_ipc2_buf_receive_tail_brk TASK dst size bhandle info buf s
    rw [h] at this
    exact this
  by_cases hrc : rc = EOK
  · subst hrc
    obtain ⟨hal, hcaps, hkobj, _, hep, hcl, _⟩ := sys_ipc2_buf_receive_tail_ok h
    refine ⟨hbrk, hep, fun x => by rw [hkobj], fun c => by rw [hcl], ?_, ?_, ?_⟩
    · intro T x k hk
      rw [hcaps] at hk
      by_cases hx : T = TASK ∧ x = bhandle
      · simp only [upd2, hx, and_self, if_true, cap_t.published.injEq] at hk
        exact Or.inr hk.symm
      · exact Or.inl (by simpa [upd2, hx] using hk)
    · intro c x hx
      rw [hcl] at hx
      exact Or.inl hx
    · intro T x hf
      rw [hcaps]
      by_cases hx : T = TASK ∧ x = bhandle
      · obtain ⟨h1, h2⟩ := hx
        subst h1
        subst h2
        rw [hal] at hf
        exact absurd hf (by simp)
      · simpa [upd2, hx] using hf
  · obtain ⟨hcaps, hep, _, _, _, _, hin, _, hobj, hq⟩ := sys_ipc2_buf_receive_tail_fail h hrc
    refine ⟨hbrk, hep, hin, hobj, ?_, ?_, ?_⟩
    · intro T x k hk
      rw [hcaps] at hk
      exact Or.inl hk
    · intro c x hx
      rw [hq] at hx
      split_ifs at hx
      · rcases List.mem_append.mp hx with h1 | h1
        · exact Or.inl h1
        · exact Or.inr (by simpa using h1)
      · exact Or.inl hx
    · intro T x hf
      rw [hcaps]
      exact hf

theorem sys_ipc2_buf_receive_step {TASK dst size : Nat} {bhandle ehandle : cap_handle_t}
    {cvw : List errno_t} {info : Nat} {s t : State} {rc : errno_t}
    (h : sys_ipc2_buf_receive TASK dst size bhandle ehandle cvw info s = some (rc, t)) :
    quiet_step s t ∧ ∀ T h, s.caps T h = cap_t.free → t.caps T h = cap_t.free := by
  have tail : ∀ (b : Nat) (u : State), u.brk = s.brk → u.caps = s.caps →
      (∀ x, (u.kobj x).in_caplist = (s.kobj x).in_caplist) →
      (∀ c, (u.caplist c).objects = (s.caplist c).objects) → referenced s b →
      (∀ e x, x ∈ (u.ep e).buffers → x ∈ (s.ep e).buffers) →
      (∀ c x, x ∈ (u.caplist c).queue → x ∈ (s.caplist c).queue) →
      sys_ipc2_buf_receive_tail TASK dst size bhandle info b u = (rc, t) →
      quiet_step s t ∧ ∀ T h, s.caps T h = cap_t.free → t.caps T h = cap_t.free := by
    intro b u u1 u2 u3 u4 u5 u6 u7 hu
    obtain ⟨t1, t2, t3, t4, t5, t6, t7⟩ := sys_ipc2_buf_receive_tail_step hu
    refine ⟨⟨by rw [t1, u1], ?_, Or.inl ⟨fun x => by rw [t3, u3], fun c => by rw [t4, u4]⟩⟩, ?_⟩
    · intro x hx
      rcases hx with ⟨T, h, hc⟩ | ⟨e, he⟩ | ⟨c, hc⟩
      · rcases t5 T h x hc with h1 | h1
        · exact Or.inl ⟨T, h, by rw [← u2]; exact h1⟩
        · rw [h1]
          exact u5
      · rw [t2] at he
        exact Or.inr (Or.inl ⟨e, u6 e x he⟩)
      · rcases t6 c x hc with h1 | h1
        · exact Or.inr (Or.inr ⟨c, u7 c x h1⟩)
        · rw [h1]
          exact u5
    · intro T h hf
      exact t7 T h (by rw [u2]; exact hf)
  have same : t = s → quiet_step s t ∧ ∀ T h, s.caps T h = cap_t.free → t.caps T h = cap_t.free := by
    intro ht
    subst ht
    exact ⟨quiet_step_refl _, fun _ _ hf => hf⟩
  unfold sys_ipc2_buf_receive at h
  cases he : cap_resolve TASK ehandle KOBJECT_TYPE_IPC_EP s with
  | some ep =>
    rw [kobject_get_of_resolve he] at h
    dsimp only at h
    simp only [kobject_add_ref_ep] at h
    cases hb : ipc2_block_on (s.ep ep).buffers cvw with
    | blocked => simp [hb] at h
    | failed e =>
      simp only [hb, Option.some.injEq, Prod.mk.injEq] at h
      exact same (by rw [← h.2, kobject_put_add_ref])
    | got b rest =>
      have hq := ipc2_block_on_got hb
      simp only [hb, Option.some.injEq] at h
      refine tail _ _ ?_ ?_ ?_ ?_ ?_ ?_ ?_ h
      · rfl
      · rfl
      · intro x
        simp
      · intro c
        rfl
      · exact Or.inr (Or.inl ⟨ep, by rw [hq]; exact List.mem_cons_self b rest⟩)
      · intro e x hx
        by_cases hex : e = ep
        · subst hex
          have hx2 : x ∈ rest := by simpa [upd] using hx
          rw [hq]
          exact List.mem_cons_of_mem b hx2
        · simpa [upd, hex] using hx
      · intro c x hx
        exact hx
  | none =>
    rw [kobject_get_of_not_resolve he] at h
    dsimp only at h
    cases hcl : cap_resolve TASK ehandle KOBJECT_TYPE_CAPLIST s with
    | none =>
      rw [kobject_get_of_not_resolve hcl] at h
      simp only [Option.some.injEq, Prod.mk.injEq] at h
      exact same h.2.symm
    | some c =>
      rw [kobject_get_of_resolve hcl] at h
      dsimp only at h
      simp only [kobject_add_ref_caplist] at h
      by_cases hty : (s.caplist c).type ≠ KOBJECT_TYPE_IPC_EP
      · rw [if_pos hty] at h
        simp only [Option.some.injEq, Prod.mk.injEq] at h
        exact same (by rw [← h.2, kobject_put_add_ref])
      · rw [if_neg hty] at h
        cases hb : ipc2_block_on (s.caplist c).queue cvw with
        | blocked => simp [hb] at h
        | failed e =>
          simp only [hb, Option.some.injEq, Prod.mk.injEq] at h
          exact same (by rw [← h.2, kobject_put_add_ref])
        | got b rest =>
          have hq := ipc2_block_on_got hb
          simp only [hb, Option.some.injEq] at h
          refine tail _ _ ?_ ?_ ?_ ?_ ?_ ?_ ?_ h
          · rfl
          · rfl
          · intro x
            simp
          · intro c2
            by_cases hx : c2 = c
            · subst hx
              simp [upd]
            · simp [upd, hx]
          · exact Or.inr (Or.inr ⟨c, by rw [hq]; exact List.mem_cons_self b rest⟩)
          · intro e x hx
            exact hx
          · intro c2 x hx
            by_cases hcx : c2 = c
            · subst hcx
              have hx2 : x ∈ rest := by simpa [upd] using hx
              rw [hq]
              exact List.mem_cons_of_mem b hx2
            · simpa [upd, hcx] using hx

theorem ipc2_copy_from_buf_frame (TASK buf dst size : Nat) (s : State) :
    (ipc2_copy_from_buf TASK buf dst size s).2.caps = s.caps ∧
    (ipc2_copy_from_buf TASK buf dst size s).2.ep = s.ep ∧
    (ipc2_copy_from_buf TASK buf dst size s).2.caplist = s.caplist := by
  rw [ipc2_copy_from_buf_eq]
  unfold copy_to_uspace
  split_ifs <;> exact ⟨rfl, rfl, rfl⟩

theorem copy_to_uspace_wait_info_frame (TASK dst : Nat) (v : ipc_buf_wait_info_t) (s : State) :
    (copy_to_uspace_wait_info TASK dst v s).2.caps = s.caps ∧
    (copy_to_uspace_wait_info TASK dst v s).2.ep = s.ep ∧
    (copy_to_uspace_wait_info TASK dst v s).2.caplist = s.caplist := by
  unfold copy_to_uspace_wait_info
  split <;> exact ⟨rfl, rfl, rfl⟩

/-- The tail of a wait, with any outcome, changes neither the handle table
nor a queue nor the membership relation. -/
theorem sys_ipc2_buf_wait_tail_frame (TASK dst size info buf : Nat) (s : State) :
    (sys_ipc2_buf_wait_tail TASK dst size info buf s).2.caps = s.caps ∧
    (sys_ipc2_buf_wait_tail TASK dst size info buf s).2.ep = s.ep ∧
    (sys_ipc2_buf_wait_tail TASK dst size info buf s).2.caplist = s.caplist ∧
    (sys_ipc2_buf_wait_tail TASK dst size info buf s).2.brk = s.brk ∧
    ∀ x, ((sys_ipc2_buf_wait_tail TASK dst size info buf s).2.kobj x).in_caplist =
      (s.kobj x).in_caplist := by
  obtain ⟨hk, hb⟩ := sys_ipc2_buf_wait_tail_kobj TASK dst size info buf s
  refine ⟨?_, ?_, ?_, hb, fun x => by rw [hk]; simp⟩
  all_goals
    unfold sys_ipc2_buf_wait_tail
    dsimp only
    split_ifs <;>
      simp [(ipc2_copy_from_buf_frame TASK buf dst size _).1,
        (ipc2_copy_from_buf_frame TASK buf dst size _).2.1,
        (ipc2_copy_from_buf_frame TASK buf dst size _).2.2,
        (copy_to_uspace_wait_info_frame TASK info _ _).1,
        (copy_to_uspace_wait_info_frame TASK info _ _).2.1,
        (copy_to_uspace_wait_info_frame TASK info _ _).2.2]

theorem sys_ipc2_buf_wait_step {TASK dst size : Nat} {bhandle : cap_handle_t}
    {cvw : List errno_t} {delist : Bool} {info : Nat} {s t : State} {rc : errno_t}
    (h : sys_ipc2_buf_wait TASK dst size bhandle cvw delist info s = some (rc, t)) :
    quiet_step s t ∧ t.caps = s.caps := by
  have same : t = s → quiet_step s t ∧ t.caps = s.caps := by
    intro ht
    subst ht
    exact ⟨quiet_step_refl _, rfl⟩
  have tail : ∀ (b : Nat) (u : State), u.brk = s.brk → u.caps = s.caps → u.ep = s.ep →
      (∀ c x, x ∈ (u.caplist c).queue → x ∈ (s.caplist c).queue) →
      (∀ v : State, (∀ x, (v.kobj x).in_caplist = (u.kobj x).in_caplist) →
        (∀ c, (v.caplist c).objects = (u.caplist c).objects) → memb_step s v) →
      sys_ipc2_buf_wait_tail TASK dst size info b u = (rc, t) →
      quiet_step s t ∧ t.caps = s.caps := by
    intro b u u1 u2 u3 u4 u5 hu
    obtain ⟨t1, t2, t3, t4, t5⟩ := sys_ipc2_buf_wait_tail_frame TASK dst size info b u
    rw [hu] at t1 t2 t3 t4 t5
    dsimp only at t1 t2 t3 t4 t5
    refine ⟨⟨by rw [t4, u1], ?_, u5 t t5 (fun c => by rw [t3])⟩, by rw [t1, u2]⟩
    intro x hx
    rcases hx with ⟨T, h, hc⟩ | ⟨e, he⟩ | ⟨c, hc⟩
    · exact Or.inl ⟨T, h, by rw [← u2, ← t1]; exact hc⟩
    · exact Or.inr (Or.inl ⟨e, by rw [← u3, ← t2]; exact he⟩)
    · exact Or.inr (Or.inr ⟨c, u4 c x (by rw [← t3]; exact hc)⟩)
  unfold sys_ipc2_buf_wait at h
  cases hb : cap_resolve TASK bhandle KOBJECT_TYPE_IPC_BUF s with
  | some b =>
    rw [kobject_get_of_resolve hb] at h
    dsimp only at h
    simp only [kobject_add_ref_buf] at h
    by_cases hst : (s.buf b).state ≠ IPC_BUF_FINISHED
    · rw [if_pos hst] at h
      cases hw : condvar_wait_loop cvw with
      | none => simp [hw] at h
      | some e =>
        simp only [hw, Option.some.injEq, Prod.mk.injEq] at h
        exact same (by rw [← h.2, kobject_put_add_ref])
    · rw [if_neg hst] at h
      simp only [Option.some.injEq] at h
      refine tail _ _ ?_ ?_ ?_ ?_ ?_ h
      · rfl
      · rfl
      · rfl
      · intro c x hx
        exact hx
      · intro v v1 v2
        exact Or.inl ⟨fun x => by rw [v1]; simp, fun c => by rw [v2]; rfl⟩
  | none =>
    rw [kobject_get_of_not_resolve hb] at h
    dsimp only at h
    cases hc : cap_resolve TASK bhandle KOBJECT_TYPE_CAPLIST s with
    | none =>
      rw [kobject_get_of_not_resolve hc] at h
      simp only [Option.some.injEq, Prod.mk.injEq] at h
      exact same h.2.symm
    | some c =>
      rw [kobject_get_of_resolve hc] at h
      dsimp only at h
      simp only [kobject_add_ref_caplist] at h
      by_cases hty : (s.caplist c).type ≠ KOBJECT_TYPE_IPC_BUF
      · rw [if_pos hty] at h
        simp only [Option.some.injEq, Prod.mk.injEq] at h
        exact same (by rw [← h.2, kobject_put_add_ref])
      · rw [if_neg hty] at h
        cases hq : ipc2_block_on (s.caplist c).queue cvw with
        | blocked => simp [hq] at h
        | failed e =>
          simp only [hq, Option.some.injEq, Prod.mk.injEq] at h
          exact same (by rw [← h.2, kobject_put_add_ref])
        | got b rest =>
          have hql := ipc2_block_on_got hq
          simp only [hq, Option.some.injEq] at h
          have key : ∀ u : State, u.brk = s.brk → u.caps = s.caps → u.ep = s.ep →
              (∀ x, (u.kobj x).in_caplist = (s.kobj x).in_caplist) →
              (∀ c2, (u.caplist c2).objects = (s.caplist c2).objects) →
              (∀ c2 x, x ∈ (u.caplist c2).queue → x ∈ (s.caplist c2).queue) →
              sys_ipc2_buf_wait_tail TASK dst size info b
                (if delist = true then (caplist_del c b u).2 else u) = (rc, t) →
              quiet_step s t ∧ t.caps = s.caps := by
            intro s2 b2 c2 p2 i2 o2 q2 h
            cases delist with
            | false =>
              simp only [Bool.false_eq_true, if_false] at h
              refine tail _ _ b2 c2 p2 q2 ?_ h
              intro v v1 v2
              exact Or.inl ⟨fun x => by rw [v1, i2], fun c => by rw [v2, o2]⟩
            | true =>
              simp only [if_true] at h
              obtain ⟨d1, _, d3, _, _, _, _, _, _, d10, d11, d12⟩ := caplist_del_frame c b s2
              have dbrk : (caplist_del c b s2).2.brk = s2.brk := by
                unfold caplist_del
                split_ifs <;> rfl
              refine tail _ _ (by rw [dbrk, b2]) (by rw [d1, c2]) (by rw [d3, p2]) ?_ ?_ h
              · intro c3 x hx
                rw [d10] at hx
                exact q2 c3 x hx
              · intro v v1 v2
                by_cases hm : (s.kobj b).in_caplist = some c
                · refine Or.inr (Or.inr ⟨c, b, hm, fun x => ?_, fun c3 => ?_⟩)
                  · rw [v1, d11, i2, i2]
                    by_cases hx : x = b <;> simp [hx, hm]
                  · rw [v2, d12, i2, o2]
                    by_cases hx : c3 = c <;> simp [hx, hm]
                · refine Or.inl ⟨fun x => ?_, fun c3 => ?_⟩
                  · rw [v1, d11, i2, i2]
                    simp [hm]
                  · rw [v2, d12, i2, o2]
                    simp [hm]
          refine key _ ?_ ?_ ?_ ?_ ?_ ?_ h
          · rfl
          · rfl
          · rfl
          · intro x
            simp
          · intro c2
            by_cases hcx : c2 = c
            · subst hcx
              simp [upd]
            · simp [upd, hcx]
          · intro c2 x hx
            by_cases hcx : c2 = c
            · subst hcx
              have hx2 : x ∈ rest := by simpa [upd] using hx
              rw [hql]
              exact List.mem_cons_of_mem b hx2
            · simpa [upd, hcx] using hx

theorem cap_publish_frame (TASK : Nat) (h : cap_handle_t) (k : Nat) (s : State) :
    (cap_publish TASK h k s).2.kobj = s.kobj ∧ (cap_publish TASK h k s).2.ep = s.ep ∧
    (cap_publish TASK h k s).2.caplist = s.caplist ∧ (cap_publish TASK h k s).2.brk = s.brk ∧
    ∀ T x k2, (cap_publish TASK h k s).2.caps T x = cap_t.published k2 →
      s.caps T x = cap_t.published k2 ∨ k2 = k := by
  unfold cap_publish
  split
  · refine ⟨rfl, rfl, rfl, rfl, ?_⟩
    intro T x k2 hk
    by_cases hx : T = TASK ∧ x = h
    · simp only [upd2, hx, and_self, if_true, cap_t.published.injEq] at hk
      exact Or.inr hk.symm
    · exact Or.inl (by simpa [upd2, hx] using hk)
  · exact ⟨rfl, rfl, rfl, rfl, fun _ _ _ h => Or.inl h⟩

/-- The state after the handle has been allocated and copied out is the
state before as far as kernel objects are concerned. -/
theorem alloc_prefix_frame (TASK dst : Nat) (pick : Option cap_handle_t) (s : State) :
    (copy_to_uspace_handle TASK dst (cap_alloc TASK pick s).2.1
      (cap_alloc TASK pick s).2.2).2.brk = s.brk ∧
    (copy_to_uspace_handle TASK dst (cap_alloc TASK pick s).2.1
      (cap_alloc TASK pick s).2.2).2.kobj = s.kobj ∧
    (copy_to_uspace_handle TASK dst (cap_alloc TASK pick s).2.1
      (cap_alloc TASK pick s).2.2).2.ep = s.ep ∧
    (copy_to_uspace_handle TASK dst (cap_alloc TASK pick s).2.1
      (cap_alloc TASK pick s).2.2).2.caplist = s.caplist ∧
    ∀ T x k, (copy_to_uspace_handle TASK dst (cap_alloc TASK pick s).2.1
      (cap_alloc TASK pick s).2.2).2.caps T x = cap_t.published k →
      s.caps T x = cap_t.published k := by
  obtain ⟨a1, a2, a3, a4, _, a6⟩ := cap_alloc_frame TASK pick s
  obtain ⟨c1, c2, c3, c4, _, c6⟩ := copy_to_uspace_handle_frame TASK dst
    (cap_alloc TASK pick s).2.1 (cap_alloc TASK pick s).2.2
  exact ⟨by rw [c4, a4], by rw [c1, a1], by rw [c2, a2], by rw [c3, a3],
    fun T x k hk => a6 T x k (by rw [← c6]; exact hk)⟩

theorem quiet_step_cap_free {s u : State} (TASK : Nat) (h : cap_handle_t)
    (ubrk : u.brk = s.brk) (ukobj : u.kobj = s.kobj) (uep : u.ep = s.ep)
    (ucl : u.caplist = s.caplist)
    (ucaps : ∀ T x k, u.caps T x = cap_t.published k → s.caps T x = cap_t.published k) :
    quiet_step s (cap_free TASK h u).2 := by
  obtain ⟨f1, f2, f3, f4, _, f6⟩ := cap_free_frame TASK h u
  exact quiet_step_of_caps (by rw [f4, ubrk]) (fun T x k hk => ucaps T x k (f6 T x k hk))
    (by rw [f2, uep]) (by rw [f3, ucl]) (fun x => by rw [f1, ukobj])

/-- A state that differs from `u` by a new kernel object at `u.brk` is a
fresh step from a state `s` with the same kernel objects as `u`. -/
theorem fresh_step_alloc {s u t : State} (ubrk : u.brk = s.brk) (ukobj : u.kobj = s.kobj)
    (uep : u.ep = s.ep) (ucl : u.caplist = s.caplist)
    (ucaps : ∀ T x k, u.caps T x = cap_t.published k → s.caps T x = cap_t.published k)
    (tbrk : t.brk = u.brk + 1)
    (tin : ∀ x, (t.kobj x).in_caplist = if x = u.brk then none else (u.kobj x).in_caplist)
    (tep : ∀ e, (t.ep e).buffers = (u.ep e).buffers ∨ (t.ep e).buffers = [])
    (tcl : ∀ c, c ≠ u.brk → t.caplist c = u.caplist c)
    (tclk : t.caplist u.brk = u.caplist u.brk ∨
      ((t.caplist u.brk).objects = [] ∧ (t.caplist u.brk).queue = []))
    (tcaps : ∀ T x k, t.caps T x = cap_t.published k →
      u.caps T x = cap_t.published k ∨ k = u.brk) : fresh_step s t := by
  rw [ubrk] at tbrk tin tcl tclk tcaps
  rw [ukobj] at tin
  rw [ucl] at tcl tclk
  refine ⟨tbrk, tin, fun c hc => by rw [tcl c hc], ?_, ?_⟩
  · rcases tclk with h | h
    · exact Or.inl (by rw [h])
    · exact Or.inr h.1
  · intro x hx
    rcases hx with ⟨T, h, hc⟩ | ⟨e, he⟩ | ⟨c, hc⟩
    · rcases tcaps T h x hc with h1 | h1
      · exact Or.inl (Or.inl ⟨T, h, ucaps T h x h1⟩)
      · exact Or.inr h1
    · rcases tep e with h1 | h1
      · rw [h1, uep] at he
        exact Or.inl (Or.inr (Or.inl ⟨e, he⟩))
      · rw [h1] at he
        exact absurd he (List.not_mem_nil _)
    · by_cases hcb : c = s.brk
      · rcases tclk with h1 | h1
        · rw [hcb, h1] at hc
          exact Or.inl (Or.inr (Or.inr ⟨s.brk, hc⟩))
        · rw [hcb, h1.2] at hc
          exact absurd hc (List.not_mem_nil _)
      · rw [tcl c hcb] at hc
        exact Or.inl (Or.inr (Or.inr ⟨c, hc⟩))

theorem sys_ipc2_buf_alloc_step (TASK size label bhandle : Nat) (pick : Option cap_handle_t)
    (slab_ok malloc_ok kobj_ok : Bool) (junk : Nat → Nat) (s : State) :
    quiet_step s
      (sys_ipc2_buf_alloc TASK size label bhandle pick slab_ok malloc_ok kobj_ok junk s).2 ∨
    fresh_step s
      (sys_ipc2_buf_alloc TASK size label bhandle pick slab_ok malloc_ok kobj_ok junk s).2 := by
  obtain ⟨a1, a2, a3, a4, _, a6⟩ := cap_alloc_frame TASK pick s
  obtain ⟨u1, u2, u3, u4, u5⟩ := alloc_prefix_frame TASK bhandle pick s
  unfold sys_ipc2_buf_alloc
  dsimp only
  generalize (copy_to_uspace_handle TASK bhandle (cap_alloc TASK pick s).2.1
    (cap_alloc TASK pick s).2.2) = cu at *
  split_ifs
  · exact Or.inl (quiet_step_of_caps a4 a6 a2 a3 (fun x => by rw [a1]))
  · exact Or.inl (quiet_step_cap_free TASK _ u1 u2 u3 u4 u5)
  · exact Or.inl (quiet_step_cap_free TASK _ u1 u2 u3 u4 u5)
  · exact Or.inl (quiet_step_cap_free TASK _ u1 u2 u3 u4 u5)
  · exact Or.inl (quiet_step_cap_free TASK _ u1 u2 u3 u4 u5)
  · obtain ⟨p1, p2, p3, p4, p5⟩ := cap_publish_frame TASK (cap_alloc TASK pick s).2.1
      (kobject_alloc cu.2).1 ( kobject_initialize (kobject_alloc cu.2).1 KOBJECT_TYPE_IPC_BUF
        (State.mk (kobject_alloc cu.2).2.caps (kobject_alloc cu.2).2.kobj
          (upd (kobject_alloc cu.2).2.buf (kobject_alloc cu.2).1
            ( ipc_buf_initialize size junk label))
          (kobject_alloc cu.2).2.ep (kobject_alloc cu.2).2.caplist (kobject_alloc cu.2).2.umem
          (kobject_alloc cu.2).2.uhandle (kobject_alloc cu.2).2.urecv
          (kobject_alloc cu.2).2.uwait (kobject_alloc cu.2).2.brk))
    refine Or.inr (fresh_step_alloc u1 u2 u3 u4 u5 ?_ ?_ ?_ ?_ ?_ ?_)
    · simp only [kobject_put_brk]
      rw [p4]
      rfl
    · intro x
      simp only [kobject_put_in_caplist]
      rw [p1]
      by_cases hx : x = cu.2.brk <;> simp [ kobject_initialize, kobject_alloc, upd, hx]
    · intro e
      simp only [kobject_put_ep]
      rw [p2]
      exact Or.inl rfl
    · intro c _
      simp only [kobject_put_caplist]
      rw [p3]
      rfl
    · simp only [kobject_put_caplist]
      rw [p3]
      exact Or.inl rfl
    · intro T x k hk
      simp only [kobject_put_caps] at hk
      exact p5 T x k hk
  · obtain ⟨p1, p2, p3, p4, p5⟩ := cap_publish_frame TASK (cap_alloc TASK pick s).2.1
      (kobject_alloc cu.2).1 ( kobject_initialize (kobject_alloc cu.2).1 KOBJECT_TYPE_IPC_BUF
        (State.mk (kobject_alloc cu.2).2.caps (kobject_alloc cu.2).2.kobj
          (upd (kobject_alloc cu.2).2.buf (kobject_alloc cu.2).1
            ( ipc_buf_initialize size junk label))
          (kobject_alloc cu.2).2.ep (kobject_alloc cu.2).2.caplist (kobject_alloc cu.2).2.umem
          (kobject_alloc cu.2).2.uhandle (kobject_alloc cu.2).2.urecv
          (kobject_alloc cu.2).2.uwait (kobject_alloc cu.2).2.brk))
    refine Or.inr (fresh_step_alloc u1 u2 u3 u4 u5 ?_ ?_ ?_ ?_ ?_ ?_)
    · rw [p4]
      rfl
    · intro x
      rw [p1]
      by_cases hx : x = cu.2.brk <;> simp [ kobject_initialize, kobject_alloc, upd, hx]
    · intro e
      rw [p2]
      exact Or.inl rfl
    · intro c _
      rw [p3]
      rfl
    · rw [p3]
      exact Or.inl rfl
    · intro T x k hk
      exact p5 T x k hk

theorem sys_caplist_create_step (TASK clhandle : Nat) (type : kobject_type_t)
    (pick : Option cap_handle_t) (slab_ok kobj_ok : Bool) (s : State) :
    quiet_step s (sys_caplist_create TASK clhandle type pick slab_ok kobj_ok s).2 ∨
    fresh_step s (sys_caplist_create TASK clhandle type pick slab_ok kobj_ok s).2 := by
  obtain ⟨a1, a2, a3, a4, _, a6⟩ := cap_alloc_frame TASK pick s
  obtain ⟨u1, u2, u3, u4, u5⟩ := alloc_prefix_frame TASK clhandle pick s
  unfold sys_caplist_create
  dsimp only
  generalize (copy_to_uspace_handle TASK clhandle (cap_alloc TASK pick s).2.1
    (cap_alloc TASK pick s).2.2) = cu at *
  split_ifs
  · exact Or.inl (quiet_step_of_caps a4 a6 a2 a3 (fun x => by rw [a1]))
  · exact Or.inl (quiet_step_cap_free TASK _ u1 u2 u3 u4 u5)
  · exact Or.inl (quiet_step_cap_free TASK _ u1 u2 u3 u4 u5)
  · exact Or.inl (quiet_step_cap_free TASK _ u1 u2 u3 u4 u5)
  · obtain ⟨p1, p2, p3, p4, p5⟩ := cap_publish_frame TASK (cap_alloc TASK pick s).2.1
      (kobject_alloc cu.2).1 ( kobject_initialize (kobject_alloc cu.2).1 KOBJECT_TYPE_CAPLIST
        (State.mk (kobject_alloc cu.2).2.caps (kobject_alloc cu.2).2.kobj
          (kobject_alloc cu.2).2.buf (kobject_alloc cu.2).2.ep
          (upd (kobject_alloc cu.2).2.caplist (kobject_alloc cu.2).1 ( caplist_initialize type))
          (kobject_alloc cu.2).2.umem (kobject_alloc cu.2).2.uhandle
          (kobject_alloc cu.2).2.urecv (kobject_alloc cu.2).2.uwait (kobject_alloc cu.2).2.brk))
    refine Or.inr (fresh_step_alloc u1 u2 u3 u4 u5 ?_ ?_ ?_ ?_ ?_ ?_)
    · rw [p4]
      rfl
    · intro x
      rw [p1]
      by_cases hx : x = cu.2.brk <;> simp [ kobject_initialize, kobject_alloc, upd, hx]
    · intro e
      rw [p2]
      exact Or.inl rfl
    · intro c hc
      rw [p3]
      simp [ kobject_initialize, kobject_alloc, upd, hc]
    · rw [p3]
      refine Or.inr ?_
      simp [ kobject_initialize, kobject_alloc, upd, caplist_initialize]
    · intro T x k hk
      exact p5 T x k hk

theorem caplist_inv_of_step {s t : State} (h : caplist_inv s)
    (hs : quiet_step s t ∨ fresh_step s t) : caplist_inv t := by
  rcases hs with hs | hs
  · exact caplist_inv_quiet h hs
  · exact caplist_inv_fresh h hs

theorem sys_caplist_add_inv (TASK : Nat) (clhandle handle : cap_handle_t) {s : State}
    (h : caplist_inv s) : caplist_inv (sys_caplist_add TASK clhandle handle s).2 := by
  have hs : sys_caplist_add TASK clhandle handle s =
      ((sys_caplist_add TASK clhandle handle s).1, (sys_caplist_add TASK clhandle handle s).2) :=
    rfl
  exact caplist_inv_quiet h (sys_caplist_add_step hs).1

theorem sys_ipc2_ep_destroy_inv (TASK : Nat) (ehandle : cap_handle_t) {s : State}
    (h : caplist_inv s) : caplist_inv (sys_ipc2_ep_destroy TASK ehandle s).2 := by
  have hs : sys_ipc2_ep_destroy TASK ehandle s =
      ((sys_ipc2_ep_destroy TASK ehandle s).1, (sys_ipc2_ep_destroy TASK ehandle s).2) := rfl
  unfold sys_ipc2_ep_destroy at hs
  have := (destroy_step hs).1
  unfold sys_ipc2_ep_destroy
  exact caplist_inv_quiet h this

/-- `sys_ipc2_ep_create` keeps the membership invariant, also when it adds the
new endpoint to a caplist or rolls the creation back. -/
theorem sys_ipc2_ep_create_inv (TASK ehandle label : Nat) (clhandle : cap_handle_t)
    (pick : Option cap_handle_t) (slab_ok kobj_ok : Bool) {s : State} (h : caplist_inv s) :
    caplist_inv (sys_ipc2_ep_create TASK ehandle label clhandle pick slab_ok kobj_ok s).2 := by
  obtain ⟨a1, a2, a3, a4, _, a6⟩ := cap_alloc_frame TASK pick s
  obtain ⟨u1, u2, u3, u4, u5⟩ := alloc_prefix_frame TASK ehandle pick s
  unfold sys_ipc2_ep_create
  dsimp only
  generalize (copy_to_uspace_handle TASK ehandle (cap_alloc TASK pick s).2.1
    (cap_alloc TASK pick s).2.2) = cu at *
  obtain ⟨p1, p2, p3, p4, p5⟩ := cap_publish_frame TASK (cap_alloc TASK pick s).2.1
    (kobject_alloc cu.2).1 ( kobject_initialize (kobject_alloc cu.2).1 KOBJECT_TYPE_IPC_EP
      (State.mk (kobject_alloc cu.2).2.caps (kobject_alloc cu.2).2.kobj
        (kobject_alloc cu.2).2.buf
        (upd (kobject_alloc cu.2).2.ep (kobject_alloc cu.2).1 ( ipc_ep_initialize label))
        (kobject_alloc cu.2).2.caplist (kobject_alloc cu.2).2.umem
        (kobject_alloc cu.2).2.uhandle (kobject_alloc cu.2).2.urecv
        (kobject_alloc cu.2).2.uwait (kobject_alloc cu.2).2.brk))
  have h6 : caplist_inv (cap_publish TASK (cap_alloc TASK pick s).2.1 (kobject_alloc cu.2).1
      ( kobject_initialize (kobject_alloc cu.2).1 KOBJECT_TYPE_IPC_EP
        (State.mk (kobject_alloc cu.2).2.caps (kobject_alloc cu.2).2.kobj
          (kobject_alloc cu.2).2.buf
          (upd (kobject_alloc cu.2).2.ep (kobject_alloc cu.2).1 ( ipc_ep_initialize label))
          (kobject_alloc cu.2).2.caplist (kobject_alloc cu.2).2.umem
          (kobject_alloc cu.2).2.uhandle (kobject_alloc cu.2).2.urecv
          (kobject_alloc cu.2).2.uwait (kobject_alloc cu.2).2.brk))).2 := by
    apply caplist_inv_fresh h
    refine fresh_step_alloc u1 u2 u3 u4 u5 ?_ ?_ ?_ ?_ ?_ ?_
    · rw [p4]
      rfl
    · intro x
      rw [p1]
      by_cases hx : x = cu.2.brk <;> simp [ kobject_initialize, kobject_alloc, upd, hx]
    · intro e
      rw [p2]
      by_cases he : e = cu.2.brk
      · refine Or.inr ?_
        simp [ kobject_initialize, kobject_alloc, upd, he, ipc_ep_initialize]
      · refine Or.inl ?_
        simp [ kobject_initialize, kobject_alloc, upd, he]
    · intro c _
      rw [p3]
      rfl
    · rw [p3]
      exact Or.inl rfl
    · intro T x k hk
      exact p5 T x k hk
  split_ifs
  · exact caplist_inv_quiet h (quiet_step_of_caps a4 a6 a2 a3 (fun x => by rw [a1]))
  · exact caplist_inv_quiet h (quiet_step_cap_free TASK _ u1 u2 u3 u4 u5)
  · exact caplist_inv_quiet h (quiet_step_cap_free TASK _ u1 u2 u3 u4 u5)
  · exact caplist_inv_quiet h (quiet_step_cap_free TASK _ u1 u2 u3 u4 u5)
  · exact sys_ipc2_ep_destroy_inv _ _ (sys_caplist_add_inv _ _ _ h6)
  · exact sys_caplist_add_inv _ _ _ h6
  · exact h6

theorem caplist_inv_boot (umem : Nat → Nat → Option Nat) : caplist_inv (boot umem) := by
  refine ⟨⟨?_, ?_⟩, ?_, ?_, ?_⟩
  · intro c o
    simp [boot, caplist_initialize]
  · intro c
    simp [boot, caplist_initialize]
  · intro o _
    rfl
  · intro o c hc
    simp [boot] at hc
  · intro x hx
    rcases hx with ⟨T, h, hc⟩ | ⟨e, he⟩ | ⟨c, hc⟩
    · simp [boot] at hc
    · simp [boot, ipc_ep_initialize] at he
    · simp [boot, caplist_initialize] at hc

/-- Every system call that returns keeps the membership invariant. -/
theorem sys_step_inv {c : syscall} {s t : State} {rc : errno_t} (h : caplist_inv s)
    (hs : sys_step c s = some (rc, t)) : caplist_inv t := by
  cases c with
  | caplist_create TASK clhandle type pick slab_ok kobj_ok =>
    simp only [sys_step, Option.some.injEq] at hs
    have := sys_caplist_create_step TASK clhandle type pick slab_ok kobj_ok s
    rw [hs] at this
    exact caplist_inv_of_step h this
  | caplist_destroy TASK clhandle =>
    simp only [sys_step, Option.some.injEq] at hs
    unfold sys_caplist_destroy at hs
    exact caplist_inv_quiet h (destroy_step hs).1
  | caplist_add TASK clhandle handle =>
    simp only [sys_step, Option.some.injEq] at hs
    exact caplist_inv_quiet h (sys_caplist_add_step hs).1
  | caplist_del TASK clhandle handle =>
    simp only [sys_step, Option.some.injEq] at hs
    exact caplist_inv_quiet h (sys_caplist_del_step hs).1
  | buf_alloc TASK size label bhandle pick slab_ok malloc_ok kobj_ok junk =>
    simp only [sys_step, Option.some.injEq] at hs
    have := sys_ipc2_buf_alloc_step TASK size label bhandle pick slab_ok malloc_ok kobj_ok junk s
    rw [hs] at this
    exact caplist_inv_of_step h this
  | buf_free TASK bhandle =>
    simp only [sys_step, Option.some.injEq] at hs
    unfold sys_ipc2_buf_free at hs
    exact caplist_inv_quiet h (destroy_step hs).1
  | buf_send TASK src size bhandle ehandle clhandle =>
    simp only [sys_step, Option.some.injEq] at hs
    exact caplist_inv_quiet h (sys_ipc2_buf_send_step hs).1
  | buf_receive TASK dst size bhandle ehandle cvw info =>
    simp only [sys_step] at hs
    exact caplist_inv_quiet h (sys_ipc2_buf_receive_step hs).1
  | buf_finish TASK src size bhandle =>
    simp only [sys_step, Option.some.injEq] at hs
    exact caplist_inv_quiet h (sys_ipc2_buf_finish_step hs).1
  | buf_wait TASK dst size bhandle cvw delist info =>
    simp only [sys_step] at hs
    exact caplist_inv_quiet h (sys_ipc2_buf_wait_step hs).1
  | ep_create TASK ehandle label clhandle pick slab_ok kobj_ok =>
    simp only [sys_step, Option.some.injEq] at hs
    have := sys_ipc2_ep_create_inv TASK ehandle label clhandle pick slab_ok kobj_ok h
    rw [hs] at this
    exact this
  | ep_destroy TASK ehandle =>
    simp only [sys_step, Option.some.injEq] at hs
    unfold sys_ipc2_ep_destroy at hs
    exact caplist_inv_quiet h (destroy_step hs).1
  | cap_alloc TASK uhandle pick =>
    simp only [sys_step, Option.some.injEq] at hs
    exact caplist_inv_quiet h (sys_cap_alloc_step hs)

theorem reachable_by_inv {P : syscall → Prop} {s0 s : State} (h0 : caplist_inv s0)
    (h : reachable_by P s0 s) : caplist_inv s := by
  induction h with
  | start => exact h0
  | step _ _ hs ih => exact sys_step_inv ih hs

/-! ### Handles that are free -/

theorem cap_resolve_free {TASK : Nat} {h : cap_handle_t} {s : State}
    (hf : s.caps TASK h = cap_t.free) (ty : kobject_type_t) :
    cap_resolve TASK h ty s = none :=
  cap_resolve_unpublished (fun k hk => by rw [hf] at hk; cases hk) ty

/-- A system call that allocates no handle keeps every free handle free. -/
theorem sys_step_free_kept {c : syscall} {s t : State} {rc : errno_t}
    (hc : c.allocates = false) (hs : sys_step c s = some (rc, t)) :
    ∀ T x, s.caps T x = cap_t.free → t.caps T x = cap_t.free := by
  cases c with
  | caplist_create TASK clhandle type pick slab_ok kobj_ok => cases hc
  | buf_alloc TASK size label bhandle pick slab_ok malloc_ok kobj_ok junk => cases hc
  | ep_create TASK ehandle label clhandle pick slab_ok kobj_ok => cases hc
  | cap_alloc TASK uhandle pick => cases hc
  | caplist_destroy TASK clhandle =>
    simp only [sys_step, Option.some.injEq] at hs
    unfold sys_caplist_destroy at hs
    exact (destroy_step hs).2.1
  | caplist_add TASK clhandle handle =>
    simp only [sys_step, Option.some.injEq] at hs
    intro T x hx
    rw [(sys_caplist_add_step hs).2]
    exact hx
  | caplist_del TASK clhandle handle =>
    simp only [sys_step, Option.some.injEq] at hs
    intro T x hx
    rw [(sys_caplist_del_step hs).2]
    exact hx
  | buf_free TASK bhandle =>
    simp only [sys_step, Option.some.injEq] at hs
    unfold sys_ipc2_buf_free at hs
    exact (destroy_step hs).2.1
  | buf_send TASK src size bhandle ehandle clhandle =>
    simp only [sys_step, Option.some.injEq] at hs
    exact (sys_ipc2_buf_send_step hs).2
  | buf_receive TASK dst size bhandle ehandle cvw info =>
    simp only [sys_step] at hs
    exact (sys_ipc2_buf_receive_step hs).2
  | buf_finish TASK src size bhandle =>
    simp only [sys_step, Option.some.injEq] at hs
    exact (sys_ipc2_buf_finish_step hs).2
  | buf_wait TASK dst size bhandle cvw delist info =>
    simp only [sys_step] at hs
    intro T x hx
    rw [(sys_ipc2_buf_wait_step hs).2]
    exact hx
  | ep_destroy TASK ehandle =>
    simp only [sys_step, Option.some.injEq] at hs
    unfold sys_ipc2_ep_destroy at hs
    exact (destroy_step hs).2.1

theorem reachable_free_kept {s t : State}
    (h : reachable_by (fun c => c.allocates = false) s t) :
    ∀ T x, s.caps T x = cap_t.free → t.caps T x = cap_t.free := by
  induction h with
  | start => exact fun _ _ hx => hx
  | step _ hc hs ih => exact fun T x hx => sys_step_free_kept hc hs T x (ih T x hx)

/-- A successful free or destroy leaves the handle free. -/
theorem destroy_frees {d : syscall} {TASK : Nat} {h : cap_handle_t} {s t : State}
    (hd : d = syscall.buf_free TASK h ∨ d = syscall.ep_destroy TASK h ∨
      d = syscall.caplist_destroy TASK h)
    (hs : sys_step d s = some (EOK, t)) : t.caps TASK h = cap_t.free := by
  rcases hd with hd | hd | hd <;> subst hd <;>
    simp only [sys_step, Option.some.injEq] at hs
  · unfold sys_ipc2_buf_free at hs
    exact (destroy_step hs).2.2.1 rfl
  · unfold sys_ipc2_ep_destroy at hs
    exact (destroy_step hs).2.2.1 rfl
  · unfold sys_caplist_destroy at hs
    exact (destroy_step hs).2.2.1 rfl

theorem destroy_unresolved {TASK : Nat} {h : cap_handle_t} {ty : kobject_type_t} {s : State}
    (hr : cap_resolve TASK h ty s = none) :
    (match cap_unpublish TASK h ty s with
      | (none, _) => (ENOENT, s)
      | (some k, s1) => cap_free TASK h (kobject_put k s1)) = (ENOENT, s) := by
  simp [cap_unpublish, hr]

theorem sys_ipc2_buf_send_ep_unresolved {TASK src size : Nat}
    {bhandle ehandle clhandle : cap_handle_t} {s : State}
    (h : cap_resolve TASK ehandle KOBJECT_TYPE_IPC_EP s = none) :
    sys_ipc2_buf_send TASK src size bhandle ehandle clhandle s = (ENOENT, s) := by
  cases hb : cap_resolve TASK bhandle KOBJECT_TYPE_IPC_BUF s with
  | none => exact sys_ipc2_buf_send_unresolved hb
  | some buf =>
    unfold sys_ipc2_buf_send
    rw [kobject_get_of_resolve hb]
    dsimp only
    rw [kobject_get_of_not_resolve (by simpa using h)]
    dsimp only
    rw [kobject_put_add_ref]

theorem sys_ipc2_buf_send_cl_unresolved {TASK src size : Nat}
    {bhandle ehandle clhandle : cap_handle_t} {s : State} (hn : clhandle ≠ CAP_NIL)
    (h : cap_resolve TASK clhandle KOBJECT_TYPE_CAPLIST s = none) :
    sys_ipc2_buf_send TASK src size bhandle ehandle clhandle s = (ENOENT, s) := by
  cases hb : cap_resolve TASK bhandle KOBJECT_TYPE_IPC_BUF s with
  | none => exact sys_ipc2_buf_send_unresolved hb
  | some buf =>
    cases he : cap_resolve TASK ehandle KOBJECT_TYPE_IPC_EP s with
    | none => exact sys_ipc2_buf_send_ep_unresolved he
    | some ep =>
      have hrc : (sys_ipc2_buf_send TASK src size bhandle ehandle clhandle s).1 = ENOENT := by
        unfold sys_ipc2_buf_send
        rw [kobject_get_of_resolve hb]
        dsimp only
        rw [kobject_get_of_resolve (by simpa using he)]
        dsimp only
        rw [if_pos hn, kobject_get_of_not_resolve (by simpa using h)]
      refine Prod.ext hrc ?_
      exact sys_ipc2_buf_send_fail (by rw [hrc]; decide)

theorem sys_ipc2_buf_wait_unresolved {TASK dst size : Nat} {bhandle : cap_handle_t}
    {cvw : List errno_t} {delist : Bool} {info : Nat} {s : State}
    (hb : cap_resolve TASK bhandle KOBJECT_TYPE_IPC_BUF s = none)
    (hc : cap_resolve TASK bhandle KOBJECT_TYPE_CAPLIST s = none) :
    sys_ipc2_buf_wait TASK dst size bhandle cvw delist info s = some (ENOENT, s) := by
  unfold sys_ipc2_buf_wait
  rw [kobject_get_of_not_resolve hb]
  dsimp only
  rw [kobject_get_of_not_resolve hc]

theorem sys_caplist_add_unresolved {TASK : Nat} {clhandle handle : cap_handle_t} {s : State}
    (h : cap_resolve TASK clhandle KOBJECT_TYPE_CAPLIST s = none ∨
      ∀ ty, cap_resolve TASK handle ty s = none) :
    sys_caplist_add TASK clhandle handle s = (ENOENT, s) := by
  unfold sys_caplist_add
  cases hc : cap_resolve TASK clhandle KOBJECT_TYPE_CAPLIST s with
  | none => rw [kobject_get_of_not_resolve hc]
  | some cl =>
    rcases h with h | h
    · rw [hc] at h
      cases h
    · rw [kobject_get_of_resolve hc]
      dsimp only
      rw [kobject_get_of_not_resolve (by simpa using h _)]
      dsimp only
      rw [kobject_put_add_ref]

theorem sys_caplist_del_unresolved {TASK : Nat} {clhandle handle : cap_handle_t} {s : State}
    (h : cap_resolve TASK clhandle KOBJECT_TYPE_CAPLIST s = none ∨
      ∀ ty, cap_resolve TASK handle ty s = none) :
    sys_caplist_del TASK clhandle handle s = (ENOENT, s) := by
  apply sys_caplist_del_not_member
  intro cl k hc hk
  rcases h with h | h
  · rw [hc] at h
    cases h
  · rw [h] at hk
    cases hk

/-! ### Late failures of wait -/

/-- The tail of a wait sets the buffer READY and changes no other field of any
buffer, whatever its outcome. -/
theorem sys_ipc2_buf_wait_tail_buf (TASK dst size info buf : Nat) (s : State) :
    (sys_ipc2_buf_wait_tail TASK dst size info buf s).2.buf =
      upd s.buf buf { s.buf buf with state := IPC_BUF_READY } := by
  unfold sys_ipc2_buf_wait_tail
  simp only [ipc2_copy_from_buf_eq]
  unfold copy_to_uspace copy_to_uspace_wait_info
  dsimp only
  split_ifs <;> first | rfl | (split <;> rfl)

@[simp] theorem with_buf_buf (s : State) (B : Nat → ipc_buf_t) : (with_buf s B).buf = B := rfl

@[simp] theorem with_buf_caps (s : State) (B : Nat → ipc_buf_t) : (with_buf s B).caps = s.caps :=
  rfl

@[simp] theorem with_buf_kobj (s : State) (B : Nat → ipc_buf_t) : (with_buf s B).kobj = s.kobj :=
  rfl

@[simp] theorem with_buf_ep (s : State) (B : Nat → ipc_buf_t) : (with_buf s B).ep = s.ep := rfl

@[simp] theorem with_buf_caplist (s : State) (B : Nat → ipc_buf_t) :
    (with_buf s B).caplist = s.caplist := rfl

@[simp] theorem with_buf_umem (s : State) (B : Nat → ipc_buf_t) : (with_buf s B).umem = s.umem :=
  rfl

@[simp] theorem with_buf_uhandle (s : State) (B : Nat → ipc_buf_t) :
    (with_buf s B).uhandle = s.uhandle := rfl

@[simp] theorem with_buf_urecv (s : State) (B : Nat → ipc_buf_t) :
    (with_buf s B).urecv = s.urecv := rfl

@[simp] theorem with_buf_uwait (s : State) (B : Nat → ipc_buf_t) :
    (with_buf s B).uwait = s.uwait := rfl

@[simp] theorem with_buf_brk (s : State) (B : Nat → ipc_buf_t) : (with_buf s B).brk = s.brk := rfl

theorem with_buf_self (s : State) : with_buf s s.buf = s := rfl

@[simp] theorem with_buf_with_buf (s : State) (B C : Nat → ipc_buf_t) :
    with_buf (with_buf s B) C = with_buf s C := rfl

@[simp] theorem kobject_add_ref_with_buf (k : Nat) (s : State) (B : Nat → ipc_buf_t) :
    kobject_add_ref k (with_buf s B) = with_buf (kobject_add_ref k s) B := rfl

@[simp] theorem kobject_put_with_buf (k : Nat) (s : State) (B : Nat → ipc_buf_t) :
    kobject_put k (with_buf s B) = with_buf (kobject_put k s) B := rfl

@[simp] theorem cap_resolve_with_buf (TASK : Nat) (h : cap_handle_t) (ty : kobject_type_t)
    (s : State) (B : Nat → ipc_buf_t) :
    cap_resolve TASK h ty (with_buf s B) = cap_resolve TASK h ty s := rfl

theorem kobject_get_with_buf (TASK : Nat) (h : cap_handle_t) (ty : kobject_type_t)
    (s : State) (B : Nat → ipc_buf_t) :
    kobject_get TASK h ty (with_buf s B) =
      ((kobject_get TASK h ty s).1, with_buf (kobject_get TASK h ty s).2 B) := by
  unfold kobject_get
  rw [cap_resolve_with_buf]
  cases cap_resolve TASK h ty s <;> rfl

theorem cap_alloc_with_buf (TASK : Nat) (pick : Option cap_handle_t) (s : State)
    (B : Nat → ipc_buf_t) :
    cap_alloc TASK pick (with_buf s B) =
      ((cap_alloc TASK pick s).1, (cap_alloc TASK pick s).2.1,
        with_buf (cap_alloc TASK pick s).2.2 B) := by
  unfold cap_alloc
  cases pick with
  | none => rfl
  | some h =>
    dsimp only [with_buf_caps]
    split_ifs <;> rfl

theorem cap_publish_with_buf (TASK : Nat) (h : cap_handle_t) (k : Nat) (s : State)
    (B : Nat → ipc_buf_t) :
    cap_publish TASK h k (with_buf s B) =
      ((cap_publish TASK h k s).1, with_buf (cap_publish TASK h k s).2 B) := by
  unfold cap_publish
  rw [with_buf_caps]
  split <;> rfl

theorem cap_unpublish_with_buf (TASK : Nat) (h : cap_handle_t) (ty : kobject_type_t)
    (s : State) (B : Nat → ipc_buf_t) :
    cap_unpublish TASK h ty (with_buf s B) =
      ((cap_unpublish TASK h ty s).1, with_buf (cap_unpublish TASK h ty s).2 B) := by
  unfold cap_unpublish
  rw [cap_resolve_with_buf]
  cases cap_resolve TASK h ty s <;> rfl

theorem cap_free_with_buf (TASK : Nat) (h : cap_handle_t) (s : State) (B : Nat → ipc_buf_t) :
    cap_free TASK h (with_buf s B) =
      ((cap_free TASK h s).1, with_buf (cap_free TASK h s).2 B) := by
  unfold cap_free
  rw [with_buf_caps]
  split <;> rfl

theorem copy_to_uspace_handle_with_buf (TASK dst : Nat) (h : cap_handle_t) (s : State)
    (B : Nat → ipc_buf_t) :
    copy_to_uspace_handle TASK dst h (with_buf s B) =
      ((copy_to_uspace_handle TASK dst h s).1,
        with_buf (copy_to_uspace_handle TASK dst h s).2 B) := by
  unfold copy_to_uspace_handle
  rw [with_buf_uhandle]
  split <;> rfl

theorem copy_to_uspace_with_buf (TASK dst : Nat) (src : Nat → Nat) (size : Nat) (s : State)
    (B : Nat → ipc_buf_t) :
    copy_to_uspace TASK dst src size (with_buf s B) =
      ((copy_to_uspace TASK dst src size s).1,
        with_buf (copy_to_uspace TASK dst src size s).2 B) := by
  unfold copy_to_uspace
  rw [with_buf_umem]
  split_ifs <;> rfl

theorem copy_to_uspace_receive_info_with_buf (TASK dst : Nat) (v : ipc_buf_receive_info_t)
    (s : State) (B : Nat → ipc_buf_t) :
    copy_to_uspace_receive_info TASK dst v (with_buf s B) =
      ((copy_to_uspace_receive_info TASK dst v s).1,
        with_buf (copy_to_uspace_receive_info TASK dst v s).2 B) := by
  unfold copy_to_uspace_receive_info
  rw [with_buf_urecv]
  split <;> rfl

theorem copy_to_uspace_wait_info_with_buf (TASK dst : Nat) (v : ipc_buf_wait_info_t)
    (s : State) (B : Nat → ipc_buf_t) :
    copy_to_uspace_wait_info TASK dst v (with_buf s B) =
      ((copy_to_uspace_wait_info TASK dst v s).1,
        with_buf (copy_to_uspace_wait_info TASK dst v s).2 B) := by
  unfold copy_to_uspace_wait_info
  rw [with_buf_uwait]
  split <;> rfl

theorem caplist_add_with_buf (cl k : Nat) (s : State) (B : Nat → ipc_buf_t) :
    caplist_add cl k (with_buf s B) =
      ((caplist_add cl k s).1, with_buf (caplist_add cl k s).2 B) := by
  unfold caplist_add
  rw [with_buf_kobj]
  split_ifs <;> rfl

theorem caplist_del_with_buf (cl k : Nat) (s : State) (B : Nat → ipc_buf_t) :
    caplist_del cl k (with_buf s B) =
      ((caplist_del cl k s).1, with_buf (caplist_del cl k s).2 B) := by
  unfold caplist_del
  rw [with_buf_kobj]
  split_ifs <;> rfl

theorem kobject_alloc_with_buf (s : State) (B : Nat → ipc_buf_t) :
    kobject_alloc (with_buf s B) = ((kobject_alloc s).1, with_buf (kobject_alloc s).2 B) := rfl

@[simp] theorem kobject_initialize_with_buf (k : Nat) (ty : kobject_type_t) (s : State)
    (B : Nat → ipc_buf_t) :
    kobject_initialize k ty (with_buf s B) = with_buf ( kobject_initialize k ty s) B := rfl

theorem ipc2_unpublish_temp_cap_with_buf (TASK : Nat) (h : cap_handle_t) (s : State)
    (B : Nat → ipc_buf_t) :
    ipc2_unpublish_temp_cap TASK h (with_buf s B) =
      with_buf (ipc2_unpublish_temp_cap TASK h s) B := by
  unfold ipc2_unpublish_temp_cap cap_unpublish
  rw [cap_resolve_with_buf]
  cases cap_resolve TASK h KOBJECT_TYPE_IPC_BUF s <;> rfl

theorem sys_caplist_add_with_buf (TASK : Nat) (clhandle handle : cap_handle_t) (s : State)
    (B : Nat → ipc_buf_t) :
    sys_caplist_add TASK clhandle handle (with_buf s B) =
      ((sys_caplist_add TASK clhandle handle s).1,
        with_buf (sys_caplist_add TASK clhandle handle s).2 B) := by
  unfold sys_caplist_add
  cases hc : cap_resolve TASK clhandle KOBJECT_TYPE_CAPLIST s with
  | none =>
    simp only [kobject_get, cap_resolve_with_buf, hc]
  | some cl =>
    simp only [kobject_get, cap_resolve_with_buf, hc, kobject_add_ref_with_buf,
      with_buf_caplist]
    cases hk : cap_resolve TASK handle ((kobject_add_ref cl s).caplist cl).type
        (kobject_add_ref cl s) with
    | none => simp only [kobject_put_with_buf]
    | some k =>
      simp only [caplist_add_with_buf, kobject_put_with_buf]

theorem sys_caplist_del_with_buf (TASK : Nat) (clhandle handle : cap_handle_t) (s : State)
    (B : Nat → ipc_buf_t) :
    sys_caplist_del TASK clhandle handle (with_buf s B) =
      ((sys_caplist_del TASK clhandle handle s).1,
        with_buf (sys_caplist_del TASK clhandle handle s).2 B) := by
  unfold sys_caplist_del
  cases hc : cap_resolve TASK clhandle KOBJECT_TYPE_CAPLIST s with
  | none =>
    simp only [kobject_get, cap_resolve_with_buf, hc]
  | some cl =>
    simp only [kobject_get, cap_resolve_with_buf, hc, kobject_add_ref_with_buf,
      with_buf_caplist]
    cases hk : cap_resolve TASK handle ((kobject_add_ref cl s).caplist cl).type
        (kobject_add_ref cl s) with
    | none => simp only [kobject_put_with_buf]
    | some k =>
      simp only [caplist_del_with_buf, kobject_put_with_buf]

/-- The common body of `sys_ipc2_buf_free`, `sys_ipc2_ep_destroy` and
`sys_caplist_destroy` does not touch the buffers. -/
theorem destroy_with_buf (TASK : Nat) (h : cap_handle_t) (ty : kobject_type_t) (s : State)
    (B : Nat → ipc_buf_t) :
    (match cap_unpublish TASK h ty (with_buf s B) with
      | (none, _) => (ENOENT, with_buf s B)
      | (some k, s1) => cap_free TASK h (kobject_put k s1)) =
    ((match cap_unpublish TASK h ty s with
      | (none, _) => (ENOENT, s)
      | (some k, s1) => cap_free TASK h (kobject_put k s1)).1,
     with_buf (match cap_unpublish TASK h ty s with
      | (none, _) => (ENOENT, s)
      | (some k, s1) => cap_free TASK h (kobject_put k s1)).2 B) := by
  rw [cap_unpublish_with_buf]
  rcases cap_unpublish TASK h ty s with ⟨_ | k, s1⟩
  · rfl
  · simp only [kobject_put_with_buf, cap_free_with_buf]

theorem sys_cap_alloc_with_buf (TASK uhandle : Nat) (pick : Option cap_handle_t) (s : State)
    (B : Nat → ipc_buf_t) :
    sys_cap_alloc TASK uhandle pick (with_buf s B) =
      ((sys_cap_alloc TASK uhandle pick s).1,
        with_buf (sys_cap_alloc TASK uhandle pick s).2 B) := by
  unfold sys_cap_alloc
  simp only [cap_alloc_with_buf, copy_to_uspace_handle_with_buf, cap_free_with_buf]
  split_ifs <;> rfl

theorem sys_caplist_destroy_with_buf (TASK : Nat) (h : cap_handle_t) (s : State)
    (B : Nat → ipc_buf_t) :
    sys_caplist_destroy TASK h (with_buf s B) =
      ((sys_caplist_destroy TASK h s).1, with_buf (sys_caplist_destroy TASK h s).2 B) :=
  destroy_with_buf TASK h KOBJECT_TYPE_CAPLIST s B

theorem sys_ipc2_buf_free_with_buf (TASK : Nat) (h : cap_handle_t) (s : State)
    (B : Nat → ipc_buf_t) :
    sys_ipc2_buf_free TASK h (with_buf s B) =
      ((sys_ipc2_buf_free TASK h s).1, with_buf (sys_ipc2_buf_free TASK h s).2 B) :=
  destroy_with_buf TASK h KOBJECT_TYPE_IPC_BUF s B

theorem sys_ipc2_ep_destroy_with_buf (TASK : Nat) (h : cap_handle_t) (s : State)
    (B : Nat → ipc_buf_t) :
    sys_ipc2_ep_destroy TASK h (with_buf s B) =
      ((sys_ipc2_ep_destroy TASK h s).1, with_buf (sys_ipc2_ep_destroy TASK h s).2 B) :=
  destroy_with_buf TASK h KOBJECT_TYPE_IPC_EP s B

theorem with_buf_set_caplist (s : State) (B : Nat → ipc_buf_t) (C : Nat → caplist_t) :
    ({ with_buf s B with caplist := C } : State) = with_buf { s with caplist := C } B := rfl

theorem with_buf_set_ep (s : State) (B : Nat → ipc_buf_t) (E : Nat → ipc_ep_t) :
    ({ with_buf s B with ep := E } : State) = with_buf { s with ep := E } B := rfl

theorem sys_caplist_create_with_buf (TASK clhandle : Nat) (type : kobject_type_t)
    (pick : Option cap_handle_t) (slab_ok kobj_ok : Bool) (s : State) (B : Nat → ipc_buf_t) :
    sys_caplist_create TASK clhandle type pick slab_ok kobj_ok (with_buf s B) =
      ((sys_caplist_create TASK clhandle type pick slab_ok kobj_ok s).1,
        with_buf (sys_caplist_create TASK clhandle type pick slab_ok kobj_ok s).2 B) := by
  unfold sys_caplist_create
  simp only [cap_alloc_with_buf, copy_to_uspace_handle_with_buf, cap_free_with_buf,
    kobject_alloc_with_buf, with_buf_set_caplist, with_buf_caplist,
    kobject_initialize_with_buf, cap_publish_with_buf]
  split_ifs <;> rfl

theorem sys_ipc2_ep_create_with_buf (TASK ehandle label : Nat) (clhandle : cap_handle_t)
    (pick : Option cap_handle_t) (slab_ok kobj_ok : Bool) (s : State) (B : Nat → ipc_buf_t) :
    sys_ipc2_ep_create TASK ehandle label clhandle pick slab_ok kobj_ok (with_buf s B) =
      ((sys_ipc2_ep_create TASK ehandle label clhandle pick slab_ok kobj_ok s).1,
        with_buf (sys_ipc2_ep_create TASK ehandle label clhandle pick slab_ok kobj_ok s).2
          B) := by
  unfold sys_ipc2_ep_create
  simp only [cap_alloc_with_buf, copy_to_uspace_handle_with_buf, cap_free_with_buf,
    kobject_alloc_with_buf, with_buf_set_ep, with_buf_ep,
    kobject_initialize_with_buf, cap_publish_with_buf, sys_caplist_add_with_buf,
    sys_ipc2_ep_destroy_with_buf]
  split_ifs <;> rfl

/-! ### States that differ in unused storage -/

theorem buf_same_used_refl (a : ipc_buf_t) : buf_same_used a a :=
  ⟨rfl, rfl, rfl, rfl, rfl, rfl, rfl, rfl, fun _ _ => rfl⟩

theorem same_up_to_unused_refl (s : State) : same_up_to_unused s s :=
  ⟨rfl, fun x => buf_same_used_refl (s.buf x)⟩

theorem same_up_to_unused_with_buf {s : State} {B : Nat → ipc_buf_t}
    (h : ∀ x, buf_same_used (s.buf x) (B x)) : same_up_to_unused s (with_buf s B) :=
  ⟨rfl, h⟩

theorem same_up_to_unused_fields {s t : State} (h : same_up_to_unused s t) :
    t.caps = s.caps ∧ t.kobj = s.kobj ∧ t.ep = s.ep ∧ t.caplist = s.caplist ∧
    t.umem = s.umem ∧ t.uhandle = s.uhandle ∧ t.urecv = s.urecv ∧ t.uwait = s.uwait ∧
    t.brk = s.brk := by
  obtain ⟨h1, _⟩ := h
  refine ⟨?_, ?_, ?_, ?_, ?_, ?_, ?_, ?_, ?_⟩ <;> (rw [h1]; rfl)

/-- A step that does not touch the buffers maps states that differ in unused
storage to such states, with the same result. -/
theorem same_up_to_unused_step {α : Type} {p : State → α × State}
    (hp : ∀ s B, p (with_buf s B) = ((p s).1, with_buf (p s).2 B)) {s t : State}
    (h : same_up_to_unused s t) :
    (p t).1 = (p s).1 ∧ same_up_to_unused (p s).2 (p t).2 := by
  obtain ⟨h1, h2⟩ := h
  have hs : (p s).2.buf = s.buf := by
    have := congrArg (fun r => r.2.buf) (hp s s.buf)
    simpa [with_buf_self] using this
  have ht := hp s t.buf
  rw [← h1] at ht
  rw [ht]
  exact ⟨rfl, rfl, fun x => by rw [hs]; exact h2 x⟩

theorem same_up_to_unused_map {p : State → State}
    (hp : ∀ s B, p (with_buf s B) = with_buf (p s) B) {s t : State}
    (h : same_up_to_unused s t) : same_up_to_unused (p s) (p t) := by
  have := same_up_to_unused_step (p := fun s => ((), p s))
    (fun s B => by simp only [hp]) h
  exact this.2

/-- A change of one buffer that does not look at the unused storage. -/
theorem same_up_to_unused_upd {s t : State} (h : same_up_to_unused s t) (x : Nat)
    (g : ipc_buf_t → ipc_buf_t) (hg : ∀ a b, buf_same_used a b → buf_same_used (g a) (g b)) :
    same_up_to_unused (with_buf s (upd s.buf x (g (s.buf x))))
      (with_buf t (upd t.buf x (g (t.buf x)))) := by
  obtain ⟨h1, h2⟩ := h
  refine ⟨by rw [h1]; rfl, ?_⟩
  intro y
  by_cases hy : y = x
  · subst hy
    simp only [with_buf_buf, upd, if_true]
    exact hg _ _ (h2 y)
  · simp only [with_buf_buf, upd, hy, if_false]
    exact h2 y

theorem ipc2_buf_send_check_unused {s t : State} (h : same_up_to_unused s t) (buf : Nat)
    (cl : Option Nat) : ipc2_buf_send_check buf cl t = ipc2_buf_send_check buf cl s := by
  obtain ⟨_, hk, _⟩ := same_up_to_unused_fields h
  obtain ⟨h1, _, _, _, h5, h6, _⟩ := h.2 buf
  unfold ipc2_buf_send_check
  rw [h1, h5, h6, hk]

theorem ipc2_buf_finish_check_unused {s t : State} (h : same_up_to_unused s t) (buf : Nat) :
    ipc2_buf_finish_check buf t = ipc2_buf_finish_check buf s := by
  obtain ⟨h1, _, _, _, h5, h6, _⟩ := h.2 buf
  unfold ipc2_buf_finish_check
  rw [h1, h5, h6]

theorem same_up_to_unused_elim {s t : State} (h : same_up_to_unused s t) :
    ∃ B, t = with_buf s B ∧ ∀ x, buf_same_used (s.buf x) (B x) :=
  ⟨t.buf, h.1, h.2⟩

/-- The copy into a buffer writes the part of the storage that is in use
afterwards. -/
theorem ipc2_copy_to_buf_unused {s t : State} (h : same_up_to_unused s t)
    (TASK buf src size : Nat) :
    (ipc2_copy_to_buf TASK buf src size t).1 = (ipc2_copy_to_buf TASK buf src size s).1 ∧
    same_up_to_unused (ipc2_copy_to_buf TASK buf src size s).2
      (ipc2_copy_to_buf TASK buf src size t).2 := by
  obtain ⟨B, rfl, hB⟩ := same_up_to_unused_elim h
  have hsz : (B buf).size = (s.buf buf).size := (hB buf).2.2.1
  unfold ipc2_copy_to_buf copy_from_uspace
  simp only [with_buf_buf, with_buf_umem]
  by_cases h1 : size > (s.buf buf).size
  · rw [if_pos h1, if_pos (by rw [hsz]; exact h1)]
    exact ⟨rfl, h⟩
  · rw [if_neg h1, if_neg (by rw [hsz]; exact h1)]
    by_cases h2 : uspace_range_ok (s.umem TASK) src size = true
    · simp only [h2, if_true, ne_eq, not_true_eq_false, if_false, true_and]
      refine same_up_to_unused_upd h buf
        (fun a => if ¬ size = 0 then
          { a with data := fun i => if i < size then (s.umem TASK (src + i)).getD 0
              else a.data i, used := size }
          else { a with data := fun i => if i < size then (s.umem TASK (src + i)).getD 0
              else a.data i }) ?_
      intro a b ⟨b1, b2, b3, b4, b5, b6, b7, b8, b9⟩
      by_cases h0 : size = 0
      · subst h0
        simp only [not_true_eq_false, if_false, Nat.not_lt_zero]
        exact ⟨b1, b2, b3, b4, b5, b6, b7, b8, b9⟩
      · simp only [h0, not_false_eq_true, if_true]
        refine ⟨b1, b2, b3, rfl, b5, b6, b7, b8, ?_⟩
        intro i hi
        simp only [hi, if_true]
    · simp only [h2, Bool.false_eq_true, if_false, ne_eq, if_true]
      simp only [show ¬ (EFAULT_COPYIN = EOK) by decide, not_false_eq_true, if_true]
      exact ⟨trivial, h⟩

theorem copy_to_uspace_congr_src (TASK dst : Nat) {src src2 : Nat → Nat} (size : Nat)
    (s : State) (h : ∀ i, i < size → src2 i = src i) :
    copy_to_uspace TASK dst src2 size s = copy_to_uspace TASK dst src size s := by
  unfold copy_to_uspace
  split_ifs
  · refine Prod.ext rfl ?_
    dsimp only
    congr 1
    funext a x
    by_cases hx : a = TASK ∧ dst ≤ x ∧ x < dst + size
    · simp only [hx, and_self, if_true, Option.some.injEq]
      exact h _ (by omega)
    · simp only [hx, if_false]
  · rfl

/-- The copy out of a buffer reads the used part of the storage only. -/
theorem ipc2_copy_from_buf_unused {s t : State} (h : same_up_to_unused s t)
    (TASK buf dst size : Nat) :
    (ipc2_copy_from_buf TASK buf dst size t).1 = (ipc2_copy_from_buf TASK buf dst size s).1 ∧
    same_up_to_unused (ipc2_copy_from_buf TASK buf dst size s).2
      (ipc2_copy_from_buf TASK buf dst size t).2 := by
  obtain ⟨_, _, _, b4, _, _, _, _, b9⟩ := h.2 buf
  rw [ipc2_copy_from_buf_eq, ipc2_copy_from_buf_eq, b4]
  rw [copy_to_uspace_congr_src TASK dst _ t (fun i hi => b9 i (by split_ifs at hi <;> omega))]
  exact same_up_to_unused_step
    (p := fun u => copy_to_uspace TASK dst (s.buf buf).data
      (if size > (s.buf buf).used then (s.buf buf).used else size) u)
    (fun u B => copy_to_uspace_with_buf TASK dst _ _ u B) h

/-- A change of one buffer that does not look at the unused storage, with the
new contents computed on either side. -/
theorem same_up_to_unused_upd2 {s t : State} (h : same_up_to_unused s t) (x : Nat)
    (g1 g2 : ipc_buf_t → ipc_buf_t)
    (hg : ∀ a b, buf_same_used a b → buf_same_used (g1 a) (g2 b)) :
    same_up_to_unused (with_buf s (upd s.buf x (g1 (s.buf x))))
      (with_buf t (upd t.buf x (g2 (t.buf x)))) := by
  obtain ⟨h1, h2⟩ := h
  refine ⟨by rw [h1]; rfl, ?_⟩
  intro y
  by_cases hy : y = x
  · subst hy
    simp only [with_buf_buf, upd, if_true]
    exact hg _ _ (h2 y)
  · simp only [with_buf_buf, upd, hy, if_false]
    exact h2 y

theorem ipc2_buf_finish_unused {s t : State} (h : same_up_to_unused s t) (buf : Nat)
    (rc : errno_t) : same_up_to_unused (ipc2_buf_finish buf rc s) (ipc2_buf_finish buf rc t) := by
  obtain ⟨B, rfl, hB⟩ := same_up_to_unused_elim h
  have h1 := same_up_to_unused_upd h buf
    (fun a => { a with state := IPC_BUF_FINISHED, wait_result := rc })
    (fun a b ⟨_, _, b3, b4, b5, b6, b7, b8, b9⟩ => ⟨rfl, rfl, b3, b4, b5, b6, b7, b8, b9⟩)
  unfold ipc2_buf_finish
  cases hc : (s.kobj buf).in_caplist with
  | none =>
    simp only [with_buf_kobj, hc]
    exact h1
  | some c =>
    simp only [with_buf_kobj, hc]
    exact same_up_to_unused_map
      (p := fun u => { kobject_add_ref buf u with
        caplist := upd (kobject_add_ref buf u).caplist c
          { type := ((kobject_add_ref buf u).caplist c).type,
            objects := ((kobject_add_ref buf u).caplist c).objects,
            queue := ((kobject_add_ref buf u).caplist c).queue ++ [buf] } })
      (fun _ _ => rfl) h1

theorem ipc2_unpublish_temp_cap_unused {s t : State} (h : same_up_to_unused s t) (TASK : Nat)
    (bh : cap_handle_t) :
    same_up_to_unused (ipc2_unpublish_temp_cap TASK bh s) (ipc2_unpublish_temp_cap TASK bh t) :=
  same_up_to_unused_map (ipc2_unpublish_temp_cap_with_buf TASK bh) h

theorem sys_ipc2_buf_send_prepare_none_unused {s t : State} (h : same_up_to_unused s t)
    (TASK : Nat) (bhandle : cap_handle_t) (buf ep : Nat) :
    same_up_to_unused (sys_ipc2_buf_send_prepare TASK bhandle buf ep none s)
      (sys_ipc2_buf_send_prepare TASK bhandle buf ep none t) := by
  unfold sys_ipc2_buf_send_prepare
  dsimp only
  by_cases hst : (s.buf buf).state = IPC_BUF_PENDING
  · have hst2 : (t.buf buf).state = IPC_BUF_PENDING := by rw [(h.2 buf).1]; exact hst
    simp only [hst, hst2, if_true]
    have h2 := ipc2_unpublish_temp_cap_unused h TASK bhandle
    generalize ipc2_unpublish_temp_cap TASK bhandle s = s2 at h2 ⊢
    generalize ipc2_unpublish_temp_cap TASK bhandle t = t2 at h2 ⊢
    obtain ⟨B, rfl, hB⟩ := same_up_to_unused_elim h2
    exact same_up_to_unused_upd h2 buf
      (fun a => { a with state := IPC_BUF_PENDING, ep_label := (s2.ep ep).label })
      (fun a b ⟨_, b2, b3, b4, b5, b6, b7, _, b9⟩ => ⟨rfl, b2, b3, b4, b5, b6, b7, rfl, b9⟩)
  · have hst2 : ¬ (t.buf buf).state = IPC_BUF_PENDING := by rw [(h.2 buf).1]; exact hst
    simp only [hst, hst2, if_false]
    obtain ⟨B, rfl, hB⟩ := same_up_to_unused_elim h
    exact same_up_to_unused_upd h buf
      (fun a => { a with state := IPC_BUF_PENDING, ep_label := (s.ep ep).label })
      (fun a b ⟨_, b2, b3, b4, b5, b6, b7, _, b9⟩ => ⟨rfl, b2, b3, b4, b5, b6, b7, rfl, b9⟩)

theorem sys_ipc2_buf_send_prepare_unused {s t : State} (h : same_up_to_unused s t) (TASK : Nat)
    (bhandle : cap_handle_t) (buf ep : Nat) (cl : Option Nat) :
    same_up_to_unused (sys_ipc2_buf_send_prepare TASK bhandle buf ep cl s)
      (sys_ipc2_buf_send_prepare TASK bhandle buf ep cl t) := by
  cases cl with
  | none => exact sys_ipc2_buf_send_prepare_none_unused h TASK bhandle buf ep
  | some c =>
    exact sys_ipc2_buf_send_prepare_none_unused
      (same_up_to_unused_step (caplist_add_with_buf c buf) h).2 TASK bhandle buf ep

theorem sys_ipc2_buf_send_enqueue_unused {s t : State} (h : same_up_to_unused s t)
    (buf ep : Nat) :
    same_up_to_unused (sys_ipc2_buf_send_enqueue buf ep s)
      (sys_ipc2_buf_send_enqueue buf ep t) := by
  obtain ⟨B, rfl, hB⟩ := same_up_to_unused_elim h
  unfold sys_ipc2_buf_send_enqueue
  cases hc : (s.kobj ep).in_caplist with
  | none =>
    simp only [kobject_add_ref_with_buf, with_buf_kobj, kobject_add_ref_in_caplist, hc]
    have h1 := same_up_to_unused_upd h buf (fun a => { a with in_ep := some ep })
      (fun a b ⟨b1, b2, b3, b4, _, b6, b7, b8, b9⟩ => ⟨b1, b2, b3, b4, rfl, b6, b7, b8, b9⟩)
    exact same_up_to_unused_map
      (p := fun u => { kobject_add_ref buf u with
        ep := upd (kobject_add_ref buf u).ep ep
          { buffers := ((kobject_add_ref buf u).ep ep).buffers ++ [buf],
            label := ((kobject_add_ref buf u).ep ep).label } })
      (fun _ _ => rfl) h1
  | some c =>
    simp only [kobject_add_ref_with_buf, with_buf_kobj, kobject_add_ref_in_caplist, hc]
    have h1 := same_up_to_unused_upd h buf (fun a => { a with in_ep_caplist := some c })
      (fun a b ⟨b1, b2, b3, b4, b5, _, b7, b8, b9⟩ => ⟨b1, b2, b3, b4, b5, rfl, b7, b8, b9⟩)
    exact same_up_to_unused_map
      (p := fun u => { kobject_add_ref buf u with
        caplist := upd (kobject_add_ref buf u).caplist c
          { type := ((kobject_add_ref buf u).caplist c).type,
            objects := ((kobject_add_ref buf u).caplist c).objects,
            queue := ((kobject_add_ref buf u).caplist c).queue ++ [buf] } })
      (fun _ _ => rfl) h1

theorem sys_ipc2_buf_send_locked_unused {s t : State} (h : same_up_to_unused s t)
    (TASK src size : Nat) (bhandle : cap_handle_t) (buf ep : Nat) (cl : Option Nat) :
    (sys_ipc2_buf_send_locked TASK src size bhandle buf ep cl t).1 =
      (sys_ipc2_buf_send_locked TASK src size bhandle buf ep cl s).1 ∧
    same_up_to_unused (sys_ipc2_buf_send_locked TASK src size bhandle buf ep cl s).2
      (sys_ipc2_buf_send_locked TASK src size bhandle buf ep cl t).2 := by
  unfold sys_ipc2_buf_send_locked
  dsimp only
  rw [ipc2_buf_send_check_unused h]
  obtain ⟨c1, c2⟩ := ipc2_copy_to_buf_unused h TASK buf src size
  by_cases hc : ipc2_buf_send_check buf cl s = EOK
  · simp only [hc, if_true]
    rw [c1]
    by_cases hr : (ipc2_copy_to_buf TASK buf src size s).1 = EOK
    · simp only [hr, ne_eq, not_true_eq_false, if_false, true_and]
      unfold sys_ipc2_buf_send_commit
      exact sys_ipc2_buf_send_enqueue_unused
        (sys_ipc2_buf_send_prepare_unused c2 TASK bhandle buf ep cl) buf ep
    · simp only [hr, ne_eq, not_false_eq_true, if_true]
      exact ⟨c1, c2⟩
  · simp only [hc, if_false, ne_eq, not_false_eq_true, if_true]
    exact ⟨trivial, h⟩

theorem sys_ipc2_buf_send_unused {s t : State} (h : same_up_to_unused s t)
    (TASK src size : Nat) (bhandle ehandle clhandle : cap_handle_t) :
    (sys_ipc2_buf_send TASK src size bhandle ehandle clhandle t).1 =
      (sys_ipc2_buf_send TASK src size bhandle ehandle clhandle s).1 ∧
    same_up_to_unused (sys_ipc2_buf_send TASK src size bhandle ehandle clhandle s).2
      (sys_ipc2_buf_send TASK src size bhandle ehandle clhandle t).2 := by
  obtain ⟨B, rfl, hB⟩ := same_up_to_unused_elim h
  unfold sys_ipc2_buf_send
  cases hb : cap_resolve TASK bhandle KOBJECT_TYPE_IPC_BUF s with
  | none =>
    simp only [kobject_get, cap_resolve_with_buf, hb]
    exact ⟨trivial, h⟩
  | some buf =>
    simp only [kobject_get, cap_resolve_with_buf, cap_resolve_add_ref, hb,
      kobject_add_ref_with_buf]
    cases he : cap_resolve TASK ehandle KOBJECT_TYPE_IPC_EP s with
    | none =>
      simp only [kobject_put_with_buf, true_and]
      exact same_up_to_unused_with_buf hB
    | some ep =>
      simp only []
      by_cases hcl : clhandle = CAP_NIL
      · simp only [hcl, ne_eq, not_true_eq_false, if_false]
        obtain ⟨r1, r2⟩ := sys_ipc2_buf_send_locked_unused
          (s := kobject_add_ref ep (kobject_add_ref buf s))
          (t := with_buf (kobject_add_ref ep (kobject_add_ref buf s)) B)
          (same_up_to_unused_with_buf hB) TASK src size bhandle buf ep none
        exact ⟨r1, same_up_to_unused_map
          (p := fun u => kobject_put ep (kobject_put buf u)) (fun _ _ => rfl) r2⟩
      · simp only [hcl, ne_eq, not_false_eq_true, if_true, cap_resolve_with_buf,
          cap_resolve_add_ref]
        cases hc : cap_resolve TASK clhandle KOBJECT_TYPE_CAPLIST s with
        | none =>
          simp only [kobject_put_with_buf, true_and]
          exact same_up_to_unused_with_buf hB
        | some cl =>
          simp only [kobject_add_ref_with_buf]
          obtain ⟨r1, r2⟩ := sys_ipc2_buf_send_locked_unused
            (s := kobject_add_ref cl (kobject_add_ref ep (kobject_add_ref buf s)))
            (t := with_buf (kobject_add_ref cl (kobject_add_ref ep (kobject_add_ref buf s))) B)
            (same_up_to_unused_with_buf hB) TASK src size bhandle buf ep (some cl)
          exact ⟨r1, same_up_to_unused_map
            (p := fun u => kobject_put cl (kobject_put ep (kobject_put buf u)))
            (fun _ _ => rfl) r2⟩

theorem sys_ipc2_buf_finish_unused {s t : State} (h : same_up_to_unused s t)
    (TASK src size : Nat) (bhandle : cap_handle_t) :
    (sys_ipc2_buf_finish TASK src size bhandle t).1 =
      (sys_ipc2_buf_finish TASK src size bhandle s).1 ∧
    same_up_to_unused (sys_ipc2_buf_finish TASK src size bhandle s).2
      (sys_ipc2_buf_finish TASK src size bhandle t).2 := by
  obtain ⟨B, rfl, hB⟩ := same_up_to_unused_elim h
  unfold sys_ipc2_buf_finish
  cases hb : cap_resolve TASK bhandle KOBJECT_TYPE_IPC_BUF s with
  | none =>
    simp only [kobject_get, cap_resolve_with_buf, hb]
    exact ⟨trivial, h⟩
  | some buf =>
    simp only [kobject_get, cap_resolve_with_buf, hb, kobject_add_ref_with_buf]
    have h1 : same_up_to_unused (kobject_add_ref buf s) (with_buf (kobject_add_ref buf s) B) :=
      same_up_to_unused_with_buf hB
    generalize kobject_add_ref buf s = s1 at h1 ⊢
    generalize hmk : with_buf s1 B = t1 at h1 ⊢
    rw [ipc2_buf_finish_check_unused h1]
    obtain ⟨c1, c2⟩ := ipc2_copy_to_buf_unused h1 TASK buf src size
    by_cases hc : ipc2_buf_finish_check buf s1 = EOK
    · simp only [hc, if_true]
      rw [c1]
      by_cases hr : (ipc2_copy_to_buf TASK buf src size s1).1 = EOK
      · simp only [hr, ne_eq, not_true_eq_false, if_false, true_and]
        generalize (ipc2_copy_to_buf TASK buf src size s1).2 = s2 at c2 ⊢
        generalize (ipc2_copy_to_buf TASK buf src size t1).2 = t2 at c2 ⊢
        rw [(c2.2 buf).1]
        have h3 : same_up_to_unused
            (if (s2.buf buf).state = IPC_BUF_PENDING then ipc2_unpublish_temp_cap TASK bhandle s2
              else s2)
            (if (s2.buf buf).state = IPC_BUF_PENDING then ipc2_unpublish_temp_cap TASK bhandle t2
              else t2) := by
          split_ifs
          · exact ipc2_unpublish_temp_cap_unused c2 TASK bhandle
          · exact c2
        exact same_up_to_unused_map (p := fun u => kobject_put buf u) (fun _ _ => rfl)
          (ipc2_buf_finish_unused h3 buf EOK)
      · simp only [hr, ne_eq, not_false_eq_true, if_true, true_and]
        exact same_up_to_unused_map (p := fun u => kobject_put buf u) (fun _ _ => rfl) c2
    · simp only [hc, if_false, ne_eq, not_false_eq_true, if_true, true_and]
      exact same_up_to_unused_map (p := fun u => kobject_put buf u) (fun _ _ => rfl) h1

theorem same_up_to_unused_put_finish {s t : State} (h : same_up_to_unused s t) (buf : Nat)
    (rc : errno_t) :
    same_up_to_unused (kobject_put buf (ipc2_buf_finish buf rc s))
      (kobject_put buf (ipc2_buf_finish buf rc t)) :=
  same_up_to_unused_map (p := fun u => kobject_put buf u) (fun _ _ => rfl)
    (ipc2_buf_finish_unused h buf rc)

theorem sys_ipc2_buf_receive_tail_unused {s t : State} (h : same_up_to_unused s t)
    (TASK dst size : Nat) (bhandle : cap_handle_t) (info buf : Nat) :
    (sys_ipc2_buf_receive_tail TASK dst size bhandle info buf t).1 =
      (sys_ipc2_buf_receive_tail TASK dst size bhandle info buf s).1 ∧
    same_up_to_unused (sys_ipc2_buf_receive_tail TASK dst size bhandle info buf s).2
      (sys_ipc2_buf_receive_tail TASK dst size bhandle info buf t).2 := by
  unfold sys_ipc2_buf_receive_tail
  dsimp only
  obtain ⟨c1, c2⟩ := ipc2_copy_from_buf_unused h TASK buf dst size
  generalize ipc2_copy_from_buf TASK buf dst size s = rs at c1 c2 ⊢
  generalize ipc2_copy_from_buf TASK buf dst size t = rt at c1 c2 ⊢
  obtain ⟨rc1, s1⟩ := rs
  obtain ⟨rc2, t1⟩ := rt
  dsimp only at c1 c2 ⊢
  subst c1
  by_cases hr : rc2 = EOK
  · subst hr
    simp only [ne_eq, not_true_eq_false, if_false]
    obtain ⟨_, _, b3, b4, _, _, _, b8, _⟩ := c2.2 buf
    rw [b3, b4, b8]
    obtain ⟨d1, d2⟩ := same_up_to_unused_step
      (copy_to_uspace_receive_info_with_buf TASK info
        { ep_label := (s1.buf buf).ep_label, used := (s1.buf buf).used,
          size := (s1.buf buf).size }) c2
    generalize copy_to_uspace_receive_info TASK info
      { ep_label := (s1.buf buf).ep_label, used := (s1.buf buf).used,
        size := (s1.buf buf).size } s1 = rs at d1 d2 ⊢
    generalize copy_to_uspace_receive_info TASK info
      { ep_label := (s1.buf buf).ep_label, used := (s1.buf buf).used,
        size := (s1.buf buf).size } t1 = rt at d1 d2 ⊢
    obtain ⟨rc3, s2⟩ := rs
    obtain ⟨rc4, t2⟩ := rt
    dsimp only at d1 d2 ⊢
    subst d1
    by_cases hr2 : rc4 = EOK
    · subst hr2
      simp only [ne_eq, not_true_eq_false, if_false]
      obtain ⟨p1, p2⟩ := same_up_to_unused_step
        (p := fun u => cap_publish TASK bhandle buf (kobject_add_ref buf u))
        (fun _ _ => by simp only [kobject_add_ref_with_buf, cap_publish_with_buf]) d2
      generalize cap_publish TASK bhandle buf (kobject_add_ref buf s2) = rs at p1 p2 ⊢
      generalize cap_publish TASK bhandle buf (kobject_add_ref buf t2) = rt at p1 p2 ⊢
      obtain ⟨rc5, s3⟩ := rs
      obtain ⟨rc6, t3⟩ := rt
      dsimp only at p1 p2 ⊢
      subst p1
      by_cases hr3 : rc6 = EOK
      · subst hr3
        simp only [ne_eq, not_true_eq_false, if_false, true_and]
        exact same_up_to_unused_map (p := fun u => kobject_put buf u) (fun _ _ => rfl) p2
      · simp only [ne_eq, hr3, not_false_eq_true, if_true, true_and]
        exact same_up_to_unused_put_finish
          (same_up_to_unused_map (p := fun u => kobject_put buf u) (fun _ _ => rfl) p2) buf rc6
    · simp only [ne_eq, hr2, not_false_eq_true, if_true, true_and]
      exact same_up_to_unused_put_finish d2 buf rc4
  · simp only [ne_eq, hr, not_false_eq_true, if_true, true_and]
    exact same_up_to_unused_put_finish c2 buf rc2

theorem sys_ipc2_buf_wait_tail_unused {s t : State} (h : same_up_to_unused s t)
    (TASK dst size info buf : Nat) :
    (sys_ipc2_buf_wait_tail TASK dst size info buf t).1 =
      (sys_ipc2_buf_wait_tail TASK dst size info buf s).1 ∧
    same_up_to_unused (sys_ipc2_buf_wait_tail TASK dst size info buf s).2
      (sys_ipc2_buf_wait_tail TASK dst size info buf t).2 := by
  unfold sys_ipc2_buf_wait_tail
  dsimp only
  have h0 := same_up_to_unused_upd h buf (fun a => { a with state := IPC_BUF_READY })
    (fun a b ⟨_, b2, b3, b4, b5, b6, b7, b8, b9⟩ => ⟨rfl, b2, b3, b4, b5, b6, b7, b8, b9⟩)
  obtain ⟨c1, c2⟩ := ipc2_copy_from_buf_unused h0 TASK buf dst size
  dsimp only [with_buf] at c1 c2
  generalize ipc2_copy_from_buf TASK buf dst size
    { s with buf := upd s.buf buf { s.buf buf with state := IPC_BUF_READY } } = rs at c1 c2 ⊢
  generalize ipc2_copy_from_buf TASK buf dst size
    { t with buf := upd t.buf buf { t.buf buf with state := IPC_BUF_READY } } = rt at c1 c2 ⊢
  obtain ⟨rc1, s1⟩ := rs
  obtain ⟨rc2, t1⟩ := rt
  dsimp only at c1 c2 ⊢
  subst c1
  by_cases hr : rc2 = EOK
  · subst hr
    simp only [ne_eq, not_true_eq_false, if_false]
    obtain ⟨_, b2, b3, b4, _, _, b7, _, _⟩ := c2.2 buf
    rw [b2, b3, b4, b7]
    obtain ⟨d1, d2⟩ := same_up_to_unused_step
      (copy_to_uspace_wait_info_with_buf TASK info
        { buf_label := (s1.buf buf).buf_label, used := (s1.buf buf).used,
          size := (s1.buf buf).size, result := (s1.buf buf).wait_result }) c2
    exact ⟨d1, same_up_to_unused_map (p := fun u => kobject_put buf u) (fun _ _ => rfl) d2⟩
  · simp only [ne_eq, hr, not_false_eq_true, if_true, true_and]
    exact same_up_to_unused_map (p := fun u => kobject_put buf u) (fun _ _ => rfl) c2

theorem same_outcome_some {r r2 : errno_t × State}
    (h : r2.1 = r.1 ∧ same_up_to_unused r.2 r2.2) : same_outcome (some r) (some r2) := h

theorem sys_ipc2_buf_receive_unused {s t : State} (h : same_up_to_unused s t)
    (TASK dst size : Nat) (bhandle ehandle : cap_handle_t) (cvw : List errno_t) (info : Nat) :
    same_outcome (sys_ipc2_buf_receive TASK dst size bhandle ehandle cvw info s)
      (sys_ipc2_buf_receive TASK dst size bhandle ehandle cvw info t) := by
  obtain ⟨B, rfl, hB⟩ := same_up_to_unused_elim h
  unfold sys_ipc2_buf_receive
  cases he : cap_resolve TASK ehandle KOBJECT_TYPE_IPC_EP s with
  | some e =>
    simp only [kobject_get, cap_resolve_with_buf, he, kobject_add_ref_with_buf, with_buf_ep]
    cases hblk : ipc2_block_on ((kobject_add_ref e s).ep e).buffers cvw with
    | blocked => exact trivial
    | failed rc =>
      exact same_outcome_some ⟨rfl, same_up_to_unused_with_buf hB⟩
    | got b rest =>
      have h3 : same_up_to_unused
          (kobject_put e { kobject_add_ref e s with
            ep := upd (kobject_add_ref e s).ep e
              { (kobject_add_ref e s).ep e with buffers := rest } })
          (with_buf (kobject_put e { kobject_add_ref e s with
            ep := upd (kobject_add_ref e s).ep e
              { (kobject_add_ref e s).ep e with buffers := rest } }) B) :=
        same_up_to_unused_with_buf hB
      have h4 := same_up_to_unused_upd h3 b (fun a => { a with in_ep := none })
        (fun a b ⟨b1, b2, b3, b4, _, b6, b7, b8, b9⟩ => ⟨b1, b2, b3, b4, rfl, b6, b7, b8, b9⟩)
      exact same_outcome_some
        (sys_ipc2_buf_receive_tail_unused h4 TASK dst size bhandle info b)
  | none =>
    simp only [kobject_get, cap_resolve_with_buf, he]
    cases hc : cap_resolve TASK ehandle KOBJECT_TYPE_CAPLIST s with
    | none => exact same_outcome_some ⟨rfl, h⟩
    | some c =>
      simp only [kobject_add_ref_with_buf, with_buf_caplist]
      by_cases hty : ((kobject_add_ref c s).caplist c).type = KOBJECT_TYPE_IPC_EP
      · rw [if_neg (not_not.mpr hty), if_neg (not_not.mpr hty)]
        cases hblk : ipc2_block_on ((kobject_add_ref c s).caplist c).queue cvw with
        | blocked => exact trivial
        | failed rc =>
          exact same_outcome_some ⟨rfl, same_up_to_unused_with_buf hB⟩
        | got b rest =>
          have h3 : same_up_to_unused
              (kobject_put c { kobject_add_ref c s with
                caplist := upd (kobject_add_ref c s).caplist c
                  { (kobject_add_ref c s).caplist c with queue := rest } })
              (with_buf (kobject_put c { kobject_add_ref c s with
                caplist := upd (kobject_add_ref c s).caplist c
                  { (kobject_add_ref c s).caplist c with queue := rest } }) B) :=
            same_up_to_unused_with_buf hB
          have h4 := same_up_to_unused_upd h3 b (fun a => { a with in_ep_caplist := none })
            (fun a b ⟨b1, b2, b3, b4, b5, _, b7, b8, b9⟩ =>
              ⟨b1, b2, b3, b4, b5, rfl, b7, b8, b9⟩)
          exact same_outcome_some
            (sys_ipc2_buf_receive_tail_unused h4 TASK dst size bhandle info b)
      · rw [if_pos hty, if_pos hty]
        exact same_outcome_some ⟨rfl, same_up_to_unused_with_buf hB⟩

theorem sys_ipc2_buf_wait_unused {s t : State} (h : same_up_to_unused s t)
    (TASK dst size : Nat) (bhandle : cap_handle_t) (cvw : List errno_t) (delist : Bool)
    (info : Nat) :
    same_outcome (sys_ipc2_buf_wait TASK dst size bhandle cvw delist info s)
      (sys_ipc2_buf_wait TASK dst size bhandle cvw delist info t) := by
  obtain ⟨B, rfl, hB⟩ := same_up_to_unused_elim h
  unfold sys_ipc2_buf_wait
  cases hb : cap_resolve TASK bhandle KOBJECT_TYPE_IPC_BUF s with
  | some b =>
    simp only [kobject_get, cap_resolve_with_buf, hb, kobject_add_ref_with_buf, with_buf_buf,
      kobject_add_ref_buf]
    by_cases hst : (s.buf b).state = IPC_BUF_FINISHED
    · have hst2 : (B b).state = IPC_BUF_FINISHED := by rw [(hB b).1]; exact hst
      rw [if_neg (not_not.mpr hst), if_neg (not_not.mpr hst2)]
      exact same_outcome_some (sys_ipc2_buf_wait_tail_unused
        (s := kobject_add_ref b s) (t := with_buf (kobject_add_ref b s) B)
        (same_up_to_unused_with_buf hB) TASK dst size info b)
    · have hst2 : (B b).state ≠ IPC_BUF_FINISHED := by rw [(hB b).1]; exact hst
      rw [if_pos hst, if_pos hst2]
      cases condvar_wait_loop cvw with
      | none => exact trivial
      | some rc => exact same_outcome_some ⟨rfl, same_up_to_unused_with_buf hB⟩
  | none =>
    simp only [kobject_get, cap_resolve_with_buf, hb]
    cases hc : cap_resolve TASK bhandle KOBJECT_TYPE_CAPLIST s with
    | none => exact same_outcome_some ⟨rfl, h⟩
    | some c =>
      simp only [kobject_add_ref_with_buf, with_buf_caplist]
      by_cases hty : ((kobject_add_ref c s).caplist c).type = KOBJECT_TYPE_IPC_BUF
      · rw [if_neg (not_not.mpr hty), if_neg (not_not.mpr hty)]
        cases hblk : ipc2_block_on ((kobject_add_ref c s).caplist c).queue cvw with
        | blocked => exact trivial
        | failed rc =>
          exact same_outcome_some ⟨rfl, same_up_to_unused_with_buf hB⟩
        | got b rest =>
          have h2 : same_up_to_unused
              ({ kobject_add_ref c s with
                caplist := upd (kobject_add_ref c s).caplist c
                  { (kobject_add_ref c s).caplist c with queue := rest } } : State)
              (with_buf { kobject_add_ref c s with
                caplist := upd (kobject_add_ref c s).caplist c
                  { (kobject_add_ref c s).caplist c with queue := rest } } B) :=
            same_up_to_unused_with_buf hB
          cases delist with
          | false =>
            exact same_outcome_some
              (sys_ipc2_buf_wait_tail_unused h2 TASK dst size info b)
          | true =>
            exact same_outcome_some
              (sys_ipc2_buf_wait_tail_unused
                (same_up_to_unused_step (caplist_del_with_buf c b) h2).2 TASK dst size info b)
      · rw [if_pos hty, if_pos hty]
        exact same_outcome_some ⟨rfl, same_up_to_unused_with_buf hB⟩

theorem ipc_buf_initialize_same_used (size label : Nat) (junk junk2 : Nat → Nat) :
    buf_same_used ( ipc_buf_initialize size junk label) ( ipc_buf_initialize size junk2 label) :=
  ⟨rfl, rfl, rfl, rfl, rfl, rfl, rfl, rfl, fun i hi => absurd hi (Nat.not_lt_zero i)⟩

theorem same_up_to_unused_put_on_error {r r2 : errno_t × State} (k : Nat) (h1 : r2.1 = r.1)
    (h2 : same_up_to_unused r.2 r2.2) :
    (if r2.1 ≠ EOK then (r2.1, kobject_put k r2.2) else (r2.1, r2.2)).1 =
      (if r.1 ≠ EOK then (r.1, kobject_put k r.2) else (r.1, r.2)).1 ∧
    same_up_to_unused (if r.1 ≠ EOK then (r.1, kobject_put k r.2) else (r.1, r.2)).2
      (if r2.1 ≠ EOK then (r2.1, kobject_put k r2.2) else (r2.1, r2.2)).2 := by
  rw [h1]
  split_ifs
  · exact ⟨rfl, same_up_to_unused_map (p := fun u => kobject_put k u) (fun _ _ => rfl) h2⟩
  · exact ⟨rfl, h2⟩

/-- The contents of the storage that an allocation hands out are not in
use. -/
theorem sys_ipc2_buf_alloc_unused {s t : State} (h : same_up_to_unused s t)
    (TASK size label bhandle : Nat) (pick : Option cap_handle_t)
    (slab_ok malloc_ok kobj_ok : Bool) (junk junk2 : Nat → Nat) :
    (sys_ipc2_buf_alloc TASK size label bhandle pick slab_ok malloc_ok kobj_ok junk2 t).1 =
      (sys_ipc2_buf_alloc TASK size label bhandle pick slab_ok malloc_ok kobj_ok junk s).1 ∧
    same_up_to_unused
      (sys_ipc2_buf_alloc TASK size label bhandle pick slab_ok malloc_ok kobj_ok junk s).2
      (sys_ipc2_buf_alloc TASK size label bhandle pick slab_ok malloc_ok kobj_ok junk2 t).2 := by
  obtain ⟨B, rfl, hB⟩ := same_up_to_unused_elim h
  unfold sys_ipc2_buf_alloc
  simp only [cap_alloc_with_buf, copy_to_uspace_handle_with_buf, cap_free_with_buf,
    kobject_alloc_with_buf]
  have hu : same_up_to_unused
      (copy_to_uspace_handle TASK bhandle (cap_alloc TASK pick s).2.1 (cap_alloc TASK pick s).2.2).2
      (with_buf (copy_to_uspace_handle TASK bhandle (cap_alloc TASK pick s).2.1
        (cap_alloc TASK pick s).2.2).2 B) := by
    apply same_up_to_unused_with_buf
    rw [(copy_to_uspace_handle_frame TASK bhandle _ _).2.2.2.2.1,
      (cap_alloc_frame TASK pick s).2.2.2.2.1]
    exact hB
  have ha : same_up_to_unused (cap_alloc TASK pick s).2.2
      (with_buf (cap_alloc TASK pick s).2.2 B) := by
    apply same_up_to_unused_with_buf
    rw [(cap_alloc_frame TASK pick s).2.2.2.2.1]
    exact hB
  generalize copy_to_uspace_handle TASK bhandle (cap_alloc TASK pick s).2.1
    (cap_alloc TASK pick s).2.2 = cu at hu ⊢
  have hf : same_up_to_unused (cap_free TASK (cap_alloc TASK pick s).2.1 cu.2).2
      (with_buf (cap_free TASK (cap_alloc TASK pick s).2.1 cu.2).2 B) := by
    have := (same_up_to_unused_step (cap_free_with_buf TASK (cap_alloc TASK pick s).2.1) hu).2
    rw [cap_free_with_buf] at this
    exact this
  have hk : same_up_to_unused (kobject_alloc cu.2).2 (with_buf (kobject_alloc cu.2).2 B) :=
    same_up_to_unused_with_buf (fun x => hu.2 x)
  have h4 := same_up_to_unused_upd2 hk (kobject_alloc cu.2).1
    (fun _ => ipc_buf_initialize size junk label)
    (fun _ => ipc_buf_initialize size junk2 label)
    (fun _ _ _ => ipc_buf_initialize_same_used size label junk junk2)
  obtain ⟨p1, p2⟩ := same_up_to_unused_step
    (p := fun u => cap_publish TASK (cap_alloc TASK pick s).2.1 (kobject_alloc cu.2).1
      ( kobject_initialize (kobject_alloc cu.2).1 KOBJECT_TYPE_IPC_BUF u))
    (fun _ _ => by simp only [kobject_initialize_with_buf, cap_publish_with_buf]) h4
  by_cases h1 : (cap_alloc TASK pick s).1 ≠ EOK
  · rw [if_pos h1, if_pos h1]
    exact ⟨rfl, ha⟩
  · rw [if_neg h1, if_neg h1]
    by_cases h2 : cu.1 ≠ EOK
    · rw [if_pos h2, if_pos h2]
      exact ⟨rfl, hf⟩
    · rw [if_neg h2, if_neg h2]
      cases slab_ok <;> cases malloc_ok <;> cases kobj_ok <;>
        simp only [Bool.not_true, Bool.not_false, if_true, if_false, Bool.false_eq_true] <;>
        first
          | exact ⟨trivial, hf⟩
          | exact ⟨rfl, hf⟩
          | exact same_up_to_unused_put_on_error (kobject_alloc cu.2).1 p1 p2

/-! ### System calls on states that differ in unused storage -/

theorem same_call_cases {c d : syscall} (h : same_call c d) :
    (∃ TASK size label bhandle pick slab_ok malloc_ok kobj_ok junk junk2,
      c = syscall.buf_alloc TASK size label bhandle pick slab_ok malloc_ok kobj_ok junk ∧
      d = syscall.buf_alloc TASK size label bhandle pick slab_ok malloc_ok kobj_ok junk2) ∨
    c = d := by
  unfold same_call at h
  cases c <;> cases d <;>
    first
      | exact Or.inr h
      | (simp [forget_junk] at h
         done)
      | (simp only [forget_junk, syscall.buf_alloc.injEq] at h
         obtain ⟨h1, h2, h3, h4, h5, h6, h7, h8, _⟩ := h
         subst h1 h2 h3 h4 h5 h6 h7 h8
         exact Or.inl ⟨_, _, _, _, _, _, _, _, _, _, rfl, rfl⟩)

theorem same_call_refl (c : syscall) : same_call c c := rfl

/-- A system call started in two states that differ in unused storage, with
any contents of freshly allocated storage, has the same outcome in both. -/
theorem sys_step_unused {c d : syscall} (hcd : same_call c d) {s t : State}
    (h : same_up_to_unused s t) : same_outcome (sys_step c s) (sys_step d t) := by
  rcases same_call_cases hcd with
    ⟨TASK, size, label, bhandle, pick, slab_ok, malloc_ok, kobj_ok, junk, junk2, rfl, rfl⟩ | rfl
  · exact same_outcome_some
      (sys_ipc2_buf_alloc_unused h TASK size label bhandle pick slab_ok malloc_ok kobj_ok
        junk junk2)
  · cases c with
    | caplist_create TASK clhandle type pick slab_ok kobj_ok =>
      exact same_outcome_some (same_up_to_unused_step
        (sys_caplist_create_with_buf TASK clhandle type pick slab_ok kobj_ok) h)
    | caplist_destroy TASK clhandle =>
      exact same_outcome_some (same_up_to_unused_step
        (sys_caplist_destroy_with_buf TASK clhandle) h)
    | caplist_add TASK clhandle handle =>
      exact same_outcome_some (same_up_to_unused_step
        (sys_caplist_add_with_buf TASK clhandle handle) h)
    | caplist_del TASK clhandle handle =>
      exact same_outcome_some (same_up_to_unused_step
        (sys_caplist_del_with_buf TASK clhandle handle) h)
    | buf_alloc TASK size label bhandle pick slab_ok malloc_ok kobj_ok junk =>
      exact same_outcome_some
        (sys_ipc2_buf_alloc_unused h TASK size label bhandle pick slab_ok malloc_ok kobj_ok
          junk junk)
    | buf_free TASK bhandle =>
      exact same_outcome_some (same_up_to_unused_step
        (sys_ipc2_buf_free_with_buf TASK bhandle) h)
    | buf_send TASK src size bhandle ehandle clhandle =>
      exact same_outcome_some
        (sys_ipc2_buf_send_unused h TASK src size bhandle ehandle clhandle)
    | buf_receive TASK dst size bhandle ehandle cvw info =>
      exact sys_ipc2_buf_receive_unused h TASK dst size bhandle ehandle cvw info
    | buf_finish TASK src size bhandle =>
      exact same_outcome_some (sys_ipc2_buf_finish_unused h TASK src size bhandle)
    | buf_wait TASK dst size bhandle cvw delist info =>
      exact sys_ipc2_buf_wait_unused h TASK dst size bhandle cvw delist info
    | ep_create TASK ehandle label clhandle pick slab_ok kobj_ok =>
      exact same_outcome_some (same_up_to_unused_step
        (sys_ipc2_ep_create_with_buf TASK ehandle label clhandle pick slab_ok kobj_ok) h)
    | ep_destroy TASK ehandle =>
      exact same_outcome_some (same_up_to_unused_step
        (sys_ipc2_ep_destroy_with_buf TASK ehandle) h)
    | cap_alloc TASK uhandle pick =>
      exact same_outcome_some (same_up_to_unused_step
        (sys_cap_alloc_with_buf TASK uhandle pick) h)

/-- Two runs of the same calls, started in states that differ in unused
storage and with any contents of freshly allocated storage, block at the same
call or return the same values and end in states that differ in unused
storage. -/
theorem run_calls_unused {cs ds : List syscall} (hcd : List.Forall₂ same_call cs ds) :
    ∀ {s t : State}, same_up_to_unused s t →
    match run_calls cs s, run_calls ds t with
    | some r, some r2 => r2.1 = r.1 ∧ same_up_to_unused r.2 r2.2
    | none, none => True
    | _, _ => False := by
  induction hcd with
  | nil =>
    intro s t h
    exact ⟨rfl, h⟩
  | @cons c d cs ds hc _ ih =>
    intro s t h
    have h1 := sys_step_unused hc h
    unfold run_calls
    cases hs : sys_step c s with
    | none =>
      cases ht : sys_step d t with
      | none => exact trivial
      | some r2 => rw [hs, ht] at h1; exact h1.elim
    | some r =>
      cases ht : sys_step d t with
      | none => rw [hs, ht] at h1; exact h1.elim
      | some r2 =>
        rw [hs, ht] at h1
        obtain ⟨e1, e2⟩ := h1
        have h2 := ih e2
        dsimp only
        cases hrs : run_calls cs r.2 with
        | none =>
          cases hrt : run_calls ds r2.2 with
          | none => exact trivial
          | some u2 => rw [hrs, hrt] at h2; exact h2.elim
        | some u =>
          cases hrt : run_calls ds r2.2 with
          | none => rw [hrs, hrt] at h2; exact h2.elim
          | some u2 =>
            rw [hrs, hrt] at h2
            exact ⟨by rw [e1, h2.1], h2.2⟩

/-! ### The used part of a buffer never exceeds its capacity -/

theorem buf_of_with_buf {α : Type} {p : State → α × State}
    (hp : ∀ s B, p (with_buf s B) = ((p s).1, with_buf (p s).2 B)) (s : State) :
    (p s).2.buf = s.buf := by
  have := congrArg (fun r => r.2.buf) (hp s s.buf)
  simpa [with_buf_self] using this

theorem ipc2_copy_from_buf_buf (TASK buf dst size : Nat) (s : State) :
    (ipc2_copy_from_buf TASK buf dst size s).2.buf = s.buf := by
  rw [ipc2_copy_from_buf_eq]
  exact buf_of_with_buf (copy_to_uspace_with_buf TASK dst _ _) s

theorem copy_to_uspace_receive_info_buf (TASK dst : Nat) (v : ipc_buf_receive_info_t)
    (s : State) : (copy_to_uspace_receive_info TASK dst v s).2.buf = s.buf :=
  buf_of_with_buf (copy_to_uspace_receive_info_with_buf TASK dst v) s

theorem cap_publish_buf (TASK : Nat) (h : cap_handle_t) (k : Nat) (s : State) :
    (cap_publish TASK h k s).2.buf = s.buf :=
  buf_of_with_buf (cap_publish_with_buf TASK h k) s

/-- `ipc2_buf_finish` changes neither the used size nor the capacity of a
buffer. -/
theorem ipc2_buf_finish_sizes (buf : Nat) (rc : errno_t) (s : State) (x : Nat) :
    ((ipc2_buf_finish buf rc s).buf x).used = (s.buf x).used ∧
    ((ipc2_buf_finish buf rc s).buf x).size = (s.buf x).size := by
  rw [(ipc2_buf_finish_frame buf rc s).2.2.2.2.2.2.1]
  by_cases hx : x = buf
  · subst hx
    simp [upd]
  · simp [upd, hx]

theorem sys_ipc2_buf_receive_tail_sizes (TASK dst size : Nat) (bhandle : cap_handle_t)
    (info buf : Nat) (s : State) (x : Nat) :
    (((sys_ipc2_buf_receive_tail TASK dst size bhandle info buf s).2.buf x).used =
      (s.buf x).used) ∧
    (((sys_ipc2_buf_receive_tail TASK dst size bhandle info buf s).2.buf x).size =
      (s.buf x).size) := by
  unfold sys_ipc2_buf_receive_tail
  dsimp only
  split_ifs <;>
    simp only [kobject_put_buf, kobject_add_ref_buf, ipc2_buf_finish_sizes, cap_publish_buf,
      copy_to_uspace_receive_info_buf, ipc2_copy_from_buf_buf, and_self]

theorem sys_ipc2_buf_receive_sizes {TASK dst size : Nat} {bhandle ehandle : cap_handle_t}
    {cvw : List errno_t} {info : Nat} {s t : State} {rc : errno_t}
    (h : sys_ipc2_buf_receive TASK dst size bhandle ehandle cvw info s = some (rc, t))
    (x : Nat) : (t.buf x).used = (s.buf x).used ∧ (t.buf x).size = (s.buf x).size := by
  have key : ∀ (b : Nat) (u : State) (g : ipc_buf_t → ipc_buf_t),
      (∀ a, (g a).used = a.used ∧ (g a).size = a.size) → u.buf = s.buf →
      (((sys_ipc2_buf_receive_tail TASK dst size bhandle info b
          (with_buf u (upd u.buf b (g (u.buf b))))).2.buf x).used = (s.buf x).used) ∧
      (((sys_ipc2_buf_receive_tail TASK dst size bhandle info b
          (with_buf u (upd u.buf b (g (u.buf b))))).2.buf x).size = (s.buf x).size) := by
    intro b u g hg hu
    rw [(sys_ipc2_buf_receive_tail_sizes TASK dst size bhandle info b _ x).1,
      (sys_ipc2_buf_receive_tail_sizes TASK dst size bhandle info b _ x).2, with_buf_buf, hu]
    by_cases hx : x = b
    · subst hx
      simp only [upd, if_true]
      exact hg _
    · simp only [upd, hx, if_false, and_self]
  unfold sys_ipc2_buf_receive at h
  cases he : cap_resolve TASK ehandle KOBJECT_TYPE_IPC_EP s with
  | some e =>
    simp only [kobject_get, he] at h
    cases hblk : ipc2_block_on ((kobject_add_ref e s).ep e).buffers cvw with
    | blocked => rw [hblk] at h; cases h
    | failed rc2 =>
      rw [hblk] at h
      simp only [Option.some.injEq, Prod.mk.injEq] at h
      rw [← h.2]
      exact ⟨rfl, rfl⟩
    | got b rest =>
      rw [hblk] at h
      simp only [Option.some.injEq] at h
      have := key b (kobject_put e { kobject_add_ref e s with
          ep := upd (kobject_add_ref e s).ep e
            { (kobject_add_ref e s).ep e with buffers := rest } })
        (fun a => { a with in_ep := none }) (fun a => ⟨rfl, rfl⟩) rfl
      have ht : _ = t := congrArg Prod.snd h
      rw [← ht]
      exact this
  | none =>
    simp only [kobject_get, he] at h
    cases hc : cap_resolve TASK ehandle KOBJECT_TYPE_CAPLIST s with
    | none =>
      simp only [hc, Option.some.injEq, Prod.mk.injEq] at h
      rw [← h.2]
      exact ⟨rfl, rfl⟩
    | some c =>
      simp only [hc] at h
      by_cases hty : ((kobject_add_ref c s).caplist c).type = KOBJECT_TYPE_IPC_EP
      · rw [if_neg (not_not.mpr hty)] at h
        cases hblk : ipc2_block_on ((kobject_add_ref c s).caplist c).queue cvw with
        | blocked => rw [hblk] at h; cases h
        | failed rc2 =>
          rw [hblk] at h
          simp only [Option.some.injEq, Prod.mk.injEq] at h
          rw [← h.2]
          exact ⟨rfl, rfl⟩
        | got b rest =>
          rw [hblk] at h
          simp only [Option.some.injEq] at h
          have := key b (kobject_put c { kobject_add_ref c s with
              caplist := upd (kobject_add_ref c s).caplist c
                { (kobject_add_ref c s).caplist c with queue := rest } })
            (fun a => { a with in_ep_caplist := none }) (fun a => ⟨rfl, rfl⟩) rfl
          have ht : _ = t := congrArg Prod.snd h
          rw [← ht]
          exact this
      · rw [if_pos hty] at h
        simp only [Option.some.injEq, Prod.mk.injEq] at h
        rw [← h.2]
        exact ⟨rfl, rfl⟩

theorem sys_ipc2_buf_wait_sizes {TASK dst size : Nat} {bhandle : cap_handle_t}
    {cvw : List errno_t} {delist : Bool} {info : Nat} {s t : State} {rc : errno_t}
    (h : sys_ipc2_buf_wait TASK dst size bhandle cvw delist info s = some (rc, t))
    (x : Nat) : (t.buf x).used = (s.buf x).used ∧ (t.buf x).size = (s.buf x).size := by
  have key : ∀ (b : Nat) (u : State), u.buf = s.buf →
      (((sys_ipc2_buf_wait_tail TASK dst size info b u).2.buf x).used = (s.buf x).used) ∧
      (((sys_ipc2_buf_wait_tail TASK dst size info b u).2.buf x).size = (s.buf x).size) := by
    intro b u hu
    rw [sys_ipc2_buf_wait_tail_buf, hu]
    by_cases hx : x = b
    · subst hx
      simp [upd]
    · simp [upd, hx]
  unfold sys_ipc2_buf_wait at h
  cases hb : cap_resolve TASK bhandle KOBJECT_TYPE_IPC_BUF s with
  | some b =>
    simp only [kobject_get, hb] at h
    by_cases hst : ((kobject_add_ref b s).buf b).state = IPC_BUF_FINISHED
    · rw [if_neg (not_not.mpr hst)] at h
      simp only [Option.some.injEq] at h
      have ht : _ = t := congrArg Prod.snd h
      rw [← ht]
      exact key b _ rfl
    · rw [if_pos hst] at h
      cases hw : condvar_wait_loop cvw with
      | none => rw [hw] at h; cases h
      | some rc2 =>
        rw [hw] at h
        simp only [Option.some.injEq, Prod.mk.injEq] at h
        rw [← h.2]
        exact ⟨rfl, rfl⟩
  | none =>
    simp only [kobject_get, hb] at h
    cases hc : cap_resolve TASK bhandle KOBJECT_TYPE_CAPLIST s with
    | none =>
      simp only [hc, Option.some.injEq, Prod.mk.injEq] at h
      rw [← h.2]
      exact ⟨rfl, rfl⟩
    | some c =>
      simp only [hc] at h
      by_cases hty : ((kobject_add_ref c s).caplist c).type = KOBJECT_TYPE_IPC_BUF
      · rw [if_neg (not_not.mpr hty)] at h
        cases hblk : ipc2_block_on ((kobject_add_ref c s).caplist c).queue cvw with
        | blocked => rw [hblk] at h; cases h
        | failed rc2 =>
          rw [hblk] at h
          simp only [Option.some.injEq, Prod.mk.injEq] at h
          rw [← h.2]
          exact ⟨rfl, rfl⟩
        | got b rest =>
          rw [hblk] at h
          simp only [Option.some.injEq] at h
          have ht : _ = t := congrArg Prod.snd h
          rw [← ht]
          cases delist with
          | false => exact key b _ rfl
          | true => exact key b _ (caplist_del_frame c b _).2.1
      · rw [if_pos hty] at h
        simp only [Option.some.injEq, Prod.mk.injEq] at h
        rw [← h.2]
        exact ⟨rfl, rfl⟩

theorem cap_free_buf (TASK : Nat) (h : cap_handle_t) (s : State) :
    (cap_free TASK h s).2.buf = s.buf :=
  buf_of_with_buf (cap_free_with_buf TASK h) s

theorem sys_ipc2_buf_alloc_within (TASK size label bhandle : Nat) (pick : Option cap_handle_t)
    (slab_ok malloc_ok kobj_ok : Bool) (junk : Nat → Nat) {s : State}
    (h : used_within_size s) :
    used_within_size
      (sys_ipc2_buf_alloc TASK size label bhandle pick slab_ok malloc_ok kobj_ok junk s).2 := by
  have ha := (cap_alloc_frame TASK pick s).2.2.2.2.1
  have hu : (copy_to_uspace_handle TASK bhandle (cap_alloc TASK pick s).2.1
      (cap_alloc TASK pick s).2.2).2.buf = s.buf := by
    rw [(copy_to_uspace_handle_frame TASK bhandle _ _).2.2.2.2.1, ha]
  intro b
  unfold sys_ipc2_buf_alloc
  dsimp only
  generalize copy_to_uspace_handle TASK bhandle (cap_alloc TASK pick s).2.1
    (cap_alloc TASK pick s).2.2 = cu at hu ⊢
  have hinit : ∀ (B : Nat → ipc_buf_t), B = upd cu.2.buf (kobject_alloc cu.2).1
      ( ipc_buf_initialize size junk label) → (B b).used ≤ (B b).size := by
    intro B hB
    rw [hB, hu]
    by_cases hb : b = (kobject_alloc cu.2).1
    · simp [upd, hb, ipc_buf_initialize]
    · simp only [upd, hb, if_false]
      exact h b
  split_ifs
  · rw [ha]
    exact h b
  · rw [cap_free_buf, hu]
    exact h b
  · rw [cap_free_buf, hu]
    exact h b
  · rw [cap_free_buf, hu]
    exact h b
  · rw [cap_free_buf, hu]
    exact h b
  · exact hinit _ (by rw [kobject_put_buf, cap_publish_buf]; rfl)
  · exact hinit _ (by rw [cap_publish_buf]; rfl)

theorem sys_ipc2_buf_send_within (TASK src size : Nat) (bhandle ehandle clhandle : cap_handle_t)
    {s : State} (h : used_within_size s) :
    used_within_size (sys_ipc2_buf_send TASK src size bhandle ehandle clhandle s).2 := by
  by_cases hrc : (sys_ipc2_buf_send TASK src size bhandle ehandle clhandle s).1 = EOK
  · obtain ⟨buf, _, _, _, _, _, _, hsz, _, _, _, hother, hbuf, _⟩ :=
      sys_ipc2_buf_send_ok (Prod.ext hrc rfl :
        sys_ipc2_buf_send TASK src size bhandle ehandle clhandle s =
          (EOK, (sys_ipc2_buf_send TASK src size bhandle ehandle clhandle s).2))
    intro b
    by_cases hb : b = buf
    · subst hb
      rw [hbuf]
      dsimp only
      split_ifs
      · exact hsz
      · exact h b
    · rw [hother b hb]
      exact h b
  · rw [sys_ipc2_buf_send_fail hrc]
    exact h

theorem sys_ipc2_buf_finish_within (TASK src size : Nat) (bhandle : cap_handle_t)
    {s : State} (h : used_within_size s) :
    used_within_size (sys_ipc2_buf_finish TASK src size bhandle s).2 := by
  by_cases hrc : (sys_ipc2_buf_finish TASK src size bhandle s).1 = EOK
  · obtain ⟨buf, _, _, _, _, hsz, _, _, _, _, hbuf, _⟩ :=
      sys_ipc2_buf_finish_effect (Prod.ext hrc rfl :
        sys_ipc2_buf_finish TASK src size bhandle s =
          (EOK, (sys_ipc2_buf_finish TASK src size bhandle s).2))
    intro b
    rw [hbuf]
    by_cases hb : b = buf
    · subst hb
      simp only [upd, if_true]
      split_ifs
      · exact hsz
      · exact h b
    · simp only [upd, hb, if_false]
      exact h b
  · rw [sys_ipc2_buf_finish_fail hrc]
    exact h

/-- Every system call that returns keeps the used part of every buffer within
its capacity. -/
theorem sys_step_within {c : syscall} {s t : State} {rc : errno_t} (h : used_within_size s)
    (hs : sys_step c s = some (rc, t)) : used_within_size t := by
  have same : ∀ {p : State → errno_t × State},
      (∀ s B, p (with_buf s B) = ((p s).1, with_buf (p s).2 B)) → p s = (rc, t) →
      used_within_size t := by
    intro p hp hpt x
    have hb := buf_of_with_buf hp s
    rw [hpt] at hb
    dsimp only at hb
    rw [hb]
    exact h x
  cases c with
  | caplist_create TASK clhandle type pick slab_ok kobj_ok =>
    simp only [sys_step, Option.some.injEq] at hs
    exact same (sys_caplist_create_with_buf TASK clhandle type pick slab_ok kobj_ok) hs
  | caplist_destroy TASK clhandle =>
    simp only [sys_step, Option.some.injEq] at hs
    exact same (sys_caplist_destroy_with_buf TASK clhandle) hs
  | caplist_add TASK clhandle handle =>
    simp only [sys_step, Option.some.injEq] at hs
    exact same (sys_caplist_add_with_buf TASK clhandle handle) hs
  | caplist_del TASK clhandle handle =>
    simp only [sys_step, Option.some.injEq] at hs
    exact same (sys_caplist_del_with_buf TASK clhandle handle) hs
  | buf_alloc TASK size label bhandle pick slab_ok malloc_ok kobj_ok junk =>
    simp only [sys_step, Option.some.injEq] at hs
    have := sys_ipc2_buf_alloc_within TASK size label bhandle pick slab_ok malloc_ok kobj_ok
      junk h
    rw [hs] at this
    exact this
  | buf_free TASK bhandle =>
    simp only [sys_step, Option.some.injEq] at hs
    exact same (sys_ipc2_buf_free_with_buf TASK bhandle) hs
  | buf_send TASK src size bhandle ehandle clhandle =>
    simp only [sys_step, Option.some.injEq] at hs
    have := sys_ipc2_buf_send_within TASK src size bhandle ehandle clhandle h
    rw [hs] at this
    exact this
  | buf_receive TASK dst size bhandle ehandle cvw info =>
    simp only [sys_step] at hs
    intro x
    rw [(sys_ipc2_buf_receive_sizes hs x).1, (sys_ipc2_buf_receive_sizes hs x).2]
    exact h x
  | buf_finish TASK src size bhandle =>
    simp only [sys_step, Option.some.injEq] at hs
    have := sys_ipc2_buf_finish_within TASK src size bhandle h
    rw [hs] at this
    exact this
  | buf_wait TASK dst size bhandle cvw delist info =>
    simp only [sys_step] at hs
    intro x
    rw [(sys_ipc2_buf_wait_sizes hs x).1, (sys_ipc2_buf_wait_sizes hs x).2]
    exact h x
  | ep_create TASK ehandle label clhandle pick slab_ok kobj_ok =>
    simp only [sys_step, Option.some.injEq] at hs
    exact same (sys_ipc2_ep_create_with_buf TASK ehandle label clhandle pick slab_ok kobj_ok) hs
  | ep_destroy TASK ehandle =>
    simp only [sys_step, Option.some.injEq] at hs
    exact same (sys_ipc2_ep_destroy_with_buf TASK ehandle) hs
  | cap_alloc TASK uhandle pick =>
    simp only [sys_step, Option.some.injEq] at hs
    exact same (sys_cap_alloc_with_buf TASK uhandle pick) hs

theorem used_within_size_boot (umem : Nat → Nat → Option Nat) :
    used_within_size (boot umem) := by
  intro b
  simp [boot, ipc_buf_initialize]

theorem reachable_by_within {P : syscall → Prop} {s0 s : State} (h0 : used_within_size s0)
    (h : reachable_by P s0 s) : used_within_size s := by
  induction h with
  | start => exact h0
  | step _ _ hs ih => exact sys_step_within ih hs
/-! ### The queues of the scenarios -/

theorem test_before_queues (x : Nat) :
    (test_before.ep x).buffers = [] ∧ (test_before.caplist x).queue = [] := by
  simp [test_before, sys_cap_alloc, sys_ipc2_ep_create, sys_ipc2_buf_alloc, boot, cap_alloc,
    cap_publish, copy_to_uspace_handle, kobject_alloc, kobject_initialize, kobject_put, cap_free,
    upd, upd2, ipc_ep_initialize, caplist_initialize, CAP_NIL]
  split_ifs <;> rfl

theorem sys_ipc2_buf_send_relocks_some (e cl : Nat) (s : State) :
    sys_ipc2_buf_send_relocks e (some cl) s = false ↔ (s.kobj e).in_caplist ≠ some cl := by
  simp [sys_ipc2_buf_send_relocks]

theorem sys_ipc2_buf_send_relocks_none (e : Nat) (s : State) :
    sys_ipc2_buf_send_relocks e none s = false := by
  simp [sys_ipc2_buf_send_relocks]

/-- In the set-up of the test `receive_from_cl` the endpoint is a member of the
endpoint-caplist behind handle 4; a send that names that caplist takes its
mutex twice, and the second `mutex_lock` is the last event of the call. -/
theorem sys_ipc2_buf_send_locks_relock :
    sys_ipc2_buf_send_relocks 2 (some 3) test_ep_member = true ∧
    sys_ipc2_buf_send_locks 0 1 2 4 test_ep_member =
      [lock_event.mutex_lock ⟨lock_class.ep_mutex, 2⟩,
        lock_event.mutex_lock ⟨lock_class.ep_kobject_lock, 2⟩,
        lock_event.mutex_lock ⟨lock_class.ep_caplist_mutex, 3⟩,
        lock_event.mutex_lock ⟨lock_class.buf_mutex, 1⟩,
        lock_event.mutex_lock ⟨lock_class.buf_caplist_mutex, 3⟩] :=
  ⟨by decide, by decide⟩

/-! ### Claims -/

/-- C1 (as stated, refuted): a successful send of `n` bytes followed by a
successful receive on the same endpoint does not always deliver the payload:
with an older buffer still queued in the endpoint, the receive returns that
one. Buffer 1 holding "Hello world!" is queued, buffer 3 is sent with "Bye",
and the next receive writes "Hello world!". -/
theorem send_receive_roundtrip_counterexample :
    ¬ ∀ (TASK1 TASK2 src n dst m info : Nat) (bh eh eh2 nh : cap_handle_t)
      (cvw : List errno_t) (s s1 s2 : State) (b e : Nat),
      cap_resolve TASK1 bh KOBJECT_TYPE_IPC_BUF s = some b →
      (s.buf b).state = IPC_BUF_READY → 0 < n → n ≤ (s.buf b).size → n ≤ m →
      cap_resolve TASK1 eh KOBJECT_TYPE_IPC_EP s = some e →
      cap_resolve TASK2 eh2 KOBJECT_TYPE_IPC_EP s1 = some e →
      sys_ipc2_buf_send TASK1 src n bh eh CAP_NIL s = (EOK, s1) →
      sys_ipc2_buf_receive TASK2 dst m nh eh2 cvw info s1 = some (EOK, s2) →
      ∀ i, i < n → s2.umem TASK2 (dst + i) = s.umem TASK1 (src + i) := by
  intro h
  have hsend : sys_ipc2_buf_send 0 32 16 4 2 CAP_NIL test_first_sent =
      (EOK, (sys_ipc2_buf_send 0 32 16 4 2 CAP_NIL test_first_sent).2) :=
    Prod.ext (by decide) rfl
  cases hr : sys_ipc2_buf_receive 0 16 16 3 2 [] 0
      (sys_ipc2_buf_send 0 32 16 4 2 CAP_NIL test_first_sent).2 with
  | none =>
    have hsome : (sys_ipc2_buf_receive 0 16 16 3 2 [] 0
      (sys_ipc2_buf_send 0 32 16 4 2 CAP_NIL test_first_sent).2).isSome = true := by decide
    rw [hr] at hsome
    exact absurd hsome (by decide)
  | some r =>
    have hrc : (sys_ipc2_buf_receive 0 16 16 3 2 [] 0
      (sys_ipc2_buf_send 0 32 16 4 2 CAP_NIL test_first_sent).2).map (fun x => x.1) =
        some EOK := by decide
    have hmem : (sys_ipc2_buf_receive 0 16 16 3 2 [] 0
      (sys_ipc2_buf_send 0 32 16 4 2 CAP_NIL test_first_sent).2).map
        (fun x => x.2.umem 0 16) = some (some 72) := by decide
    rw [hr] at hrc hmem
    simp only [Option.map_some', Option.some.injEq] at hrc hmem
    have hr2 : sys_ipc2_buf_receive 0 16 16 3 2 [] 0
        (sys_ipc2_buf_send 0 32 16 4 2 CAP_NIL test_first_sent).2 = some (EOK, r.2) := by
      rw [hr, ← hrc]
    have := h 0 0 32 16 16 16 0 4 2 2 3 [] test_first_sent _ r.2 3 2 (by decide) (by decide)
      (by decide) (by decide) (by decide) (by decide) (by decide) hsend hr2 0 (by decide)
    rw [Nat.add_zero, Nat.add_zero, hmem] at this
    exact absurd this (by decide)

/-- C1 (amended): if a send of `n > 0` bytes succeeds and the next receive
succeeds with a destination of `m ≥ n` bytes and returns that buffer (it is
the buffer published under the receiver's new handle), then the first `n`
bytes of the destination equal the payload. -/
theorem send_receive_roundtrip (TASK1 TASK2 src n dst m info : Nat)
    (bh eh eh2 nh : cap_handle_t) (cvw : List errno_t) (s s1 s2 : State) (b : Nat)
    (hres : cap_resolve TASK1 bh KOBJECT_TYPE_IPC_BUF s = some b) (hn : 0 < n) (hnm : n ≤ m)
    (hsend : sys_ipc2_buf_send TASK1 src n bh eh CAP_NIL s = (EOK, s1))
    (hrecv : sys_ipc2_buf_receive TASK2 dst m nh eh2 cvw info s1 = some (EOK, s2))
    (hsame : s2.caps TASK2 nh = cap_t.published b) :
    ∀ i, i < n → s2.umem TASK2 (dst + i) = s.umem TASK1 (src + i) := by
  obtain ⟨buf, ep, cl, hb, _, _, _, _, hrg, _, _, _, hbuf, _⟩ := sys_ipc2_buf_send_ok hsend
  rw [hres] at hb
  simp only [Option.some.injEq] at hb
  subst hb
  obtain ⟨b2, rest, hq, _, hcaps, _, _, _, _, hmem, _⟩ := sys_ipc2_buf_receive_ok hrecv
  rw [hcaps, upd2_same] at hsame
  simp only [cap_t.published.injEq] at hsame
  subst hsame
  intro i hi
  have hused : (s1.buf b2).used = n := by
    rw [hbuf]; simp [Nat.pos_iff_ne_zero.mp hn]
  have hdata : (s1.buf b2).data i = (s.umem TASK1 (src + i)).getD 0 := by
    rw [hbuf]; simp [hi]
  rw [hmem i (Nat.lt_of_lt_of_le hi hnm) (by rw [hused]; exact hi), hdata]
  have := (uspace_range_ok_iff _ _ _).mp hrg i hi
  obtain ⟨v, hv⟩ := Option.isSome_iff_exists.mp this
  simp [hv]

/-- Witness of C1 (amended) in the round-trip test: the first byte of
"Hello world!", sent through handle 1, arrives at `recv_buf`. -/
theorem send_receive_roundtrip_witness :
    test_received.umem 0 (16 + 0) = test_before.umem 0 (0 + 0) :=
  send_receive_roundtrip 0 0 0 16 16 16 0 1 2 2 3 [] test_before test_sent test_received 1
    (by decide) (by decide) (by decide) test_sent_eq test_received_eq (by decide) 0 (by decide)

/-- C2: if a finish of `n > 0` reply bytes succeeds and the following wait on
a handle of that buffer succeeds with a destination of `m ≥ n` bytes, then the
first `n` bytes of the destination equal the reply. -/
theorem finish_wait_roundtrip (TASK1 TASK2 src n dst m info : Nat) (h2 h : cap_handle_t)
    (cvw : List errno_t) (delist : Bool) (s s1 s2 : State) (b : Nat)
    (hres : cap_resolve TASK2 h2 KOBJECT_TYPE_IPC_BUF s = some b) (hn : 0 < n) (hnm : n ≤ m)
    (hfin : sys_ipc2_buf_finish TASK2 src n h2 s = (EOK, s1))
    (horig : cap_resolve TASK1 h KOBJECT_TYPE_IPC_BUF s1 = some b)
    (hwait : sys_ipc2_buf_wait TASK1 dst m h cvw delist info s1 = some (EOK, s2)) :
    ∀ i, i < n → s2.umem TASK1 (dst + i) = s.umem TASK2 (src + i) := by
  obtain ⟨buf, hb, _, _, _, _, hrg, _, _, _, hbuf, _⟩ := sys_ipc2_buf_finish_effect hfin
  rw [hres] at hb
  simp only [Option.some.injEq] at hb
  subst hb
  obtain ⟨b2, hsel, _, _, _, _, _, _, _, hmem, _⟩ := sys_ipc2_buf_wait_ok hwait
  have hb2 : b2 = b := by
    rcases hsel with ⟨hr, _⟩ | ⟨hr, _⟩
    · rw [horig] at hr
      simp only [Option.some.injEq] at hr
      exact hr.symm
    · rw [horig] at hr
      exact absurd hr (by simp)
  subst hb2
  intro i hi
  have hused : (s1.buf b2).used = n := by
    rw [hbuf]; simp [upd, Nat.pos_iff_ne_zero.mp hn]
  have hdata : (s1.buf b2).data i = (s.umem TASK2 (src + i)).getD 0 := by
    rw [hbuf]; simp [upd, hi]
  rw [hmem i (Nat.lt_of_lt_of_le hi hnm) (by rw [hused]; exact hi), hdata]
  have := (uspace_range_ok_iff _ _ _).mp hrg i hi
  obtain ⟨v, hv⟩ := Option.isSome_iff_exists.mp this
  simp [hv]

/-- Witness of C2 in the round-trip test: the first byte of "Bye", finished
through handle 3, arrives at `wait_buf` of a wait on handle 1. -/
theorem finish_wait_roundtrip_witness :
    test_waited.umem 0 (48 + 0) = test_received.umem 0 (32 + 0) :=
  finish_wait_roundtrip 0 0 32 16 48 16 0 3 1 [] false test_received test_finished test_waited 1
    (by decide) (by decide) (by decide) test_finished_eq (by decide) test_waited_eq 0
    (by decide)

/-- C3 (as stated, refuted): a buffer sent to an endpoint and then received
from it is not always the buffer the receive returns: with buffer 1 already
queued in the endpoint, buffer 3 is sent and the one receive that follows
returns buffer 1. -/
theorem fifo_delivery_counterexample :
    ¬ ∀ (sends : List send_call) (recvs : List receive_call) (s : State)
      (tr : List (Nat × Nat × Option Nat)) (rs : List ((Bool × Nat) × Nat)) (E : Nat),
      run_sends_receives sends recvs s = some (tr, rs) →
      recvs.length = sends.length →
      (tr.map (fun x => x.1)).Nodup →
      (∀ x ∈ tr, x.2.1 = E ∧ x.2.2 = none) →
      (∀ r ∈ rs, r.1 = (true, E)) →
      rs.map (fun r => r.2) = tr.map (fun x => x.1) := by
  intro h
  have := h [⟨0, 32, 16, 4, 2, CAP_NIL⟩] [⟨0, 16, 16, 3, 2, [], 0⟩] test_first_sent
    [(3, 2, none)] [((true, 2), 1)] 2 (by decide) (by decide) (by decide) (by decide)
    (by decide)
  exact absurd this (by decide)

/-- C3 (amended): starting with an empty queue, if `N` sends succeed in order
and then `N` receives succeed, the buffers returned are the buffers sent, in
the order of the sends; both for sends to one endpoint that is in no caplist
with receives on that endpoint, and for sends to endpoints that are members
of one caplist with receives on that caplist. -/
theorem fifo_delivery (sends : List send_call) (recvs : List receive_call) (s : State)
    (tr : List (Nat × Nat × Option Nat)) (rs : List ((Bool × Nat) × Nat))
    (hrun : run_sends_receives sends recvs s = some (tr, rs))
    (hlen : recvs.length = sends.length) :
    (∀ E, (s.ep E).buffers = [] → (∀ x ∈ tr, x.2.1 = E ∧ x.2.2 = none) →
      (∀ r ∈ rs, r.1 = (true, E)) → rs.map (fun r => r.2) = tr.map (fun x => x.1)) ∧
    (∀ C, (s.caplist C).queue = [] → (∀ x ∈ tr, x.2.2 = some C) →
      (∀ r ∈ rs, r.1 = (false, C)) → rs.map (fun r => r.2) = tr.map (fun x => x.1)) := by
  obtain ⟨s1, s2, hs, hr⟩ := run_sends_receives_some hrun
  have hl1 := run_sends_length sends s s1 tr hs
  have hl2 := run_receives_length recvs s1 s2 rs hr
  have hl : (rs.map (fun r => r.2)).length = (tr.map (fun x => x.1)).length := by
    simp [hl1, hl2, hlen]
  constructor
  · intro E hempty htr hrs
    have h1 := run_sends_ep_queue E sends s s1 tr hs htr
    have h2 := run_receives_ep_queue E recvs s1 s2 rs hr hrs
    rw [hempty, List.nil_append] at h1
    rw [h1] at h2
    have h3 : tr.map (fun x => x.1) ++ [] = rs.map (fun r => r.2) ++ (s2.ep E).buffers := by
      simpa using h2
    exact (List.append_inj h3 hl.symm).1.symm
  · intro C hempty htr hrs
    have h1 := run_sends_cl_queue C sends s s1 tr hs htr
    have h2 := run_receives_cl_queue C recvs s1 s2 rs hr hrs
    rw [hempty, List.nil_append] at h1
    rw [h1] at h2
    have h3 : tr.map (fun x => x.1) ++ [] = rs.map (fun r => r.2) ++ (s2.caplist C).queue := by
      simpa using h2
    exact (List.append_inj h3 hl.symm).1.symm

/-- Witness of C3 (amended): two buffers sent to the empty endpoint of the
test, buffer 3 first and buffer 1 second, are received in that order. -/
theorem fifo_delivery_witness :
    run_sends_receives [⟨0, 32, 16, 4, 2, CAP_NIL⟩, ⟨0, 0, 16, 1, 2, CAP_NIL⟩]
      [⟨0, 16, 16, 3, 2, [], 0⟩, ⟨0, 48, 16, 5, 2, [], 1⟩] test_two_handles =
      some ([(3, 2, none), (1, 2, none)], [((true, 2), 3), ((true, 2), 1)]) ∧
    List.map (fun r => r.2) [((true, 2), 3), ((true, 2), 1)] =
      List.map (fun x => x.1) [(3, 2, (none : Option Nat)), (1, 2, none)] :=
  ⟨by decide,
   (fifo_delivery [⟨0, 32, 16, 4, 2, CAP_NIL⟩, ⟨0, 0, 16, 1, 2, CAP_NIL⟩]
    [⟨0, 16, 16, 3, 2, [], 0⟩, ⟨0, 48, 16, 5, 2, [], 1⟩] test_two_handles
    [(3, 2, none), (1, 2, none)] [((true, 2), 3), ((true, 2), 1)] (by decide) (by decide)).1
    2 (by decide) (by decide) (by decide)⟩

/-- C4: after a successful send of `n > 0` bytes to an endpoint with label
`L`, the next successful receive that returns that buffer writes the info
structure `{ep_label = L, used = n, size = size}` of the buffer. -/
theorem receive_writes_info (TASK1 TASK2 src n dst m info : Nat) (bh eh eh2 nh : cap_handle_t)
    (clh : cap_handle_t) (cvw : List errno_t) (s s1 s2 : State) (b e : Nat)
    (hres : cap_resolve TASK1 bh KOBJECT_TYPE_IPC_BUF s = some b)
    (hep : cap_resolve TASK1 eh KOBJECT_TYPE_IPC_EP s = some e) (hn : 0 < n)
    (hsend : sys_ipc2_buf_send TASK1 src n bh eh clh s = (EOK, s1))
    (hrecv : sys_ipc2_buf_receive TASK2 dst m nh eh2 cvw info s1 = some (EOK, s2))
    (hsame : s2.caps TASK2 nh = cap_t.published b) :
    s2.urecv TASK2 info = some { ep_label := (s.ep e).label, used := n, size := (s.buf b).size } := by
  obtain ⟨buf, ep, cl, hb, he, _, _, _, _, _, _, _, hbuf, _⟩ := sys_ipc2_buf_send_ok hsend
  rw [hres] at hb
  rw [hep] at he
  simp only [Option.some.injEq] at hb he
  subst hb he
  obtain ⟨b2, rest, hq, _, hcaps, _, _, _, hinfo, _⟩ := sys_ipc2_buf_receive_ok hrecv
  rw [hcaps, upd2_same] at hsame
  simp only [cap_t.published.injEq] at hsame
  subst hsame
  rw [hinfo, upd2_same, hbuf]
  simp [Nat.pos_iff_ne_zero.mp hn]

/-- Witness of C4 in the round-trip test: the receive reports the endpoint's
label `0x1abe1e`, 16 bytes used and capacity 16. -/
theorem receive_writes_info_witness :
    test_received.urecv 0 0 =
      some { ep_label := (test_before.ep 2).label, used := 16, size := (test_before.buf 1).size } :=
  receive_writes_info 0 0 0 16 16 16 0 1 2 2 3 CAP_NIL [] test_before test_sent test_received 1 2
    (by decide) (by decide) (by decide) test_sent_eq test_received_eq (by decide)

/-- C5: after a successful finish with `n > 0` reply bytes, a successful wait
on that buffer (through a handle of the buffer, or through a buffer-caplist
whose ready-queue it heads) writes the info structure `{buf_label, used = n,
size, result = EOK}` of the buffer and leaves the buffer READY. -/
theorem wait_writes_info (TASK1 TASK2 src n dst m info : Nat) (h2 h : cap_handle_t)
    (cvw : List errno_t) (delist : Bool) (s s1 s2 : State) (b : Nat)
    (hres : cap_resolve TASK2 h2 KOBJECT_TYPE_IPC_BUF s = some b) (hn : 0 < n)
    (hfin : sys_ipc2_buf_finish TASK2 src n h2 s = (EOK, s1))
    (hon : cap_resolve TASK1 h KOBJECT_TYPE_IPC_BUF s1 = some b ∨
      (cap_resolve TASK1 h KOBJECT_TYPE_IPC_BUF s1 = none ∧
        ∃ c, cap_resolve TASK1 h KOBJECT_TYPE_CAPLIST s1 = some c ∧
          (s1.caplist c).queue.head? = some b))
    (hwait : sys_ipc2_buf_wait TASK1 dst m h cvw delist info s1 = some (EOK, s2)) :
    s2.uwait TASK1 info = some
      { buf_label := (s.buf b).buf_label, used := n, size := (s.buf b).size, result := EOK } ∧
    (s2.buf b).state = IPC_BUF_READY := by
  obtain ⟨buf, hb, _, _, _, _, _, _, _, _, hbuf, _⟩ := sys_ipc2_buf_finish_effect hfin
  rw [hres] at hb
  simp only [Option.some.injEq] at hb
  subst hb
  obtain ⟨b2, hsel, _, _, _, _, hbuf2, hinfo, _⟩ := sys_ipc2_buf_wait_ok hwait
  have hb2 : b2 = b := by
    rcases hsel with ⟨hr, _⟩ | ⟨hr, c, rest, hc, _, hq, _⟩
    · rcases hon with ho | ⟨ho, _⟩
      · rw [ho] at hr
        simp only [Option.some.injEq] at hr
        exact hr.symm
      · rw [ho] at hr
        exact absurd hr (by simp)
    · rcases hon with ho | ⟨_, c2, hc2, hh⟩
      · rw [ho] at hr
        exact absurd hr (by simp)
      · rw [hc] at hc2
        simp only [Option.some.injEq] at hc2
        subst hc2
        rw [hq] at hh
        simp only [List.head?_cons, Option.some.injEq] at hh
        exact hh
  subst hb2
  refine ⟨?_, ?_⟩
  · rw [hinfo, upd2_same, hbuf]
    simp [upd, Nat.pos_iff_ne_zero.mp hn]
  · rw [hbuf2]
    simp [upd]

/-- Witness of C5 in the round-trip test: the wait on handle 1 reports the
buffer's label `0x1abe1b`, 16 bytes used, capacity 16 and result `EOK`, and
the buffer is READY. -/
theorem wait_writes_info_witness :
    test_waited.uwait 0 0 = some
      { buf_label := 0x1abe1b, used := 16, size := (test_received.buf 1).size, result := EOK } ∧
    (test_waited.buf 1).state = IPC_BUF_READY :=
  wait_writes_info 0 0 32 16 48 16 0 3 1 [] false test_received test_finished test_waited 1
    (by decide) (by decide) test_finished_eq (Or.inl (by decide)) test_waited_eq

/-- C6: send on a busy buffer is rejected: if the buffer behind the handle is
FINISHED, or still queued in an endpoint or an endpoint-caplist (one of its
queue back-references is set), then a send with any payload, to any endpoint
and without caplist returns `EBUSY`. -/
theorem send_busy (TASK src size : Nat) (bhandle ehandle : cap_handle_t) (s : State)
    (b e : Nat) (hb : cap_resolve TASK bhandle KOBJECT_TYPE_IPC_BUF s = some b)
    (he : cap_resolve TASK ehandle KOBJECT_TYPE_IPC_EP s = some e)
    (hbusy : (s.buf b).state = IPC_BUF_FINISHED ∨ (s.buf b).in_ep ≠ none ∨
      (s.buf b).in_ep_caplist ≠ none) :
    (sys_ipc2_buf_send TASK src size bhandle ehandle CAP_NIL s).1 = EBUSY := by
  rw [sys_ipc2_buf_send_rc_nil hb he]
  have hchk : ipc2_buf_send_check b none s = EBUSY := by
    unfold ipc2_buf_send_check
    by_cases h1 : (s.buf b).state = IPC_BUF_FINISHED
    · simp [h1]
    · have h2 : (s.buf b).in_ep.isSome = true ∨ (s.buf b).in_ep_caplist.isSome = true := by
        rcases hbusy with h | h | h
        · exact absurd h h1
        · left; exact Option.isSome_iff_ne_none.mpr h
        · right; exact Option.isSome_iff_ne_none.mpr h
      simp [h1, h2]
  rw [hchk]
  simp

/-- Witness of C6 in the round-trip test (`send_while_pending`): a second
send of the queued buffer returns `EBUSY`. -/
theorem send_busy_witness :
    (sys_ipc2_buf_send 0 0 16 1 2 CAP_NIL test_sent).1 = EBUSY :=
  send_busy 0 0 16 1 2 test_sent 1 2 (by decide) (by decide) (Or.inr (Or.inl (by decide)))

/-- C7: the handle used by a successful finish, or by a successful send of a
PENDING buffer (a forwarding send), is unpublished by that call; and in every
later state in which it has not been published again, every send and every
finish through it returns `ENOENT` and changes nothing. -/
theorem temp_handle_single_use (TASK src size : Nat) (H2 ehandle clhandle : cap_handle_t)
    (s s1 : State) (b : Nat) (hb : cap_resolve TASK H2 KOBJECT_TYPE_IPC_BUF s = some b)
    (hop : sys_ipc2_buf_finish TASK src size H2 s = (EOK, s1) ∨
      ((s.buf b).state = IPC_BUF_PENDING ∧
        sys_ipc2_buf_send TASK src size H2 ehandle clhandle s = (EOK, s1))) :
    s1.caps TASK H2 = cap_t.allocated ∧
    cap_resolve TASK H2 KOBJECT_TYPE_IPC_BUF s1 = none ∧
    ∀ s2 : State, (∀ k, s2.caps TASK H2 ≠ cap_t.published k) →
      ∀ src2 size2 eh2 clh2,
        sys_ipc2_buf_send TASK src2 size2 H2 eh2 clh2 s2 = (ENOENT, s2) ∧
        sys_ipc2_buf_finish TASK src2 size2 H2 s2 = (ENOENT, s2) := by
  have hcaps : s1.caps = upd2 s.caps TASK H2 cap_t.allocated := by
    rcases hop with hf | ⟨hst, hs⟩
    · obtain ⟨_, _, _, _, _, _, _, _, hc, _⟩ := sys_ipc2_buf_finish_effect hf
      exact hc
    · obtain ⟨buf, _, _, hb2, _, _, _, _, _, _, hc, _⟩ := sys_ipc2_buf_send_ok hs
      rw [hb] at hb2
      simp only [Option.some.injEq] at hb2
      subst hb2
      rw [hc, if_pos hst]
  refine ⟨by rw [hcaps, upd2_same], cap_resolve_upd2_allocated hcaps, ?_⟩
  intro s2 hs2 src2 size2 eh2 clh2
  have hnone := cap_resolve_unpublished hs2 KOBJECT_TYPE_IPC_BUF
  exact ⟨sys_ipc2_buf_send_unresolved hnone, sys_ipc2_buf_finish_unresolved hnone⟩

/-- Witness of C7 in the round-trip test (`double_finish`): after the finish
through handle 3 the handle is allocated but unpublished. -/
theorem temp_handle_single_use_witness :
    test_finished.caps 0 3 = cap_t.allocated :=
  (temp_handle_single_use 0 32 16 3 2 CAP_NIL test_received test_finished 1 (by decide)
    (Or.inl test_finished_eq)).1

/-- C8 (as stated, refuted): a successful send of a PENDING buffer can remove
the handle under which the buffer was allocated, namely when the send is
issued through that very handle. In the round-trip test, after `send` and
`receive`, a send through handle 1 succeeds and leaves handle 1
unpublished. -/
theorem forwarding_send_permanent_handle_counterexample :
    ¬ ∀ (TASK T0 src size : Nat) (bh eh clh h0 : cap_handle_t) (s s1 : State) (b : Nat),
      cap_resolve TASK bh KOBJECT_TYPE_IPC_BUF s = some b →
      (s.buf b).state = IPC_BUF_PENDING →
      sys_ipc2_buf_send TASK src size bh eh clh s = (EOK, s1) →
      cap_resolve T0 h0 KOBJECT_TYPE_IPC_BUF s = some b →
      cap_resolve T0 h0 KOBJECT_TYPE_IPC_BUF s1 = some b := by
  intro h
  have := h 0 0 0 16 1 2 CAP_NIL 1 test_received
    (sys_ipc2_buf_send 0 0 16 1 2 CAP_NIL test_received).2 1 (by decide) (by decide)
    (Prod.ext (by decide) rfl) (by decide)
  exact absurd this (by decide)

/-- C8 (amended): a successful send of a PENDING buffer leaves every handle
other than the one it was issued through resolving to the same buffer; in
particular the handle under which the buffer was allocated, when the send is
issued through the temporary handle obtained from receive. -/
theorem forwarding_send_keeps_other_handles (TASK T0 src size : Nat)
    (bh eh clh h0 : cap_handle_t) (s s1 : State) (b : Nat)
    (hb : cap_resolve TASK bh KOBJECT_TYPE_IPC_BUF s = some b)
    (hst : (s.buf b).state = IPC_BUF_PENDING)
    (hsend : sys_ipc2_buf_send TASK src size bh eh clh s = (EOK, s1))
    (h0r : cap_resolve T0 h0 KOBJECT_TYPE_IPC_BUF s = some b)
    (hne : ¬ (T0 = TASK ∧ h0 = bh)) :
    cap_resolve T0 h0 KOBJECT_TYPE_IPC_BUF s1 = some b := by
  obtain ⟨buf, _, _, hb2, _, _, _, _, _, _, hc, _, _, _, _, _, _, _, hty, _⟩ :=
    sys_ipc2_buf_send_ok hsend
  rw [hb] at hb2
  simp only [Option.some.injEq] at hb2
  subst hb2
  rw [if_pos hst] at hc
  rw [cap_resolve_upd2_other hc hty hne, h0r]

/-- Witness of C8 (amended) in the round-trip test (`forwarding_send`): after
the forwarding send through handle 3, handle 1 still resolves to the
buffer. -/
theorem forwarding_send_keeps_other_handles_witness :
    cap_resolve 0 1 KOBJECT_TYPE_IPC_BUF (sys_ipc2_buf_send 0 0 16 3 2 CAP_NIL test_received).2 =
      some 1 :=
  forwarding_send_keeps_other_handles 0 0 0 16 3 2 CAP_NIL 1 test_received _ 1 (by decide)
    (by decide) (Prod.ext (by decide) rfl) (by decide) (by decide)

/-- C9: finish on a resolvable buffer that is not PENDING returns `EINVAL`, on
a PENDING buffer that is still queued (a queue back-reference is set) returns
`EBUSY`, in both cases leaving the whole kernel state (the buffer, every
queue, the handle table) unchanged; and a finish that returns `EOK` found the
buffer PENDING with both queue back-references null. -/
theorem finish_legality (TASK src size : Nat) (bhandle : cap_handle_t) (buf : Nat) (s : State)
    (hres : cap_resolve TASK bhandle KOBJECT_TYPE_IPC_BUF s = some buf) :
    ((s.buf buf).state ≠ IPC_BUF_PENDING →
      sys_ipc2_buf_finish TASK src size bhandle s = (EINVAL, s)) ∧
    ((s.buf buf).state = IPC_BUF_PENDING →
      ((s.buf buf).in_ep ≠ none ∨ (s.buf buf).in_ep_caplist ≠ none) →
      sys_ipc2_buf_finish TASK src size bhandle s = (EBUSY, s)) ∧
    ((sys_ipc2_buf_finish TASK src size bhandle s).1 = EOK →
      (s.buf buf).state = IPC_BUF_PENDING ∧ (s.buf buf).in_ep = none ∧
      (s.buf buf).in_ep_caplist = none) := by
  refine ⟨?_, ?_, ?_⟩
  · intro hst
    have hc : ipc2_buf_finish_check buf s = EINVAL := by simp [ipc2_buf_finish_check, hst]
    rw [sys_ipc2_buf_finish_refused hres (by rw [hc]; decide), hc]
  · intro hst hq
    have hq2 : (s.buf buf).in_ep.isSome = true ∨ (s.buf buf).in_ep_caplist.isSome = true := by
      rcases hq with h | h
      · left; exact Option.isSome_iff_ne_none.mpr h
      · right; exact Option.isSome_iff_ne_none.mpr h
    have hc : ipc2_buf_finish_check buf s = EBUSY := by simp [ipc2_buf_finish_check, hst, hq2]
    rw [sys_ipc2_buf_finish_refused hres (by rw [hc]; decide), hc]
  · intro hok
    obtain ⟨b2, hb2, hst, hin, hcl, _⟩ :=
      sys_ipc2_buf_finish_ok (t := (sys_ipc2_buf_finish TASK src size bhandle s).2)
        (Prod.ext hok rfl)
    rw [hres] at hb2
    simp only [Option.some.injEq] at hb2
    subst hb2
    exact ⟨hst, hin, hcl⟩

/-- Witness of C9 in the round-trip test: a finish through handle 1 while the
buffer is still queued in the endpoint returns `EBUSY` and changes nothing. -/
theorem finish_legality_witness :
    sys_ipc2_buf_finish 0 32 16 1 test_sent = (EBUSY, test_sent) :=
  (finish_legality 0 32 16 1 1 test_sent (by decide)).2.1 (by decide) (Or.inl (by decide))

/-- C11: when a receive has taken a buffer from its queue and then returns an
error `e` (a fault copying out the payload or the info structure, or a failed
publication of the new handle), the buffer is FINISHED with result `e`, and a
successful wait on that buffer that follows (through a handle of the buffer,
or through a buffer-caplist whose ready-queue it heads) reports the result
`e`. -/
theorem receive_error_forwarding (TASK dst size info : Nat) (bhandle ehandle : cap_handle_t)
    (cvw : List errno_t) (s s1 : State) (e : errno_t) (b : Nat)
    (hrecv : sys_ipc2_buf_receive TASK dst size bhandle ehandle cvw info s = some (e, s1))
    (hne : e ≠ EOK)
    (hdeq : (∃ ep, cap_resolve TASK ehandle KOBJECT_TYPE_IPC_EP s = some ep ∧
        (s.ep ep).buffers.head? = some b) ∨
      (cap_resolve TASK ehandle KOBJECT_TYPE_IPC_EP s = none ∧
        ∃ c, cap_resolve TASK ehandle KOBJECT_TYPE_CAPLIST s = some c ∧
          (s.caplist c).type = KOBJECT_TYPE_IPC_EP ∧ (s.caplist c).queue.head? = some b)) :
    (s1.buf b).state = IPC_BUF_FINISHED ∧ (s1.buf b).wait_result = e ∧
    ∀ (TASK2 dst2 size2 info2 : Nat) (h2 : cap_handle_t) (cvw2 : List errno_t) (delist : Bool)
      (s2 : State),
      (cap_resolve TASK2 h2 KOBJECT_TYPE_IPC_BUF s1 = some b ∨
        (cap_resolve TASK2 h2 KOBJECT_TYPE_IPC_BUF s1 = none ∧
          ∃ c, cap_resolve TASK2 h2 KOBJECT_TYPE_CAPLIST s1 = some c ∧
            (s1.caplist c).queue.head? = some b)) →
      sys_ipc2_buf_wait TASK2 dst2 size2 h2 cvw2 delist info2 s1 = some (EOK, s2) →
      s2.uwait TASK2 info2 = some
        { buf_label := (s.buf b).buf_label, used := (s.buf b).used, size := (s.buf b).size, result := e } := by
  obtain ⟨hst, hres, _, hused, hsize, hlabel, _⟩ := sys_ipc2_buf_receive_fail hrecv hne hdeq
  refine ⟨hst, hres, ?_⟩
  intro TASK2 dst2 size2 info2 h2 cvw2 delist s2 hon hwait
  obtain ⟨b2, hsel, _, _, _, _, _, hinfo, _⟩ := sys_ipc2_buf_wait_ok hwait
  have hb2 : b2 = b := by
    rcases hsel with ⟨hr, _⟩ | ⟨hr, c, rest, hc, _, hq, _⟩
    · rcases hon with ho | ⟨ho, _⟩
      · rw [ho] at hr
        simp only [Option.some.injEq] at hr
        exact hr.symm
      · rw [ho] at hr
        exact absurd hr (by simp)
    · rcases hon with ho | ⟨_, c2, hc2, hh⟩
      · rw [ho] at hr
        exact absurd hr (by simp)
      · rw [hc] at hc2
        simp only [Option.some.injEq] at hc2
        subst hc2
        rw [hq] at hh
        simp only [List.head?_cons, Option.some.injEq] at hh
        exact hh
  subst hb2
  rw [hinfo, upd2_same, hused, hsize, hlabel, hres]

/-- Witness of C11 in the round-trip test: a receive whose new handle was
never allocated returns `ENOENT` and leaves the buffer FINISHED with result
`ENOENT`. -/
theorem receive_error_forwarding_witness :
    (test_receive_failed.buf 1).state = IPC_BUF_FINISHED ∧
    (test_receive_failed.buf 1).wait_result = ENOENT :=
  ⟨(receive_error_forwarding 0 16 16 0 9 2 [] test_sent test_receive_failed ENOENT 1
      test_receive_failed_eq (by decide) (Or.inl ⟨2, by decide, by decide⟩)).1,
   (receive_error_forwarding 0 16 16 0 9 2 [] test_sent test_receive_failed ENOENT 1
      test_receive_failed_eq (by decide) (Or.inl ⟨2, by decide, by decide⟩)).2.1⟩

/-- C12: a send that returns an error leaves the whole kernel state as it
was: the buffer (state, used length, labels, queue back-references), its
caplist membership, the handle table, every endpoint queue, every caplist
ready-queue and every caplist member set, the reference counts included. -/
theorem failed_send_atomic (TASK src size : Nat) (bhandle ehandle clhandle : cap_handle_t)
    (s : State) (h : (sys_ipc2_buf_send TASK src size bhandle ehandle clhandle s).1 ≠ EOK) :
    (sys_ipc2_buf_send TASK src size bhandle ehandle clhandle s).2 = s :=
  sys_ipc2_buf_send_fail h

/-- Witness of C12: an inserting send of 17 bytes with the 16-byte buffer of
the test returns an error and changes nothing; the buffer has not joined the
caplist. -/
theorem failed_send_atomic_witness :
    (sys_ipc2_buf_send 0 0 17 1 2 4 test_buf_cl).2 = test_buf_cl :=
  failed_send_atomic 0 0 17 1 2 4 test_buf_cl (by decide)

/-- C13: a send of no byte returns `EOK` whenever its handles resolve, the
state check passes and the caplist it names, if any, is not the caplist the
endpoint is a member of (the call holds the mutex of that caplist when it
takes the mutex of the named one), whatever the capacity of the buffer and
the source address, and so does a finish of no byte whenever its state check
passes; both leave the used length and the data of the buffer as they
were. -/
theorem zero_length_transfer (TASK src : Nat) (bhandle ehandle clhandle : cap_handle_t)
    (s : State) (b e : Nat) (hb : cap_resolve TASK bhandle KOBJECT_TYPE_IPC_BUF s = some b)
    (he : cap_resolve TASK ehandle KOBJECT_TYPE_IPC_EP s = some e) :
    ((clhandle ≠ CAP_NIL → (cap_resolve TASK clhandle KOBJECT_TYPE_CAPLIST s).isSome = true) →
      (∀ cl, clhandle ≠ CAP_NIL → cap_resolve TASK clhandle KOBJECT_TYPE_CAPLIST s = some cl →
        (s.kobj e).in_caplist ≠ some cl) →
      ipc2_buf_send_check b
        (if clhandle ≠ CAP_NIL then cap_resolve TASK clhandle KOBJECT_TYPE_CAPLIST s else none)
        s = EOK →
      ∃ t, sys_ipc2_buf_send TASK src 0 bhandle ehandle clhandle s = (EOK, t) ∧
        (t.buf b).used = (s.buf b).used ∧ (t.buf b).data = (s.buf b).data) ∧
    (ipc2_buf_finish_check b s = EOK →
      ∃ t, sys_ipc2_buf_finish TASK src 0 bhandle s = (EOK, t) ∧
        (t.buf b).used = (s.buf b).used ∧ (t.buf b).data = (s.buf b).data) := by
  constructor
  · intro hcl _ hchk
    have hrc : (sys_ipc2_buf_send TASK src 0 bhandle ehandle clhandle s).1 = EOK := by
      by_cases hnil : clhandle ≠ CAP_NIL
      · obtain ⟨cl, hc⟩ := Option.isSome_iff_exists.mp (hcl hnil)
        rw [if_pos hnil, hc] at hchk
        rw [sys_ipc2_buf_send_rc_cl hb he hnil hc, if_pos hchk]
        exact ipc2_copy_to_buf_zero TASK b src s
      · rw [if_neg hnil] at hchk
        have hn : clhandle = CAP_NIL := not_not.mp hnil
        subst hn
        rw [sys_ipc2_buf_send_rc_nil hb he, if_pos hchk]
        exact ipc2_copy_to_buf_zero TASK b src s
    refine ⟨(sys_ipc2_buf_send TASK src 0 bhandle ehandle clhandle s).2, Prod.ext hrc rfl, ?_⟩
    obtain ⟨buf, _, _, hb2, _, _, _, _, _, _, _, _, hbuf, _⟩ :=
      sys_ipc2_buf_send_ok (t := (sys_ipc2_buf_send TASK src 0 bhandle ehandle clhandle s).2)
        (Prod.ext hrc rfl)
    rw [hb] at hb2
    simp only [Option.some.injEq] at hb2
    subst hb2
    rw [hbuf]
    simp
  · intro hchk
    have hrc : (sys_ipc2_buf_finish TASK src 0 bhandle s).1 = EOK := by
      rw [sys_ipc2_buf_finish_rc hb, if_pos hchk]
      exact ipc2_copy_to_buf_zero TASK b src s
    refine ⟨(sys_ipc2_buf_finish TASK src 0 bhandle s).2, Prod.ext hrc rfl, ?_⟩
    obtain ⟨buf, hb2, _, _, _, _, _, _, _, _, hbuf, _⟩ :=
      sys_ipc2_buf_finish_effect (t := (sys_ipc2_buf_finish TASK src 0 bhandle s).2)
        (Prod.ext hrc rfl)
    rw [hb] at hb2
    simp only [Option.some.injEq] at hb2
    subst hb2
    rw [hbuf]
    simp [upd]

/-- Witness of C13 in the round-trip test with the buffer-caplist behind
handle 4: the endpoint is a member of no caplist, and an inserting send of no
byte from an address that cannot be read returns `EOK`. -/
theorem zero_length_transfer_witness :
    (test_buf_cl.kobj 2).in_caplist = none ∧
    ∃ t, sys_ipc2_buf_send 0 1000 0 1 2 4 test_buf_cl = (EOK, t) ∧
      (t.buf 1).used = (test_buf_cl.buf 1).used ∧ (t.buf 1).data = (test_buf_cl.buf 1).data :=
  have hn : (test_buf_cl.kobj 2).in_caplist = none := by decide
  ⟨hn,
    (zero_length_transfer 0 1000 1 2 4 test_buf_cl 1 2 (by decide) (by decide)).1
      (fun _ => by decide) (fun _ _ _ h => by rw [hn] at h; cases h) (by decide)⟩

/-- C14 (as stated, refuted): an inserting send of a buffer that is a member
of a caplist does not return `EBUSY` in every lifecycle state: for the member
buffer of the test, PENDING and taken from the queue by `receive()`, the send
with a caplist returns `EINVAL`. -/
theorem inserting_send_member_counterexample :
    ¬ ∀ (TASK src size : Nat) (bh eh clh : cap_handle_t) (s : State) (b e cl c0 : Nat),
      cap_resolve TASK bh KOBJECT_TYPE_IPC_BUF s = some b →
      cap_resolve TASK eh KOBJECT_TYPE_IPC_EP s = some e →
      clh ≠ CAP_NIL →
      cap_resolve TASK clh KOBJECT_TYPE_CAPLIST s = some cl →
      (s.kobj b).in_caplist = some c0 →
      (sys_ipc2_buf_send TASK src size bh eh clh s).1 = EBUSY := by
  intro h
  have := h 0 0 16 3 2 4 test_cl_received 1 2 3 3 (by decide) (by decide) (by decide)
    (by decide) (by decide)
  exact absurd this (by decide)

/-- C14 (amended): an inserting send (all three handles resolving, the named
caplist not being the caplist the endpoint is a member of, whose mutex the
call holds when it takes the mutex of the named one) of a buffer that is a
member of a caplist returns `EBUSY` when the buffer is READY, FINISHED or
still queued, and `EINVAL` when it is PENDING and taken from the queue. -/
theorem inserting_send_member (TASK src size : Nat) (bh eh clh : cap_handle_t) (s : State)
    (b e cl c0 : Nat) (hb : cap_resolve TASK bh KOBJECT_TYPE_IPC_BUF s = some b)
    (he : cap_resolve TASK eh KOBJECT_TYPE_IPC_EP s = some e) (hnil : clh ≠ CAP_NIL)
    (hc : cap_resolve TASK clh KOBJECT_TYPE_CAPLIST s = some cl)
    (hmem : (s.kobj b).in_caplist = some c0) :
    (s.kobj e).in_caplist ≠ some cl →
    (¬ ((s.buf b).state = IPC_BUF_PENDING ∧ (s.buf b).in_ep = none ∧
        (s.buf b).in_ep_caplist = none) →
      (sys_ipc2_buf_send TASK src size bh eh clh s).1 = EBUSY) ∧
    (((s.buf b).state = IPC_BUF_PENDING ∧ (s.buf b).in_ep = none ∧
        (s.buf b).in_ep_caplist = none) →
      (sys_ipc2_buf_send TASK src size bh eh clh s).1 = EINVAL) := by
  intro _
  rw [sys_ipc2_buf_send_rc_cl hb he hnil hc]
  constructor
  · intro hnp
    have hchk : ipc2_buf_send_check b (some cl) s = EBUSY := by
      unfold ipc2_buf_send_check
      by_cases h1 : (s.buf b).state = IPC_BUF_FINISHED
      · simp [h1]
      · by_cases h2 : (s.buf b).in_ep.isSome = true ∨ (s.buf b).in_ep_caplist.isSome = true
        · simp [h1, h2]
        · have h2a := h2
          simp only [not_or, Bool.not_eq_true, Option.not_isSome,
            Option.isNone_iff_eq_none] at h2a
          have h3 : (s.buf b).state ≠ IPC_BUF_PENDING := fun hp => hnp ⟨hp, h2a.1, h2a.2⟩
          have h4 : (s.buf b).state = IPC_BUF_READY := by
            cases hs : (s.buf b).state <;> simp_all
          simp [h1, h2, h4, hmem]
    rw [hchk]
    simp
  · intro hp
    have hchk : ipc2_buf_send_check b (some cl) s = EINVAL := by
      unfold ipc2_buf_send_check
      simp [hp.1, hp.2.1, hp.2.2]
    rw [hchk]
    simp

/-- Witness of C14 (amended), the test `inserting_send_already_in`: the
READY buffer is added to the caplist, the endpoint is a member of no caplist,
and the inserting send that follows returns `EBUSY`. -/
theorem inserting_send_member_witness :
    ((sys_caplist_add 0 4 1 test_buf_cl).2.kobj 2).in_caplist = none ∧
    (sys_ipc2_buf_send 0 0 16 1 2 4 (sys_caplist_add 0 4 1 test_buf_cl).2).1 = EBUSY :=
  ⟨by decide,
    (inserting_send_member 0 0 16 1 2 4 (sys_caplist_add 0 4 1 test_buf_cl).2 1 2 3 3
      (by decide) (by decide) (by decide) (by decide) (by decide) (by decide)).1 (by decide)⟩

/-- C19 (as stated, refuted): the endpoint of the test receives a buffer in
its own queue and is then added to a caplist; it is recorded as a member, and
a non-blocking receive on its own handle returns `EOK`, publishes the buffer
and takes it from the queue of the endpoint. -/
theorem receive_on_member_endpoint_counterexample :
    cap_resolve 0 2 KOBJECT_TYPE_IPC_EP test_ep_member_late = some 2 ∧
    (test_ep_member_late.kobj 2).in_caplist = some 3 ∧
    (test_ep_member_late.ep 2).buffers = [1] ∧
    (sys_ipc2_buf_receive 0 16 16 3 2 [EAGAIN] 0 test_ep_member_late).map
      (fun r => (r.1, r.2.caps 0 3, (r.2.ep 2).buffers)) =
      some (EOK, cap_t.published 1, []) := by
  decide

/-- C19 (amended): a non-blocking receive on the own handle of an endpoint
whose own queue is empty returns `EAGAIN` and changes nothing; and while the
endpoint is a member of a caplist, a successful send to it leaves its own
queue empty and its membership as it was. -/
theorem receive_on_member_endpoint (TASK dst m info : Nat) (nh eh : cap_handle_t)
    (cvw : List errno_t) (s : State) (e : Nat)
    (he : cap_resolve TASK eh KOBJECT_TYPE_IPC_EP s = some e)
    (hq : (s.ep e).buffers = []) :
    sys_ipc2_buf_receive TASK dst m nh eh (EAGAIN :: cvw) info s = some (EAGAIN, s) ∧
    ∀ (TASK2 src n : Nat) (bh eh2 clh : cap_handle_t) (t : State) (ce : Nat),
      (s.kobj e).in_caplist = some ce →
      cap_resolve TASK2 eh2 KOBJECT_TYPE_IPC_EP s = some e →
      sys_ipc2_buf_send TASK2 src n bh eh2 clh s = (EOK, t) →
      (t.ep e).buffers = [] ∧ (t.kobj e).in_caplist = some ce := by
  constructor
  · rw [sys_ipc2_buf_receive_ep_empty he hq]
    simp [condvar_wait_loop]
  · intro TASK2 src n bh eh2 clh t ce hce he2 hsend
    obtain ⟨buf, ep, cl, hb, he3, _, _, _, _, _, _, _, _, _, hepq, _, _, _, hkt, hkin⟩ :=
      sys_ipc2_buf_send_ok hsend
    rw [he2] at he3
    simp only [Option.some.injEq] at he3
    subst he3
    constructor
    · rw [hepq, hq]
      simp [hce]
    · rw [hkin]
      have hne : e ≠ buf := by
        intro hx
        have h1 := (cap_resolve_type hb).2
        have h2 := (cap_resolve_type he2).2
        rw [hx, h1] at h2
        exact absurd h2 (by decide)
      simp [hne, hce]

/-- Witness of C19 (amended), the test `receive_from_ep_member`: the endpoint
is a member of the caplist, a buffer is sent to it, and the non-blocking
receive on the endpoint returns `EAGAIN`. -/
theorem receive_on_member_endpoint_witness :
    sys_ipc2_buf_receive 0 16 16 3 2 [EAGAIN] 0
        (sys_ipc2_buf_send 0 0 16 1 2 CAP_NIL test_ep_member).2 =
      some (EAGAIN, (sys_ipc2_buf_send 0 0 16 1 2 CAP_NIL test_ep_member).2) :=
  (receive_on_member_endpoint 0 16 16 0 3 2 []
    (sys_ipc2_buf_send 0 0 16 1 2 CAP_NIL test_ep_member).2 2 (by decide) (by decide)).1

/-- C20: a receive whose source handle resolves to a caplist whose tag is not
endpoint returns `EINVAL` without blocking and leaves the whole state as it
was; a receive whose source handle resolves to neither an endpoint nor a
caplist returns `ENOENT`, the state likewise unchanged. -/
theorem receive_caplist_tag_check (TASK dst size info : Nat) (bhandle ehandle : cap_handle_t)
    (cvw : List errno_t) (s : State) :
    (∀ c, cap_resolve TASK ehandle KOBJECT_TYPE_CAPLIST s = some c →
      (s.caplist c).type ≠ KOBJECT_TYPE_IPC_EP →
      sys_ipc2_buf_receive TASK dst size bhandle ehandle cvw info s = some (EINVAL, s)) ∧
    (cap_resolve TASK ehandle KOBJECT_TYPE_IPC_EP s = none →
      cap_resolve TASK ehandle KOBJECT_TYPE_CAPLIST s = none →
      sys_ipc2_buf_receive TASK dst size bhandle ehandle cvw info s = some (ENOENT, s)) :=
  ⟨fun _ hc hty => sys_ipc2_buf_receive_bad_tag hc hty,
   fun he hc => sys_ipc2_buf_receive_unresolved he hc⟩

/-- Witness of C20: a receive from the buffer-caplist of the test returns
`EINVAL`, and a receive from a handle that names nothing returns `ENOENT`. -/
theorem receive_caplist_tag_check_witness :
    sys_ipc2_buf_receive 0 16 16 3 4 [] 0 test_buf_cl = some (EINVAL, test_buf_cl) ∧
    sys_ipc2_buf_receive 0 16 16 3 7 [] 0 test_buf_cl = some (ENOENT, test_buf_cl) :=
  ⟨(receive_caplist_tag_check 0 16 16 0 3 4 [] test_buf_cl).1 3 (by decide) (by decide),
   (receive_caplist_tag_check 0 16 16 0 3 7 [] test_buf_cl).2 (by decide) (by decide)⟩

/-- C15 (the code at the failing input): the buffer of the test is sent with
insertion into the caplist behind handle 4, received and finished, and is
then moved by `sys_caplist_del` and `sys_caplist_add` to the caplist behind
handle 5 while it is still linked in the ready-queue of the first.  The
delisting wait on handle 4 takes it from that queue; its `caplist_del`
returns `ENOENT`, the value the source asserts to be `EOK`; the wait returns
`EOK`, the buffer is still a member of the second caplist and the inserting
send that follows returns `EBUSY`.  In the test `wait_on_cl_w_delist`, where
the buffer was not moved, the back-pointer becomes null and the send
succeeds. -/
theorem delisting_wait_moved_member :
    cap_resolve 0 4 KOBJECT_TYPE_CAPLIST test_cl_moved = some 3 ∧
    (test_cl_moved.caplist 3).type = KOBJECT_TYPE_IPC_BUF ∧
    (test_cl_moved.caplist 3).queue = [1] ∧
    (test_cl_moved.kobj 1).in_caplist = some 4 ∧
    (caplist_del 3 1 test_cl_moved).1 = ENOENT ∧
    (sys_ipc2_buf_wait 0 48 16 4 [] true 0 test_cl_moved).map
      (fun r => (r.1, (r.2.kobj 1).in_caplist, (r.2.caplist 3).queue, (r.2.caplist 4).objects,
        (sys_ipc2_buf_send 0 0 16 1 2 4 r.2).1)) = some (EOK, some 4, [], [1], EBUSY) ∧
    (sys_ipc2_buf_wait 0 48 16 4 [] true 0 test_cl_finished).map
      (fun r => (r.1, (r.2.kobj 1).in_caplist, (r.2.caplist 3).queue, (r.2.caplist 3).objects,
        (sys_ipc2_buf_send 0 0 16 1 2 4 r.2).1)) = some (EOK, none, [], [], EOK) :=
  ⟨by decide, by decide, by decide, by decide, by decide, by decide, by decide⟩

/-- C16 (the code at the failing input): the buffer of the test is sent with
insertion into the caplist behind handle 4, received and finished, and is
then removed from the caplist by `sys_caplist_del` while it is still linked
in its ready-queue.  The wait without delisting on handle 4 returns `EOK`
for that buffer, which is a member of no caplist, and the inserting send that
follows returns `EOK`.  In the test `wait_on_cl_wo_delist`, where the buffer
was not removed, it stays a member, the inserting send returns `EBUSY` and
the send without a caplist returns `EOK`. -/
theorem non_delisting_wait_removed_member :
    cap_resolve 0 4 KOBJECT_TYPE_CAPLIST test_cl_removed = some 3 ∧
    (test_cl_removed.caplist 3).type = KOBJECT_TYPE_IPC_BUF ∧
    (test_cl_removed.caplist 3).queue = [1] ∧
    (test_cl_removed.caplist 3).objects = [] ∧
    (test_cl_removed.kobj 1).in_caplist = none ∧
    (sys_ipc2_buf_wait 0 48 16 4 [] false 0 test_cl_removed).map
      (fun r => (r.1, (r.2.kobj 1).in_caplist, (r.2.caplist 3).queue,
        (sys_ipc2_buf_send 0 0 16 1 2 4 r.2).1)) = some (EOK, none, [], EOK) ∧
    (sys_ipc2_buf_wait 0 48 16 4 [] false 0 test_cl_finished).map
      (fun r => (r.1, (r.2.kobj 1).in_caplist, (r.2.caplist 3).queue,
        (sys_ipc2_buf_send 0 0 16 1 2 4 r.2).1,
        (sys_ipc2_buf_send 0 0 16 1 2 CAP_NIL r.2).1)) = some (EOK, some 3, [], EBUSY, EOK) :=
  ⟨by decide, by decide, by decide, by decide, by decide, by decide, by decide⟩

/-- C17 (as stated, refuted): for the READY buffer of the test, in no
caplist, and a payload of 17 bytes, one more than its capacity, the two ways
of listing end in different states: after `sys_caplist_add` and the failed
send the buffer is a member of the caplist, after the failed inserting send
it is not. -/
theorem listing_equivalence_counterexample :
    ¬ ∀ (TASK src n : Nat) (bh eh clh : cap_handle_t) (s : State) (b e cl : Nat),
      cap_resolve TASK bh KOBJECT_TYPE_IPC_BUF s = some b →
      cap_resolve TASK eh KOBJECT_TYPE_IPC_EP s = some e →
      clh ≠ CAP_NIL →
      cap_resolve TASK clh KOBJECT_TYPE_CAPLIST s = some cl →
      (s.caplist cl).type = KOBJECT_TYPE_IPC_BUF →
      (s.buf b).state = IPC_BUF_READY →
      (s.kobj b).in_caplist = none →
      (sys_ipc2_buf_send TASK src n bh eh CAP_NIL (sys_caplist_add TASK clh bh s).2).2 =
        (sys_ipc2_buf_send TASK src n bh eh clh s).2 := by
  intro h
  have h1 := h 0 0 17 1 2 4 test_buf_cl 1 2 3 (by decide) (by decide) (by decide) (by decide)
    (by decide) (by decide) (by decide)
  have h2 := congrArg (fun t => (t.kobj 1).in_caplist) h1
  exact absurd h2 (by decide)

/-- C17 (amended): for a READY buffer `b` in no caplist, a buffer-caplist
`cl` and an endpoint `e`, `sys_caplist_add` succeeds, the send without a
caplist that follows it returns what the single inserting send returns, and
when that is `EOK` the two states are equal (buffer, queues, member sets,
handles and reference counts).  When the send fails the inserting send
leaves the state as it was and the other way leaves the buffer a member of
`cl`. -/
theorem listing_equivalence (TASK src n : Nat) (bh eh clh : cap_handle_t) (s : State)
    (b e cl : Nat) (hb : cap_resolve TASK bh KOBJECT_TYPE_IPC_BUF s = some b)
    (he : cap_resolve TASK eh KOBJECT_TYPE_IPC_EP s = some e) (hnil : clh ≠ CAP_NIL)
    (hc : cap_resolve TASK clh KOBJECT_TYPE_CAPLIST s = some cl)
    (hty : (s.caplist cl).type = KOBJECT_TYPE_IPC_BUF)
    (hready : (s.buf b).state = IPC_BUF_READY) (hfree : (s.kobj b).in_caplist = none) :
    (sys_caplist_add TASK clh bh s).1 = EOK ∧
    (sys_ipc2_buf_send TASK src n bh eh CAP_NIL (sys_caplist_add TASK clh bh s).2).1 =
      (sys_ipc2_buf_send TASK src n bh eh clh s).1 ∧
    ((sys_ipc2_buf_send TASK src n bh eh clh s).1 = EOK →
      (sys_ipc2_buf_send TASK src n bh eh CAP_NIL (sys_caplist_add TASK clh bh s).2).2 =
        (sys_ipc2_buf_send TASK src n bh eh clh s).2) ∧
    ((sys_ipc2_buf_send TASK src n bh eh clh s).1 ≠ EOK →
      (sys_ipc2_buf_send TASK src n bh eh clh s).2 = s ∧
      (sys_ipc2_buf_send TASK src n bh eh CAP_NIL (sys_caplist_add TASK clh bh s).2).2 =
        (sys_caplist_add TASK clh bh s).2 ∧
      ((sys_caplist_add TASK clh bh s).2.kobj b).in_caplist = some cl) := by
  have hrc := sys_caplist_add_send_rc src n hb he hnil hc hty hready hfree
  have hk : cap_resolve TASK bh (s.caplist cl).type s = some b := by rw [hty]; exact hb
  refine ⟨by rw [sys_caplist_add_ok hc hk hfree], hrc, ?_, ?_⟩
  · intro hok
    exact sys_caplist_add_send_state hb he hnil hc hty hready hfree hok
  · intro hne
    refine ⟨sys_ipc2_buf_send_fail hne, sys_ipc2_buf_send_fail (by rw [hrc]; exact hne), ?_⟩
    rw [sys_caplist_add_ok hc hk hfree]
    simp [upd]

/-- Witness of C17 (amended), the test `non_inserting_roundtrip_member`: with
a payload of 16 bytes the buffer added to the caplist and then sent reaches
the state of the inserting send. -/
theorem listing_equivalence_witness :
    (sys_ipc2_buf_send 0 0 16 1 2 CAP_NIL (sys_caplist_add 0 4 1 test_buf_cl).2).2 =
      (sys_ipc2_buf_send 0 0 16 1 2 4 test_buf_cl).2 :=
  (listing_equivalence 0 0 16 1 2 4 test_buf_cl 1 2 3 (by decide) (by decide) (by decide)
    (by decide) (by decide) (by decide) (by decide)).2.2.1 (by decide)



/-- C22: `sys_caplist_add` on a caplist `cl` and an object `k` (both handles
resolving).  If `k` is already a member of a caplist, `cl` or another, the
call returns `EBUSY` and changes nothing.  If the call returns `EOK`, `k` was
a member of no caplist before, and afterwards its back-pointer is `cl`, it is
appended to the member list of `cl`, and no other member list and no other
back-pointer has changed. -/
theorem caplist_add_exclusive (TASK : Nat) (clhandle handle : cap_handle_t) (s : State)
    (cl k : Nat) (hc : cap_resolve TASK clhandle KOBJECT_TYPE_CAPLIST s = some cl)
    (hk : cap_resolve TASK handle (s.caplist cl).type s = some k) :
    ((s.kobj k).in_caplist ≠ none → sys_caplist_add TASK clhandle handle s = (EBUSY, s)) ∧
    (∀ t, sys_caplist_add TASK clhandle handle s = (EOK, t) →
      (s.kobj k).in_caplist = none ∧ (t.kobj k).in_caplist = some cl ∧
      (t.caplist cl).objects = (s.caplist cl).objects ++ [k] ∧
      (∀ x, x ≠ cl → (t.caplist x).objects = (s.caplist x).objects) ∧
      (∀ x, x ≠ k → (t.kobj x).in_caplist = (s.kobj x).in_caplist)) := by
  constructor
  · intro hmem
    exact sys_caplist_add_busy hc hk hmem
  · intro t ht
    have hfree : (s.kobj k).in_caplist = none := by
      by_contra hmem
      rw [sys_caplist_add_busy hc hk hmem] at ht
      have hrc : EBUSY = EOK := congrArg Prod.fst ht
      exact absurd hrc (by decide)
    rw [sys_caplist_add_ok hc hk hfree] at ht
    have ht2 := (congrArg Prod.snd ht).symm
    dsimp only at ht2
    subst ht2
    refine ⟨hfree, by simp [upd], by simp [upd], ?_, ?_⟩
    · intro x hx
      simp [upd, hx]
    · intro x hx
      simp [upd, hx]

/-- Witness of C22, the test `caplist_add_twice`: the second insertion of the
buffer returns `EBUSY` and changes nothing. -/
theorem caplist_add_exclusive_witness :
    sys_caplist_add 0 4 1 (sys_caplist_add 0 4 1 test_buf_cl).2 =
      (EBUSY, (sys_caplist_add 0 4 1 test_buf_cl).2) :=
  (caplist_add_exclusive 0 4 1 (sys_caplist_add 0 4 1 test_buf_cl).2 3 1 (by decide)
    (by decide)).1 (by decide)

/-- C23: `sys_caplist_del` returns `ENOENT` and changes nothing unless both
handles resolve and the object is a member of this caplist (never added,
already removed, or a member of another caplist).  After a successful
`sys_caplist_add` of an object `k` that was in no caplist, `sys_caplist_del`
returns `EOK` and restores the state before the add (the member list of the
caplist, the back-pointer and the reference count of `k`), and a second
`sys_caplist_del` returns `ENOENT`. -/
theorem caplist_del_membership (TASK : Nat) (clhandle handle : cap_handle_t) (s : State) :
    ((∀ cl k, cap_resolve TASK clhandle KOBJECT_TYPE_CAPLIST s = some cl →
        cap_resolve TASK handle (s.caplist cl).type s = some k →
        (s.kobj k).in_caplist ≠ some cl) →
      sys_caplist_del TASK clhandle handle s = (ENOENT, s)) ∧
    (∀ cl k, cap_resolve TASK clhandle KOBJECT_TYPE_CAPLIST s = some cl →
      cap_resolve TASK handle (s.caplist cl).type s = some k →
      (s.kobj k).in_caplist = none → k ∉ (s.caplist cl).objects →
      (sys_caplist_add TASK clhandle handle s).1 = EOK ∧
      sys_caplist_del TASK clhandle handle (sys_caplist_add TASK clhandle handle s).2 =
        (EOK, s) ∧
      sys_caplist_del TASK clhandle handle s = (ENOENT, s)) := by
  constructor
  · exact sys_caplist_del_not_member
  · intro cl k hc hk hfree hnot
    have hsecond : sys_caplist_del TASK clhandle handle s = (ENOENT, s) := by
      apply sys_caplist_del_not_member
      intro cl2 k2 hc2 hk2
      rw [hc] at hc2
      simp only [Option.some.injEq] at hc2
      subst hc2
      rw [hk] at hk2
      simp only [Option.some.injEq] at hk2
      subst hk2
      rw [hfree]
      simp
    refine ⟨by rw [sys_caplist_add_ok hc hk hfree], ?_, hsecond⟩
    rw [sys_caplist_add_ok hc hk hfree]
    dsimp only
    obtain ⟨s1, hs1⟩ : ∃ s1, s1 = { s with
        kobj := upd s.kobj k
          { s.kobj k with in_caplist := some cl, refcnt := (s.kobj k).refcnt + 1 },
        caplist := upd s.caplist cl
          { s.caplist cl with objects := (s.caplist cl).objects ++ [k] } } := ⟨_, rfl⟩
    rw [← hs1]
    have fcaps : s1.caps = s.caps := by rw [hs1]
    have ftype : ∀ x, (s1.kobj x).type = (s.kobj x).type := by
      intro x
      rw [hs1]
      by_cases hx : x = k <;> simp [upd, hx]
    have fcltype : (s1.caplist cl).type = (s.caplist cl).type := by
      rw [hs1]
      simp [upd]
    have hc1 : cap_resolve TASK clhandle KOBJECT_TYPE_CAPLIST s1 = some cl := by
      rw [cap_resolve_congr (s := s) (t := s1) fcaps ftype]; exact hc
    have hk1 : cap_resolve TASK handle (s1.caplist cl).type s1 = some k := by
      rw [fcltype, cap_resolve_congr (s := s) (t := s1) fcaps ftype]; exact hk
    have hmem1 : (s1.kobj k).in_caplist = some cl := by
      rw [hs1]
      simp [upd]
    rw [sys_caplist_del_ok hc1 hk1 hmem1]
    refine Prod.ext rfl ?_
    dsimp only
    rw [hs1]
    apply State_ext <;> try rfl
    · funext x
      by_cases hx : x = k
      · subst hx
        apply kobject_t_ext <;> simp [upd, hfree]
      · simp [upd, hx]
    · funext x
      by_cases hx : x = cl
      · subst hx
        apply caplist_t_ext <;> simp [upd, List.erase_append_right _ hnot]
      · simp [upd, hx]

/-- Witness of C23, the tests `caplist_del_twice` and `caplist_del_non_member`:
the buffer of the test is added to the caplist and removed again, which
restores the state, and a removal of the buffer that is not a member returns
`ENOENT`. -/
theorem caplist_del_membership_witness :
    sys_caplist_del 0 4 1 (sys_caplist_add 0 4 1 test_buf_cl).2 = (EOK, test_buf_cl) ∧
    sys_caplist_del 0 4 1 test_buf_cl = (ENOENT, test_buf_cl) :=
  ⟨((caplist_del_membership 0 4 1 test_buf_cl).2 3 1 (by decide) (by decide) (by decide)
      (by decide)).2.1,
   ((caplist_del_membership 0 4 1 test_buf_cl).2 3 1 (by decide) (by decide) (by decide)
      (by decide)).2.2⟩

/-- C25: whenever a receive or a wait returns `ETIMEOUT`, `EINTR` or `EAGAIN`,
the whole state is as before the call: no buffer has been taken from a queue,
and every buffer, queue, member set and handle is unchanged. -/
theorem blocking_failure_unchanged (e : errno_t) (he : e = ETIMEOUT ∨ e = EINTR ∨ e = EAGAIN) :
    (∀ (TASK dst size : Nat) (bhandle ehandle : cap_handle_t) (cvw : List errno_t) (info : Nat)
      (s t : State),
      sys_ipc2_buf_receive TASK dst size bhandle ehandle cvw info s = some (e, t) → t = s) ∧
    (∀ (TASK dst size : Nat) (bhandle : cap_handle_t) (cvw : List errno_t) (delist : Bool)
      (info : Nat) (s t : State),
      sys_ipc2_buf_wait TASK dst size bhandle cvw delist info s = some (e, t) → t = s) := by
  have h1 : e ≠ EOK := by rcases he with h | h | h <;> rw [h] <;> decide
  have h2 : e ≠ EFAULT_COPYOUT := by rcases he with h | h | h <;> rw [h] <;> decide
  have h3 : e ≠ ENOENT := by rcases he with h | h | h <;> rw [h] <;> decide
  have h4 : e ≠ EINVAL := by rcases he with h | h | h <;> rw [h] <;> decide
  constructor
  · intro TASK dst size bhandle ehandle cvw info s t h
    exact sys_ipc2_buf_receive_blocked h h1 h2 h3 h4
  · intro TASK dst size bhandle cvw delist info s t h
    exact sys_ipc2_buf_wait_blocked h h1 h2 h3 h4

/-- Witness of C25 in the round-trip test: a receive on the empty endpoint
that times out, and a wait on the unfinished buffer that is interrupted,
leave the state as it was. -/
theorem blocking_failure_unchanged_witness :
    test_receive_timed_out = test_before ∧ test_wait_interrupted = test_sent :=
  ⟨(blocking_failure_unchanged ETIMEOUT (Or.inl rfl)).1
      0 16 16 3 2 [EOK, ETIMEOUT] 0 test_before test_receive_timed_out
      (option_eq_of_map_rc (by decide) rfl),
   (blocking_failure_unchanged EINTR (Or.inr (Or.inl rfl))).2
      0 48 16 1 [EINTR] false 0 test_sent test_wait_interrupted
      (option_eq_of_map_rc (by decide) rfl)⟩

/-- C27 (the code at the failing input): in the round-trip test with an
endpoint-tagged caplist behind handle 4, the buffer is sent with that caplist
as the caplist argument, received from the endpoint and finished; `finish`
links the FINISHED buffer into the ready-queue of the caplist it is a member
of.  The receive on the caplist handle that follows returns `EOK` and
publishes the buffer under the new handle 3, with `in_ep` and `in_ep_caplist`
null, but the buffer it returns is FINISHED and not PENDING.  The handle 1
the buffer was allocated under still resolves to it. -/
theorem receive_returns_finished_buffer :
    cap_resolve 0 4 KOBJECT_TYPE_CAPLIST test_mixed_finished = some 3 ∧
    (test_mixed_finished.caplist 3).type = KOBJECT_TYPE_IPC_EP ∧
    (test_mixed_finished.caplist 3).queue = [1] ∧
    (test_mixed_finished.buf 1).state = IPC_BUF_FINISHED ∧
    (sys_ipc2_buf_receive 0 16 16 3 4 [] 0 test_mixed_finished).map
      (fun r => (r.1, cap_resolve 0 3 KOBJECT_TYPE_IPC_BUF r.2,
        cap_resolve 0 1 KOBJECT_TYPE_IPC_BUF r.2)) = some (EOK, some 1, some 1) ∧
    (sys_ipc2_buf_receive 0 16 16 3 4 [] 0 test_mixed_finished).map
      (fun r => ((r.2.buf 1).state, (r.2.buf 1).in_ep, (r.2.buf 1).in_ep_caplist)) =
      some (IPC_BUF_FINISHED, none, none) :=
  ⟨by decide, by decide, by decide, by decide, by decide, by decide⟩

/-- C30 (the code at the failing input): in the round-trip test with an
endpoint-tagged caplist behind handle 4, `sys_caplist_add` refuses the buffer
(`ENOENT`, its typed lookup fails), but the inserting send with that caplist
returns `EOK` and makes the buffer, an object of type
`KOBJECT_TYPE_IPC_BUF`, a member of the caplist tagged
`KOBJECT_TYPE_IPC_EP`. -/
theorem send_inserts_into_endpoint_caplist :
    cap_resolve 0 4 KOBJECT_TYPE_CAPLIST test_ep_cl = some 3 ∧
    (test_ep_cl.caplist 3).type = KOBJECT_TYPE_IPC_EP ∧
    cap_resolve 0 1 KOBJECT_TYPE_IPC_BUF test_ep_cl = some 1 ∧
    (test_ep_cl.caplist 3).objects = [] ∧
    (sys_caplist_add 0 4 1 test_ep_cl).1 = ENOENT ∧
    (sys_ipc2_buf_send 0 0 16 1 2 4 test_ep_cl).1 = EOK ∧
    (test_mixed.caplist 3).type = KOBJECT_TYPE_IPC_EP ∧
    (test_mixed.caplist 3).objects = [1] ∧
    (test_mixed.kobj 1).in_caplist = some 3 ∧
    (test_mixed.kobj 1).type = KOBJECT_TYPE_IPC_BUF :=
  ⟨by decide, by decide, by decide, by decide, by decide, by decide, by decide, by decide,
    by decide, by decide⟩

/-- C21 (as stated, refuted): a buffer alloc whose first kernel allocation
fails returns `ENOMEM` after the handle variable has been written (the
variable held the nil handle and holds the handle 1 afterwards); and a
receive whose new handle was never allocated returns `ENOENT` after the
receive info has been written. -/
theorem out_struct_on_failure_counterexample :
    (sys_ipc2_buf_alloc 0 16 7 0 (some 1) false true true (fun _ => 0) (boot test_umem)).1 =
      ENOMEM ∧
    (boot test_umem).uhandle 0 0 = some CAP_NIL ∧
    (sys_ipc2_buf_alloc 0 16 7 0 (some 1) false true true (fun _ => 0)
      (boot test_umem)).2.uhandle 0 0 = some 1 ∧
    sys_ipc2_buf_receive 0 16 16 9 2 [] 0 test_sent = some (ENOENT, test_receive_failed) ∧
    test_sent.urecv 0 0 = some { ep_label := 0, used := 0, size := 0 } ∧
    test_receive_failed.urecv 0 0 = some { ep_label := 0x1abe1e, used := 16, size := 16 } :=
  ⟨by decide, by decide, by decide, test_receive_failed_eq, by decide, by decide⟩

/-- C21 (amended): the handle variable of buffer alloc, endpoint create
(without caplist) and caplist create is unchanged when the call returns an
error and the kernel allocations of the call succeed (the error is then the
failure to allocate a handle or the fault of the copy-out itself); the
receive info is unchanged when receive returns an error and the new handle
is allocated and unpublished; the wait info is unchanged whenever wait
returns an error. -/
theorem out_struct_on_failure :
    (∀ (TASK size label bhandle : Nat) (pick : Option cap_handle_t) (junk : Nat → Nat)
      (s : State),
      (sys_ipc2_buf_alloc TASK size label bhandle pick true true true junk s).1 ≠ EOK →
      (sys_ipc2_buf_alloc TASK size label bhandle pick true true true junk s).2.uhandle =
        s.uhandle) ∧
    (∀ (TASK ehandle label : Nat) (pick : Option cap_handle_t) (s : State),
      (sys_ipc2_ep_create TASK ehandle label CAP_NIL pick true true s).1 ≠ EOK →
      (sys_ipc2_ep_create TASK ehandle label CAP_NIL pick true true s).2.uhandle =
        s.uhandle) ∧
    (∀ (TASK clhandle : Nat) (type : kobject_type_t) (pick : Option cap_handle_t) (s : State),
      (sys_caplist_create TASK clhandle type pick true true s).1 ≠ EOK →
      (sys_caplist_create TASK clhandle type pick true true s).2.uhandle = s.uhandle) ∧
    (∀ (TASK dst size : Nat) (bhandle ehandle : cap_handle_t) (cvw : List errno_t) (info : Nat)
      (s t : State) (e : errno_t),
      sys_ipc2_buf_receive TASK dst size bhandle ehandle cvw info s = some (e, t) → e ≠ EOK →
      s.caps TASK bhandle = cap_t.allocated → t.urecv = s.urecv) ∧
    (∀ (TASK dst size : Nat) (bhandle : cap_handle_t) (cvw : List errno_t) (delist : Bool)
      (info : Nat) (s t : State) (e : errno_t),
      sys_ipc2_buf_wait TASK dst size bhandle cvw delist info s = some (e, t) → e ≠ EOK →
      t.uwait = s.uwait) := by
  refine ⟨?_, ?_, ?_, ?_, ?_⟩
  · intro TASK size label bhandle pick junk s h
    exact sys_ipc2_buf_alloc_fail_uhandle h
  · intro TASK ehandle label pick s h
    exact sys_ipc2_ep_create_fail_uhandle h
  · intro TASK clhandle type pick s h
    exact sys_caplist_create_fail_uhandle h
  · intro TASK dst size bhandle ehandle cvw info s t e h hne hc
    exact sys_ipc2_buf_receive_fail_urecv h hne hc
  · intro TASK dst size bhandle cvw delist info s t e h hne
    exact sys_ipc2_buf_wait_fail_uwait h hne

/-- Witness of C21 (amended): a buffer alloc that finds no free handle leaves
the handle variable as it was, and so does the interrupted wait of the
round-trip test with the wait info. -/
theorem out_struct_on_failure_witness :
    (sys_ipc2_buf_alloc 0 16 7 0 none true true true (fun _ => 0) test_before).2.uhandle =
      test_before.uhandle ∧
    test_wait_interrupted.uwait = test_sent.uwait :=
  ⟨out_struct_on_failure.1 0 16 7 0 none (fun _ => 0) test_before (by decide),
   out_struct_on_failure.2.2.2.2 0 48 16 1 [EINTR] false 0 test_sent test_wait_interrupted EINTR
     (option_eq_of_map_rc (by decide) rfl) (by decide)⟩

/-- C28 (the code at the failing input): the inserting send of the round-trip
test takes its locks in the order endpoint mutex, endpoint header lock,
buffer mutex, buffer-caplist mutex, buffer header lock.  The finish of the
received buffer, a member of the caplist, takes the buffer mutex, then the
buffer header lock and, holding it, the buffer-caplist mutex, which precedes
the header lock in that order.  The wait on the caplist takes the
buffer-caplist mutex and, holding it, the buffer mutex, which precedes it. -/
theorem lock_order_violated :
    sys_ipc2_buf_send_locks 0 1 2 4 test_buf_cl =
      [mutex_lock ⟨ep_mutex, 2⟩, mutex_lock ⟨ep_kobject_lock, 2⟩,
        mutex_lock ⟨lock_class.buf_mutex, 1⟩, mutex_lock ⟨buf_caplist_mutex, 3⟩,
        mutex_lock ⟨buf_kobject_lock, 1⟩, mutex_unlock ⟨buf_kobject_lock, 1⟩,
        mutex_unlock ⟨buf_caplist_mutex, 3⟩, mutex_unlock ⟨lock_class.buf_mutex, 1⟩,
        mutex_unlock ⟨ep_kobject_lock, 2⟩, mutex_unlock ⟨ep_mutex, 2⟩] ∧
    lock_order_ok [] (sys_ipc2_buf_send_locks 0 1 2 4 test_buf_cl) = true ∧
    sys_ipc2_buf_finish_locks 0 32 16 3 test_cl_received =
      [mutex_lock ⟨lock_class.buf_mutex, 1⟩, mutex_lock ⟨buf_kobject_lock, 1⟩,
        mutex_lock ⟨buf_caplist_mutex, 3⟩, mutex_unlock ⟨buf_caplist_mutex, 3⟩,
        mutex_unlock ⟨buf_kobject_lock, 1⟩, mutex_unlock ⟨lock_class.buf_mutex, 1⟩] ∧
    lock_order_ok [] (sys_ipc2_buf_finish_locks 0 32 16 3 test_cl_received) = false ∧
    sys_ipc2_buf_wait_locks 0 4 [] true test_cl_finished =
      [mutex_lock ⟨buf_caplist_mutex, 3⟩, mutex_lock ⟨lock_class.buf_mutex, 1⟩,
        mutex_lock ⟨buf_kobject_lock, 1⟩, mutex_unlock ⟨buf_kobject_lock, 1⟩,
        mutex_unlock ⟨buf_caplist_mutex, 3⟩, mutex_unlock ⟨lock_class.buf_mutex, 1⟩] ∧
    lock_order_ok [] (sys_ipc2_buf_wait_locks 0 4 [] true test_cl_finished) = false :=
  ⟨by decide, by decide, by decide, by decide, by decide, by decide⟩

/-- C26: from a state in which the buffer `b` is READY, linked into no queue
and in no caplist (as after its allocation), the endpoint `e` is in no
caplist with an empty queue and the receive handle is allocated and
unpublished, any number of consecutive cycles send, receive, finish, wait
whose payloads fit the buffer and whose user addresses are accessible all
succeed; after each cycle the buffer is READY, linked into no queue (the
state is ready for the next cycle) and its reference count is the one before
the cycles. -/
theorem buffer_reusable (TS TR : Nat) (bh eh reh nh : cap_handle_t) (b e : Nat)
    (cs : List cycle_call) (s : State) (hready : cycle_ready TS TR bh eh reh nh b e s)
    (hok : ∀ c ∈ cs, cycle_ok TS TR b s c = true) :
    ∃ ts, run_cycles TS TR bh eh reh nh cs s = some ts ∧ ts.length = cs.length ∧
      ∀ t ∈ ts, (t.buf b).state = IPC_BUF_READY ∧ (t.buf b).in_ep = none ∧
        (t.buf b).in_ep_caplist = none ∧ (t.kobj b).refcnt = (s.kobj b).refcnt ∧
        cycle_ready TS TR bh eh reh nh b e t := by
  obtain ⟨ts, hrun, hlen, hall⟩ := run_cycles_ready TS TR bh eh reh nh b e cs s hready hok
  refine ⟨ts, hrun, hlen, ?_⟩
  intro t ht
  obtain ⟨hr, href⟩ := hall t ht
  exact ⟨hr.2.2.2.2.2.2.1, hr.2.2.2.2.2.2.2.1, hr.2.2.2.2.2.2.2.2.1, href, hr⟩

/-- Witness of C26, the test `multiple`: two round trips of the buffer of the
test, started in the state set up by `PCUT_TEST_BEFORE`. -/
theorem buffer_reusable_witness :
    ∃ ts, run_cycles 0 0 1 2 2 3 [test_cycle, test_cycle] test_before = some ts ∧
      ts.length = [test_cycle, test_cycle].length ∧
      ∀ t ∈ ts, (t.buf 1).state = IPC_BUF_READY ∧ (t.buf 1).in_ep = none ∧
        (t.buf 1).in_ep_caplist = none ∧ (t.kobj 1).refcnt = (test_before.kobj 1).refcnt ∧
        cycle_ready 0 0 1 2 2 3 1 2 t :=
  buffer_reusable 0 0 1 2 2 3 1 2 [test_cycle, test_cycle] test_before
    ⟨by decide, by decide, by decide, by decide, by decide, by decide, by decide, by decide,
      by decide, by decide⟩
    (fun c hc => by
      simp only [List.mem_cons, List.mem_singleton, List.not_mem_nil, or_false, or_self] at hc
      subst hc
      decide)

/-- C29: in every state reached from bring-up by system calls that have
returned (`sys_caplist_add`, `sys_caplist_del`, inserting sends, delisting
waits and every other call but `sys_caplist_destroy`), the back-pointer
`in_caplist` of an object `o` is the caplist `c` exactly when `o` occurs in
the member list of `c`, and no object occurs twice in a member list. -/
theorem membership_consistent_reachable (umem : Nat → Nat → Option Nat) (s : State)
    (h : reachable_by keeps_caplists (boot umem) s) :
    (∀ c o, (s.kobj o).in_caplist = some c ↔ o ∈ (s.caplist c).objects) ∧
    ∀ c, (s.caplist c).objects.Nodup :=
  (reachable_by_inv (caplist_inv_boot umem) h).1

/-- Witness of C29: the state of the round-trip test after the creation of
the buffer-caplist and the inserting send is reached from bring-up by five
system calls, and the buffer is the one member of the caplist. -/
theorem membership_consistent_reachable_witness :
    (∀ c o, (test_cl_sent.kobj o).in_caplist = some c ↔ o ∈ (test_cl_sent.caplist c).objects) ∧
    ∀ c, (test_cl_sent.caplist c).objects.Nodup :=
  membership_consistent_reachable test_umem test_cl_sent
    (@reachable_by.step keeps_caplists (boot test_umem) test_buf_cl test_cl_sent
      (syscall.buf_send 0 0 16 1 2 4) (sys_ipc2_buf_send 0 0 16 1 2 4 test_buf_cl).1
      (@reachable_by.step keeps_caplists (boot test_umem) test_before test_buf_cl
        (syscall.caplist_create 0 3 KOBJECT_TYPE_IPC_BUF (some 4) true true)
        (sys_caplist_create 0 3 KOBJECT_TYPE_IPC_BUF (some 4) true true test_before).1
        (@reachable_by.step keeps_caplists (boot test_umem)
          (sys_ipc2_ep_create 0 1 0x1abe1e CAP_NIL (some 2) true true
            (sys_ipc2_buf_alloc 0 16 0x1abe1b 0 (some 1) true true true (fun _ => 0xAA)
              (boot test_umem)).2).2
          test_before
          (syscall.cap_alloc 0 2 (some 3))
          (sys_cap_alloc 0 2 (some 3)
            (sys_ipc2_ep_create 0 1 0x1abe1e CAP_NIL (some 2) true true
              (sys_ipc2_buf_alloc 0 16 0x1abe1b 0 (some 1) true true true (fun _ => 0xAA)
                (boot test_umem)).2).2).1
          (@reachable_by.step keeps_caplists (boot test_umem)
            (sys_ipc2_buf_alloc 0 16 0x1abe1b 0 (some 1) true true true (fun _ => 0xAA)
              (boot test_umem)).2
            (sys_ipc2_ep_create 0 1 0x1abe1e CAP_NIL (some 2) true true
              (sys_ipc2_buf_alloc 0 16 0x1abe1b 0 (some 1) true true true (fun _ => 0xAA)
                (boot test_umem)).2).2
            (syscall.ep_create 0 1 0x1abe1e CAP_NIL (some 2) true true)
            (sys_ipc2_ep_create 0 1 0x1abe1e CAP_NIL (some 2) true true
              (sys_ipc2_buf_alloc 0 16 0x1abe1b 0 (some 1) true true true (fun _ => 0xAA)
                (boot test_umem)).2).1
            (@reachable_by.step keeps_caplists (boot test_umem) (boot test_umem)
              (sys_ipc2_buf_alloc 0 16 0x1abe1b 0 (some 1) true true true (fun _ => 0xAA)
                (boot test_umem)).2
              (syscall.buf_alloc 0 16 0x1abe1b 0 (some 1) true true true (fun _ => 0xAA))
              (sys_ipc2_buf_alloc 0 16 0x1abe1b 0 (some 1) true true true (fun _ => 0xAA)
                (boot test_umem)).1
              reachable_by.start rfl rfl)
            rfl rfl)
          rfl rfl)
        rfl rfl)
      rfl rfl)

/-- C24: after a successful buffer free, endpoint destroy or caplist destroy
on the handle `h`, and after any further system calls that allocate no
handle, every operation that resolves `h` returns `ENOENT` and changes
nothing: a second free or destroy, a send with `h` as buffer, endpoint or
(non-nil) caplist handle, finish, wait, receive from `h`, and
`sys_caplist_add` and `sys_caplist_del` with `h` in either position. -/
theorem destroy_is_final (TASK : Nat) (h : cap_handle_t) (d : syscall) (s t u : State)
    (hd : destroys TASK h d) (hs : sys_step d s = some (EOK, t))
    (hr : reachable_by allocates_nothing t u) :
    sys_ipc2_buf_free TASK h u = (ENOENT, u) ∧
    sys_ipc2_ep_destroy TASK h u = (ENOENT, u) ∧
    sys_caplist_destroy TASK h u = (ENOENT, u) ∧
    (∀ src n e c, sys_ipc2_buf_send TASK src n h e c u = (ENOENT, u)) ∧
    (∀ src n b c, sys_ipc2_buf_send TASK src n b h c u = (ENOENT, u)) ∧
    (h ≠ CAP_NIL → ∀ src n b e, sys_ipc2_buf_send TASK src n b e h u = (ENOENT, u)) ∧
    (∀ src n, sys_ipc2_buf_finish TASK src n h u = (ENOENT, u)) ∧
    (∀ dst n cvw delist info,
      sys_ipc2_buf_wait TASK dst n h cvw delist info u = some (ENOENT, u)) ∧
    (∀ dst n b cvw info,
      sys_ipc2_buf_receive TASK dst n b h cvw info u = some (ENOENT, u)) ∧
    (∀ x, sys_caplist_add TASK h x u = (ENOENT, u)) ∧
    (∀ x, sys_caplist_add TASK x h u = (ENOENT, u)) ∧
    (∀ x, sys_caplist_del TASK h x u = (ENOENT, u)) ∧
    (∀ x, sys_caplist_del TASK x h u = (ENOENT, u)) := by
  have hf : u.caps TASK h = cap_t.free :=
    reachable_free_kept hr TASK h (destroy_frees hd hs)
  have hn : ∀ ty, cap_resolve TASK h ty u = none := cap_resolve_free hf
  refine ⟨?_, ?_, ?_, ?_, ?_, ?_, ?_, ?_, ?_, ?_, ?_, ?_, ?_⟩
  · exact destroy_unresolved (hn _)
  · exact destroy_unresolved (hn _)
  · exact destroy_unresolved (hn _)
  · exact fun _ _ _ _ => sys_ipc2_buf_send_unresolved (hn _)
  · exact fun _ _ _ _ => sys_ipc2_buf_send_ep_unresolved (hn _)
  · exact fun h0 _ _ _ _ => sys_ipc2_buf_send_cl_unresolved h0 (hn _)
  · exact fun _ _ => sys_ipc2_buf_finish_unresolved (hn _)
  · exact fun _ _ _ _ _ => sys_ipc2_buf_wait_unresolved (hn _) (hn _)
  · exact fun _ _ _ _ _ => sys_ipc2_buf_receive_unresolved (hn _) (hn _)
  · exact fun _ => sys_caplist_add_unresolved (Or.inl (hn _))
  · exact fun _ => sys_caplist_add_unresolved (Or.inr hn)
  · exact fun _ => sys_caplist_del_unresolved (Or.inl (hn _))
  · exact fun _ => sys_caplist_del_unresolved (Or.inr hn)

/-- Witness of C24: the test `ipc_buf_alloc_free`.  The buffer of the test
set-up is freed through handle 1; the second free, a send and a wait of
handle 1 return `ENOENT`. -/
theorem destroy_is_final_witness :
    destroys 0 1 (syscall.buf_free 0 1) ∧
    sys_step (syscall.buf_free 0 1) test_before = some (EOK, test_freed) ∧
    reachable_by allocates_nothing test_freed test_freed ∧
    sys_ipc2_buf_free 0 1 test_freed = (ENOENT, test_freed) ∧
    sys_ipc2_buf_send 0 0 16 1 2 CAP_NIL test_freed = (ENOENT, test_freed) ∧
    sys_ipc2_buf_wait 0 48 16 1 [] false 0 test_freed = some (ENOENT, test_freed) :=
  have hs : sys_step (syscall.buf_free 0 1) test_before = some (EOK, test_freed) :=
    option_eq_of_map_rc (by decide) rfl
  have hf := destroy_is_final 0 1 (syscall.buf_free 0 1) test_before test_freed test_freed
    (Or.inl rfl) hs reachable_by.start
  ⟨Or.inl rfl, hs, reachable_by.start, hf.1, hf.2.2.2.1 0 16 2 CAP_NIL,
    hf.2.2.2.2.2.2.2.1 48 16 [] false 0⟩


/-- C34 (the code at the failing input): after the test's
`inserting_3_4_roundtrip()` the finished buffer is linked in the ready-queue
of the caplist it is a member of.  The test's `wait()`, a wait through the
buffer handle, returns `EOK` and makes the buffer READY without taking it off
that queue; the `send()` that follows returns `EOK` and links the buffer into
the queue of the endpoint while it is still in the ready-queue of the
caplist (in the source, the one `link` field of the buffer is appended to the
endpoint queue while the caplist queue still points at it). -/
theorem ready_buffer_in_queue :
    (test_cl_finished.buf 1).state = IPC_BUF_FINISHED ∧
    (test_cl_finished.caplist 3).queue = [1] ∧
    (sys_ipc2_buf_wait 0 48 16 1 [] false 0 test_cl_finished).map
      (fun r => (r.1, (r.2.buf 1).state, (r.2.caplist 3).queue)) =
      some (EOK, IPC_BUF_READY, [1]) ∧
    (sys_ipc2_buf_send 0 0 16 1 2 CAP_NIL test_cl_waited_buf).1 = EOK ∧
    (test_cl_resent.ep 2).buffers = [1] ∧
    (test_cl_resent.caplist 3).queue = [1] :=
  ⟨by decide, by decide, by decide, by decide, by decide, by decide⟩

/-- C32 (the code at the failing input): after the test's
`inserting_3_4_roundtrip()`, a wait through the buffer handle and a send, the
buffer is PENDING with `in_ep` set, and the caplist ready-queue still has it
at its head.  The test's
`wait_on_cl(false)` returns `EOK` and makes the buffer READY while `in_ep`
still names the endpoint. -/
theorem queued_buffer_made_ready :
    (test_cl_resent.buf 1).state = IPC_BUF_PENDING ∧
    (test_cl_resent.buf 1).in_ep = some 2 ∧
    (test_cl_resent.caplist 3).queue = [1] ∧
    (sys_ipc2_buf_wait 0 48 16 4 [] false 0 test_cl_resent).map
      (fun r => (r.1, (r.2.buf 1).state, (r.2.buf 1).in_ep, (r.2.buf 1).in_ep_caplist)) =
      some (EOK, IPC_BUF_READY, some 2, none) :=
  ⟨by decide, by decide, by decide, by decide⟩

/-- C33 (the code at the failing input): a wait on the caplist takes the
head of the ready-queue and makes it READY whatever its state.  After the
wait through the buffer handle the head is READY, and the wait on the caplist
returns `EOK` for it (READY to READY); after the send that follows the head
is PENDING, and the wait on the caplist returns `EOK` and takes it from
PENDING to READY. -/
theorem wait_on_unfinished_buffer :
    (test_cl_waited_buf.buf 1).state = IPC_BUF_READY ∧
    (sys_ipc2_buf_wait 0 48 16 4 [] false 0 test_cl_waited_buf).map
      (fun r => (r.1, (r.2.buf 1).state)) = some (EOK, IPC_BUF_READY) ∧
    (test_cl_resent.buf 1).state = IPC_BUF_PENDING ∧
    (sys_ipc2_buf_wait 0 48 16 4 [] false 0 test_cl_resent).map
      (fun r => (r.1, (r.2.buf 1).state)) = some (EOK, IPC_BUF_READY) :=
  ⟨by decide, by decide, by decide, by decide⟩

/-- C35 (the code at the failing input): in the round-trip test with a
buffer-caplist behind handle 4, the buffer has been sent and received and is
PENDING, published under the handles 1 and 3 and a member of no caplist.  An
inserting send of it returns `EINVAL`, but `sys_caplist_add` returns `EOK`
and makes the PENDING buffer a member of the buffer-caplist. -/
theorem caplist_add_pending_buffer :
    cap_resolve 0 3 KOBJECT_TYPE_IPC_BUF test_cl_pending = some 1 ∧
    cap_resolve 0 4 KOBJECT_TYPE_CAPLIST test_cl_pending = some 3 ∧
    (test_cl_pending.caplist 3).type = KOBJECT_TYPE_IPC_BUF ∧
    (test_cl_pending.buf 1).state = IPC_BUF_PENDING ∧
    (test_cl_pending.kobj 1).in_caplist = none ∧
    (test_cl_pending.caplist 3).objects = [] ∧
    (sys_ipc2_buf_send 0 0 16 3 2 4 test_cl_pending).1 = EINVAL ∧
    (sys_caplist_add 0 4 3 test_cl_pending).1 = EOK ∧
    ((sys_caplist_add 0 4 3 test_cl_pending).2.buf 1).state = IPC_BUF_PENDING ∧
    ((sys_caplist_add 0 4 3 test_cl_pending).2.kobj 1).in_caplist = some 3 ∧
    ((sys_caplist_add 0 4 3 test_cl_pending).2.caplist 3).objects = [1] :=
  ⟨by decide, by decide, by decide, by decide, by decide, by decide, by decide, by decide,
    by decide, by decide, by decide⟩

/-- C36 (the code at the failing input): after the test's
`inserting_3_4_roundtrip()` the caplist (kernel address 3) is published under
handle 4, is a member of no caplist and has the reference count 1.  The
test's `wait_on_cl(false)` returns `EOK` and leaves the handle table as it
was, but the reference count of the caplist is 2 afterwards: the reference
taken by `kobject_get` is not given back. -/
theorem caplist_wait_keeps_reference :
    test_cl_finished.caps 0 4 = cap_t.published 3 ∧
    (test_cl_finished.kobj 3).in_caplist = none ∧
    (test_cl_finished.kobj 3).refcnt = 1 ∧
    sys_ipc2_buf_wait 0 48 16 4 [] false 0 test_cl_finished = some (EOK, test_cl_waited_cl) ∧
    test_cl_waited_cl.caps = test_cl_finished.caps ∧
    (test_cl_waited_cl.kobj 3).in_caplist = none ∧
    (test_cl_waited_cl.kobj 3).refcnt = 2 :=
  have h : sys_ipc2_buf_wait 0 48 16 4 [] false 0 test_cl_finished =
      some (EOK, test_cl_waited_cl) := option_eq_of_map_rc (by decide) rfl
  ⟨by decide, by decide, by decide, h, (sys_ipc2_buf_wait_step h).2, by decide, by decide⟩

/-- C39: a successful finish through the handle `h`, and a successful send
through `h` of a PENDING buffer, leave `h` unpublished, and every other
handle of every task resolves exactly as before; so every other handle that
resolved to the buffer still does.  This holds for every handle `h` of the
buffer, the one published by receive as well as the one the buffer was
allocated under. -/
theorem unpublishes_the_handle_of_the_call (TASK src size : Nat) (h eh clh : cap_handle_t)
    (s t : State) (b : Nat)
    (hb : cap_resolve TASK h KOBJECT_TYPE_IPC_BUF s = some b)
    (hop : sys_ipc2_buf_finish TASK src size h s = (EOK, t) ∨
      ((s.buf b).state = IPC_BUF_PENDING ∧
        sys_ipc2_buf_send TASK src size h eh clh s = (EOK, t))) :
    cap_resolve TASK h KOBJECT_TYPE_IPC_BUF t = none ∧
    (∀ T0 h0 ty, ¬ (T0 = TASK ∧ h0 = h) → cap_resolve T0 h0 ty t = cap_resolve T0 h0 ty s) ∧
    (∀ T0 h0, ¬ (T0 = TASK ∧ h0 = h) → cap_resolve T0 h0 KOBJECT_TYPE_IPC_BUF s = some b →
      cap_resolve T0 h0 KOBJECT_TYPE_IPC_BUF t = some b) := by
  have hcaps : t.caps = upd2 s.caps TASK h cap_t.allocated ∧
      ∀ x, (t.kobj x).type = (s.kobj x).type := by
    rcases hop with hf | ⟨hst, hs⟩
    · obtain ⟨_, _, _, _, _, _, _, _, hc, _, _, _, _, _, hty, _⟩ := sys_ipc2_buf_finish_effect hf
      exact ⟨hc, hty⟩
    · obtain ⟨buf, _, _, hb2, _, _, _, _, _, _, hc, _, _, _, _, _, _, _, hty, _⟩ :=
        sys_ipc2_buf_send_ok hs
      rw [hb] at hb2
      simp only [Option.some.injEq] at hb2
      subst hb2
      rw [if_pos hst] at hc
      exact ⟨hc, hty⟩
  refine ⟨cap_resolve_upd2_allocated hcaps.1, ?_, ?_⟩
  · intro T0 h0 ty hne
    exact cap_resolve_upd2_other hcaps.1 hcaps.2 hne
  · intro T0 h0 hne hr
    rw [cap_resolve_upd2_other hcaps.1 hcaps.2 hne, hr]

/-- Witness of C39 in the round-trip test: after `send` and `receive` the
buffer is published under the handle 1 it was allocated under and under the
handle 3 of the receive; a finish through handle 1 unpublishes handle 1 and
leaves handle 3 resolving to the buffer. -/
theorem unpublishes_the_handle_of_the_call_witness :
    cap_resolve 0 1 KOBJECT_TYPE_IPC_BUF test_received = some 1 ∧
    cap_resolve 0 3 KOBJECT_TYPE_IPC_BUF test_received = some 1 ∧
    cap_resolve 0 1 KOBJECT_TYPE_IPC_BUF (sys_ipc2_buf_finish 0 32 16 1 test_received).2 = none ∧
    cap_resolve 0 3 KOBJECT_TYPE_IPC_BUF (sys_ipc2_buf_finish 0 32 16 1 test_received).2 =
      some 1 :=
  have h := unpublishes_the_handle_of_the_call 0 32 16 1 2 CAP_NIL test_received
    (sys_ipc2_buf_finish 0 32 16 1 test_received).2 1 (by decide)
    (Or.inl (Prod.ext (by decide) rfl))
  ⟨by decide, by decide, h.1, h.2.2 0 3 (by decide) (by decide)⟩

/-- C37: the part of a buffer's storage outside its first `used` bytes is
never read.  Two runs of the same sequence of system calls from bring-up,
which differ only in the contents of the storage that the allocations hand
out, block at the same call or return the same values, and end with the same
user memory (bytes, handle variables, receive and wait infos) and with the
same first `used` bytes in every buffer: what receive and wait copy out, and
the used part of every buffer, is determined by the copies into the buffers
and not by the never-written storage. -/
theorem unused_storage_not_disclosed (umem : Nat → Nat → Option Nat) (cs ds : List syscall)
    (h : List.Forall₂ same_call cs ds) :
    match run_calls cs (boot umem), run_calls ds (boot umem) with
    | some r, some r2 =>
      r2.1 = r.1 ∧ r2.2.umem = r.2.umem ∧ r2.2.uhandle = r.2.uhandle ∧
      r2.2.urecv = r.2.urecv ∧ r2.2.uwait = r.2.uwait ∧
      ∀ x, (r2.2.buf x).used = (r.2.buf x).used ∧
        ∀ i, i < (r.2.buf x).used → (r2.2.buf x).data i = (r.2.buf x).data i
    | none, none => True
    | _, _ => False := by
  have h1 := run_calls_unused h (same_up_to_unused_refl (boot umem))
  cases hr : run_calls cs (boot umem) with
  | none =>
    cases hr2 : run_calls ds (boot umem) with
    | none => exact trivial
    | some r2 => rw [hr, hr2] at h1; exact h1.elim
  | some r =>
    cases hr2 : run_calls ds (boot umem) with
    | none => rw [hr, hr2] at h1; exact h1.elim
    | some r2 =>
      rw [hr, hr2] at h1
      obtain ⟨e1, e2⟩ := h1
      obtain ⟨_, _, _, _, f5, f6, f7, f8, _⟩ := same_up_to_unused_fields e2
      exact ⟨e1, f5, f6, f7, f8, fun x => ⟨(e2.2 x).2.2.2.1, (e2.2 x).2.2.2.2.2.2.2.2⟩⟩

/-- Witness of C37: the round trip of the test with a send of 4 bytes, once
with the buffer's storage holding `0xAA` at the allocation and once holding
`0x55`.  All seven calls return `EOK`, the receive copies out the four bytes
sent and leaves the rest of `recv_buf` as it was, and both runs end with the
same user memory. -/
theorem unused_storage_not_disclosed_witness :
    List.Forall₂ same_call (test_calls (fun _ => 0xAA)) (test_calls (fun _ => 0x55)) ∧
    (run_calls (test_calls (fun _ => 0xAA)) (boot test_umem)).map
      (fun r => (r.1, (List.range 6).map (fun i => r.2.umem 0 (16 + i)))) =
      some ([EOK, EOK, EOK, EOK, EOK, EOK, EOK],
        [some 72, some 101, some 108, some 108, some 0, some 0]) ∧
    match run_calls (test_calls (fun _ => 0xAA)) (boot test_umem),
      run_calls (test_calls (fun _ => 0x55)) (boot test_umem) with
    | some r, some r2 =>
      r2.1 = r.1 ∧ r2.2.umem = r.2.umem ∧ r2.2.uhandle = r.2.uhandle ∧
      r2.2.urecv = r.2.urecv ∧ r2.2.uwait = r.2.uwait ∧
      ∀ x, (r2.2.buf x).used = (r.2.buf x).used ∧
        ∀ i, i < (r.2.buf x).used → (r2.2.buf x).data i = (r.2.buf x).data i
    | none, none => True
    | _, _ => False :=
  have hc : List.Forall₂ same_call (test_calls (fun _ => 0xAA)) (test_calls (fun _ => 0x55)) :=
    List.Forall₂.cons rfl (List.Forall₂.cons rfl (List.Forall₂.cons rfl (List.Forall₂.cons rfl
      (List.Forall₂.cons rfl (List.Forall₂.cons rfl (List.Forall₂.cons rfl
        List.Forall₂.nil))))))
  ⟨hc, by decide, unused_storage_not_disclosed test_umem _ _ hc⟩

/-- C31: in every state reached from bring-up by system calls that have
returned (allocations, sends, receives, finishes, waits and all others, with
any arguments and any outcome), every buffer satisfies `used ≤ size`, so the
number of bytes that `ipc2_copy_from_buf` copies out for a request of `n`
bytes, `n` cut down to `used`, is within the capacity of the buffer. -/
theorem used_never_exceeds_size (umem : Nat → Nat → Option Nat) (s : State)
    (h : reachable_by any_call (boot umem) s) :
    ∀ b, (s.buf b).used ≤ (s.buf b).size ∧
      ∀ n, (if n > (s.buf b).used then (s.buf b).used else n) ≤ (s.buf b).size := by
  intro b
  have hb := reachable_by_within (used_within_size_boot umem) h b
  refine ⟨hb, ?_⟩
  intro n
  split_ifs <;> omega

/-- Witness of C31: the state of the round-trip test after the set-up and the
send of 16 bytes is reached from bring-up by four system calls; its buffer
uses 16 of its 16 bytes. -/
theorem used_never_exceeds_size_witness :
    (test_sent.buf 1).used = 16 ∧ (test_sent.buf 1).size = 16 ∧
    ∀ b, (test_sent.buf b).used ≤ (test_sent.buf b).size ∧
      ∀ n, (if n > (test_sent.buf b).used then (test_sent.buf b).used else n) ≤
        (test_sent.buf b).size :=
  ⟨by decide, by decide, used_never_exceeds_size test_umem test_sent
    (@reachable_by.step any_call (boot test_umem) test_before test_sent
      (syscall.buf_send 0 0 16 1 2 CAP_NIL) (sys_ipc2_buf_send 0 0 16 1 2 CAP_NIL test_before).1
      (@reachable_by.step any_call (boot test_umem)
        (sys_ipc2_ep_create 0 1 0x1abe1e CAP_NIL (some 2) true true
          (sys_ipc2_buf_alloc 0 16 0x1abe1b 0 (some 1) true true true (fun _ => 0xAA)
            (boot test_umem)).2).2
        test_before
        (syscall.cap_alloc 0 2 (some 3))
        (sys_cap_alloc 0 2 (some 3)
          (sys_ipc2_ep_create 0 1 0x1abe1e CAP_NIL (some 2) true true
            (sys_ipc2_buf_alloc 0 16 0x1abe1b 0 (some 1) true true true (fun _ => 0xAA)
              (boot test_umem)).2).2).1
        (@reachable_by.step any_call (boot test_umem)
          (sys_ipc2_buf_alloc 0 16 0x1abe1b 0 (some 1) true true true (fun _ => 0xAA)
            (boot test_umem)).2
          (sys_ipc2_ep_create 0 1 0x1abe1e CAP_NIL (some 2) true true
            (sys_ipc2_buf_alloc 0 16 0x1abe1b 0 (some 1) true true true (fun _ => 0xAA)
              (boot test_umem)).2).2
          (syscall.ep_create 0 1 0x1abe1e CAP_NIL (some 2) true true)
          (sys_ipc2_ep_create 0 1 0x1abe1e CAP_NIL (some 2) true true
            (sys_ipc2_buf_alloc 0 16 0x1abe1b 0 (some 1) true true true (fun _ => 0xAA)
              (boot test_umem)).2).1
          (@reachable_by.step any_call (boot test_umem) (boot test_umem)
            (sys_ipc2_buf_alloc 0 16 0x1abe1b 0 (some 1) true true true (fun _ => 0xAA)
              (boot test_umem)).2
            (syscall.buf_alloc 0 16 0x1abe1b 0 (some 1) true true true (fun _ => 0xAA))
            (sys_ipc2_buf_alloc 0 16 0x1abe1b 0 (some 1) true true true (fun _ => 0xAA)
              (boot test_umem)).1
            reachable_by.start trivial rfl)
          trivial rfl)
        trivial rfl)
      trivial rfl)⟩


end HelenOS
